import Mathlib

/-!
# VCS nonideal equilibrium solver: units scaling and reaction step sizes

A shallow embedding of `vcs_nondim.cpp` and of `vcs_RxnStepSizes`, the two Hessian
routines, `deltaG_Recalc_Rxn` and `vcs_line_search` from `vcs_rxnadj.cpp` (namespace
`VCSnonideal`). The same namespace also holds the two small routines
`ReactorFactory::newReactor` (`ReactorFactory.cpp`) and `Troe4::init`
(`FalloffFactory.cpp`).

* C++ `double` is modelled by `ℚ`, `fabs` by `|·|`. The embeddings of the first sections
  compute in exact arithmetic. The section "The routines in rounded arithmetic" repeats
  `vcs_RxnStepSizes`, the two Hessian routines, `deltaG_Recalc_Rxn` and `vcs_line_search`
  with a rounding applied to the result of every floating-point operation; with
  `roundDouble`, the rounding of IEEE 754 binary64, they are the routines in double
  arithmetic, and with the identity they are the exact-arithmetic embeddings. The claims
  that hold in exact arithmetic but not in double arithmetic are settled on both.
* C++ arrays are total maps `Nat → _`; an assignment `a[i] = v` is
  `Function.update a i v`.
* `for (i = 0; i < n; ++i) body` is `forLoop n body`.
* `exit(EXIT_FAILURE)` and `throw vcsError(..)` are the two values of
  `VcsFailure`; a routine that can abort returns `Except VcsFailure _`.
* Array indices and loop counters are `Nat`; the integer codes of `vcs_defs.h`, a header
  that is not among the sources, are the fields of the parameter `VcsDefs`.
* Division is that of `ℚ` (`x / 0 = 0`). Every division of the embedded routines is
  guarded by the source against a zero divisor, except the quotient `trphmoles` of the
  phase-birth branch (and, in rounded arithmetic, a quotient whose divisor has underflowed
  to 0). Overflow to infinity is not modelled.
-/

namespace VCSnonideal

/-- The two ways a solver routine aborts: `exit(EXIT_FAILURE)` and a thrown `vcsError`. -/
inductive VcsFailure where
  | exitFailure
  | vcsError
  deriving DecidableEq, Repr

/-- Modelled from the spec: the header that defines the integer codes and cutoffs
(`vcs_defs.h`) is not among the sources, so the codes are parameters. The units
codes are pairwise distinct (they are the labels of one `switch`), and so are the
two codes of the units state. -/
structure VcsDefs where
  VCS_UNITS_KCALMOL : Int
  VCS_UNITS_UNITLESS : Int
  VCS_UNITS_KJMOL : Int
  VCS_UNITS_KELVIN : Int
  VCS_UNITS_MKS : Int
  VCS_DIMENSIONAL_G : Int
  VCS_NONDIMENSIONAL_G : Int
  VCS_SPECIES_TYPE_MOLNUM : Int
  VCS_SPECIES_TYPE_INTERFACIALVOLTAGE : Int
  VCS_ELEM_TYPE_ABSPOS : Int
  VCS_SPECIES_MAJOR : Int
  VCS_SPECIES_ZEROEDPHASE : Int
  VCS_SPECIES_ZEROEDSS : Int
  VCS_SPECIES_STOICHZERO : Int
  VCS_DELETE_PHASE_CUTOFF : ℚ
  VCS_SMALL_MULTIPHASE_SPECIES : ℚ
  VCS_STATECALC_OLD : Int
  VCS_STATECALC_NEW : Int
  units_nodup : [VCS_UNITS_KCALMOL, VCS_UNITS_UNITLESS, VCS_UNITS_KJMOL,
    VCS_UNITS_KELVIN, VCS_UNITS_MKS].Nodup
  unitsState_ne : VCS_DIMENSIONAL_G ≠ VCS_NONDIMENSIONAL_G

/-- Modelled from the spec: the class `vcs_VolPhase` (`vcs_VolPhase.h`) is not among
the sources. Only the members the solver routines read or write are kept: the
single-species and ideal-solution flags, the number of species, the total moles,
the inert moles, and the callback that scatters the phase's activity-coefficient
Jacobian into the solver's matrix. -/
structure vcs_VolPhase where
  m_singleSpecies : Bool
  m_isIdealSoln : Bool
  m_numSpecies : Nat
  v_totalMoles : ℚ
  m_totalMolesInert : ℚ
  sendToVCS_LnActCoeffJac : (Nat → ℚ) → (Nat → Nat → ℚ) → (Nat → Nat → ℚ)

/-- Setter `vcs_VolPhase::setTotalMoles`. -/
def vcs_VolPhase.setTotalMoles (p : vcs_VolPhase) (tmols : ℚ) : vcs_VolPhase :=
  { p with v_totalMoles := tmols }

/-- Setter `vcs_VolPhase::setTotalMolesInert`. -/
def vcs_VolPhase.setTotalMolesInert (p : vcs_VolPhase) (tMolesInert : ℚ) : vcs_VolPhase :=
  { p with m_totalMolesInert := tMolesInert }

/-- The members of `VCS_SOLVE` that the routines of `vcs_nondim.cpp`, `vcs_RxnStepSizes`,
`deltaG_Recalc_Rxn` and `vcs_line_search` read or write. -/
structure VCS_SOLVE where
  m_unitsState : Int
  m_VCS_UnitsFormat : Int
  m_temperature : ℚ
  m_numSpeciesTot : Nat
  m_numElemConstraints : Nat
  m_numPhases : Nat
  m_numComponents : Nat
  m_numRxnRdc : Nat
  m_SSfeSpecies : Nat → ℚ
  m_feSpecies_old : Nat → ℚ
  m_deltaGRxn_new : Nat → ℚ
  m_deltaGRxn_old : Nat → ℚ
  m_Faraday_dim : ℚ
  m_elType : Nat → Int
  m_elemAbundancesGoal : Nat → ℚ
  m_totalMoleScale : ℚ
  m_speciesUnknownType : Nat → Int
  m_molNumSpecies_old : Nat → ℚ
  TPhInertMoles : Nat → ℚ
  m_VolPhaseList : Nat → vcs_VolPhase
  m_tPhaseMoles_old : Nat → ℚ
  m_totalMolNum : ℚ
  m_phaseID : Nat → Nat
  m_useActCoeffJac : Bool
  m_indexRxnToSpecies : Nat → Nat
  m_speciesStatus : Nat → Int
  m_deltaMolNumSpecies : Nat → ℚ
  m_deltaMolNumPhase : Nat → Nat → ℚ
  m_SSPhase : Nat → Int
  m_tolmaj2 : ℚ
  m_stoichCoeffRxnMatrix : Nat → Nat → ℚ
  m_dLnActCoeffdMolNum : Nat → Nat → ℚ
  m_phaseParticipation : Nat → Nat → Int
  m_numSpeciesRdc : Nat
  m_molNumSpecies_new : Nat → ℚ
  m_actCoeffSpecies_old : Nat → ℚ
  m_actCoeffSpecies_new : Nat → ℚ
  m_feSpecies_new : Nat → ℚ

/-- The loop `for (i = 0; i < n; ++i) body(i)` over a loop state of type `σ`. -/
def forLoop {σ : Type} (n : Nat) (body : Nat → σ → σ) (init : σ) : σ :=
  match n with
  | 0 => init
  | m + 1 => body m (forLoop m body init)

/-- Routine `VCS_SOLVE::vcs_nondim_Farad`: the multiplier for electric charge terms. -/
def vcs_nondim_Farad (D : VcsDefs) (mu_units : Int) (TKelvin : ℚ) : Except VcsFailure ℚ :=
  let TKelvin := if TKelvin ≤ 0 then 293.15 else TKelvin
  if mu_units = D.VCS_UNITS_MKS ∨ mu_units = D.VCS_UNITS_KJMOL
      ∨ mu_units = D.VCS_UNITS_KCALMOL then
    .ok (1.602e-19 * 6.022136736e26 / (TKelvin * 8.314472e3))
  else if mu_units = D.VCS_UNITS_UNITLESS then
    .ok (1.602e-19 * 6.022136736e26)
  else if mu_units = D.VCS_UNITS_KELVIN then
    .ok (1.602e-19 * 6.022136736e26 / TKelvin)
  else
    .error .exitFailure

/-- Routine `VCS_SOLVE::vcs_nondimMult_TP`: the multiplier `RT` of the nondimensionalisation. -/
def vcs_nondimMult_TP (D : VcsDefs) (mu_units : Int) (TKelvin : ℚ) : Except VcsFailure ℚ :=
  let TKelvin := if TKelvin ≤ 0 then 293.15 else TKelvin
  if mu_units = D.VCS_UNITS_KCALMOL then
    .ok (TKelvin * 8.314472e-3 / 4.184)
  else if mu_units = D.VCS_UNITS_UNITLESS then
    .ok 1
  else if mu_units = D.VCS_UNITS_KJMOL then
    .ok (TKelvin * 0.008314472)
  else if mu_units = D.VCS_UNITS_KELVIN then
    .ok TKelvin
  else if mu_units = D.VCS_UNITS_MKS then
    .ok (TKelvin * 8.314472e3)
  else
    .error .exitFailure

/-- Modelled from the spec: `VCS_SOLVE::vcs_tmoles` is not among the sources; this is
its first half. Each phase total is the inert moles of the phase plus the moles of its
mole-number species. -/
def phaseTotals (D : VcsDefs) (s : VCS_SOLVE) : Nat → ℚ :=
  let t0 := forLoop s.m_numPhases
    (fun i t => Function.update t i (s.TPhInertMoles i)) s.m_tPhaseMoles_old
  forLoop s.m_numSpeciesTot
    (fun i t =>
      if s.m_speciesUnknownType i = D.VCS_SPECIES_TYPE_MOLNUM then
        Function.update t (s.m_phaseID i) (t (s.m_phaseID i) + s.m_molNumSpecies_old i)
      else t) t0

/-- Modelled from the spec: `VCS_SOLVE::vcs_tmoles` is not among the sources; this is
its second half. The total is the sum of the phase totals, and each phase total is
handed to its phase object. -/
def sumPhaseTotals (D : VcsDefs) (s : VCS_SOLVE) : ℚ × (Nat → vcs_VolPhase) :=
  forLoop s.m_numPhases
    (fun i (r : ℚ × (Nat → vcs_VolPhase)) =>
      (r.1 + phaseTotals D s i,
        Function.update r.2 i ((r.2 i).setTotalMoles (phaseTotals D s i))))
    (0, s.m_VolPhaseList)

/-- Modelled from the spec: `VCS_SOLVE::vcs_tmoles` is not among the sources. It
recomputes the phase totals and the total moles, stores them and returns the total. -/
def vcs_tmoles (D : VcsDefs) (s : VCS_SOLVE) : ℚ × VCS_SOLVE :=
  ((sumPhaseTotals D s).1,
    { s with
      m_tPhaseMoles_old := phaseTotals D s
      m_totalMolNum := (sumPhaseTotals D s).1
      m_VolPhaseList := (sumPhaseTotals D s).2 })

/-- First loop of `vcs_nondim_TP` and of `vcs_redim_TP`: multiply the standard-state and
total chemical potentials and both ΔG vectors by `tf`. -/
def scaleFreeEnergies (tf : ℚ) (s : VCS_SOLVE) : VCS_SOLVE :=
  forLoop s.m_numSpeciesTot
    (fun i s => { s with
      m_SSfeSpecies := Function.update s.m_SSfeSpecies i (s.m_SSfeSpecies i * tf)
      m_deltaGRxn_new := Function.update s.m_deltaGRxn_new i (s.m_deltaGRxn_new i * tf)
      m_deltaGRxn_old := Function.update s.m_deltaGRxn_old i (s.m_deltaGRxn_old i * tf)
      m_feSpecies_old := Function.update s.m_feSpecies_old i (s.m_feSpecies_old i * tf) }) s

/-- Species loop shared by `vcs_nondim_TP` and `vcs_redim_TP`: multiply the moles of
every species that is not an interfacial-voltage unknown by `f`. -/
def scaleSpeciesMoles (D : VcsDefs) (f : ℚ) (s : VCS_SOLVE) : VCS_SOLVE :=
  forLoop s.m_numSpeciesTot
    (fun i s =>
      if s.m_speciesUnknownType i ≠ D.VCS_SPECIES_TYPE_INTERFACIALVOLTAGE then
        { s with
          m_molNumSpecies_old :=
            Function.update s.m_molNumSpecies_old i (s.m_molNumSpecies_old i * f) }
      else s) s

/-- Element loop shared by `vcs_nondim_TP` and `vcs_redim_TP`: multiply every element
abundance goal by `f`. -/
def scaleElemGoals (f : ℚ) (s : VCS_SOLVE) : VCS_SOLVE :=
  forLoop s.m_numElemConstraints
    (fun i s => { s with
      m_elemAbundancesGoal :=
        Function.update s.m_elemAbundancesGoal i (s.m_elemAbundancesGoal i * f) }) s

/-- Phase loop shared by `vcs_nondim_TP` and `vcs_redim_TP`: multiply the inert moles of
every phase by `f` and hand them to the phase object when they are nonzero. -/
def scaleInertMoles (f : ℚ) (s : VCS_SOLVE) : VCS_SOLVE :=
  forLoop s.m_numPhases
    (fun iph s =>
      let s := { s with
        TPhInertMoles := Function.update s.TPhInertMoles iph (s.TPhInertMoles iph * f) }
      if s.TPhInertMoles iph ≠ 0 then
        { s with
          m_VolPhaseList := Function.update s.m_VolPhaseList iph
            ((s.m_VolPhaseList iph).setTotalMolesInert (s.TPhInertMoles iph)) }
      else s) s

/-- The three mole loops shared by `vcs_nondim_TP` (with `f = 1/m_totalMoleScale`) and
`vcs_redim_TP` (with `f = m_totalMoleScale`), in the order of the source. -/
def scaleMoles (D : VcsDefs) (f : ℚ) (s : VCS_SOLVE) : VCS_SOLVE :=
  scaleInertMoles f (scaleElemGoals f (scaleSpeciesMoles D f s))

/-- The sum `esum` of `vcs_nondim_TP`: `|goal|` over the element constraints of type
`VCS_ELEM_TYPE_ABSPOS`. -/
def absPosGoalSum (D : VcsDefs) (s : VCS_SOLVE) : ℚ :=
  forLoop s.m_numElemConstraints
    (fun i esum =>
      if s.m_elType i = D.VCS_ELEM_TYPE_ABSPOS then esum + |s.m_elemAbundancesGoal i|
      else esum) 0

/-- Routine `VCS_SOLVE::vcs_nondim_TP`: switch the problem data to nondimensional form. -/
def vcs_nondim_TP (D : VcsDefs) (s : VCS_SOLVE) : Except VcsFailure VCS_SOLVE :=
  if s.m_unitsState = D.VCS_DIMENSIONAL_G then
    let s1 := { s with m_unitsState := D.VCS_NONDIMENSIONAL_G }
    match vcs_nondimMult_TP D s1.m_VCS_UnitsFormat s1.m_temperature with
    | .error e => .error e
    | .ok rt =>
      let tf := 1 / rt
      let s2 := scaleFreeEnergies tf s1
      match vcs_nondim_Farad D s2.m_VCS_UnitsFormat s2.m_temperature with
      | .error e => .error e
      | .ok farad =>
        let s3 := { s2 with m_Faraday_dim := farad }
        let s4 := (vcs_tmoles D s3).2
        let tmole_orig := (vcs_tmoles D s3).1 + absPosGoalSum D s4
        if tmole_orig < 1.0e-200 ∨ tmole_orig > 1.0e200 then
          .error .vcsError
        else
          let s5 := { s4 with
            m_totalMoleScale :=
              if tmole_orig > 1.0e4 then tmole_orig / 1.0e4
              else if tmole_orig < 1.0e-4 then tmole_orig / 1.0e-4
              else 1 }
          if s5.m_totalMoleScale ≠ 1 then
            if s5.m_VCS_UnitsFormat = D.VCS_UNITS_MKS then
              .ok (vcs_tmoles D (scaleMoles D (1 / s5.m_totalMoleScale) s5)).2
            else
              .ok (vcs_tmoles D s5).2
          else
            .ok s5
  else
    .ok s

/-- Routine `VCS_SOLVE::vcs_redim_TP`: switch the problem data back to dimensional form. -/
def vcs_redim_TP (D : VcsDefs) (s : VCS_SOLVE) : Except VcsFailure VCS_SOLVE :=
  let r : Except VcsFailure VCS_SOLVE :=
    if s.m_unitsState ≠ D.VCS_DIMENSIONAL_G then
      let s1 := { s with m_unitsState := D.VCS_DIMENSIONAL_G }
      match vcs_nondimMult_TP D s1.m_VCS_UnitsFormat s1.m_temperature with
      | .error e => .error e
      | .ok tf =>
        let s2 := scaleFreeEnergies tf s1
        .ok { s2 with m_Faraday_dim := s2.m_Faraday_dim * tf }
    else .ok s
  match r with
  | .error e => .error e
  | .ok s3 =>
    if s3.m_totalMoleScale ≠ 1 then
      if s3.m_VCS_UnitsFormat = D.VCS_UNITS_MKS then
        .ok (vcs_tmoles D (scaleMoles D s3.m_totalMoleScale s3)).2
      else .ok s3
    else .ok s3

/-! ## Reaction step sizes (`vcs_rxnadj.cpp`) -/

/-- Routine `VCS_SOLVE::vcs_CalcLnActCoeffJac`: every multispecies, non-ideal phase scatters its
activity-coefficient Jacobian into `m_dLnActCoeffdMolNum`. (The call
`setMolesFromVCS` only refreshes data private to the phase object.) -/
def vcs_CalcLnActCoeffJac (s : VCS_SOLVE) (moleSpeciesVCS : Nat → ℚ) : VCS_SOLVE :=
  forLoop s.m_numPhases
    (fun iphase s =>
      let Vphase := s.m_VolPhaseList iphase
      if Vphase.m_singleSpecies = false ∧ Vphase.m_isIdealSoln = false then
        { s with
          m_dLnActCoeffdMolNum :=
            Vphase.sendToVCS_LnActCoeffJac moleSpeciesVCS s.m_dLnActCoeffdMolNum }
      else s) s

/-- Routine `VCS_SOLVE::vcs_Hessian_actCoeff_diag`: the diagonal contribution of the
activity-coefficient Jacobian to the Hessian of reaction `irxn`. -/
def vcs_Hessian_actCoeff_diag (s : VCS_SOLVE) (irxn : Nat) : ℚ :=
  let kspec := s.m_indexRxnToSpecies irxn
  let kph := s.m_phaseID kspec
  let sc_irxn := s.m_stoichCoeffRxnMatrix irxn
  forLoop s.m_numComponents
    (fun l acc =>
      if s.m_SSPhase l = 0 then
        let acc1 := forLoop s.m_numComponents
          (fun k acc =>
            if s.m_phaseID k = s.m_phaseID l then
              acc + sc_irxn k * sc_irxn l * s.m_dLnActCoeffdMolNum k l
            else acc) acc
        if kph = s.m_phaseID l then
          acc1 + sc_irxn l
            * (s.m_dLnActCoeffdMolNum kspec l + s.m_dLnActCoeffdMolNum l kspec)
        else acc1
      else acc)
    (s.m_dLnActCoeffdMolNum kspec kspec)

/-- Routine `VCS_SOLVE::vcs_Hessian_diag_adj`: the ideal diagonal corrected by the
activity-coefficient term, never lowered by more than 0.6666 of the ideal value. -/
def vcs_Hessian_diag_adj (s : VCS_SOLVE) (irxn : Nat) (hessianDiag_Ideal : ℚ) :
    Except VcsFailure ℚ :=
  let diag := hessianDiag_Ideal
  let hessActCoef := vcs_Hessian_actCoeff_diag s irxn
  if hessianDiag_Ideal ≤ 0 then .error .exitFailure
  else if hessActCoef ≥ 0 then .ok (diag + hessActCoef)
  else if |hessActCoef| < 0.6666 * hessianDiag_Ideal then .ok (diag + hessActCoef)
  else .ok (diag - 0.6666 * hessianDiag_Ideal)

/-- What the body of the reaction loop of `vcs_RxnStepSizes` does with control: fall
through to the next reaction (also on `continue`) with the new values of the members
and of the locals `soldel` and `k`, `return soldel`, or `exit(EXIT_FAILURE)`. -/
inductive RxnOutcome where
  | next (s : VCS_SOLVE) (soldel : Int) (k : Nat)
  | ret (s : VCS_SOLVE) (soldel : Int)
  | exit

/-- Lines 89-144 of `vcs_RxnStepSizes`: species `kspec` has zero moles and sits in a
multispecies phase. The quotient `trphmoles` is taken in `ℚ`, where `x / 0 = 0`; the
source divides by `m_totalMolNum` unguarded. -/
def birthStep (D : VcsDefs) (s : VCS_SOLVE) (irxn kspec : Nat) : VCS_SOLVE :=
  if s.m_deltaGRxn_new irxn < -1.0e-4 then
    let iph := s.m_phaseID kspec
    let tphmoles := s.m_tPhaseMoles_old iph
    let trphmoles := tphmoles / s.m_totalMolNum
    if trphmoles > D.VCS_DELETE_PHASE_CUTOFF then
      let s1 := { s with
        m_deltaMolNumSpecies := Function.update s.m_deltaMolNumSpecies kspec
          (s.m_totalMolNum * D.VCS_SMALL_MULTIPHASE_SPECIES) }
      if s1.m_speciesStatus kspec = D.VCS_SPECIES_STOICHZERO then
        { s1 with
          m_deltaMolNumSpecies := Function.update s1.m_deltaMolNumSpecies kspec 0 }
      else
        { s1 with
          m_deltaMolNumSpecies := Function.update s1.m_deltaMolNumSpecies kspec
            (s1.m_totalMolNum * D.VCS_SMALL_MULTIPHASE_SPECIES) }
    else
      let numSpPhase := (s.m_VolPhaseList iph).m_numSpecies
      { s with
        m_deltaMolNumSpecies := Function.update s.m_deltaMolNumSpecies kspec
          (s.m_totalMolNum * 10.0 * D.VCS_DELETE_PHASE_CUTOFF / (numSpPhase : ℚ)) }
  else
    { s with m_deltaMolNumSpecies := Function.update s.m_deltaMolNumSpecies kspec 0 }

/-- Lines 188-206 of `vcs_RxnStepSizes` in exact arithmetic: the ideal diagonal `s` of the
Hessian for reaction `irxn` with species `kspec`. The same lines with every operation
rounded are `hessianDiagIdeal_fl`. -/
def hessianDiagIdeal (s : VCS_SOLVE) (irxn kspec : Nat) : ℚ :=
  let dnPhase_irxn := s.m_deltaMolNumPhase irxn
  let s0 : ℚ := if s.m_SSPhase kspec ≠ 0 then 0 else 1 / s.m_molNumSpecies_old kspec
  let s1 := forLoop s.m_numComponents
    (fun j acc =>
      if s.m_SSPhase j = 0 then
        if s.m_molNumSpecies_old j > 0 then
          acc + s.m_stoichCoeffRxnMatrix irxn j * s.m_stoichCoeffRxnMatrix irxn j
            / s.m_molNumSpecies_old j
        else acc
      else acc) s0
  forLoop s.m_numPhases
    (fun j acc =>
      if (s.m_VolPhaseList j).m_singleSpecies = false then
        if s.m_tPhaseMoles_old j > 0 then
          acc - dnPhase_irxn j * dnPhase_irxn j / s.m_tPhaseMoles_old j
        else acc
      else acc) s1

/-- Lines 229-260 of `vcs_RxnStepSizes` in exact arithmetic: the damping of the step
`m_deltaMolNumSpecies[kspec]`, first against every component in turn, then against the
species itself. The argument `dn0` is the value before the damping, the result the value
after it. The same lines with every operation rounded are `dampStep_fl`. -/
def dampStep (s : VCS_SOLVE) (irxn kspec : Nat) (dn0 : ℚ) : ℚ :=
  let dn1 := forLoop s.m_numComponents
    (fun j dn =>
      let stoicC := s.m_stoichCoeffRxnMatrix irxn j
      if stoicC ≠ 0 then
        let negChangeComp := - stoicC * dn
        if negChangeComp > s.m_molNumSpecies_old j then
          if s.m_molNumSpecies_old j > 0 then
            - s.m_molNumSpecies_old j / stoicC
          else 0
        else dn
      else dn) dn0
  if - dn1 > s.m_molNumSpecies_old kspec then - s.m_molNumSpecies_old kspec else dn1

/-- Lines 207-260 of `vcs_RxnStepSizes`: the branch `s != 0`, a Newton step with damping. -/
def newtonStep (s : VCS_SOLVE) (irxn kspec : Nat) (sdiag : ℚ) (soldel : Int) (k : Nat) :
    RxnOutcome :=
  let adj : Except VcsFailure ℚ :=
    if s.m_useActCoeffJac then vcs_Hessian_diag_adj s irxn sdiag else .ok sdiag
  match adj with
  | .error _ => .exit
  | .ok sdiag1 =>
    .next { s with
      m_deltaMolNumSpecies := Function.update s.m_deltaMolNumSpecies kspec
        (dampStep s irxn kspec (- s.m_deltaGRxn_new irxn / sdiag1)) } soldel k

/-- Lines 275-299 of `vcs_RxnStepSizes` in exact arithmetic: the extent `dss` of the discrete
step and the species `k` to be zeroed. The argument `k` is the value the local `k` has on
entry. The same lines with every operation rounded are `deletionTarget_fl`. -/
def deletionTarget (s : VCS_SOLVE) (irxn kspec : Nat) (k : Nat) : ℚ × Nat :=
  if s.m_deltaGRxn_new irxn > 0 then
    let r := forLoop s.m_numComponents
      (fun j (r : ℚ × Nat) =>
        if s.m_stoichCoeffRxnMatrix irxn j > 0 then
          let xx := s.m_molNumSpecies_old j / s.m_stoichCoeffRxnMatrix irxn j
          if xx < r.1 then (xx, j) else r
        else r) (s.m_molNumSpecies_old kspec, kspec)
    (- r.1, r.2)
  else
    forLoop s.m_numComponents
      (fun j (r : ℚ × Nat) =>
        if s.m_stoichCoeffRxnMatrix irxn j < 0 then
          let xx := - s.m_molNumSpecies_old j / s.m_stoichCoeffRxnMatrix irxn j
          if xx < r.1 then (xx, j) else r
        else r) (1.0e10, k)

/-- Lines 309-319 of `vcs_RxnStepSizes` in exact arithmetic: move the extent `dss` along
reaction `irxn`, then zero species `k` and its phase. The same lines with every operation
rounded are `applyDeletion_fl`. -/
def applyDeletion (s : VCS_SOLVE) (irxn kspec k : Nat) (dss : ℚ) : VCS_SOLVE :=
  let mol1 := Function.update s.m_molNumSpecies_old kspec (s.m_molNumSpecies_old kspec + dss)
  let tph1 := Function.update s.m_tPhaseMoles_old (s.m_phaseID kspec)
    (s.m_tPhaseMoles_old (s.m_phaseID kspec) + dss)
  let r := forLoop s.m_numComponents
    (fun j (r : (Nat → ℚ) × (Nat → ℚ)) =>
      (Function.update r.1 j (r.1 j + dss * s.m_stoichCoeffRxnMatrix irxn j),
        Function.update r.2 (s.m_phaseID j)
          (r.2 (s.m_phaseID j) + dss * s.m_stoichCoeffRxnMatrix irxn j)))
    (mol1, tph1)
  let iph := s.m_phaseID k
  { s with
    m_molNumSpecies_old := Function.update r.1 k 0
    m_tPhaseMoles_old := Function.update r.2 iph 0
    m_VolPhaseList := Function.update s.m_VolPhaseList iph
      ((s.m_VolPhaseList iph).setTotalMoles 0) }

/-- Lines 262-351 of `vcs_RxnStepSizes`: the branch `s == 0`, a reaction entirely amongst
single-species phases. -/
def deletionStep (D : VcsDefs) (s : VCS_SOLVE) (irxn kspec : Nat) (soldel : Int) (k : Nat) :
    RxnOutcome :=
  let dss := (deletionTarget s irxn kspec k).1
  let k1 := (deletionTarget s irxn kspec k).2
  if dss ≠ 0 then
    let s1 := applyDeletion s irxn kspec k1 dss
    if k1 = kspec then
      let s2 := { s1 with
        m_speciesStatus := Function.update s1.m_speciesStatus kspec D.VCS_SPECIES_ZEROEDSS }
      if s2.m_SSPhase kspec ≠ 1 then .exit
      else .next s2 1 k1
    else .ret s1 2
  else .next s soldel k1

/-- Lines 78-361 of `vcs_RxnStepSizes`: the body of the loop over the formation
reactions, for reaction `irxn`. -/
def rxnStep (D : VcsDefs) (irxn : Nat) (s : VCS_SOLVE) (soldel : Int) (k : Nat) : RxnOutcome :=
  let kspec := s.m_indexRxnToSpecies irxn
  if s.m_speciesStatus kspec = D.VCS_SPECIES_ZEROEDPHASE then
    .next { s with
      m_deltaMolNumSpecies := Function.update s.m_deltaMolNumSpecies kspec 0 } soldel k
  else if s.m_speciesUnknownType kspec ≠ D.VCS_SPECIES_TYPE_INTERFACIALVOLTAGE then
    if s.m_molNumSpecies_old kspec = 0 ∧ s.m_SSPhase kspec = 0 then
      .next (birthStep D s irxn kspec) soldel k
    else if |s.m_deltaGRxn_new irxn| ≤ s.m_tolmaj2 then
      .next s soldel k
    else if s.m_speciesStatus kspec ≠ D.VCS_SPECIES_MAJOR ∧ s.m_deltaGRxn_new irxn ≥ 0 then
      .next s soldel k
    else if hessianDiagIdeal s irxn kspec ≠ 0 then
      newtonStep s irxn kspec (hessianDiagIdeal s irxn kspec) soldel k
    else
      deletionStep D s irxn kspec soldel k
  else
    .next s soldel k

/-- The loop `for (irxn = ..; irxn < m_numRxnRdc; ++irxn)` of `vcs_RxnStepSizes` with `n`
rounds left. -/
def rxnLoop (D : VcsDefs) :
    Nat → Nat → VCS_SOLVE → Int → Nat → Except VcsFailure (Int × VCS_SOLVE)
  | 0, _, s, soldel, _ => .ok (soldel, s)
  | n + 1, irxn, s, soldel, k =>
    match rxnStep D irxn s soldel k with
    | .next s1 soldel1 k1 => rxnLoop D n (irxn + 1) s1 soldel1 k1
    | .ret s1 soldel1 => .ok (soldel1, s1)
    | .exit => .error .exitFailure

/-- Routine `VCS_SOLVE::vcs_RxnStepSizes`: the step sizes of the formation reactions; returns the
status code `soldel` together with the new values of the members. -/
def vcs_RxnStepSizes (D : VcsDefs) (s : VCS_SOLVE) : Except VcsFailure (Int × VCS_SOLVE) :=
  let s1 := if s.m_useActCoeffJac then vcs_CalcLnActCoeffJac s s.m_molNumSpecies_old else s
  rxnLoop D s1.m_numRxnRdc 0 s1 0 0

/-- The members after the body of the reaction loop, when the routine did not exit. -/
def RxnOutcome.state? : RxnOutcome → Option VCS_SOLVE
  | .next s _ _ => some s
  | .ret s _ => some s
  | .exit => none

/-- Every entry of `m_molNumSpecies_old` is nonnegative. -/
def NonnegMoles (s : VCS_SOLVE) : Prop :=
  ∀ i, 0 ≤ s.m_molNumSpecies_old i

/-- Moving the extent `dn` along reaction `irxn` (species `kspec` by `dn`, component `j`
by `nu[irxn][j] * dn`) drives neither the species nor any component negative. -/
def StepFeasible (s : VCS_SOLVE) (irxn kspec : Nat) (dn : ℚ) : Prop :=
  0 ≤ s.m_molNumSpecies_old kspec + dn
    ∧ ∀ j, j < s.m_numComponents →
      0 ≤ s.m_molNumSpecies_old j + s.m_stoichCoeffRxnMatrix irxn j * dn

/-- The path condition of the Newton branch (`s != 0`) of `vcs_RxnStepSizes` for reaction
`irxn`: the tests of lines 80, 85, 89, 156, 172 and 207 in turn. -/
def takesNewtonBranch (D : VcsDefs) (s : VCS_SOLVE) (irxn : Nat) : Prop :=
  s.m_speciesStatus (s.m_indexRxnToSpecies irxn) ≠ D.VCS_SPECIES_ZEROEDPHASE
    ∧ s.m_speciesUnknownType (s.m_indexRxnToSpecies irxn)
      ≠ D.VCS_SPECIES_TYPE_INTERFACIALVOLTAGE
    ∧ ¬ (s.m_molNumSpecies_old (s.m_indexRxnToSpecies irxn) = 0
      ∧ s.m_SSPhase (s.m_indexRxnToSpecies irxn) = 0)
    ∧ ¬ |s.m_deltaGRxn_new irxn| ≤ s.m_tolmaj2
    ∧ ¬ (s.m_speciesStatus (s.m_indexRxnToSpecies irxn) ≠ D.VCS_SPECIES_MAJOR
      ∧ s.m_deltaGRxn_new irxn ≥ 0)
    ∧ hessianDiagIdeal s irxn (s.m_indexRxnToSpecies irxn) ≠ 0

/-- Closed form of an array after the first `n` rounds of a loop that rewrites entry
`i` to `g i (a i)` in round `i`. -/
def mapBelow {α : Type} (n : Nat) (g : Nat → α → α) (a : Nat → α) : Nat → α :=
  fun i => if i < n then g i (a i) else a i

/-- The units codes the two multiplier routines know. -/
def recognisedUnits (D : VcsDefs) (u : Int) : Prop :=
  u = D.VCS_UNITS_KCALMOL ∨ u = D.VCS_UNITS_UNITLESS ∨ u = D.VCS_UNITS_KJMOL
    ∨ u = D.VCS_UNITS_KELVIN ∨ u = D.VCS_UNITS_MKS

instance (D : VcsDefs) (u : Int) : Decidable (recognisedUnits D u) := by
  unfold recognisedUnits; infer_instance

/-- The quantity `tmole_orig` of `vcs_nondim_TP` after `esum` is added: the value of
`vcs_tmoles()` plus `|goal|` summed over the element constraints of type AbsPos. -/
def tmole_orig (D : VcsDefs) (s : VCS_SOLVE) : ℚ :=
  (vcs_tmoles D s).1 + absPosGoalSum D s

/-- The value `vcs_nondim_TP` stores in `m_totalMoleScale` for total input moles `t`. -/
def moleScaleOf (t : ℚ) : ℚ :=
  if t > 1.0e4 then t / 1.0e4
  else if t < 1.0e-4 then t / 1.0e-4
  else 1

/-- The state a successful `vcs_nondim_TP` leaves, field by field, for a run that
started from `s` with `RT` multiplier `rt`. -/
structure NondimPost (D : VcsDefs) (s : VCS_SOLVE) (rt : ℚ) (s' : VCS_SOLVE) : Prop where
  unitsState : s'.m_unitsState = D.VCS_NONDIMENSIONAL_G
  unitsFormat : s'.m_VCS_UnitsFormat = s.m_VCS_UnitsFormat
  temperature : s'.m_temperature = s.m_temperature
  numSpeciesTot : s'.m_numSpeciesTot = s.m_numSpeciesTot
  numElemConstraints : s'.m_numElemConstraints = s.m_numElemConstraints
  numPhases : s'.m_numPhases = s.m_numPhases
  speciesUnknownType : s'.m_speciesUnknownType = s.m_speciesUnknownType
  totalMoleScale : s'.m_totalMoleScale = moleScaleOf (tmole_orig D s)
  SSfeSpecies : s'.m_SSfeSpecies
    = mapBelow s.m_numSpeciesTot (fun _ x => x * (1 / rt)) s.m_SSfeSpecies
  feSpecies_old : s'.m_feSpecies_old
    = mapBelow s.m_numSpeciesTot (fun _ x => x * (1 / rt)) s.m_feSpecies_old
  deltaGRxn_old : s'.m_deltaGRxn_old
    = mapBelow s.m_numSpeciesTot (fun _ x => x * (1 / rt)) s.m_deltaGRxn_old
  deltaGRxn_new : s'.m_deltaGRxn_new
    = mapBelow s.m_numSpeciesTot (fun _ x => x * (1 / rt)) s.m_deltaGRxn_new
  molNumSpecies_old : s'.m_molNumSpecies_old
    = if moleScaleOf (tmole_orig D s) ≠ 1 ∧ s.m_VCS_UnitsFormat = D.VCS_UNITS_MKS then
        mapBelow s.m_numSpeciesTot
          (fun i x => if s.m_speciesUnknownType i ≠ D.VCS_SPECIES_TYPE_INTERFACIALVOLTAGE
            then x * (1 / moleScaleOf (tmole_orig D s)) else x) s.m_molNumSpecies_old
      else s.m_molNumSpecies_old
  elemAbundancesGoal : s'.m_elemAbundancesGoal
    = if moleScaleOf (tmole_orig D s) ≠ 1 ∧ s.m_VCS_UnitsFormat = D.VCS_UNITS_MKS then
        mapBelow s.m_numElemConstraints (fun _ x => x * (1 / moleScaleOf (tmole_orig D s)))
          s.m_elemAbundancesGoal
      else s.m_elemAbundancesGoal
  inertMoles : s'.TPhInertMoles
    = if moleScaleOf (tmole_orig D s) ≠ 1 ∧ s.m_VCS_UnitsFormat = D.VCS_UNITS_MKS then
        mapBelow s.m_numPhases (fun _ x => x * (1 / moleScaleOf (tmole_orig D s)))
          s.TPhInertMoles
      else s.TPhInertMoles

/-- The state `vcs_redim_TP` leaves, field by field, for a run that started from a state
`s` that was not dimensional, with `RT` multiplier `rt`. -/
structure RedimPost (D : VcsDefs) (s : VCS_SOLVE) (rt : ℚ) (s' : VCS_SOLVE) : Prop where
  unitsState : s'.m_unitsState = D.VCS_DIMENSIONAL_G
  SSfeSpecies : s'.m_SSfeSpecies
    = mapBelow s.m_numSpeciesTot (fun _ x => x * rt) s.m_SSfeSpecies
  feSpecies_old : s'.m_feSpecies_old
    = mapBelow s.m_numSpeciesTot (fun _ x => x * rt) s.m_feSpecies_old
  deltaGRxn_old : s'.m_deltaGRxn_old
    = mapBelow s.m_numSpeciesTot (fun _ x => x * rt) s.m_deltaGRxn_old
  deltaGRxn_new : s'.m_deltaGRxn_new
    = mapBelow s.m_numSpeciesTot (fun _ x => x * rt) s.m_deltaGRxn_new
  molNumSpecies_old : s'.m_molNumSpecies_old
    = if s.m_totalMoleScale ≠ 1 ∧ s.m_VCS_UnitsFormat = D.VCS_UNITS_MKS then
        mapBelow s.m_numSpeciesTot
          (fun i x => if s.m_speciesUnknownType i ≠ D.VCS_SPECIES_TYPE_INTERFACIALVOLTAGE
            then x * s.m_totalMoleScale else x) s.m_molNumSpecies_old
      else s.m_molNumSpecies_old
  elemAbundancesGoal : s'.m_elemAbundancesGoal
    = if s.m_totalMoleScale ≠ 1 ∧ s.m_VCS_UnitsFormat = D.VCS_UNITS_MKS then
        mapBelow s.m_numElemConstraints (fun _ x => x * s.m_totalMoleScale)
          s.m_elemAbundancesGoal
      else s.m_elemAbundancesGoal
  inertMoles : s'.TPhInertMoles
    = if s.m_totalMoleScale ≠ 1 ∧ s.m_VCS_UnitsFormat = D.VCS_UNITS_MKS then
        mapBelow s.m_numPhases (fun _ x => x * s.m_totalMoleScale) s.TPhInertMoles
      else s.TPhInertMoles

/-- The path condition of the deletion branch (`s == 0`) of `vcs_RxnStepSizes` for reaction
`irxn`: the tests of lines 80, 85, 89, 156, 172 and 207 in turn. -/
def takesDeletionBranch (D : VcsDefs) (s : VCS_SOLVE) (irxn : Nat) : Prop :=
  s.m_speciesStatus (s.m_indexRxnToSpecies irxn) ≠ D.VCS_SPECIES_ZEROEDPHASE
    ∧ s.m_speciesUnknownType (s.m_indexRxnToSpecies irxn)
      ≠ D.VCS_SPECIES_TYPE_INTERFACIALVOLTAGE
    ∧ ¬ (s.m_molNumSpecies_old (s.m_indexRxnToSpecies irxn) = 0
      ∧ s.m_SSPhase (s.m_indexRxnToSpecies irxn) = 0)
    ∧ ¬ |s.m_deltaGRxn_new irxn| ≤ s.m_tolmaj2
    ∧ ¬ (s.m_speciesStatus (s.m_indexRxnToSpecies irxn) ≠ D.VCS_SPECIES_MAJOR
      ∧ s.m_deltaGRxn_new irxn ≥ 0)
    ∧ hessianDiagIdeal s irxn (s.m_indexRxnToSpecies irxn) = 0

/-- The abundance of element `e`, `sum_i E[i][e] * m_molNumSpecies_old[i]` over the
species `i < m_numSpeciesTot`, for a formula matrix `E` (species by element). -/
def elemAbundance (E : Nat → Nat → ℚ) (s : VCS_SOLVE) (e : Nat) : ℚ :=
  forLoop s.m_numSpeciesTot (fun i acc => acc + E i e * s.m_molNumSpecies_old i) 0

/-- Every formation reaction `r < m_numRxnRdc` conserves every element:
`E[k][e] + sum_j nu[r][j] * E[j][e] = 0` with `k` the species of `r` and `j` over the
components. -/
def ElementConsistent (E : Nat → Nat → ℚ) (s : VCS_SOLVE) : Prop :=
  ∀ r, r < s.m_numRxnRdc → ∀ e,
    E (s.m_indexRxnToSpecies r) e
      + forLoop s.m_numComponents
          (fun j acc => acc + s.m_stoichCoeffRxnMatrix r j * E j e) 0 = 0

/-- The first three tests of the loop body of `vcs_RxnStepSizes` (lines 80, 85, 89) all
fail, so that reaction `irxn` reaches "regular processing": its species is not
`VCS_SPECIES_ZEROEDPHASE`, is not an interfacial-voltage unknown, and is not a zero-mole
species of a multispecies phase. -/
def regularProcessing (D : VcsDefs) (s : VCS_SOLVE) (irxn : Nat) : Prop :=
  s.m_speciesStatus (s.m_indexRxnToSpecies irxn) ≠ D.VCS_SPECIES_ZEROEDPHASE
    ∧ s.m_speciesUnknownType (s.m_indexRxnToSpecies irxn)
      ≠ D.VCS_SPECIES_TYPE_INTERFACIALVOLTAGE
    ∧ ¬ (s.m_molNumSpecies_old (s.m_indexRxnToSpecies irxn) = 0
      ∧ s.m_SSPhase (s.m_indexRxnToSpecies irxn) = 0)

/-- The ideal Hessian diagonal in the words of the specification, to be compared with
`hessianDiagIdeal`: 0 if species `kspec` is in a single-species phase, else `1/n_k`;
plus `nu[r][j]^2 / n_j` over the components `j` that are in multispecies phases and have
`n_j > 0`; minus `ΔN_p(r)^2 / T_p` over the multispecies phases `p` with `T_p > 0`. -/
def hessianDiagSpec (s : VCS_SOLVE) (irxn kspec : Nat) : ℚ :=
  (if s.m_SSPhase kspec ≠ 0 then 0 else 1 / s.m_molNumSpecies_old kspec)
    + ∑ j ∈ (Finset.range s.m_numComponents).filter
        (fun j => s.m_SSPhase j = 0 ∧ s.m_molNumSpecies_old j > 0),
        s.m_stoichCoeffRxnMatrix irxn j ^ 2 / s.m_molNumSpecies_old j
    - ∑ p ∈ (Finset.range s.m_numPhases).filter
        (fun p => (s.m_VolPhaseList p).m_singleSpecies = false ∧ s.m_tPhaseMoles_old p > 0),
        s.m_deltaMolNumPhase irxn p ^ 2 / s.m_tPhaseMoles_old p

/-- Modelled from the spec: `VCS_SOLVE::vcs_chemPotPhase` is not among the sources, so it
is a parameter of this type. Given the solver members, the state selector `stateCalc`,
a phase index and mole numbers, it rewrites the two output buffers, the activity
coefficients `ac` and the chemical potentials `mu_i` (first and second component). -/
def ChemPotPhase : Type :=
  VCS_SOLVE → Int → Nat → (Nat → ℚ) → (Nat → ℚ) × (Nat → ℚ) → (Nat → ℚ) × (Nat → ℚ)

/-- Lines 734-738 of `deltaG_Recalc_Rxn`: the ΔG of reaction `irxn` from the chemical
potentials `mu_i`, with `kspec = irxn + m_numComponents`. -/
def reactionDeltaG (s : VCS_SOLVE) (irxn : Nat) (mu_i : Nat → ℚ) : ℚ :=
  let kspec := irxn + s.m_numComponents
  let sc_irxn := s.m_stoichCoeffRxnMatrix irxn
  forLoop s.m_numComponents (fun k deltaG => deltaG + sc_irxn k * mu_i k) (mu_i kspec)

/-- Routine `VCS_SOLVE::deltaG_Recalc_Rxn`: recompute the chemical potentials of the phases
that take part in reaction `irxn` (through `vcs_chemPotPhase`, here `chemPot`), then
return the ΔG of the reaction, together with the two output buffers `ac` and `mu_i`. -/
def deltaG_Recalc_Rxn (chemPot : ChemPotPhase) (s : VCS_SOLVE) (stateCalc : Int) (irxn : Nat)
    (molNum ac mu_i : Nat → ℚ) : ℚ × (Nat → ℚ) × (Nat → ℚ) :=
  let pp_ptr := s.m_phaseParticipation irxn
  let bufs := forLoop s.m_numPhases
    (fun iphase (b : (Nat → ℚ) × (Nat → ℚ)) =>
      if pp_ptr iphase ≠ 0 then chemPot s stateCalc iphase molNum b else b) (ac, mu_i)
  (reactionDeltaG s irxn bufs.2, bufs.1, bufs.2)

/-! ## Line search (`vcs_rxnadj.cpp`) -/

/-- Modelled from the spec: the utility `vcs_dcopy` (`vcs_internal.h`) is not among the
sources; it copies the first `len` entries of `src` into `dest`. -/
def vcs_dcopy (dest src : Nat → ℚ) (len : Nat) : Nat → ℚ :=
  forLoop len (fun i d => Function.update d i (src i)) dest

/-- What a call of `vcs_line_search` leaves behind: the returned step `dx`, the solver
members after the call, and the number of calls of `deltaG_Recalc_Rxn` it made (a count
kept for the analysis; the routine has no such variable). -/
structure LineSearchResult where
  dx : ℚ
  solve : VCS_SOLVE
  numRecalc : Nat

/-- Line 778 of `vcs_line_search`: the call
`deltaG_Recalc_Rxn(VCS_STATECALC_OLD, irxn, molNumBase, acBase, m_feSpecies_old)`, whose
output buffers are the members `m_actCoeffSpecies_old` and `m_feSpecies_old`. Returns the
ΔG and the members after the call. -/
def recalcOld (chemPot : ChemPotPhase) (D : VcsDefs) (s : VCS_SOLVE) (irxn : Nat) :
    ℚ × VCS_SOLVE :=
  let r := deltaG_Recalc_Rxn chemPot s D.VCS_STATECALC_OLD irxn s.m_molNumSpecies_old
    s.m_actCoeffSpecies_old s.m_feSpecies_old
  (r.1, { s with
    m_actCoeffSpecies_old := r.2.1
    m_feSpecies_old := r.2.2 })

/-- Lines 818 and 858 of `vcs_line_search`: the call
`deltaG_Recalc_Rxn(VCS_STATECALC_NEW, irxn, m_molNumSpecies_new, ac, m_feSpecies_new)`,
whose output buffers are the members `m_actCoeffSpecies_new` and `m_feSpecies_new`.
Returns the ΔG and the members after the call. -/
def recalcNew (chemPot : ChemPotPhase) (D : VcsDefs) (s : VCS_SOLVE) (irxn : Nat) :
    ℚ × VCS_SOLVE :=
  let r := deltaG_Recalc_Rxn chemPot s D.VCS_STATECALC_NEW irxn s.m_molNumSpecies_new
    s.m_actCoeffSpecies_new s.m_feSpecies_new
  (r.1, { s with
    m_actCoeffSpecies_new := r.2.1
    m_feSpecies_new := r.2.2 })

/-- Lines 811-815 and 853-856 of `vcs_line_search`: the trial composition at the step `dx`,
`m_molNumSpecies_new[kspec] = molNumBase[kspec] + dx` and then
`m_molNumSpecies_new[k] = molNumBase[k] + sc_irxn[k] * dx` for the components `k`. (The
local `molSum` of lines 810 and 814 is never read and is left out.) -/
def setTrialMoles (s : VCS_SOLVE) (irxn kspec : Nat) (dx : ℚ) : VCS_SOLVE :=
  let sc_irxn := s.m_stoichCoeffRxnMatrix irxn
  let molNumBase := s.m_molNumSpecies_old
  { s with
    m_molNumSpecies_new := forLoop s.m_numComponents
      (fun k m => Function.update m k (molNumBase k + sc_irxn k * dx))
      (Function.update s.m_molNumSpecies_new kspec (molNumBase kspec + dx)) }

/-- Lines 847-880 of `vcs_line_search` in exact arithmetic (with every operation rounded:
`halvingLoop_fl`): the loop `for (its = 0; its < MAXITS; its++)`, by
recursion on the number `MAXITS - its` of iterations left. `dx` is the step before the
halving of line 852, `n` the number of `deltaG_Recalc_Rxn` calls made so far. Each of the
two `goto finalize` returns the current `dx`; so does the end of the loop. -/
def halvingLoop (chemPot : ChemPotPhase) (D : VcsDefs) (irxn kspec : Nat)
    (dx_orig deltaGOrig forig : ℚ) : Nat → ℚ → VCS_SOLVE → Nat → LineSearchResult
  | 0, dx, s, n => ⟨dx, s, n⟩
  | left + 1, dx, s, n =>
    let dx1 := dx * 0.5
    let r := recalcNew chemPot D (setTrialMoles s irxn kspec dx1) irxn
    let deltaG := r.1
    if deltaG * deltaGOrig > 0 then ⟨dx1, r.2, n + 1⟩
    else if |deltaG| / forig < 1.0 - 0.1 * dx1 / dx_orig then
      if deltaG * deltaGOrig < 0 then
        let slope := (deltaG - deltaGOrig) / dx1
        ⟨-deltaGOrig / slope, r.2, n + 1⟩
      else ⟨dx1, r.2, n + 1⟩
    else halvingLoop chemPot D irxn kspec dx_orig deltaGOrig forig left dx1 r.2 (n + 1)

/-- Lines 807-898 of `vcs_line_search` in exact arithmetic (with every operation rounded:
`lineSearchTrials_fl`), after `deltaGOrig` has been computed (one call of
`deltaG_Recalc_Rxn` so far) and the sign tests of lines 782-806 have let the call continue:
the full trial step, then the halving loop with `MAXITS = 10`. -/
def lineSearchTrials (chemPot : ChemPotPhase) (D : VcsDefs) (s : VCS_SOLVE) (irxn kspec : Nat)
    (dx_orig deltaGOrig : ℚ) : LineSearchResult :=
  let forig := |deltaGOrig| + 1.0e-15
  if dx_orig = 0 then ⟨0, s, 1⟩
  else
    let s1 := { s with
      m_molNumSpecies_new := vcs_dcopy s.m_molNumSpecies_new s.m_molNumSpecies_old
        s.m_numSpeciesRdc }
    let r := recalcNew chemPot D (setTrialMoles s1 irxn kspec dx_orig) irxn
    let deltaG1 := r.1
    if deltaG1 * deltaGOrig > 0 then ⟨dx_orig, r.2, 2⟩
    else if |deltaG1| < 0.8 * forig then
      if deltaG1 * deltaGOrig < 0 then
        let slope := (deltaG1 - deltaGOrig) / dx_orig
        ⟨-deltaGOrig / slope, r.2, 2⟩
      else ⟨dx_orig, r.2, 2⟩
    else halvingLoop chemPot D irxn kspec dx_orig deltaGOrig forig 10 dx_orig r.2 2

/-- Routine `VCS_SOLVE::vcs_line_search` (the build without `DEBUG_MODE`): the step length
to take along reaction `irxn`, at most the proposed `dx_orig`. `vcs_chemPotPhase` is the
parameter `chemPot`. The calls of `vcs_setFlagsVolPhases`, which is not among the sources
and only resets flags private to the phase objects, are left out. -/
def vcs_line_search (chemPot : ChemPotPhase) (D : VcsDefs) (s : VCS_SOLVE) (irxn : Nat)
    (dx_orig : ℚ) : LineSearchResult :=
  let kspec := s.m_indexRxnToSpecies irxn
  let r := recalcOld chemPot D s irxn
  let deltaGOrig := r.1
  if deltaGOrig > 0 then
    if dx_orig > 0 then ⟨0, r.2, 1⟩
    else lineSearchTrials chemPot D r.2 irxn kspec dx_orig deltaGOrig
  else if deltaGOrig < 0 then
    if dx_orig < 0 then ⟨0, r.2, 1⟩
    else lineSearchTrials chemPot D r.2 irxn kspec dx_orig deltaGOrig
  else if deltaGOrig = 0 then ⟨0, r.2, 1⟩
  else lineSearchTrials chemPot D r.2 irxn kspec dx_orig deltaGOrig

/-- The full trial step of `vcs_line_search` (lines 778 and 809-820), after the ΔG at the
current composition has been recomputed: the ΔG at the step `dx_orig` and the members
after it. -/
def fullTrial (chemPot : ChemPotPhase) (D : VcsDefs) (s : VCS_SOLVE) (irxn : Nat)
    (dx_orig : ℚ) : ℚ × VCS_SOLVE :=
  let s0 := (recalcOld chemPot D s irxn).2
  recalcNew chemPot D
    (setTrialMoles
      { s0 with
        m_molNumSpecies_new := vcs_dcopy s0.m_molNumSpecies_new s0.m_molNumSpecies_old
          s0.m_numSpeciesRdc }
      irxn (s.m_indexRxnToSpecies irxn) dx_orig) irxn

/-- The successive trials of `vcs_line_search` when none is accepted: trial 0 is the full
step, trial `i + 1` sets the composition at `dx_orig / 2^(i+1)` on the members left by
trial `i` and recomputes the ΔG (lines 852-860). Each gives the ΔG and the members. -/
def halvingTrial (chemPot : ChemPotPhase) (D : VcsDefs) (s : VCS_SOLVE) (irxn : Nat)
    (dx_orig : ℚ) : Nat → ℚ × VCS_SOLVE
  | 0 => fullTrial chemPot D s irxn dx_orig
  | i + 1 =>
    recalcNew chemPot D
      (setTrialMoles (halvingTrial chemPot D s irxn dx_orig i).2 irxn
        (s.m_indexRxnToSpecies irxn) (dx_orig / 2 ^ (i + 1))) irxn

/-- The stopping test of the halving loop in the words of the specification: at the halved
step `dx_orig / 2^i` the ΔG `g` has the sign of `deltaGOrig`, or
`|g| / (|deltaGOrig| + 1e-15) < 1 - 0.1 * (dx_orig / 2^i) / dx_orig`. -/
def halvingAccepts (dx_orig deltaGOrig g : ℚ) (i : Nat) : Prop :=
  g * deltaGOrig > 0
    ∨ |g| / (|deltaGOrig| + 1.0e-15) < 1 - 0.1 * (dx_orig / 2 ^ i) / dx_orig

/-- The step returned at an accepted halved step in the words of the specification:
`dx_orig / 2^i`, or its linear interpolate to the zero of ΔG when the sign changed. -/
def halvingReturn (dx_orig deltaGOrig g : ℚ) (i : Nat) : ℚ :=
  if g * deltaGOrig < 0 then -deltaGOrig * (dx_orig / 2 ^ i) / (g - deltaGOrig)
  else dx_orig / 2 ^ i

/-- Members `t` differ from the members `s` at most in the three trial buffers
`m_molNumSpecies_new`, `m_actCoeffSpecies_new` and `m_feSpecies_new`. -/
def OnlyNewBuffers (s t : VCS_SOLVE) : Prop :=
  t = { s with
    m_molNumSpecies_new := t.m_molNumSpecies_new
    m_actCoeffSpecies_new := t.m_actCoeffSpecies_new
    m_feSpecies_new := t.m_feSpecies_new }

/-! ## Reactor factory (`ReactorFactory.cpp`) and Troe falloff (`FalloffFactory.cpp`) -/

/-- A thrown `CanteraError`, with the procedure name and the message it is built from. -/
structure CanteraError where
  procedure : String
  msg : String
  deriving DecidableEq, Repr

/-- Modelled from the spec: the reactor type constants are defined in `ReactorBase.h`, a
header that is not among the sources, so they are parameters. They label the cases of one
`switch`, hence are pairwise distinct. -/
structure ReactorTypes where
  ReservoirType : Int
  ReactorType : Int
  FlowReactorType : Int
  ConstPressureReactorType : Int
  types_nodup : [ReservoirType, ReactorType, FlowReactorType,
    ConstPressureReactorType].Nodup

/-- The class of the object a `new` expression of `ReactorFactory::newReactor` constructs. -/
inductive ReactorBase where
  | Reservoir
  | Reactor
  | FlowReactor
  | ConstPressureReactor
  deriving DecidableEq, Repr

/-- The static `ntypes` of `ReactorFactory.cpp`. -/
def ntypes : Nat := 4

/-- The static array `_types` of `ReactorFactory.cpp` (line 34). -/
def _types : Nat → String :=
  fun n => if n = 0 then "Reservoir" else if n = 1 then "Reactor"
    else if n = 2 then "ConstPressureReactor" else if n = 3 then "FlowReactor" else ""

/-- The static array `_itypes` of `ReactorFactory.cpp` (lines 38-39). -/
def _itypes (T : ReactorTypes) : Nat → Int :=
  fun n => if n = 0 then T.ReservoirType else if n = 1 then T.ReactorType
    else if n = 2 then T.FlowReactorType else if n = 3 then T.ConstPressureReactorType
    else 0

/-- Routine `ReactorFactory::newReactor(int ir)`: the `switch` over the type constant. -/
def ReactorFactory.newReactorInt (T : ReactorTypes) (ir : Int) :
    Except CanteraError ReactorBase :=
  if ir = T.ReservoirType then .ok .Reservoir
  else if ir = T.ReactorType then .ok .Reactor
  else if ir = T.FlowReactorType then .ok .FlowReactor
  else if ir = T.ConstPressureReactorType then .ok .ConstPressureReactor
  else .error ⟨"ReactorFactory::newReactor", "unknown reactor type!"⟩

/-- Routine `ReactorFactory::newReactor(string reactorType)`: look the name up in `_types`,
take the entry of `_itypes` at the same position, and construct by type constant. -/
def ReactorFactory.newReactor (T : ReactorTypes) (reactorType : String) :
    Except CanteraError ReactorBase :=
  let ir := forLoop ntypes
    (fun n (ir : Int) => if reactorType = _types n then _itypes T n else ir) (-1)
  ReactorFactory.newReactorInt T ir

/-- The members of class `Troe4`: `a`, `1/T3`, `1/T1` and `T2`. -/
structure Troe4 where
  m_a : ℚ
  m_rt3 : ℚ
  m_rt1 : ℚ
  m_t2 : ℚ

/-- Routine `Troe4::init(const vector_fp& c)`: the members it leaves when it returns, or
the `CanteraError` it throws. -/
def Troe4.init (c : Nat → ℚ) : Except CanteraError Troe4 :=
  let m_a := c 0
  let rt3 : Except CanteraError ℚ :=
    if c 1 ≤ 0 then
      if c 1 = 0 then .ok 1000
      else .error ⟨"Troe4::init()", "T3 parameter is less than zero"⟩
    else .ok (1.0 / c 1)
  match rt3 with
  | .error e => .error e
  | .ok m_rt3 =>
    let rt1 : Except CanteraError ℚ :=
      if c 2 ≤ 0 then
        if c 2 = 0 then .ok 1000
        else .error ⟨"Troe4::init()", "T1 parameter is less than zero"⟩
      else .ok (1.0 / c 2)
    match rt1 with
    | .error e => .error e
    | .ok m_rt1 =>
      if c 3 < 0 then .error ⟨"Troe4::init()", "T2 parameter is less than zero"⟩
      else .ok ⟨m_a, m_rt3, m_rt1, c 3⟩

/-- The reaction vector of reaction `irxn` in the words of the specification: 1 at the
species of the reaction, `nu[irxn][j]` at the component `j`, 0 elsewhere. -/
def reactionVector (s : VCS_SOLVE) (irxn : Nat) : Nat → ℚ :=
  fun i => if i = s.m_indexRxnToSpecies irxn then 1
    else if i < s.m_numComponents then s.m_stoichCoeffRxnMatrix irxn i else 0

/-- The quadratic form `v^T J v` over the species `0 .. n-1`. -/
def quadraticForm (n : Nat) (v : Nat → ℚ) (J : Nat → Nat → ℚ) : ℚ :=
  ∑ a ∈ Finset.range n, ∑ b ∈ Finset.range n, v a * v b * J a b

/-! ## Rounding to `double` -/

/-- The number of halvings that bring `n` below 2, that is `⌊log₂ n⌋` for `n ≥ 1`, by
recursion on a bound `fuel ≥ n` for the number of halvings. -/
def log2Fuel : Nat → Nat → Nat
  | 0, _ => 0
  | fuel + 1, n => if n < 2 then 0 else log2Fuel fuel (n / 2) + 1

/-- The binade of a nonzero rational `q`: the integer `e` with `2^e ≤ |q| < 2^(e+1)`. It is
the difference of the bit lengths of numerator and denominator or one less. -/
def binade (q : ℚ) : ℤ :=
  let l : ℤ := (log2Fuel q.num.natAbs q.num.natAbs : ℤ) - (log2Fuel q.den q.den : ℤ)
  if (2 : ℚ) ^ l ≤ |q| then l else l - 1

/-- Rounding of a rational to the nearest integer, a tie going to the even neighbour. -/
def roundHalfEven (x : ℚ) : ℤ :=
  let f := ⌊x⌋
  let r := x - f
  if r < 1 / 2 then f else if 1 / 2 < r then f + 1 else if f % 2 = 0 then f else f + 1

/-- The value an IEEE 754 binary64 operation (`double`, round to nearest, ties to even)
returns when its exact result is `q`: `q` rounded to 53 significant bits, or to a multiple
of `2^-1074` in the subnormal range. Overflow to infinity (a result of magnitude `2^1024`
or more) is outside the model. -/
def roundDouble (q : ℚ) : ℚ :=
  if q = 0 then 0
  else
    let e := max (binade q) (-1022) - 52
    (roundHalfEven (q / 2 ^ e) : ℚ) * 2 ^ e


/-! ## The routines in rounded arithmetic

Each definition below repeats one of the embeddings above with a rounding `fl` applied to
the exact result of every floating-point operation of the source, operand by operand and
in the order of the source, and to every decimal literal that is not itself a double.
With `fl = roundDouble` this is the routine in IEEE double arithmetic (every operation
rounded to binary64, no extended precision and no fused multiply-add); with `fl = id` it
is the exact-arithmetic embedding above. Negation, `fabs`, comparisons, assignments and
the literals 0.0, 0.5, 1.0, 10.0 and 1.0e10 are exact in double arithmetic. The members of
`VCS_SOLVE`, the constants of `VcsDefs` and the values written by `vcs_chemPotPhase` are
taken as they come: in a run in double arithmetic they hold doubles. -/

/-- Routine `VCS_SOLVE::vcs_Hessian_actCoeff_diag` in rounded arithmetic. -/
def vcs_Hessian_actCoeff_diag_fl (fl : ℚ → ℚ) (s : VCS_SOLVE) (irxn : Nat) : ℚ :=
  let kspec := s.m_indexRxnToSpecies irxn
  let kph := s.m_phaseID kspec
  let sc_irxn := s.m_stoichCoeffRxnMatrix irxn
  forLoop s.m_numComponents
    (fun l acc =>
      if s.m_SSPhase l = 0 then
        let acc1 := forLoop s.m_numComponents
          (fun k acc =>
            if s.m_phaseID k = s.m_phaseID l then
              fl (acc + fl (fl (sc_irxn k * sc_irxn l) * s.m_dLnActCoeffdMolNum k l))
            else acc) acc
        if kph = s.m_phaseID l then
          fl (acc1 + fl (sc_irxn l
            * fl (s.m_dLnActCoeffdMolNum kspec l + s.m_dLnActCoeffdMolNum l kspec)))
        else acc1
      else acc)
    (s.m_dLnActCoeffdMolNum kspec kspec)

/-- Routine `VCS_SOLVE::vcs_Hessian_diag_adj` in rounded arithmetic. -/
def vcs_Hessian_diag_adj_fl (fl : ℚ → ℚ) (s : VCS_SOLVE) (irxn : Nat)
    (hessianDiag_Ideal : ℚ) : Except VcsFailure ℚ :=
  let diag := hessianDiag_Ideal
  let hessActCoef := vcs_Hessian_actCoeff_diag_fl fl s irxn
  if hessianDiag_Ideal ≤ 0 then .error .exitFailure
  else if hessActCoef ≥ 0 then .ok (fl (diag + hessActCoef))
  else if |hessActCoef| < fl (fl 0.6666 * hessianDiag_Ideal) then .ok (fl (diag + hessActCoef))
  else .ok (fl (diag - fl (fl 0.6666 * hessianDiag_Ideal)))

/-- Lines 89-144 of `vcs_RxnStepSizes` in rounded arithmetic. -/
def birthStep_fl (fl : ℚ → ℚ) (D : VcsDefs) (s : VCS_SOLVE) (irxn kspec : Nat) : VCS_SOLVE :=
  if s.m_deltaGRxn_new irxn < -fl 1.0e-4 then
    let iph := s.m_phaseID kspec
    let tphmoles := s.m_tPhaseMoles_old iph
    let trphmoles := fl (tphmoles / s.m_totalMolNum)
    if trphmoles > D.VCS_DELETE_PHASE_CUTOFF then
      let s1 := { s with
        m_deltaMolNumSpecies := Function.update s.m_deltaMolNumSpecies kspec
          (fl (s.m_totalMolNum * D.VCS_SMALL_MULTIPHASE_SPECIES)) }
      if s1.m_speciesStatus kspec = D.VCS_SPECIES_STOICHZERO then
        { s1 with
          m_deltaMolNumSpecies := Function.update s1.m_deltaMolNumSpecies kspec 0 }
      else
        { s1 with
          m_deltaMolNumSpecies := Function.update s1.m_deltaMolNumSpecies kspec
            (fl (s1.m_totalMolNum * D.VCS_SMALL_MULTIPHASE_SPECIES)) }
    else
      let numSpPhase := (s.m_VolPhaseList iph).m_numSpecies
      { s with
        m_deltaMolNumSpecies := Function.update s.m_deltaMolNumSpecies kspec
          (fl (fl (fl (s.m_totalMolNum * 10.0) * D.VCS_DELETE_PHASE_CUTOFF)
            / (numSpPhase : ℚ))) }
  else
    { s with m_deltaMolNumSpecies := Function.update s.m_deltaMolNumSpecies kspec 0 }

/-- Lines 188-206 of `vcs_RxnStepSizes` in rounded arithmetic: `1.0 / n`, then
`s += SQUARE(nu) / n` over the components and `s -= SQUARE(dnPhase) / T` over the phases,
each product, quotient, sum and difference rounded. (`SQUARE` is defined in a header that
is not among the sources; it is taken as the product of its argument with itself.) -/
def hessianDiagIdeal_fl (fl : ℚ → ℚ) (s : VCS_SOLVE) (irxn kspec : Nat) : ℚ :=
  let dnPhase_irxn := s.m_deltaMolNumPhase irxn
  let s0 : ℚ := if s.m_SSPhase kspec ≠ 0 then 0 else fl (1 / s.m_molNumSpecies_old kspec)
  let s1 := forLoop s.m_numComponents
    (fun j acc =>
      if s.m_SSPhase j = 0 then
        if s.m_molNumSpecies_old j > 0 then
          fl (acc + fl (fl (s.m_stoichCoeffRxnMatrix irxn j * s.m_stoichCoeffRxnMatrix irxn j)
            / s.m_molNumSpecies_old j))
        else acc
      else acc) s0
  forLoop s.m_numPhases
    (fun j acc =>
      if (s.m_VolPhaseList j).m_singleSpecies = false then
        if s.m_tPhaseMoles_old j > 0 then
          fl (acc - fl (fl (dnPhase_irxn j * dnPhase_irxn j) / s.m_tPhaseMoles_old j))
        else acc
      else acc) s1

/-- Lines 229-260 of `vcs_RxnStepSizes` in rounded arithmetic: the product of line 232 and
the quotient of line 240 are rounded. -/
def dampStep_fl (fl : ℚ → ℚ) (s : VCS_SOLVE) (irxn kspec : Nat) (dn0 : ℚ) : ℚ :=
  let dn1 := forLoop s.m_numComponents
    (fun j dn =>
      let stoicC := s.m_stoichCoeffRxnMatrix irxn j
      if stoicC ≠ 0 then
        let negChangeComp := fl (- stoicC * dn)
        if negChangeComp > s.m_molNumSpecies_old j then
          if s.m_molNumSpecies_old j > 0 then
            fl (- s.m_molNumSpecies_old j / stoicC)
          else 0
        else dn
      else dn) dn0
  if - dn1 > s.m_molNumSpecies_old kspec then - s.m_molNumSpecies_old kspec else dn1

/-- Lines 207-260 of `vcs_RxnStepSizes` in rounded arithmetic. -/
def newtonStep_fl (fl : ℚ → ℚ) (s : VCS_SOLVE) (irxn kspec : Nat) (sdiag : ℚ) (soldel : Int)
    (k : Nat) : RxnOutcome :=
  let adj : Except VcsFailure ℚ :=
    if s.m_useActCoeffJac then vcs_Hessian_diag_adj_fl fl s irxn sdiag else .ok sdiag
  match adj with
  | .error _ => .exit
  | .ok sdiag1 =>
    .next { s with
      m_deltaMolNumSpecies := Function.update s.m_deltaMolNumSpecies kspec
        (dampStep_fl fl s irxn kspec (fl (- s.m_deltaGRxn_new irxn / sdiag1))) } soldel k

/-- Lines 275-299 of `vcs_RxnStepSizes` in rounded arithmetic: the quotients `xx` of lines
280 and 292 are rounded. -/
def deletionTarget_fl (fl : ℚ → ℚ) (s : VCS_SOLVE) (irxn kspec : Nat) (k : Nat) : ℚ × Nat :=
  if s.m_deltaGRxn_new irxn > 0 then
    let r := forLoop s.m_numComponents
      (fun j (r : ℚ × Nat) =>
        if s.m_stoichCoeffRxnMatrix irxn j > 0 then
          let xx := fl (s.m_molNumSpecies_old j / s.m_stoichCoeffRxnMatrix irxn j)
          if xx < r.1 then (xx, j) else r
        else r) (s.m_molNumSpecies_old kspec, kspec)
    (- r.1, r.2)
  else
    forLoop s.m_numComponents
      (fun j (r : ℚ × Nat) =>
        if s.m_stoichCoeffRxnMatrix irxn j < 0 then
          let xx := fl (- s.m_molNumSpecies_old j / s.m_stoichCoeffRxnMatrix irxn j)
          if xx < r.1 then (xx, j) else r
        else r) (1.0e10, k)

/-- Lines 309-319 of `vcs_RxnStepSizes` in rounded arithmetic: every `+=` is a rounded sum
of the entry and the rounded product `dss * nu`. -/
def applyDeletion_fl (fl : ℚ → ℚ) (s : VCS_SOLVE) (irxn kspec k : Nat) (dss : ℚ) : VCS_SOLVE :=
  let mol1 := Function.update s.m_molNumSpecies_old kspec
    (fl (s.m_molNumSpecies_old kspec + dss))
  let tph1 := Function.update s.m_tPhaseMoles_old (s.m_phaseID kspec)
    (fl (s.m_tPhaseMoles_old (s.m_phaseID kspec) + dss))
  let r := forLoop s.m_numComponents
    (fun j (r : (Nat → ℚ) × (Nat → ℚ)) =>
      (Function.update r.1 j (fl (r.1 j + fl (dss * s.m_stoichCoeffRxnMatrix irxn j))),
        Function.update r.2 (s.m_phaseID j)
          (fl (r.2 (s.m_phaseID j) + fl (dss * s.m_stoichCoeffRxnMatrix irxn j)))))
    (mol1, tph1)
  let iph := s.m_phaseID k
  { s with
    m_molNumSpecies_old := Function.update r.1 k 0
    m_tPhaseMoles_old := Function.update r.2 iph 0
    m_VolPhaseList := Function.update s.m_VolPhaseList iph
      ((s.m_VolPhaseList iph).setTotalMoles 0) }

/-- Lines 262-351 of `vcs_RxnStepSizes` in rounded arithmetic. -/
def deletionStep_fl (fl : ℚ → ℚ) (D : VcsDefs) (s : VCS_SOLVE) (irxn kspec : Nat)
    (soldel : Int) (k : Nat) : RxnOutcome :=
  let dss := (deletionTarget_fl fl s irxn kspec k).1
  let k1 := (deletionTarget_fl fl s irxn kspec k).2
  if dss ≠ 0 then
    let s1 := applyDeletion_fl fl s irxn kspec k1 dss
    if k1 = kspec then
      let s2 := { s1 with
        m_speciesStatus := Function.update s1.m_speciesStatus kspec D.VCS_SPECIES_ZEROEDSS }
      if s2.m_SSPhase kspec ≠ 1 then .exit
      else .next s2 1 k1
    else .ret s1 2
  else .next s soldel k1

/-- Lines 78-361 of `vcs_RxnStepSizes` in rounded arithmetic: the body of the loop over the
formation reactions. -/
def rxnStep_fl (fl : ℚ → ℚ) (D : VcsDefs) (irxn : Nat) (s : VCS_SOLVE) (soldel : Int)
    (k : Nat) : RxnOutcome :=
  let kspec := s.m_indexRxnToSpecies irxn
  if s.m_speciesStatus kspec = D.VCS_SPECIES_ZEROEDPHASE then
    .next { s with
      m_deltaMolNumSpecies := Function.update s.m_deltaMolNumSpecies kspec 0 } soldel k
  else if s.m_speciesUnknownType kspec ≠ D.VCS_SPECIES_TYPE_INTERFACIALVOLTAGE then
    if s.m_molNumSpecies_old kspec = 0 ∧ s.m_SSPhase kspec = 0 then
      .next (birthStep_fl fl D s irxn kspec) soldel k
    else if |s.m_deltaGRxn_new irxn| ≤ s.m_tolmaj2 then
      .next s soldel k
    else if s.m_speciesStatus kspec ≠ D.VCS_SPECIES_MAJOR ∧ s.m_deltaGRxn_new irxn ≥ 0 then
      .next s soldel k
    else if hessianDiagIdeal_fl fl s irxn kspec ≠ 0 then
      newtonStep_fl fl s irxn kspec (hessianDiagIdeal_fl fl s irxn kspec) soldel k
    else
      deletionStep_fl fl D s irxn kspec soldel k
  else
    .next s soldel k

/-- The loop over the formation reactions of `vcs_RxnStepSizes` in rounded arithmetic, with
`n` rounds left. -/
def rxnLoop_fl (fl : ℚ → ℚ) (D : VcsDefs) :
    Nat → Nat → VCS_SOLVE → Int → Nat → Except VcsFailure (Int × VCS_SOLVE)
  | 0, _, s, soldel, _ => .ok (soldel, s)
  | n + 1, irxn, s, soldel, k =>
    match rxnStep_fl fl D irxn s soldel k with
    | .next s1 soldel1 k1 => rxnLoop_fl fl D n (irxn + 1) s1 soldel1 k1
    | .ret s1 soldel1 => .ok (soldel1, s1)
    | .exit => .error .exitFailure

/-- Routine `VCS_SOLVE::vcs_RxnStepSizes` in rounded arithmetic. -/
def vcs_RxnStepSizes_fl (fl : ℚ → ℚ) (D : VcsDefs) (s : VCS_SOLVE) :
    Except VcsFailure (Int × VCS_SOLVE) :=
  let s1 := if s.m_useActCoeffJac then vcs_CalcLnActCoeffJac s s.m_molNumSpecies_old else s
  rxnLoop_fl fl D s1.m_numRxnRdc 0 s1 0 0

/-- Lines 734-738 of `deltaG_Recalc_Rxn` in rounded arithmetic. -/
def reactionDeltaG_fl (fl : ℚ → ℚ) (s : VCS_SOLVE) (irxn : Nat) (mu_i : Nat → ℚ) : ℚ :=
  let kspec := irxn + s.m_numComponents
  let sc_irxn := s.m_stoichCoeffRxnMatrix irxn
  forLoop s.m_numComponents (fun k deltaG => fl (deltaG + fl (sc_irxn k * mu_i k)))
    (mu_i kspec)

/-- Routine `VCS_SOLVE::deltaG_Recalc_Rxn` in rounded arithmetic; the values written by
`vcs_chemPotPhase` (the parameter `chemPot`) are taken as they come. -/
def deltaG_Recalc_Rxn_fl (fl : ℚ → ℚ) (chemPot : ChemPotPhase) (s : VCS_SOLVE) (stateCalc : Int)
    (irxn : Nat) (molNum ac mu_i : Nat → ℚ) : ℚ × (Nat → ℚ) × (Nat → ℚ) :=
  let pp_ptr := s.m_phaseParticipation irxn
  let bufs := forLoop s.m_numPhases
    (fun iphase (b : (Nat → ℚ) × (Nat → ℚ)) =>
      if pp_ptr iphase ≠ 0 then chemPot s stateCalc iphase molNum b else b) (ac, mu_i)
  (reactionDeltaG_fl fl s irxn bufs.2, bufs.1, bufs.2)

/-- Line 778 of `vcs_line_search` in rounded arithmetic. -/
def recalcOld_fl (fl : ℚ → ℚ) (chemPot : ChemPotPhase) (D : VcsDefs) (s : VCS_SOLVE)
    (irxn : Nat) : ℚ × VCS_SOLVE :=
  let r := deltaG_Recalc_Rxn_fl fl chemPot s D.VCS_STATECALC_OLD irxn s.m_molNumSpecies_old
    s.m_actCoeffSpecies_old s.m_feSpecies_old
  (r.1, { s with
    m_actCoeffSpecies_old := r.2.1
    m_feSpecies_old := r.2.2 })

/-- Lines 818 and 858 of `vcs_line_search` in rounded arithmetic. -/
def recalcNew_fl (fl : ℚ → ℚ) (chemPot : ChemPotPhase) (D : VcsDefs) (s : VCS_SOLVE)
    (irxn : Nat) : ℚ × VCS_SOLVE :=
  let r := deltaG_Recalc_Rxn_fl fl chemPot s D.VCS_STATECALC_NEW irxn s.m_molNumSpecies_new
    s.m_actCoeffSpecies_new s.m_feSpecies_new
  (r.1, { s with
    m_actCoeffSpecies_new := r.2.1
    m_feSpecies_new := r.2.2 })

/-- Lines 811-815 and 853-856 of `vcs_line_search` in rounded arithmetic. -/
def setTrialMoles_fl (fl : ℚ → ℚ) (s : VCS_SOLVE) (irxn kspec : Nat) (dx : ℚ) : VCS_SOLVE :=
  let sc_irxn := s.m_stoichCoeffRxnMatrix irxn
  let molNumBase := s.m_molNumSpecies_old
  { s with
    m_molNumSpecies_new := forLoop s.m_numComponents
      (fun k m => Function.update m k (fl (molNumBase k + fl (sc_irxn k * dx))))
      (Function.update s.m_molNumSpecies_new kspec (fl (molNumBase kspec + dx))) }

/-- Lines 847-880 of `vcs_line_search` in rounded arithmetic: the products of the sign
tests, the quotient and the right side of the decrease test, and the two quotients of
the interpolation (lines 875-876) are rounded. -/
def halvingLoop_fl (fl : ℚ → ℚ) (chemPot : ChemPotPhase) (D : VcsDefs) (irxn kspec : Nat)
    (dx_orig deltaGOrig forig : ℚ) : Nat → ℚ → VCS_SOLVE → Nat → LineSearchResult
  | 0, dx, s, n => ⟨dx, s, n⟩
  | left + 1, dx, s, n =>
    let dx1 := fl (dx * 0.5)
    let r := recalcNew_fl fl chemPot D (setTrialMoles_fl fl s irxn kspec dx1) irxn
    let deltaG := r.1
    if fl (deltaG * deltaGOrig) > 0 then ⟨dx1, r.2, n + 1⟩
    else if fl (|deltaG| / forig) < fl (1.0 - fl (fl (fl 0.1 * dx1) / dx_orig)) then
      if fl (deltaG * deltaGOrig) < 0 then
        let slope := fl (fl (deltaG - deltaGOrig) / dx1)
        ⟨fl (-deltaGOrig / slope), r.2, n + 1⟩
      else ⟨dx1, r.2, n + 1⟩
    else halvingLoop_fl fl chemPot D irxn kspec dx_orig deltaGOrig forig left dx1 r.2 (n + 1)

/-- Lines 807-898 of `vcs_line_search` in rounded arithmetic: `forig`, the products of the
sign tests, `0.8*forig` and the two quotients of the interpolation (lines 837-838) are
rounded. -/
def lineSearchTrials_fl (fl : ℚ → ℚ) (chemPot : ChemPotPhase) (D : VcsDefs) (s : VCS_SOLVE)
    (irxn kspec : Nat) (dx_orig deltaGOrig : ℚ) : LineSearchResult :=
  let forig := fl (|deltaGOrig| + fl 1.0e-15)
  if dx_orig = 0 then ⟨0, s, 1⟩
  else
    let s1 := { s with
      m_molNumSpecies_new := vcs_dcopy s.m_molNumSpecies_new s.m_molNumSpecies_old
        s.m_numSpeciesRdc }
    let r := recalcNew_fl fl chemPot D (setTrialMoles_fl fl s1 irxn kspec dx_orig) irxn
    let deltaG1 := r.1
    if fl (deltaG1 * deltaGOrig) > 0 then ⟨dx_orig, r.2, 2⟩
    else if |deltaG1| < fl (fl 0.8 * forig) then
      if fl (deltaG1 * deltaGOrig) < 0 then
        let slope := fl (fl (deltaG1 - deltaGOrig) / dx_orig)
        ⟨fl (-deltaGOrig / slope), r.2, 2⟩
      else ⟨dx_orig, r.2, 2⟩
    else halvingLoop_fl fl chemPot D irxn kspec dx_orig deltaGOrig forig 10 dx_orig r.2 2

/-- Routine `VCS_SOLVE::vcs_line_search` (the build without `DEBUG_MODE`) in rounded
arithmetic. -/
def vcs_line_search_fl (fl : ℚ → ℚ) (chemPot : ChemPotPhase) (D : VcsDefs) (s : VCS_SOLVE)
    (irxn : Nat) (dx_orig : ℚ) : LineSearchResult :=
  let kspec := s.m_indexRxnToSpecies irxn
  let r := recalcOld_fl fl chemPot D s irxn
  let deltaGOrig := r.1
  if deltaGOrig > 0 then
    if dx_orig > 0 then ⟨0, r.2, 1⟩
    else lineSearchTrials_fl fl chemPot D r.2 irxn kspec dx_orig deltaGOrig
  else if deltaGOrig < 0 then
    if dx_orig < 0 then ⟨0, r.2, 1⟩
    else lineSearchTrials_fl fl chemPot D r.2 irxn kspec dx_orig deltaGOrig
  else if deltaGOrig = 0 then ⟨0, r.2, 1⟩
  else lineSearchTrials_fl fl chemPot D r.2 irxn kspec dx_orig deltaGOrig

/-- A rounding that keeps the sign: a nonnegative value rounds to a nonnegative value and a
nonpositive value to a nonpositive value. -/
def SignPreserving (fl : ℚ → ℚ) : Prop :=
  ∀ x, (0 ≤ x → 0 ≤ fl x) ∧ (x ≤ 0 → fl x ≤ 0)

/-- The step `x` does not point uphill for the ΔG `g`: `x ≤ 0` when `g > 0` and `x ≥ 0` when
`g < 0`. -/
def Opposes (g x : ℚ) : Prop :=
  (0 < g → x ≤ 0) ∧ (g < 0 → 0 ≤ x)

/-- The path condition of the Newton branch (`s != 0`) of `vcs_RxnStepSizes` in rounded
arithmetic: the tests of lines 80, 85, 89, 156, 172 and 207 in turn, the last on the
rounded ideal diagonal. -/
def takesNewtonBranch_fl (fl : ℚ → ℚ) (D : VcsDefs) (s : VCS_SOLVE) (irxn : Nat) : Prop :=
  s.m_speciesStatus (s.m_indexRxnToSpecies irxn) ≠ D.VCS_SPECIES_ZEROEDPHASE
    ∧ s.m_speciesUnknownType (s.m_indexRxnToSpecies irxn)
      ≠ D.VCS_SPECIES_TYPE_INTERFACIALVOLTAGE
    ∧ ¬ (s.m_molNumSpecies_old (s.m_indexRxnToSpecies irxn) = 0
      ∧ s.m_SSPhase (s.m_indexRxnToSpecies irxn) = 0)
    ∧ ¬ |s.m_deltaGRxn_new irxn| ≤ s.m_tolmaj2
    ∧ ¬ (s.m_speciesStatus (s.m_indexRxnToSpecies irxn) ≠ D.VCS_SPECIES_MAJOR
      ∧ s.m_deltaGRxn_new irxn ≥ 0)
    ∧ hessianDiagIdeal_fl fl s irxn (s.m_indexRxnToSpecies irxn) ≠ 0

/-! ## Concrete inputs -/

/-- An assignment of integer codes and cutoffs, used for the concrete inputs below. -/
def sampleDefs : VcsDefs where
  VCS_UNITS_KCALMOL := -1
  VCS_UNITS_UNITLESS := 0
  VCS_UNITS_KJMOL := 1
  VCS_UNITS_KELVIN := 2
  VCS_UNITS_MKS := 3
  VCS_DIMENSIONAL_G := 1
  VCS_NONDIMENSIONAL_G := 0
  VCS_SPECIES_TYPE_MOLNUM := 0
  VCS_SPECIES_TYPE_INTERFACIALVOLTAGE := -5
  VCS_ELEM_TYPE_ABSPOS := 0
  VCS_SPECIES_MAJOR := 1
  VCS_SPECIES_ZEROEDPHASE := -6
  VCS_SPECIES_ZEROEDSS := -3
  VCS_SPECIES_STOICHZERO := -8
  VCS_DELETE_PHASE_CUTOFF := 1.0e-13
  VCS_SMALL_MULTIPHASE_SPECIES := 1.0e-25
  VCS_STATECALC_OLD := 0
  VCS_STATECALC_NEW := 1
  units_nodup := by decide
  unitsState_ne := by decide

/-- A single-species phase object with no moles. -/
def emptyPhase : vcs_VolPhase where
  m_singleSpecies := true
  m_isIdealSoln := true
  m_numSpecies := 1
  v_totalMoles := 0
  m_totalMolesInert := 0
  sendToVCS_LnActCoeffJac := fun _ J => J

/-- A dimensional MKS solver state at 300 K with no species, elements, phases or
reactions; the concrete inputs below override some of its members. -/
def emptySolve : VCS_SOLVE where
  m_unitsState := 1
  m_VCS_UnitsFormat := 3
  m_temperature := 300
  m_numSpeciesTot := 0
  m_numElemConstraints := 0
  m_numPhases := 0
  m_numComponents := 0
  m_numRxnRdc := 0
  m_SSfeSpecies := fun _ => 0
  m_feSpecies_old := fun _ => 0
  m_deltaGRxn_new := fun _ => 0
  m_deltaGRxn_old := fun _ => 0
  m_Faraday_dim := 0
  m_elType := fun _ => 0
  m_elemAbundancesGoal := fun _ => 0
  m_totalMoleScale := 1
  m_speciesUnknownType := fun _ => 0
  m_molNumSpecies_old := fun _ => 0
  TPhInertMoles := fun _ => 0
  m_VolPhaseList := fun _ => emptyPhase
  m_tPhaseMoles_old := fun _ => 0
  m_totalMolNum := 0
  m_phaseID := fun i => i
  m_useActCoeffJac := false
  m_indexRxnToSpecies := fun r => r
  m_speciesStatus := fun _ => 1
  m_deltaMolNumSpecies := fun _ => 0
  m_deltaMolNumPhase := fun _ _ => 0
  m_SSPhase := fun _ => 1
  m_tolmaj2 := 0
  m_stoichCoeffRxnMatrix := fun _ _ => 0
  m_dLnActCoeffdMolNum := fun _ _ => 0
  m_phaseParticipation := fun _ _ => 0
  m_numSpeciesRdc := 0
  m_molNumSpecies_new := fun _ => 0
  m_actCoeffSpecies_old := fun _ => 1
  m_actCoeffSpecies_new := fun _ => 1
  m_feSpecies_new := fun _ => 0

/-- Two species in two single-species phases and one AbsPos element with goal 3: species
0 is a mole-number unknown with 2 kmol and chemical potential 5, species 1 is an
interfacial-voltage unknown holding 7; MKS units, 300 K; total input moles 2 + 3 = 5. -/
def smallSolve : VCS_SOLVE :=
  { emptySolve with
    m_numSpeciesTot := 2
    m_numElemConstraints := 1
    m_numPhases := 2
    m_molNumSpecies_old := fun i => if i = 0 then 2 else if i = 1 then 7 else 0
    m_speciesUnknownType := fun i => if i = 1 then -5 else 0
    m_elemAbundancesGoal := fun i => if i = 0 then 3 else 0
    m_SSfeSpecies := fun i => if i = 0 then 5 else 0
    m_feSpecies_old := fun i => if i = 0 then 5 else 0 }

/-- As `smallSolve`, but species 0 holds 49997 kmol, so the total input moles are 5e4
and the mole scale is 5. -/
def largeSolve : VCS_SOLVE :=
  { smallSolve with
    m_molNumSpecies_old := fun i => if i = 0 then 49997 else if i = 1 then 7 else 0 }

/-- One mole-number species holding 1e-5 kmol in one phase, no element constraints; MKS
units, dimensional: the total input moles are 1e-5, below 1e-4. -/
def tinySolve : VCS_SOLVE :=
  { emptySolve with
    m_numSpeciesTot := 1
    m_numPhases := 1
    m_molNumSpecies_old := fun i => if i = 0 then 1.0e-5 else 0 }

/-- As `largeSolve` (total input moles 5e4), but with units format kJ/mol. -/
def largeSolveKJ : VCS_SOLVE :=
  { largeSolve with m_VCS_UnitsFormat := 1 }

/-- One component (species 0, 1 kmol) and one formation reaction with species 1
(2 kmol) and `nu[0][0] = -1`, both species in the multispecies phase 0 (3 kmol);
`ΔG = -6`, so the ideal diagonal is `1/2 + 1 = 3/2` and the undamped Newton step 4. -/
def newtonSolve : VCS_SOLVE :=
  { emptySolve with
    m_numSpeciesTot := 2
    m_numPhases := 1
    m_numComponents := 1
    m_numRxnRdc := 1
    m_molNumSpecies_old := fun i => if i = 0 then 1 else if i = 1 then 2 else 0
    m_indexRxnToSpecies := fun r => r + 1
    m_phaseID := fun _ => 0
    m_SSPhase := fun _ => 0
    m_VolPhaseList := fun _ => { emptyPhase with m_singleSpecies := false, m_numSpecies := 2 }
    m_tPhaseMoles_old := fun i => if i = 0 then 3 else 0
    m_totalMolNum := 3
    m_stoichCoeffRxnMatrix := fun r j => if r = 0 ∧ j = 0 then -1 else 0
    m_deltaGRxn_new := fun r => if r = 0 then -6 else 0 }

/-- One component (species 0, 2e10 kmol) and one formation reaction with species 1
(1 kmol), `nu[0][0] = -1` and `ΔG = -1`; each species is alone in its single-species
phase; units kJ/mol, for which no mole scaling is applied. -/
def sentinelSolve : VCS_SOLVE :=
  { emptySolve with
    m_VCS_UnitsFormat := 1
    m_numSpeciesTot := 2
    m_numPhases := 2
    m_numComponents := 1
    m_numRxnRdc := 1
    m_molNumSpecies_old := fun i => if i = 0 then 2.0e10 else if i = 1 then 1 else 0
    m_tPhaseMoles_old := fun i => if i = 0 then 2.0e10 else if i = 1 then 1 else 0
    m_totalMolNum := 2.0e10 + 1
    m_indexRxnToSpecies := fun r => r + 1
    m_stoichCoeffRxnMatrix := fun _ j => if j = 0 then -1 else 0
    m_deltaMolNumPhase := fun _ p => if p = 0 then -1 else if p = 1 then 1 else 0
    m_deltaGRxn_new := fun _ => -1 }

/-- The formula matrix of a system with one element, one atom of it in every species. -/
def oneElement : Nat → Nat → ℚ :=
  fun _ e => if e = 0 then 1 else 0

/-- One component (species 0, 2e10 kmol) and two formation reactions with species 1 and 2
(1 kmol each), `nu[r][0] = -1`, `ΔG = 1` for reaction 0 and `ΔG = -1` for reaction 1;
each species is alone in its single-species phase; units kJ/mol. -/
def twoRxnSolve : VCS_SOLVE :=
  { emptySolve with
    m_VCS_UnitsFormat := 1
    m_numSpeciesTot := 3
    m_numPhases := 3
    m_numComponents := 1
    m_numRxnRdc := 2
    m_molNumSpecies_old := fun i => if i = 0 then 2.0e10 else if i = 1 then 1
      else if i = 2 then 1 else 0
    m_tPhaseMoles_old := fun i => if i = 0 then 2.0e10 else if i = 1 then 1
      else if i = 2 then 1 else 0
    m_totalMolNum := 2.0e10 + 2
    m_indexRxnToSpecies := fun r => r + 1
    m_stoichCoeffRxnMatrix := fun _ j => if j = 0 then -1 else 0
    m_deltaMolNumPhase := fun r p => if p = 0 then -1 else if p = r + 1 then 1 else 0
    m_deltaGRxn_new := fun r => if r = 0 then 1 else -1 }

/-- The members after `vcs_RxnStepSizes` has processed reaction 0 of `twoRxnSolve`: the
extent -1 has been applied, species 1 is zeroed and marked `VCS_SPECIES_ZEROEDSS`. -/
def twoRxnMid : VCS_SOLVE :=
  { applyDeletion twoRxnSolve 0 1 1 (-1) with
    m_speciesStatus := Function.update (applyDeletion twoRxnSolve 0 1 1 (-1)).m_speciesStatus 1
      sampleDefs.VCS_SPECIES_ZEROEDSS }

/-- As `largeSolve` (MKS, total input moles 5e4), but at the temperature -5. -/
def coldSolve : VCS_SOLVE :=
  { largeSolve with m_temperature := -5 }

/-- As `newtonSolve`, with the activity-coefficient Jacobian switched on and equal to -2 on
the diagonal and 0 elsewhere: the activity-coefficient term of reaction 0 is -4. -/
def jacSolve : VCS_SOLVE :=
  { newtonSolve with
    m_useActCoeffJac := true
    m_dLnActCoeffdMolNum := fun a b => if a = b then -2 else 0 }

/-- As `newtonSolve`, with the tolerance `m_tolmaj2 = 10`, above `|ΔG| = 6`. -/
def convergedSolve : VCS_SOLVE :=
  { newtonSolve with m_tolmaj2 := 10 }

/-- As `newtonSolve`, but species 1 has status 0 (not Major) and `ΔG = 6 ≥ 0`. -/
def minorSolve : VCS_SOLVE :=
  { newtonSolve with
    m_speciesStatus := fun _ => 0
    m_deltaGRxn_new := fun _ => 6 }

/-- As `sentinelSolve`, with standard-state chemical potentials 3 (species 0) and 2
(species 1) and both phases taking part in reaction 0. -/
def gibbsSolve : VCS_SOLVE :=
  { sentinelSolve with
    m_SSfeSpecies := fun i => if i = 0 then 3 else if i = 1 then 2 else 0
    m_phaseParticipation := fun _ p => if p < 2 then 1 else 0 }

/-- Three species in three single-species phases: components 0 (6 kmol) and 1 (3 kmol),
and species 2 (4 kmol) formed by reaction 0 with `nu[0][0] = 2`, `nu[0][1] = 1` and
`ΔG = 1`. The ratios `n_j / nu_j` of the two components tie at 3, below `n_2 = 4`. -/
def tieSolve : VCS_SOLVE :=
  { emptySolve with
    m_VCS_UnitsFormat := 1
    m_numSpeciesTot := 3
    m_numPhases := 3
    m_numComponents := 2
    m_numRxnRdc := 1
    m_molNumSpecies_old := fun i => if i = 0 then 6 else if i = 1 then 3
      else if i = 2 then 4 else 0
    m_tPhaseMoles_old := fun i => if i = 0 then 6 else if i = 1 then 3
      else if i = 2 then 4 else 0
    m_totalMolNum := 13
    m_indexRxnToSpecies := fun r => r + 2
    m_stoichCoeffRxnMatrix := fun _ j => if j = 0 then 2 else if j = 1 then 1 else 0
    m_deltaMolNumPhase := fun r p => if p = 0 then 2 else if p = 1 then 1
      else if p = r + 2 then 1 else 0
    m_deltaGRxn_new := fun _ => 1 }

/-- One component (species 0, 5 kmol, alone in the single-species phase 1) and two
formation reactions with species 1 (2 kmol) and 2 (0 kmol), which share the two-species
phase 0; `nu[r][0] = -1`, `ΔG = 1` for reaction 0. Phase 0 holds `T_0 = 2 = n_1` and
`ΔN_0 = 1`, so the ideal diagonal of reaction 0 is `1/2 - 1/2 = 0`. -/
def cancelSolve : VCS_SOLVE :=
  { emptySolve with
    m_VCS_UnitsFormat := 1
    m_numSpeciesTot := 3
    m_numPhases := 2
    m_numComponents := 1
    m_numRxnRdc := 2
    m_molNumSpecies_old := fun i => if i = 0 then 5 else if i = 1 then 2 else 0
    m_phaseID := fun i => if i = 0 then 1 else 0
    m_SSPhase := fun i => if i = 0 then 1 else 0
    m_VolPhaseList := fun p =>
      if p = 0 then { emptyPhase with m_singleSpecies := false, m_numSpecies := 2 }
      else emptyPhase
    m_tPhaseMoles_old := fun p => if p = 0 then 2 else if p = 1 then 5 else 0
    m_totalMolNum := 7
    m_indexRxnToSpecies := fun r => r + 1
    m_stoichCoeffRxnMatrix := fun _ j => if j = 0 then -1 else 0
    m_deltaMolNumPhase := fun _ p => if p = 0 then 1 else if p = 1 then -1 else 0
    m_deltaGRxn_new := fun r => if r = 0 then 1 else 0 }

/-- As `cancelSolve`, but the two-species phase 0 is empty (`n_1 = n_2 = 0`, `T_0 = 0`),
the total is 10 kmol, all in species 0, and `ΔG = -1` for both reactions. -/
def birthSolve : VCS_SOLVE :=
  { cancelSolve with
    m_molNumSpecies_old := fun i => if i = 0 then 10 else 0
    m_tPhaseMoles_old := fun p => if p = 1 then 10 else 0
    m_totalMolNum := 10
    m_deltaGRxn_new := fun _ => -1 }

/-- As `birthSolve`, with species 1 marked `VCS_SPECIES_STOICHZERO`. -/
def stoichZeroSolve : VCS_SOLVE :=
  { birthSolve with
    m_speciesStatus := fun i => if i = 1 then sampleDefs.VCS_SPECIES_STOICHZERO else 1 }

/-- A stand-in for `vcs_chemPotPhase` on systems in which phase `p` holds the one species
`p`: the chemical potential of species 1 becomes `f` of its mole number, that of any
other species 0; the activity coefficients are left alone. -/
def tableChemPot (f : ℚ → ℚ) : ChemPotPhase :=
  fun _ _ iphase molNum b =>
    (b.1, fun i => if i = iphase then (if i = 1 then f (molNum 1) else 0) else b.2 i)

/-- As `gibbsSolve` (species 1 of reaction 0 holds 1 kmol, `nu[0][0] = -1`, both phases
take part), with `m_numSpeciesRdc = 2`; the buffer `m_feSpecies_old` holds 0 throughout. -/
def searchSolve : VCS_SOLVE :=
  { gibbsSolve with m_numSpeciesRdc := 2 }

/-- A chemical potential of species 1 that is -1 at 1 kmol, 1/2 at 5/4 kmol and 2 at any
other mole number. -/
def kinkTable : ℚ → ℚ :=
  fun n => if n = 1 then -1 else if n = 5 / 4 then 1 / 2 else 2

/-- A chemical potential of species 1 that is -1 at 1 kmol and 1/2 at any other mole
number. -/
def gentleTable : ℚ → ℚ :=
  fun n => if n = 1 then -1 else 1 / 2

/-- As `birthSolve` (species 1 has zero moles in the empty two-species phase 0,
`ΔG = -1 < -1e-4`), with species 1 marked `VCS_SPECIES_ZEROEDPHASE` and a stale step of 7
in `m_deltaMolNumSpecies[1]`. -/
def zeroedPhaseSolve : VCS_SOLVE :=
  { birthSolve with
    m_speciesStatus := fun i => if i = 1 then sampleDefs.VCS_SPECIES_ZEROEDPHASE else 1
    m_deltaMolNumSpecies := fun i => if i = 1 then 7 else 0 }

/-- One component (species 0, 12 kmol) and one formation reaction with species 1 (3 kmol)
and `nu[0][0] = 4`, both species in the multispecies phase 0, whose total is
`T_0 = 12 + 3 = 15` and whose change is `ΔN_0 = 4 + 1 = 5`; `ΔG = -1`, status Major, and the
activity-coefficient Jacobian switched on (it is zero). The ratio `v_i / n_i` is `1/3` for
both species, so the ideal diagonal `1/3 + 16/12 - 25/15` is 0 in exact arithmetic. -/
def thirdsSolve : VCS_SOLVE :=
  { newtonSolve with
    m_molNumSpecies_old := fun i => if i = 0 then 12 else if i = 1 then 3 else 0
    m_tPhaseMoles_old := fun p => if p = 0 then 15 else 0
    m_totalMolNum := 15
    m_stoichCoeffRxnMatrix := fun r j => if r = 0 ∧ j = 0 then 4 else 0
    m_deltaMolNumPhase := fun r p => if r = 0 ∧ p = 0 then 5 else 0
    m_deltaGRxn_new := fun r => if r = 0 then -1 else 0
    m_useActCoeffJac := true }

/-- As `tieSolve` (three single-species phases, species 2 formed by reaction 0 from the
components 0 and 1, `ΔG = 1`), with the double `0.9` kmol in each component, 10 kmol in
species 2 and `nu[0][0] = nu[0][1] = 7`: the two ratios `n_j / nu_j` tie. -/
def nearTieSolve : VCS_SOLVE :=
  { tieSolve with
    m_molNumSpecies_old := fun i => if i = 0 then roundDouble 0.9
      else if i = 1 then roundDouble 0.9 else if i = 2 then 10 else 0
    m_tPhaseMoles_old := fun i => if i = 0 then roundDouble 0.9
      else if i = 1 then roundDouble 0.9 else if i = 2 then 10 else 0
    m_totalMolNum := roundDouble (roundDouble (roundDouble 0.9 + roundDouble 0.9) + 10)
    m_stoichCoeffRxnMatrix := fun _ j => if j = 0 then 7 else if j = 1 then 7 else 0
    m_deltaMolNumPhase := fun r p => if p = 0 then 7 else if p = 1 then 7
      else if p = r + 2 then 1 else 0 }

/-- A chemical potential of species 1 that is -1 at 1 kmol and the double `1e-30` at any
other mole number. -/
def faintTable : ℚ → ℚ :=
  fun n => if n = 1 then -1 else roundDouble 1.0e-30

/-- What a run of `vcs_RxnStepSizes` shows of its result: the return code and the first
three entries of `m_molNumSpecies_old` and of `m_deltaMolNumSpecies`, or `none` when the
routine aborts. -/
def observeMoles : Except VcsFailure (Int × VCS_SOLVE) → Option (Int × List ℚ × List ℚ)
  | .ok (code, s) => some (code, [s.m_molNumSpecies_old 0, s.m_molNumSpecies_old 1,
      s.m_molNumSpecies_old 2], [s.m_deltaMolNumSpecies 0, s.m_deltaMolNumSpecies 1,
      s.m_deltaMolNumSpecies 2])
  | .error _ => none

/-- Whether a run ended in `exit(EXIT_FAILURE)`. -/
def endsInExit {α : Type} : Except VcsFailure α → Bool
  | .error .exitFailure => true
  | _ => false

/-! ## Loops in closed form -/

theorem mapBelow_zero {α : Type} (g : Nat → α → α) (a : Nat → α) : mapBelow 0 g a = a := by
  funext i; simp [mapBelow]

theorem mapBelow_self {α : Type} (n : Nat) (g : Nat → α → α) (a : Nat → α) :
    mapBelow n g a n = a n := by
  simp [mapBelow]

theorem update_mapBelow {α : Type} (n : Nat) (g : Nat → α → α) (a : Nat → α) (v : α)
    (hv : v = g n (a n)) : Function.update (mapBelow n g a) n v = mapBelow (n + 1) g a := by
  subst hv
  funext i
  by_cases h : i = n
  · subst h; simp [mapBelow]
  · have h1 : i < n + 1 ↔ i < n := by omega
    simp [mapBelow, Function.update, h, h1]

theorem forLoop_closed {σ : Type} (body : Nat → σ → σ) (init : σ) (F : Nat → σ)
    (h0 : F 0 = init) (hstep : ∀ n, body n (F n) = F (n + 1)) (n : Nat) :
    forLoop n body init = F n := by
  induction n with
  | zero => simp [forLoop, h0]
  | succ m ih => simp [forLoop, ih, hstep]

theorem scaleFreeEnergies_eq (tf : ℚ) (s : VCS_SOLVE) :
    scaleFreeEnergies tf s = { s with
      m_SSfeSpecies := mapBelow s.m_numSpeciesTot (fun _ x => x * tf) s.m_SSfeSpecies
      m_deltaGRxn_new := mapBelow s.m_numSpeciesTot (fun _ x => x * tf) s.m_deltaGRxn_new
      m_deltaGRxn_old := mapBelow s.m_numSpeciesTot (fun _ x => x * tf) s.m_deltaGRxn_old
      m_feSpecies_old := mapBelow s.m_numSpeciesTot (fun _ x => x * tf) s.m_feSpecies_old } := by
  unfold scaleFreeEnergies
  refine forLoop_closed _ _ (fun n => { s with
      m_SSfeSpecies := mapBelow n (fun _ x => x * tf) s.m_SSfeSpecies
      m_deltaGRxn_new := mapBelow n (fun _ x => x * tf) s.m_deltaGRxn_new
      m_deltaGRxn_old := mapBelow n (fun _ x => x * tf) s.m_deltaGRxn_old
      m_feSpecies_old := mapBelow n (fun _ x => x * tf) s.m_feSpecies_old }) ?_ ?_ _
  · simp [mapBelow_zero]
  · intro n
    simp only [mapBelow_self]
    rw [update_mapBelow n _ s.m_SSfeSpecies _ rfl, update_mapBelow n _ s.m_deltaGRxn_new _ rfl,
      update_mapBelow n _ s.m_deltaGRxn_old _ rfl, update_mapBelow n _ s.m_feSpecies_old _ rfl]

theorem scaleSpeciesMoles_eq (D : VcsDefs) (f : ℚ) (s : VCS_SOLVE) :
    scaleSpeciesMoles D f s = { s with
      m_molNumSpecies_old := mapBelow s.m_numSpeciesTot
        (fun i x => if s.m_speciesUnknownType i ≠ D.VCS_SPECIES_TYPE_INTERFACIALVOLTAGE
          then x * f else x) s.m_molNumSpecies_old } := by
  unfold scaleSpeciesMoles
  refine forLoop_closed _ _ (fun n => { s with
        m_molNumSpecies_old := mapBelow n
          (fun i x => if s.m_speciesUnknownType i ≠ D.VCS_SPECIES_TYPE_INTERFACIALVOLTAGE
            then x * f else x) s.m_molNumSpecies_old }) ?_ ?_ _
  · simp [mapBelow_zero]
  · intro n
    by_cases hv : s.m_speciesUnknownType n = D.VCS_SPECIES_TYPE_INTERFACIALVOLTAGE
    · simp only [hv, ne_eq, not_true_eq_false, if_false]
      rw [← update_mapBelow n _ s.m_molNumSpecies_old (s.m_molNumSpecies_old n)
        (by simp [hv])]
      rw [← mapBelow_self n (fun i x => if s.m_speciesUnknownType i
          ≠ D.VCS_SPECIES_TYPE_INTERFACIALVOLTAGE then x * f else x) s.m_molNumSpecies_old,
        Function.update_eq_self]
    · simp only [hv, ne_eq, not_false_eq_true, if_true, mapBelow_self]
      rw [update_mapBelow n _ s.m_molNumSpecies_old _ (by simp [hv])]

theorem scaleElemGoals_eq (f : ℚ) (s : VCS_SOLVE) :
    scaleElemGoals f s = { s with
      m_elemAbundancesGoal := mapBelow s.m_numElemConstraints (fun _ x => x * f)
        s.m_elemAbundancesGoal } := by
  unfold scaleElemGoals
  refine forLoop_closed _ _ (fun n => { s with
    m_elemAbundancesGoal := mapBelow n (fun _ x => x * f) s.m_elemAbundancesGoal }) ?_ ?_ _
  · simp [mapBelow_zero]
  · intro n
    simp only [mapBelow_self]
    rw [update_mapBelow n _ s.m_elemAbundancesGoal _ rfl]

theorem scaleInertMoles_eq (f : ℚ) (s : VCS_SOLVE) :
    scaleInertMoles f s = { s with
      TPhInertMoles := mapBelow s.m_numPhases (fun _ x => x * f) s.TPhInertMoles
      m_VolPhaseList := mapBelow s.m_numPhases
        (fun iph p => if s.TPhInertMoles iph * f ≠ 0
          then p.setTotalMolesInert (s.TPhInertMoles iph * f) else p) s.m_VolPhaseList } := by
  unfold scaleInertMoles
  refine forLoop_closed _ _ (fun n => { s with
        TPhInertMoles := mapBelow n (fun _ x => x * f) s.TPhInertMoles
        m_VolPhaseList := mapBelow n
          (fun iph p => if s.TPhInertMoles iph * f ≠ 0
            then p.setTotalMolesInert (s.TPhInertMoles iph * f) else p)
          s.m_VolPhaseList }) ?_ ?_ _
  · simp [mapBelow_zero]
  · intro n
    simp only [mapBelow_self, Function.update_same]
    rw [update_mapBelow n _ s.TPhInertMoles _ rfl]
    by_cases hz : s.TPhInertMoles n * f = 0
    · simp only [hz, ne_eq, not_true_eq_false, if_false]
      rw [← update_mapBelow n _ s.m_VolPhaseList (s.m_VolPhaseList n) (by simp [hz])]
      rw [← mapBelow_self n (fun iph p => if s.TPhInertMoles iph * f ≠ 0
            then p.setTotalMolesInert (s.TPhInertMoles iph * f) else p) s.m_VolPhaseList,
        Function.update_eq_self]
    · simp only [hz, ne_eq, not_false_eq_true, if_true]
      rw [update_mapBelow n _ s.m_VolPhaseList _ (by simp [hz])]

theorem scaleMoles_eq (D : VcsDefs) (f : ℚ) (s : VCS_SOLVE) :
    scaleMoles D f s = { s with
      m_molNumSpecies_old := mapBelow s.m_numSpeciesTot
        (fun i x => if s.m_speciesUnknownType i ≠ D.VCS_SPECIES_TYPE_INTERFACIALVOLTAGE
          then x * f else x) s.m_molNumSpecies_old
      m_elemAbundancesGoal := mapBelow s.m_numElemConstraints (fun _ x => x * f)
        s.m_elemAbundancesGoal
      TPhInertMoles := mapBelow s.m_numPhases (fun _ x => x * f) s.TPhInertMoles
      m_VolPhaseList := mapBelow s.m_numPhases
        (fun iph p => if s.TPhInertMoles iph * f ≠ 0
          then p.setTotalMolesInert (s.TPhInertMoles iph * f) else p) s.m_VolPhaseList } := by
  unfold scaleMoles
  rw [scaleSpeciesMoles_eq, scaleElemGoals_eq, scaleInertMoles_eq]

theorem vcs_tmoles_snd (D : VcsDefs) (s : VCS_SOLVE) :
    (vcs_tmoles D s).2 = { s with
      m_tPhaseMoles_old := phaseTotals D s
      m_totalMolNum := (vcs_tmoles D s).1
      m_VolPhaseList := (sumPhaseTotals D s).2 } := rfl

/-! ## Facts about the two multipliers -/

theorem vcs_nondimMult_TP_ok (D : VcsDefs) (u : Int) (T : ℚ) (hu : recognisedUnits D u) :
    ∃ rt, vcs_nondimMult_TP D u T = .ok rt ∧ 0 < rt := by
  have hT : (0 : ℚ) < if T ≤ 0 then 293.15 else T := by
    split_ifs with h
    · norm_num
    · exact lt_of_not_ge h
  unfold vcs_nondimMult_TP
  simp only []
  generalize (if T ≤ 0 then (293.15 : ℚ) else T) = T' at hT
  split_ifs with h1 h2 h3 h4 h5
  · exact ⟨_, rfl, by positivity⟩
  · exact ⟨_, rfl, by norm_num⟩
  · exact ⟨_, rfl, by positivity⟩
  · exact ⟨_, rfl, hT⟩
  · exact ⟨_, rfl, by positivity⟩
  · exfalso
    rcases hu with h | h | h | h | h <;> contradiction

theorem vcs_nondim_Farad_ok (D : VcsDefs) (u : Int) (T : ℚ) (hu : recognisedUnits D u) :
    ∃ fd, vcs_nondim_Farad D u T = .ok fd := by
  unfold vcs_nondim_Farad
  simp only []
  generalize (if T ≤ 0 then (293.15 : ℚ) else T) = T'
  split_ifs with h1 h2 h3
  · exact ⟨_, rfl⟩
  · exact ⟨_, rfl⟩
  · exact ⟨_, rfl⟩
  · exfalso
    rcases hu with h | h | h | h | h
    · exact h1 (Or.inr (Or.inr h))
    · exact h2 h
    · exact h1 (Or.inr (Or.inl h))
    · exact h3 h
    · exact h1 (Or.inl h)

/-! ## The two scaling routines, field by field -/

theorem vcs_nondim_TP_post (D : VcsDefs) (s : VCS_SOLVE) (rt : ℚ)
    (hdim : s.m_unitsState = D.VCS_DIMENSIONAL_G)
    (hu : recognisedUnits D s.m_VCS_UnitsFormat)
    (hrt : vcs_nondimMult_TP D s.m_VCS_UnitsFormat s.m_temperature = .ok rt)
    (hlo : ¬ tmole_orig D s < 1.0e-200) (hhi : ¬ tmole_orig D s > 1.0e200) :
    ∃ s', vcs_nondim_TP D s = .ok s' ∧ NondimPost D s rt s' := by
  obtain ⟨fd, hfd⟩ := vcs_nondim_Farad_ok D s.m_VCS_UnitsFormat s.m_temperature hu
  unfold vcs_nondim_TP
  simp only [hdim, if_true, hrt, scaleFreeEnergies_eq, hfd]
  have ht : (vcs_tmoles D
      { s with
        m_unitsState := D.VCS_NONDIMENSIONAL_G
        m_SSfeSpecies := mapBelow s.m_numSpeciesTot (fun _ x => x * (1 / rt)) s.m_SSfeSpecies
        m_deltaGRxn_new := mapBelow s.m_numSpeciesTot (fun _ x => x * (1 / rt)) s.m_deltaGRxn_new
        m_deltaGRxn_old := mapBelow s.m_numSpeciesTot (fun _ x => x * (1 / rt)) s.m_deltaGRxn_old
        m_feSpecies_old := mapBelow s.m_numSpeciesTot (fun _ x => x * (1 / rt)) s.m_feSpecies_old
        m_Faraday_dim := fd }).1
      + absPosGoalSum D (vcs_tmoles D
      { s with
        m_unitsState := D.VCS_NONDIMENSIONAL_G
        m_SSfeSpecies := mapBelow s.m_numSpeciesTot (fun _ x => x * (1 / rt)) s.m_SSfeSpecies
        m_deltaGRxn_new := mapBelow s.m_numSpeciesTot (fun _ x => x * (1 / rt)) s.m_deltaGRxn_new
        m_deltaGRxn_old := mapBelow s.m_numSpeciesTot (fun _ x => x * (1 / rt)) s.m_deltaGRxn_old
        m_feSpecies_old := mapBelow s.m_numSpeciesTot (fun _ x => x * (1 / rt)) s.m_feSpecies_old
        m_Faraday_dim := fd }).2 = tmole_orig D s := rfl
  simp only [ht, hlo, hhi, or_self, if_false]
  have hsc : (if tmole_orig D s > 1.0e4 then tmole_orig D s / 1.0e4
      else if tmole_orig D s < 1.0e-4 then tmole_orig D s / 1.0e-4 else 1)
      = moleScaleOf (tmole_orig D s) := rfl
  simp only [hsc]
  by_cases h1 : moleScaleOf (tmole_orig D s) = 1
  · simp only [h1, ne_eq, not_true_eq_false, if_false]
    refine ⟨_, rfl, ?_⟩
    constructor <;>
      first
      | rfl
      | (simp only [h1, ne_eq, not_true_eq_false, false_and, if_false] <;> rfl)
  · by_cases h2 : s.m_VCS_UnitsFormat = D.VCS_UNITS_MKS
    · simp only [vcs_tmoles_snd, h1, h2, ne_eq, not_false_eq_true, if_true, scaleMoles_eq]
      refine ⟨_, rfl, ?_⟩
      constructor <;>
        first
        | rfl
        | (simp only [h1, h2, ne_eq, not_false_eq_true, and_self, if_true])
    · simp only [vcs_tmoles_snd, h1, h2, ne_eq, not_false_eq_true, if_true, if_false]
      refine ⟨_, rfl, ?_⟩
      constructor <;>
        first
        | rfl
        | (simp only [h1, h2, ne_eq, not_false_eq_true, and_false, if_false])

theorem vcs_redim_TP_post (D : VcsDefs) (s : VCS_SOLVE) (rt : ℚ)
    (hnd : s.m_unitsState ≠ D.VCS_DIMENSIONAL_G)
    (hrt : vcs_nondimMult_TP D s.m_VCS_UnitsFormat s.m_temperature = .ok rt) :
    ∃ s', vcs_redim_TP D s = .ok s' ∧ RedimPost D s rt s' := by
  unfold vcs_redim_TP
  simp only [hnd, ne_eq, not_false_eq_true, if_true, hrt, scaleFreeEnergies_eq]
  by_cases h1 : s.m_totalMoleScale = 1
  · simp only [h1, not_true_eq_false, if_false]
    refine ⟨_, rfl, ?_⟩
    constructor <;>
      first
      | rfl
      | (simp only [h1, ne_eq, not_true_eq_false, false_and, if_false])
  · by_cases h2 : s.m_VCS_UnitsFormat = D.VCS_UNITS_MKS
    · simp only [vcs_tmoles_snd, h1, h2, not_false_eq_true, if_true, scaleMoles_eq]
      refine ⟨_, rfl, ?_⟩
      constructor <;>
        first
        | rfl
        | (simp only [h1, h2, ne_eq, not_false_eq_true, and_self, if_true])
    · simp only [h1, h2, not_false_eq_true, if_true, if_false]
      refine ⟨_, rfl, ?_⟩
      constructor <;>
        first
        | rfl
        | (simp only [h1, h2, ne_eq, not_false_eq_true, and_false, if_false])

theorem vcs_redim_TP_dim (D : VcsDefs) (s : VCS_SOLVE)
    (hdim : s.m_unitsState = D.VCS_DIMENSIONAL_G) :
    ∃ s', vcs_redim_TP D s = .ok s' ∧ RedimPost D s 1 s' := by
  have hm : ∀ (n : Nat) (a : Nat → ℚ), mapBelow n (fun _ x => x * 1) a = a := by
    intro n a; funext i; simp [mapBelow]
  unfold vcs_redim_TP
  simp only [hdim, ne_eq, not_true_eq_false, if_false]
  by_cases h1 : s.m_totalMoleScale = 1
  · simp only [h1, not_true_eq_false, if_false]
    refine ⟨_, rfl, ?_⟩
    constructor <;>
      first
      | exact hdim
      | (simp only [hm, h1, ne_eq, not_true_eq_false, false_and, if_false])
  · by_cases h2 : s.m_VCS_UnitsFormat = D.VCS_UNITS_MKS
    · simp only [vcs_tmoles_snd, h1, h2, not_false_eq_true, if_true, scaleMoles_eq]
      refine ⟨_, rfl, ?_⟩
      constructor <;>
        first
        | exact hdim
        | (simp only [hm, h1, h2, ne_eq, not_false_eq_true, and_self, if_true])
    · simp only [h1, h2, not_false_eq_true, if_true, if_false]
      refine ⟨_, rfl, ?_⟩
      constructor <;>
        first
        | exact hdim
        | (simp only [hm, h1, h2, ne_eq, not_false_eq_true, and_false, if_false])

theorem vcs_nondimMult_TP_err (D : VcsDefs) (u : Int) (T : ℚ) (hu : ¬ recognisedUnits D u) :
    vcs_nondimMult_TP D u T = .error .exitFailure := by
  unfold recognisedUnits at hu
  push_neg at hu
  obtain ⟨h1, h2, h3, h4, h5⟩ := hu
  simp [vcs_nondimMult_TP, h1, h2, h3, h4, h5]

theorem vcs_nondim_TP_unrecognised (D : VcsDefs) (s : VCS_SOLVE)
    (hdim : s.m_unitsState = D.VCS_DIMENSIONAL_G)
    (hu : ¬ recognisedUnits D s.m_VCS_UnitsFormat) :
    vcs_nondim_TP D s = .error .exitFailure := by
  unfold vcs_nondim_TP
  simp only [hdim, if_true, vcs_nondimMult_TP_err D _ _ hu]

theorem vcs_nondim_TP_range (D : VcsDefs) (s : VCS_SOLVE)
    (hdim : s.m_unitsState = D.VCS_DIMENSIONAL_G)
    (hu : recognisedUnits D s.m_VCS_UnitsFormat)
    (hr : tmole_orig D s < 1.0e-200 ∨ tmole_orig D s > 1.0e200) :
    vcs_nondim_TP D s = .error .vcsError := by
  obtain ⟨rt, hrt, -⟩ := vcs_nondimMult_TP_ok D s.m_VCS_UnitsFormat s.m_temperature hu
  obtain ⟨fd, hfd⟩ := vcs_nondim_Farad_ok D s.m_VCS_UnitsFormat s.m_temperature hu
  unfold vcs_nondim_TP
  simp only [hdim, if_true, hrt, scaleFreeEnergies_eq, hfd]
  exact if_pos hr

/-- A successful `vcs_nondim_TP` from a dimensional state had recognised units and a
total of input moles inside the admitted range. -/
theorem vcs_nondim_TP_ok_inv (D : VcsDefs) (s s' : VCS_SOLVE)
    (hdim : s.m_unitsState = D.VCS_DIMENSIONAL_G) (hok : vcs_nondim_TP D s = .ok s') :
    recognisedUnits D s.m_VCS_UnitsFormat
      ∧ ¬ tmole_orig D s < 1.0e-200 ∧ ¬ tmole_orig D s > 1.0e200 := by
  by_cases hu : recognisedUnits D s.m_VCS_UnitsFormat
  · refine ⟨hu, ?_, ?_⟩
    · intro h
      rw [vcs_nondim_TP_range D s hdim hu (Or.inl h)] at hok
      cases hok
    · intro h
      rw [vcs_nondim_TP_range D s hdim hu (Or.inr h)] at hok
      cases hok
  · rw [vcs_nondim_TP_unrecognised D s hdim hu] at hok
    cases hok

theorem mapBelow_cancel {α : Type} (n : Nat) (f g : Nat → α → α) (a : Nat → α)
    (h : ∀ i x, g i (f i x) = x) : mapBelow n g (mapBelow n f a) = a := by
  funext i
  by_cases hi : i < n <;> simp [mapBelow, hi, h]

theorem moleScaleOf_pos (t : ℚ) (ht : 0 < t) : 0 < moleScaleOf t := by
  unfold moleScaleOf
  split_ifs
  · positivity
  · positivity
  · norm_num

theorem tmole_orig_largeSolve : tmole_orig sampleDefs largeSolve = 50000 := by
  norm_num [tmole_orig, vcs_tmoles, sumPhaseTotals, phaseTotals, absPosGoalSum, forLoop,
    largeSolve, smallSolve, emptySolve, sampleDefs, Function.update]

theorem recognisedUnits_largeSolve :
    recognisedUnits sampleDefs largeSolve.m_VCS_UnitsFormat :=
  Or.inr (Or.inr (Or.inr (Or.inr rfl)))

theorem tmole_orig_tinySolve : tmole_orig sampleDefs tinySolve = 1.0e-5 := by
  norm_num [tmole_orig, vcs_tmoles, sumPhaseTotals, phaseTotals, absPosGoalSum, forLoop,
    tinySolve, emptySolve, sampleDefs, Function.update]

theorem tmole_orig_largeSolveKJ : tmole_orig sampleDefs largeSolveKJ = 50000 := by
  norm_num [tmole_orig, vcs_tmoles, sumPhaseTotals, phaseTotals, absPosGoalSum, forLoop,
    largeSolveKJ, largeSolve, smallSolve, emptySolve, sampleDefs, Function.update]

theorem vcs_nondim_TP_ok_post (D : VcsDefs) (s s' : VCS_SOLVE)
    (hdim : s.m_unitsState = D.VCS_DIMENSIONAL_G) (hok : vcs_nondim_TP D s = .ok s') :
    ∃ rt, vcs_nondimMult_TP D s.m_VCS_UnitsFormat s.m_temperature = .ok rt ∧ 0 < rt
      ∧ NondimPost D s rt s' := by
  obtain ⟨hu, hlo, hhi⟩ := vcs_nondim_TP_ok_inv D s s' hdim hok
  obtain ⟨rt, hrt, hpos⟩ := vcs_nondimMult_TP_ok D s.m_VCS_UnitsFormat s.m_temperature hu
  obtain ⟨s1, h1, p1⟩ := vcs_nondim_TP_post D s rt hdim hu hrt hlo hhi
  rw [h1] at hok
  cases hok
  exact ⟨rt, hrt, hpos, p1⟩

theorem vcs_nondim_TP_not_dim (D : VcsDefs) (s : VCS_SOLVE)
    (hnd : s.m_unitsState ≠ D.VCS_DIMENSIONAL_G) : vcs_nondim_TP D s = .ok s := by
  unfold vcs_nondim_TP
  exact if_neg hnd

theorem vcs_redim_TP_ok_post (D : VcsDefs) (s s' : VCS_SOLVE)
    (hok : vcs_redim_TP D s = .ok s') : ∃ rt, RedimPost D s rt s' := by
  by_cases hdim : s.m_unitsState = D.VCS_DIMENSIONAL_G
  · obtain ⟨s1, h1, p1⟩ := vcs_redim_TP_dim D s hdim
    rw [h1] at hok
    cases hok
    exact ⟨1, p1⟩
  · cases hm : vcs_nondimMult_TP D s.m_VCS_UnitsFormat s.m_temperature with
    | error e =>
      unfold vcs_redim_TP at hok
      simp only [hdim, ne_eq, not_false_eq_true, if_true, hm] at hok
      cases hok
    | ok rt =>
      obtain ⟨s1, h1, p1⟩ := vcs_redim_TP_post D s rt hdim hm
      rw [h1] at hok
      cases hok
      exact ⟨rt, p1⟩

theorem mapBelow_of_lt {α : Type} (n : Nat) (g : Nat → α → α) (a : Nat → α) (i : Nat)
    (hi : i < n) : mapBelow n g a i = g i (a i) := by
  simp [mapBelow, hi]

theorem tmole_orig_emptySolve : tmole_orig sampleDefs emptySolve = 0 := by
  norm_num [tmole_orig, vcs_tmoles, sumPhaseTotals, phaseTotals, absPosGoalSum, forLoop,
    emptySolve, sampleDefs, Function.update]

/-! ## The claims on scaling -/

/-- C1: from a dimensional state with recognised units and total input moles in
`[1e-200, 1e200]`, `vcs_nondim_TP` followed by `vcs_redim_TP` succeeds, restores every
entry of the mole numbers, element goals, inert moles, standard-state and total
chemical potentials and both ΔG vectors, and leaves the state dimensional. -/
theorem nondim_redim_roundtrip (D : VcsDefs) (s : VCS_SOLVE)
    (hdim : s.m_unitsState = D.VCS_DIMENSIONAL_G)
    (hu : recognisedUnits D s.m_VCS_UnitsFormat)
    (hlo : 1.0e-200 ≤ tmole_orig D s) (hhi : tmole_orig D s ≤ 1.0e200) :
    ∃ s1 s2, vcs_nondim_TP D s = .ok s1 ∧ vcs_redim_TP D s1 = .ok s2
      ∧ s2.m_molNumSpecies_old = s.m_molNumSpecies_old
      ∧ s2.m_elemAbundancesGoal = s.m_elemAbundancesGoal
      ∧ s2.TPhInertMoles = s.TPhInertMoles
      ∧ s2.m_SSfeSpecies = s.m_SSfeSpecies
      ∧ s2.m_feSpecies_old = s.m_feSpecies_old
      ∧ s2.m_deltaGRxn_old = s.m_deltaGRxn_old
      ∧ s2.m_deltaGRxn_new = s.m_deltaGRxn_new
      ∧ s2.m_unitsState = D.VCS_DIMENSIONAL_G := by
  obtain ⟨rt, hrt, hpos⟩ := vcs_nondimMult_TP_ok D s.m_VCS_UnitsFormat s.m_temperature hu
  obtain ⟨s1, h1, p1⟩ := vcs_nondim_TP_post D s rt hdim hu hrt (not_lt.mpr hlo)
    (not_lt.mpr hhi)
  have hnd : s1.m_unitsState ≠ D.VCS_DIMENSIONAL_G := by
    rw [p1.unitsState]; exact fun h => D.unitsState_ne h.symm
  have hrt1 : vcs_nondimMult_TP D s1.m_VCS_UnitsFormat s1.m_temperature = .ok rt := by
    rw [p1.unitsFormat, p1.temperature]; exact hrt
  obtain ⟨s2, h2, p2⟩ := vcs_redim_TP_post D s1 rt hnd hrt1
  have hrt0 : rt ≠ 0 := ne_of_gt hpos
  have hsc : moleScaleOf (tmole_orig D s) ≠ 0 :=
    ne_of_gt (moleScaleOf_pos _ (lt_of_lt_of_le (by norm_num) hlo))
  have hfe : ∀ a : Nat → ℚ, mapBelow s.m_numSpeciesTot (fun _ x => x * rt)
      (mapBelow s.m_numSpeciesTot (fun _ x => x * (1 / rt)) a) = a := by
    intro a
    apply mapBelow_cancel
    intro i x
    field_simp
  have hmo : ∀ (n : Nat) (a : Nat → ℚ),
      mapBelow n (fun _ x => x * moleScaleOf (tmole_orig D s))
        (mapBelow n (fun _ x => x * (1 / moleScaleOf (tmole_orig D s))) a) = a := by
    intro n a
    apply mapBelow_cancel
    intro i x
    field_simp
  refine ⟨s1, s2, h1, h2, ?_, ?_, ?_, ?_, ?_, ?_, ?_, p2.unitsState⟩
  · rw [p2.molNumSpecies_old, p1.totalMoleScale, p1.unitsFormat, p1.numSpeciesTot,
      p1.speciesUnknownType, p1.molNumSpecies_old]
    split_ifs with hc
    · apply mapBelow_cancel
      intro i x
      split_ifs
      · field_simp
      · rfl
    · rfl
  · rw [p2.elemAbundancesGoal, p1.totalMoleScale, p1.unitsFormat, p1.numElemConstraints,
      p1.elemAbundancesGoal]
    split_ifs with hc
    · exact hmo _ _
    · rfl
  · rw [p2.inertMoles, p1.totalMoleScale, p1.unitsFormat, p1.numPhases, p1.inertMoles]
    split_ifs with hc
    · exact hmo _ _
    · rfl
  · rw [p2.SSfeSpecies, p1.numSpeciesTot, p1.SSfeSpecies]; exact hfe _
  · rw [p2.feSpecies_old, p1.numSpeciesTot, p1.feSpecies_old]; exact hfe _
  · rw [p2.deltaGRxn_old, p1.numSpeciesTot, p1.deltaGRxn_old]; exact hfe _
  · rw [p2.deltaGRxn_new, p1.numSpeciesTot, p1.deltaGRxn_new]; exact hfe _

/-- Witness of C1 on `largeSolve` (MKS, 5e4 total input moles, mole scale 5). -/
theorem nondim_redim_roundtrip_witness :
    ∃ s1 s2, vcs_nondim_TP sampleDefs largeSolve = .ok s1
      ∧ vcs_redim_TP sampleDefs s1 = .ok s2
      ∧ s2.m_molNumSpecies_old = largeSolve.m_molNumSpecies_old
      ∧ s2.m_elemAbundancesGoal = largeSolve.m_elemAbundancesGoal
      ∧ s2.TPhInertMoles = largeSolve.TPhInertMoles
      ∧ s2.m_SSfeSpecies = largeSolve.m_SSfeSpecies
      ∧ s2.m_feSpecies_old = largeSolve.m_feSpecies_old
      ∧ s2.m_deltaGRxn_old = largeSolve.m_deltaGRxn_old
      ∧ s2.m_deltaGRxn_new = largeSolve.m_deltaGRxn_new
      ∧ s2.m_unitsState = sampleDefs.VCS_DIMENSIONAL_G :=
  nondim_redim_roundtrip sampleDefs largeSolve rfl recognisedUnits_largeSolve
    (by rw [tmole_orig_largeSolve]; norm_num) (by rw [tmole_orig_largeSolve]; norm_num)

/-- C6, as stated, fails: on `tinySolve` (dimensional, MKS, total input moles 1e-5)
`vcs_nondim_TP` succeeds and stores the mole scale 1/10, while
`max(1, Ntot/1e4, 1e-4/Ntot)` is 10. -/
theorem moleScale_max_formula_fails :
    tinySolve.m_unitsState = sampleDefs.VCS_DIMENSIONAL_G
      ∧ (1.0e-200 : ℚ) ≤ tmole_orig sampleDefs tinySolve
      ∧ tmole_orig sampleDefs tinySolve ≤ 1.0e200
      ∧ ∃ s', vcs_nondim_TP sampleDefs tinySolve = .ok s'
        ∧ s'.m_totalMoleScale = 1 / 10
        ∧ max 1 (max (tmole_orig sampleDefs tinySolve / 1.0e4)
            (1.0e-4 / tmole_orig sampleDefs tinySolve)) = 10
        ∧ s'.m_totalMoleScale ≠ max 1 (max (tmole_orig sampleDefs tinySolve / 1.0e4)
            (1.0e-4 / tmole_orig sampleDefs tinySolve)) := by
  have hu : recognisedUnits sampleDefs tinySolve.m_VCS_UnitsFormat :=
    Or.inr (Or.inr (Or.inr (Or.inr rfl)))
  obtain ⟨rt, hrt, -⟩ :=
    vcs_nondimMult_TP_ok sampleDefs tinySolve.m_VCS_UnitsFormat tinySolve.m_temperature hu
  obtain ⟨s', h, p⟩ := vcs_nondim_TP_post sampleDefs tinySolve rt rfl hu hrt
    (by rw [tmole_orig_tinySolve]; norm_num) (by rw [tmole_orig_tinySolve]; norm_num)
  have hs : s'.m_totalMoleScale = 1 / 10 := by
    rw [p.totalMoleScale, tmole_orig_tinySolve]
    norm_num [moleScaleOf]
  refine ⟨rfl, by rw [tmole_orig_tinySolve]; norm_num,
    by rw [tmole_orig_tinySolve]; norm_num, s', h, hs, ?_, ?_⟩
  · rw [tmole_orig_tinySolve]; norm_num
  · rw [hs, tmole_orig_tinySolve]; norm_num

/-- C6, amended: after a successful `vcs_nondim_TP` from a dimensional state,
`m_totalMoleScale` is `max(1, Ntot/1e4)` when `Ntot ≥ 1e-4` and `Ntot/1e-4` (a value
below 1, not its reciprocal) when `Ntot < 1e-4`, where `Ntot` is `vcs_tmoles()` plus
the sum of `|goal|` over the AbsPos element constraints. -/
theorem moleScale_value (D : VcsDefs) (s s' : VCS_SOLVE)
    (hdim : s.m_unitsState = D.VCS_DIMENSIONAL_G) (hok : vcs_nondim_TP D s = .ok s') :
    s'.m_totalMoleScale
      = if tmole_orig D s < 1.0e-4 then tmole_orig D s / 1.0e-4
        else max 1 (tmole_orig D s / 1.0e4) := by
  obtain ⟨rt, -, -, p⟩ := vcs_nondim_TP_ok_post D s s' hdim hok
  rw [p.totalMoleScale]
  unfold moleScaleOf
  by_cases h1 : tmole_orig D s > 1.0e4
  · have h2 : ¬ tmole_orig D s < 1.0e-4 := by
      intro h; have : (1.0e-4 : ℚ) < 1.0e4 := by norm_num
      linarith
    have h3 : (1 : ℚ) ≤ tmole_orig D s / 1.0e4 := by
      rw [le_div_iff₀ (by norm_num)]; linarith
    rw [if_pos h1, if_neg h2, max_eq_right h3]
  · by_cases h2 : tmole_orig D s < 1.0e-4
    · rw [if_neg h1, if_pos h2, if_pos h2]
    · have h3 : tmole_orig D s / 1.0e4 ≤ 1 := by
        rw [div_le_iff₀ (by norm_num)]; linarith
      rw [if_neg h1, if_neg h2, if_neg h2, max_eq_left h3]

/-- Witness of the amended C6 on `tinySolve`. -/
theorem moleScale_value_witness :
    ∃ s', vcs_nondim_TP sampleDefs tinySolve = .ok s'
      ∧ s'.m_totalMoleScale
        = if tmole_orig sampleDefs tinySolve < 1.0e-4
          then tmole_orig sampleDefs tinySolve / 1.0e-4
          else max 1 (tmole_orig sampleDefs tinySolve / 1.0e4) := by
  have hu : recognisedUnits sampleDefs tinySolve.m_VCS_UnitsFormat :=
    Or.inr (Or.inr (Or.inr (Or.inr rfl)))
  obtain ⟨rt, hrt, -⟩ :=
    vcs_nondimMult_TP_ok sampleDefs tinySolve.m_VCS_UnitsFormat tinySolve.m_temperature hu
  obtain ⟨s', h, -⟩ := vcs_nondim_TP_post sampleDefs tinySolve rt rfl hu hrt
    (by rw [tmole_orig_tinySolve]; norm_num) (by rw [tmole_orig_tinySolve]; norm_num)
  exact ⟨s', h, moleScale_value sampleDefs tinySolve s' rfl h⟩

/-- C7, as stated, fails: on `largeSolveKJ` (dimensional, recognised units kJ/mol, total
input moles 5e4) `vcs_nondim_TP` succeeds with mole scale 5 and leaves the moles of
species 0, a mole-number unknown, and the goal of element 0 as they were, not divided
by 5. -/
theorem moleScaling_nonMKS_fails :
    largeSolveKJ.m_unitsState = sampleDefs.VCS_DIMENSIONAL_G
      ∧ recognisedUnits sampleDefs largeSolveKJ.m_VCS_UnitsFormat
      ∧ largeSolveKJ.m_speciesUnknownType 0
        ≠ sampleDefs.VCS_SPECIES_TYPE_INTERFACIALVOLTAGE
      ∧ ∃ s', vcs_nondim_TP sampleDefs largeSolveKJ = .ok s'
        ∧ s'.m_totalMoleScale = 5
        ∧ s'.m_molNumSpecies_old 0 = 49997
        ∧ s'.m_molNumSpecies_old 0 ≠ largeSolveKJ.m_molNumSpecies_old 0 / s'.m_totalMoleScale
        ∧ s'.m_elemAbundancesGoal 0 = 3
        ∧ s'.m_elemAbundancesGoal 0
          ≠ largeSolveKJ.m_elemAbundancesGoal 0 / s'.m_totalMoleScale := by
  have hu : recognisedUnits sampleDefs largeSolveKJ.m_VCS_UnitsFormat :=
    Or.inr (Or.inr (Or.inl rfl))
  obtain ⟨rt, hrt, -⟩ := vcs_nondimMult_TP_ok sampleDefs largeSolveKJ.m_VCS_UnitsFormat
    largeSolveKJ.m_temperature hu
  obtain ⟨s', h, p⟩ := vcs_nondim_TP_post sampleDefs largeSolveKJ rt rfl hu hrt
    (by rw [tmole_orig_largeSolveKJ]; norm_num) (by rw [tmole_orig_largeSolveKJ]; norm_num)
  have hs : s'.m_totalMoleScale = 5 := by
    rw [p.totalMoleScale, tmole_orig_largeSolveKJ]
    norm_num [moleScaleOf]
  have hfmt : ¬ (moleScaleOf (tmole_orig sampleDefs largeSolveKJ) ≠ 1
      ∧ largeSolveKJ.m_VCS_UnitsFormat = sampleDefs.VCS_UNITS_MKS) := by
    rintro ⟨-, h2⟩
    revert h2
    decide
  have hm : s'.m_molNumSpecies_old 0 = 49997 := by
    rw [p.molNumSpecies_old, if_neg hfmt]
    rfl
  have hg : s'.m_elemAbundancesGoal 0 = 3 := by
    rw [p.elemAbundancesGoal, if_neg hfmt]
    rfl
  have hm0 : largeSolveKJ.m_molNumSpecies_old 0 = 49997 := rfl
  have hg0 : largeSolveKJ.m_elemAbundancesGoal 0 = 3 := rfl
  refine ⟨rfl, hu, by decide, s', h, hs, hm, ?_, hg, ?_⟩
  · rw [hm, hs, hm0]; norm_num
  · rw [hg, hs, hg0]; norm_num

/-- C7, amended: after a successful `vcs_nondim_TP` from a dimensional state whose
units format is MKS, `m_molNumSpecies_old[i]` is the old value divided by
`m_totalMoleScale` for every species `i < m_numSpeciesTot` that is not an
interfacial-voltage unknown, and `m_elemAbundancesGoal[j]` is the old value divided by
`m_totalMoleScale` for every `j < m_numElemConstraints`; for every other units format
the mole numbers and the element goals are left as they were. -/
theorem moleScaling_MKS_only (D : VcsDefs) (s s' : VCS_SOLVE)
    (hdim : s.m_unitsState = D.VCS_DIMENSIONAL_G) (hok : vcs_nondim_TP D s = .ok s') :
    (s.m_VCS_UnitsFormat = D.VCS_UNITS_MKS →
        (∀ i, i < s.m_numSpeciesTot →
          s.m_speciesUnknownType i ≠ D.VCS_SPECIES_TYPE_INTERFACIALVOLTAGE →
          s'.m_molNumSpecies_old i = s.m_molNumSpecies_old i / s'.m_totalMoleScale)
        ∧ (∀ j, j < s.m_numElemConstraints →
          s'.m_elemAbundancesGoal j = s.m_elemAbundancesGoal j / s'.m_totalMoleScale))
      ∧ (s.m_VCS_UnitsFormat ≠ D.VCS_UNITS_MKS →
        s'.m_molNumSpecies_old = s.m_molNumSpecies_old
        ∧ s'.m_elemAbundancesGoal = s.m_elemAbundancesGoal) := by
  obtain ⟨rt, -, -, p⟩ := vcs_nondim_TP_ok_post D s s' hdim hok
  constructor
  · intro hmks
    constructor
    · intro i hi hv
      rw [p.molNumSpecies_old, p.totalMoleScale]
      by_cases h1 : moleScaleOf (tmole_orig D s) = 1
      · rw [if_neg (fun h => h.1 h1), h1, div_one]
      · rw [if_pos ⟨h1, hmks⟩, mapBelow_of_lt _ _ _ _ hi, if_pos hv, mul_one_div]
    · intro j hj
      rw [p.elemAbundancesGoal, p.totalMoleScale]
      by_cases h1 : moleScaleOf (tmole_orig D s) = 1
      · rw [if_neg (fun h => h.1 h1), h1, div_one]
      · rw [if_pos ⟨h1, hmks⟩, mapBelow_of_lt _ _ _ _ hj, mul_one_div]
  · intro hn
    rw [p.molNumSpecies_old, p.elemAbundancesGoal, if_neg (fun h => hn h.2),
      if_neg (fun h => hn h.2)]
    exact ⟨rfl, rfl⟩

/-- Witness of the amended C7 on `largeSolve` (MKS, mole scale 5). -/
theorem moleScaling_MKS_only_witness :
    ∃ s', vcs_nondim_TP sampleDefs largeSolve = .ok s'
      ∧ (largeSolve.m_VCS_UnitsFormat = sampleDefs.VCS_UNITS_MKS →
        (∀ i, i < largeSolve.m_numSpeciesTot →
          largeSolve.m_speciesUnknownType i ≠ sampleDefs.VCS_SPECIES_TYPE_INTERFACIALVOLTAGE →
          s'.m_molNumSpecies_old i = largeSolve.m_molNumSpecies_old i / s'.m_totalMoleScale)
        ∧ (∀ j, j < largeSolve.m_numElemConstraints →
          s'.m_elemAbundancesGoal j
            = largeSolve.m_elemAbundancesGoal j / s'.m_totalMoleScale))
      ∧ (largeSolve.m_VCS_UnitsFormat ≠ sampleDefs.VCS_UNITS_MKS →
        s'.m_molNumSpecies_old = largeSolve.m_molNumSpecies_old
        ∧ s'.m_elemAbundancesGoal = largeSolve.m_elemAbundancesGoal) := by
  obtain ⟨rt, hrt, -⟩ := vcs_nondimMult_TP_ok sampleDefs largeSolve.m_VCS_UnitsFormat
    largeSolve.m_temperature recognisedUnits_largeSolve
  obtain ⟨s', h, -⟩ := vcs_nondim_TP_post sampleDefs largeSolve rt rfl
    recognisedUnits_largeSolve hrt
    (by rw [tmole_orig_largeSolve]; norm_num) (by rw [tmole_orig_largeSolve]; norm_num)
  exact ⟨s', h, moleScaling_MKS_only sampleDefs largeSolve s' rfl h⟩

/-- C8: after a successful `vcs_nondim_TP` from a dimensional state, every entry
`i < m_numSpeciesTot` of `m_SSfeSpecies`, `m_feSpecies_old`, `m_deltaGRxn_old` and
`m_deltaGRxn_new` is its previous value divided by
`vcs_nondimMult_TP(m_VCS_UnitsFormat, m_temperature)`, and the units state is
`VCS_NONDIMENSIONAL_G`. -/
theorem nondim_divides_by_RT (D : VcsDefs) (s s' : VCS_SOLVE)
    (hdim : s.m_unitsState = D.VCS_DIMENSIONAL_G) (hok : vcs_nondim_TP D s = .ok s') :
    ∃ rt, vcs_nondimMult_TP D s.m_VCS_UnitsFormat s.m_temperature = .ok rt
      ∧ (∀ i, i < s.m_numSpeciesTot →
          s'.m_SSfeSpecies i = s.m_SSfeSpecies i / rt
          ∧ s'.m_feSpecies_old i = s.m_feSpecies_old i / rt
          ∧ s'.m_deltaGRxn_old i = s.m_deltaGRxn_old i / rt
          ∧ s'.m_deltaGRxn_new i = s.m_deltaGRxn_new i / rt)
      ∧ s'.m_unitsState = D.VCS_NONDIMENSIONAL_G := by
  obtain ⟨rt, hrt, -, p⟩ := vcs_nondim_TP_ok_post D s s' hdim hok
  refine ⟨rt, hrt, ?_, p.unitsState⟩
  intro i hi
  rw [p.SSfeSpecies, p.feSpecies_old, p.deltaGRxn_old, p.deltaGRxn_new]
  simp only [mapBelow_of_lt _ _ _ _ hi, mul_one_div, and_self]

/-- Witness of C8 on `largeSolve`. -/
theorem nondim_divides_by_RT_witness :
    ∃ s', vcs_nondim_TP sampleDefs largeSolve = .ok s'
      ∧ ∃ rt, vcs_nondimMult_TP sampleDefs largeSolve.m_VCS_UnitsFormat
          largeSolve.m_temperature = .ok rt
        ∧ (∀ i, i < largeSolve.m_numSpeciesTot →
          s'.m_SSfeSpecies i = largeSolve.m_SSfeSpecies i / rt
          ∧ s'.m_feSpecies_old i = largeSolve.m_feSpecies_old i / rt
          ∧ s'.m_deltaGRxn_old i = largeSolve.m_deltaGRxn_old i / rt
          ∧ s'.m_deltaGRxn_new i = largeSolve.m_deltaGRxn_new i / rt)
        ∧ s'.m_unitsState = sampleDefs.VCS_NONDIMENSIONAL_G := by
  obtain ⟨rt, hrt, -⟩ := vcs_nondimMult_TP_ok sampleDefs largeSolve.m_VCS_UnitsFormat
    largeSolve.m_temperature recognisedUnits_largeSolve
  obtain ⟨s', h, -⟩ := vcs_nondim_TP_post sampleDefs largeSolve rt rfl
    recognisedUnits_largeSolve hrt
    (by rw [tmole_orig_largeSolve]; norm_num) (by rw [tmole_orig_largeSolve]; norm_num)
  exact ⟨s', h, nondim_divides_by_RT sampleDefs largeSolve s' rfl h⟩

/-- C9: from a dimensional state with recognised units, `vcs_nondim_TP` throws
`vcsError` exactly when the total input moles (`vcs_tmoles()` plus the sum of `|goal|`
over the AbsPos element constraints) are below 1e-200 or above 1e200. -/
theorem nondim_vcsError_iff (D : VcsDefs) (s : VCS_SOLVE)
    (hdim : s.m_unitsState = D.VCS_DIMENSIONAL_G)
    (hu : recognisedUnits D s.m_VCS_UnitsFormat) :
    vcs_nondim_TP D s = .error .vcsError
      ↔ (tmole_orig D s < 1.0e-200 ∨ tmole_orig D s > 1.0e200) := by
  constructor
  · intro herr
    by_contra hr
    push_neg at hr
    obtain ⟨rt, hrt, -⟩ := vcs_nondimMult_TP_ok D s.m_VCS_UnitsFormat s.m_temperature hu
    obtain ⟨s', h, -⟩ := vcs_nondim_TP_post D s rt hdim hu hrt (not_lt.mpr hr.1)
      (not_lt.mpr hr.2)
    rw [h] at herr
    cases herr
  · exact vcs_nondim_TP_range D s hdim hu

/-- Witness of C9 on `emptySolve` (no moles at all) and on `largeSolve` (5e4 kmol). -/
theorem nondim_vcsError_iff_witness :
    vcs_nondim_TP sampleDefs emptySolve = .error .vcsError
      ∧ vcs_nondim_TP sampleDefs largeSolve ≠ .error .vcsError :=
  ⟨(nondim_vcsError_iff sampleDefs emptySolve rfl (Or.inr (Or.inr (Or.inr (Or.inr rfl))))).mpr
      (Or.inl (by rw [tmole_orig_emptySolve]; norm_num)),
    fun h => by
      have hr := (nondim_vcsError_iff sampleDefs largeSolve rfl
        recognisedUnits_largeSolve).mp h
      rw [tmole_orig_largeSolve] at hr
      norm_num at hr⟩

/-- C10: a species whose unknown type is `VCS_SPECIES_TYPE_INTERFACIALVOLTAGE` keeps its
entry of `m_molNumSpecies_old` through `vcs_nondim_TP` and through `vcs_redim_TP`,
whatever the units format, the units state and the mole scale. -/
theorem voltage_species_not_scaled (D : VcsDefs) (s : VCS_SOLVE) (i : Nat)
    (hv : s.m_speciesUnknownType i = D.VCS_SPECIES_TYPE_INTERFACIALVOLTAGE) :
    (∀ s', vcs_nondim_TP D s = .ok s' → s'.m_molNumSpecies_old i = s.m_molNumSpecies_old i)
      ∧ (∀ s', vcs_redim_TP D s = .ok s' →
        s'.m_molNumSpecies_old i = s.m_molNumSpecies_old i) := by
  have hkeep : ∀ (n : Nat) (f : ℚ), mapBelow n
      (fun i x => if s.m_speciesUnknownType i ≠ D.VCS_SPECIES_TYPE_INTERFACIALVOLTAGE
        then x * f else x) s.m_molNumSpecies_old i = s.m_molNumSpecies_old i := by
    intro n f
    unfold mapBelow
    simp [hv]
  constructor
  · intro s' hok
    by_cases hdim : s.m_unitsState = D.VCS_DIMENSIONAL_G
    · obtain ⟨rt, -, -, p⟩ := vcs_nondim_TP_ok_post D s s' hdim hok
      rw [p.molNumSpecies_old]
      split_ifs
      · exact hkeep _ _
      · rfl
    · rw [vcs_nondim_TP_not_dim D s hdim] at hok
      cases hok
      rfl
  · intro s' hok
    obtain ⟨rt, p⟩ := vcs_redim_TP_ok_post D s s' hok
    rw [p.molNumSpecies_old]
    split_ifs
    · exact hkeep _ _
    · rfl

/-- Witness of C10 on `largeSolve`: species 1 is a voltage unknown holding 7, the mole
scale is 5, and after `vcs_nondim_TP` species 1 still holds 7. -/
theorem voltage_species_not_scaled_witness :
    largeSolve.m_speciesUnknownType 1 = sampleDefs.VCS_SPECIES_TYPE_INTERFACIALVOLTAGE
      ∧ ∃ s', vcs_nondim_TP sampleDefs largeSolve = .ok s'
        ∧ s'.m_totalMoleScale = 5
        ∧ s'.m_molNumSpecies_old 1 = 7 := by
  obtain ⟨rt, hrt, -⟩ := vcs_nondimMult_TP_ok sampleDefs largeSolve.m_VCS_UnitsFormat
    largeSolve.m_temperature recognisedUnits_largeSolve
  obtain ⟨s', h, p⟩ := vcs_nondim_TP_post sampleDefs largeSolve rt rfl
    recognisedUnits_largeSolve hrt
    (by rw [tmole_orig_largeSolve]; norm_num) (by rw [tmole_orig_largeSolve]; norm_num)
  refine ⟨rfl, s', h, ?_, ?_⟩
  · rw [p.totalMoleScale, tmole_orig_largeSolve]
    norm_num [moleScaleOf]
  · rw [(voltage_species_not_scaled sampleDefs largeSolve 1 rfl).1 s' h]
    rfl

/-! ## Reaction step sizes: damping and the deletion step -/

theorem forLoop_inv {σ : Type} (P : Nat → σ → Prop) (body : Nat → σ → σ) (init : σ)
    (n : Nat) (h0 : P 0 init) (hstep : ∀ i x, i < n → P i x → P (i + 1) (body i x)) :
    P n (forLoop n body init) := by
  induction n with
  | zero => exact h0
  | succ m ih =>
    exact hstep m _ (Nat.lt_succ_self m)
      (ih (fun i x hi hx => hstep i x (Nat.lt_succ_of_lt hi) hx))

/-- One round of the component damping, on plain numbers: the new step is `c * dn` for
some `0 ≤ c ≤ 1`, and it does not drive the component (moles `n`, coefficient `ν`)
negative. -/
theorem damp_round (n ν dn : ℚ) (hn : 0 ≤ n) :
    ∃ c, 0 ≤ c ∧ c ≤ 1
      ∧ (if ν ≠ 0 then
          if - ν * dn > n then
            if n > 0 then - n / ν else 0
          else dn
        else dn) = c * dn
      ∧ 0 ≤ n + ν * (c * dn) := by
  by_cases h1 : ν = 0
  · refine ⟨1, by norm_num, le_refl 1, ?_, ?_⟩
    · rw [if_neg (not_not.mpr h1), one_mul]
    · rw [h1, zero_mul, add_zero]; exact hn
  · by_cases h2 : - ν * dn > n
    · by_cases h3 : n > 0
      · have hpos : 0 < - ν * dn := lt_trans h3 h2
        have hdn : dn ≠ 0 := by
          intro h; rw [h, mul_zero] at hpos; exact lt_irrefl _ hpos
        refine ⟨n / (- ν * dn), div_nonneg hn (le_of_lt hpos), ?_, ?_, ?_⟩
        · rw [div_le_one hpos]; exact le_of_lt h2
        · rw [if_pos h1, if_pos h2, if_pos h3]
          field_simp
          ring
        · have : ν * (n / (- ν * dn) * dn) = - n := by
            field_simp
            ring
          rw [this, add_neg_cancel]
      · refine ⟨0, le_refl 0, by norm_num, ?_, ?_⟩
        · rw [if_pos h1, if_pos h2, if_neg h3, zero_mul]
        · rw [zero_mul, mul_zero, add_zero]; exact hn
    · refine ⟨1, by norm_num, le_refl 1, ?_, ?_⟩
      · rw [if_pos h1, if_neg h2, one_mul]
      · rw [one_mul]
        have := not_lt.mp h2
        linarith

/-- The damping of lines 229-260 leaves a feasible step whose product with the undamped
step is nonnegative and whose size is at most that of the undamped step. -/
theorem dampStep_feasible (s : VCS_SOLVE) (irxn kspec : Nat) (dn0 : ℚ) (hn : NonnegMoles s) :
    StepFeasible s irxn kspec (dampStep s irxn kspec dn0)
      ∧ ∃ c, 0 ≤ c ∧ c ≤ 1 ∧ dampStep s irxn kspec dn0 = c * dn0 := by
  unfold dampStep
  have hloop := forLoop_inv
    (fun m dn => (∀ j, j < m → 0 ≤ s.m_molNumSpecies_old j
        + s.m_stoichCoeffRxnMatrix irxn j * dn)
      ∧ ∃ c, 0 ≤ c ∧ c ≤ 1 ∧ dn = c * dn0)
    (fun j dn =>
      let stoicC := s.m_stoichCoeffRxnMatrix irxn j
      if stoicC ≠ 0 then
        let negChangeComp := - stoicC * dn
        if negChangeComp > s.m_molNumSpecies_old j then
          if s.m_molNumSpecies_old j > 0 then
            - s.m_molNumSpecies_old j / stoicC
          else 0
        else dn
      else dn) dn0 s.m_numComponents
    ⟨fun j hj => absurd hj (Nat.not_lt_zero j), 1, by norm_num, le_refl 1, by ring⟩
    (by
      intro m dn _ ⟨hprev, c, hc0, hc1, hc⟩
      have key := damp_round (s.m_molNumSpecies_old m) (s.m_stoichCoeffRxnMatrix irxn m) dn
        (hn m)
      obtain ⟨c', hc'0, hc'1, hval, hfeas⟩ := key
      simp only []
      rw [hval]
      refine ⟨?_, c' * c, mul_nonneg hc'0 hc0, ?_, by rw [hc]; ring⟩
      · intro j hj
        rcases Nat.lt_succ_iff_lt_or_eq.mp hj with hlt | heq
        · have hj0 := hn j
          have hp := hprev j hlt
          nlinarith [mul_nonneg hc'0 hp, mul_nonneg (sub_nonneg.mpr hc'1) hj0]
        · rw [heq]; exact hfeas
      · calc c' * c ≤ 1 * 1 := mul_le_mul hc'1 hc1 hc0 (by norm_num)
          _ = 1 := by norm_num)
  obtain ⟨hcomp, c, hc0, hc1, hc⟩ := hloop
  generalize forLoop s.m_numComponents _ dn0 = dn1 at hcomp hc ⊢
  have hk := hn kspec
  by_cases h : - dn1 > s.m_molNumSpecies_old kspec
  · simp only [h, if_true]
    have hneg : 0 < - dn1 := lt_of_le_of_lt hk h
    have hd1 : dn1 ≠ 0 := by intro h0; rw [h0] at hneg; simp at hneg
    have hcval : - s.m_molNumSpecies_old kspec
        = s.m_molNumSpecies_old kspec / (- dn1) * dn1 := by field_simp
    have hc'0 : 0 ≤ s.m_molNumSpecies_old kspec / (- dn1) := div_nonneg hk (le_of_lt hneg)
    have hc'1 : s.m_molNumSpecies_old kspec / (- dn1) ≤ 1 := by
      rw [div_le_one hneg]; exact le_of_lt h
    refine ⟨⟨by simp, ?_⟩, s.m_molNumSpecies_old kspec / (- dn1) * c,
      mul_nonneg hc'0 hc0, ?_, by rw [hcval, hc]; ring⟩
    · intro j hj
      have hj0 := hn j
      have hp := hcomp j hj
      rw [hcval]
      nlinarith [mul_nonneg hc'0 hp, mul_nonneg (sub_nonneg.mpr hc'1) hj0]
    · calc s.m_molNumSpecies_old kspec / (- dn1) * c ≤ 1 * 1 :=
            mul_le_mul hc'1 hc1 hc0 (by norm_num)
        _ = 1 := by norm_num
  · simp only [h, if_false]
    refine ⟨⟨?_, hcomp⟩, c, hc0, hc1, hc⟩
    have := not_lt.mp h
    linarith

theorem rxnStep_newton (D : VcsDefs) (s : VCS_SOLVE) (irxn : Nat) (soldel : Int) (k : Nat)
    (hb : takesNewtonBranch D s irxn) :
    rxnStep D irxn s soldel k = newtonStep s irxn (s.m_indexRxnToSpecies irxn)
      (hessianDiagIdeal s irxn (s.m_indexRxnToSpecies irxn)) soldel k := by
  obtain ⟨h1, h2, h3, h4, h5, h6⟩ := hb
  unfold rxnStep
  simp only [h1, h2, h3, h4, h5, h6, if_false, if_true, ne_eq, not_false_eq_true]

theorem newtonStep_cases (s : VCS_SOLVE) (irxn kspec : Nat) (sdiag : ℚ) (soldel : Int)
    (k : Nat) :
    (newtonStep s irxn kspec sdiag soldel k = .exit
        ∧ s.m_useActCoeffJac = true ∧ sdiag ≤ 0)
      ∨ ∃ sdiag1, newtonStep s irxn kspec sdiag soldel k
        = .next { s with
            m_deltaMolNumSpecies := Function.update s.m_deltaMolNumSpecies kspec
              (dampStep s irxn kspec (- s.m_deltaGRxn_new irxn / sdiag1)) } soldel k := by
  unfold newtonStep
  by_cases hj : s.m_useActCoeffJac = true
  · simp only [hj, if_true]
    unfold vcs_Hessian_diag_adj
    simp only []
    by_cases h0 : sdiag ≤ 0
    · left
      simp only [h0, if_true, and_self]
    · right
      simp only [h0, if_false]
      split_ifs
      · exact ⟨_, rfl⟩
      · exact ⟨_, rfl⟩
      · exact ⟨_, rfl⟩
  · right
    simp only [hj]
    exact ⟨_, rfl⟩

/-- The extent chosen by the deletion step moves no species below zero. -/
theorem deletionTarget_feasible (s : VCS_SOLVE) (irxn kspec k : Nat) (hn : NonnegMoles s) :
    StepFeasible s irxn kspec (deletionTarget s irxn kspec k).1 := by
  unfold deletionTarget
  by_cases hg : s.m_deltaGRxn_new irxn > 0
  · simp only [hg, if_true]
    have hloop := forLoop_inv
      (fun m (r : ℚ × Nat) => 0 ≤ r.1 ∧ r.1 ≤ s.m_molNumSpecies_old kspec
        ∧ ∀ j, j < m → s.m_stoichCoeffRxnMatrix irxn j > 0 →
          r.1 * s.m_stoichCoeffRxnMatrix irxn j ≤ s.m_molNumSpecies_old j)
      (fun j (r : ℚ × Nat) =>
        if s.m_stoichCoeffRxnMatrix irxn j > 0 then
          let xx := s.m_molNumSpecies_old j / s.m_stoichCoeffRxnMatrix irxn j
          if xx < r.1 then (xx, j) else r
        else r) (s.m_molNumSpecies_old kspec, kspec) s.m_numComponents
      ⟨hn kspec, le_refl _, fun j hj => absurd hj (Nat.not_lt_zero j)⟩
      (by
        intro m r _ ⟨h0, hk, hprev⟩
        by_cases hnu : s.m_stoichCoeffRxnMatrix irxn m > 0
        · have hxx : s.m_molNumSpecies_old m / s.m_stoichCoeffRxnMatrix irxn m
              * s.m_stoichCoeffRxnMatrix irxn m = s.m_molNumSpecies_old m :=
            div_mul_cancel₀ _ (ne_of_gt hnu)
          by_cases hlt : s.m_molNumSpecies_old m / s.m_stoichCoeffRxnMatrix irxn m < r.1
          · simp only [hnu, if_true, hlt]
            refine ⟨div_nonneg (hn m) (le_of_lt hnu), le_trans (le_of_lt hlt) hk, ?_⟩
            intro j hj hj0
            rcases Nat.lt_succ_iff_lt_or_eq.mp hj with h | h
            · exact le_trans (mul_le_mul_of_nonneg_right (le_of_lt hlt) (le_of_lt hj0))
                (hprev j h hj0)
            · rw [h, hxx]
          · simp only [hnu, if_true, hlt, if_false]
            refine ⟨h0, hk, ?_⟩
            intro j hj hj0
            rcases Nat.lt_succ_iff_lt_or_eq.mp hj with h | h
            · exact hprev j h hj0
            · rw [h, ← hxx]
              exact mul_le_mul_of_nonneg_right (not_lt.mp hlt) (le_of_lt hnu)
        · simp only [hnu, if_false]
          refine ⟨h0, hk, ?_⟩
          intro j hj hj0
          rcases Nat.lt_succ_iff_lt_or_eq.mp hj with h | h
          · exact hprev j h hj0
          · rw [h] at hj0; exact absurd hj0 hnu)
    obtain ⟨h0, hk, hall⟩ := hloop
    generalize forLoop s.m_numComponents _ (s.m_molNumSpecies_old kspec, kspec) = r
      at h0 hk hall
    refine ⟨by linarith, ?_⟩
    intro j hj
    by_cases hj0 : s.m_stoichCoeffRxnMatrix irxn j > 0
    · have := hall j hj hj0
      linarith
    · have h1 : s.m_stoichCoeffRxnMatrix irxn j ≤ 0 := not_lt.mp hj0
      have h2 := hn j
      nlinarith [mul_nonneg h0 (neg_nonneg.mpr h1)]
  · simp only [hg, if_false]
    have hloop := forLoop_inv
      (fun m (r : ℚ × Nat) => 0 ≤ r.1
        ∧ ∀ j, j < m → s.m_stoichCoeffRxnMatrix irxn j < 0 →
          r.1 * (- s.m_stoichCoeffRxnMatrix irxn j) ≤ s.m_molNumSpecies_old j)
      (fun j (r : ℚ × Nat) =>
        if s.m_stoichCoeffRxnMatrix irxn j < 0 then
          let xx := - s.m_molNumSpecies_old j / s.m_stoichCoeffRxnMatrix irxn j
          if xx < r.1 then (xx, j) else r
        else r) (1.0e10, k) s.m_numComponents
      ⟨by norm_num, fun j hj => absurd hj (Nat.not_lt_zero j)⟩
      (by
        intro m r _ ⟨h0, hprev⟩
        by_cases hnu : s.m_stoichCoeffRxnMatrix irxn m < 0
        · have hxx : - s.m_molNumSpecies_old m / s.m_stoichCoeffRxnMatrix irxn m
              * (- s.m_stoichCoeffRxnMatrix irxn m) = s.m_molNumSpecies_old m := by
            have hne : s.m_stoichCoeffRxnMatrix irxn m ≠ 0 := ne_of_lt hnu
            field_simp
          have hx0 : 0 ≤ - s.m_molNumSpecies_old m / s.m_stoichCoeffRxnMatrix irxn m :=
            div_nonneg_of_nonpos (neg_nonpos.mpr (hn m)) (le_of_lt hnu)
          by_cases hlt : - s.m_molNumSpecies_old m / s.m_stoichCoeffRxnMatrix irxn m < r.1
          · simp only [hnu, if_true, hlt]
            refine ⟨hx0, ?_⟩
            intro j hj hj0
            rcases Nat.lt_succ_iff_lt_or_eq.mp hj with h | h
            · exact le_trans (mul_le_mul_of_nonneg_right (le_of_lt hlt)
                (le_of_lt (neg_pos.mpr hj0))) (hprev j h hj0)
            · rw [h, hxx]
          · simp only [hnu, if_true, hlt, if_false]
            refine ⟨h0, ?_⟩
            intro j hj hj0
            rcases Nat.lt_succ_iff_lt_or_eq.mp hj with h | h
            · exact hprev j h hj0
            · rw [h, ← hxx]
              exact mul_le_mul_of_nonneg_right (not_lt.mp hlt) (le_of_lt (neg_pos.mpr hnu))
        · simp only [hnu, if_false]
          refine ⟨h0, ?_⟩
          intro j hj hj0
          rcases Nat.lt_succ_iff_lt_or_eq.mp hj with h | h
          · exact hprev j h hj0
          · rw [h] at hj0; exact absurd hj0 hnu)
    obtain ⟨h0, hall⟩ := hloop
    generalize forLoop s.m_numComponents _ ((1.0e10 : ℚ), k) = r at h0 hall
    refine ⟨add_nonneg (hn kspec) h0, ?_⟩
    intro j hj
    by_cases hj0 : s.m_stoichCoeffRxnMatrix irxn j < 0
    · have := hall j hj hj0
      linarith
    · have h1 : 0 ≤ s.m_stoichCoeffRxnMatrix irxn j := not_lt.mp hj0
      exact add_nonneg (hn j) (mul_nonneg h1 h0)

/-- The mole numbers after the deletion step, in closed form. -/
theorem applyDeletion_moles (s : VCS_SOLVE) (irxn kspec k : Nat) (dss : ℚ) :
    (applyDeletion s irxn kspec k dss).m_molNumSpecies_old
      = Function.update
          (mapBelow s.m_numComponents (fun j x => x + dss * s.m_stoichCoeffRxnMatrix irxn j)
            (Function.update s.m_molNumSpecies_old kspec (s.m_molNumSpecies_old kspec + dss)))
          k 0 := by
  have h := forLoop_inv
    (fun m (r : (Nat → ℚ) × (Nat → ℚ)) => r.1
      = mapBelow m (fun j x => x + dss * s.m_stoichCoeffRxnMatrix irxn j)
        (Function.update s.m_molNumSpecies_old kspec (s.m_molNumSpecies_old kspec + dss)))
    (fun j (r : (Nat → ℚ) × (Nat → ℚ)) =>
      (Function.update r.1 j (r.1 j + dss * s.m_stoichCoeffRxnMatrix irxn j),
        Function.update r.2 (s.m_phaseID j)
          (r.2 (s.m_phaseID j) + dss * s.m_stoichCoeffRxnMatrix irxn j)))
    (Function.update s.m_molNumSpecies_old kspec (s.m_molNumSpecies_old kspec + dss),
      Function.update s.m_tPhaseMoles_old (s.m_phaseID kspec)
        (s.m_tPhaseMoles_old (s.m_phaseID kspec) + dss))
    s.m_numComponents (by simp only [mapBelow_zero])
    (by
      intro m r _ hr
      simp only [] at hr ⊢
      rw [hr, mapBelow_self]
      exact update_mapBelow m _ _ _ rfl)
  unfold applyDeletion
  simp only []
  rw [h]

theorem applyDeletion_frame (s : VCS_SOLVE) (irxn kspec k : Nat) (dss : ℚ) :
    (applyDeletion s irxn kspec k dss).m_indexRxnToSpecies = s.m_indexRxnToSpecies
      ∧ (applyDeletion s irxn kspec k dss).m_numComponents = s.m_numComponents :=
  ⟨rfl, rfl⟩

theorem applyDeletion_nonneg (s : VCS_SOLVE) (irxn kspec k : Nat) (dss : ℚ)
    (hn : NonnegMoles s) (hk : s.m_numComponents ≤ kspec)
    (hf : StepFeasible s irxn kspec dss) :
    NonnegMoles (applyDeletion s irxn kspec k dss) := by
  intro i
  rw [applyDeletion_moles]
  by_cases hik : i = k
  · rw [hik, Function.update_same]
  · rw [Function.update_noteq hik]
    by_cases hi : i < s.m_numComponents
    · have hne : i ≠ kspec := by omega
      rw [mapBelow_of_lt _ _ _ _ hi, Function.update_noteq hne]
      have := hf.2 i hi
      linarith
    · unfold mapBelow
      rw [if_neg hi]
      by_cases hik2 : i = kspec
      · rw [hik2, Function.update_same]; exact hf.1
      · rw [Function.update_noteq hik2]; exact hn i

theorem birthStep_frame (D : VcsDefs) (s : VCS_SOLVE) (irxn kspec : Nat) :
    (birthStep D s irxn kspec).m_molNumSpecies_old = s.m_molNumSpecies_old
      ∧ (birthStep D s irxn kspec).m_indexRxnToSpecies = s.m_indexRxnToSpecies
      ∧ (birthStep D s irxn kspec).m_numComponents = s.m_numComponents := by
  unfold birthStep
  simp only []
  split_ifs <;> exact ⟨rfl, rfl, rfl⟩

/-- One round of the reaction loop keeps the mole numbers nonnegative, and leaves the
map from reactions to species and the number of components alone. -/
theorem rxnStep_nonneg (D : VcsDefs) (irxn : Nat) (s : VCS_SOLVE) (soldel : Int) (k : Nat)
    (hn : NonnegMoles s) (hk : s.m_numComponents ≤ s.m_indexRxnToSpecies irxn)
    (s' : VCS_SOLVE) (hs' : (rxnStep D irxn s soldel k).state? = some s') :
    NonnegMoles s' ∧ s'.m_indexRxnToSpecies = s.m_indexRxnToSpecies
      ∧ s'.m_numComponents = s.m_numComponents := by
  unfold rxnStep at hs'
  simp only [] at hs'
  split_ifs at hs' with h1 h2 h3 h4 h5 h6
  · simp only [RxnOutcome.state?, Option.some.injEq] at hs'
    subst hs'
    exact ⟨hn, rfl, rfl⟩
  · simp only [RxnOutcome.state?, Option.some.injEq] at hs'
    subst hs'
    obtain ⟨hm, hi, hc⟩ := birthStep_frame D s irxn (s.m_indexRxnToSpecies irxn)
    exact ⟨fun i => by rw [hm]; exact hn i, hi, hc⟩
  · simp only [RxnOutcome.state?, Option.some.injEq] at hs'
    subst hs'
    exact ⟨hn, rfl, rfl⟩
  · simp only [RxnOutcome.state?, Option.some.injEq] at hs'
    subst hs'
    exact ⟨hn, rfl, rfl⟩
  · rcases newtonStep_cases s irxn (s.m_indexRxnToSpecies irxn)
      (hessianDiagIdeal s irxn (s.m_indexRxnToSpecies irxn)) soldel k with h | ⟨sd, h⟩
    · rw [h.1] at hs'
      simp only [RxnOutcome.state?] at hs'
      cases hs'
    · rw [h] at hs'
      simp only [RxnOutcome.state?, Option.some.injEq] at hs'
      subst hs'
      exact ⟨hn, rfl, rfl⟩
  · unfold deletionStep at hs'
    simp only [] at hs'
    have hf := deletionTarget_feasible s irxn (s.m_indexRxnToSpecies irxn) k hn
    have hnn := applyDeletion_nonneg s irxn (s.m_indexRxnToSpecies irxn)
      (deletionTarget s irxn (s.m_indexRxnToSpecies irxn) k).2
      (deletionTarget s irxn (s.m_indexRxnToSpecies irxn) k).1 hn hk hf
    split_ifs at hs' with h7 h8 h9
    · simp only [RxnOutcome.state?] at hs'
      cases hs'
    · simp only [RxnOutcome.state?, Option.some.injEq] at hs'
      subst hs'
      exact ⟨hnn, rfl, rfl⟩
    · simp only [RxnOutcome.state?, Option.some.injEq] at hs'
      subst hs'
      exact ⟨hnn, rfl, rfl⟩
    · simp only [RxnOutcome.state?, Option.some.injEq] at hs'
      subst hs'
      exact ⟨hn, rfl, rfl⟩
  · simp only [RxnOutcome.state?, Option.some.injEq] at hs'
    subst hs'
    exact ⟨hn, rfl, rfl⟩

theorem rxnLoop_nonneg (D : VcsDefs) (n : Nat) :
    ∀ (irxn : Nat) (s : VCS_SOLVE) (soldel : Int) (k : Nat) (code : Int) (s' : VCS_SOLVE),
      NonnegMoles s →
      (∀ r, irxn ≤ r → r < irxn + n → s.m_numComponents ≤ s.m_indexRxnToSpecies r) →
      rxnLoop D n irxn s soldel k = .ok (code, s') → NonnegMoles s' := by
  induction n with
  | zero =>
    intro irxn s soldel k code s' hn _ h
    simp only [rxnLoop, Except.ok.injEq, Prod.mk.injEq] at h
    rw [← h.2]; exact hn
  | succ m ih =>
    intro irxn s soldel k code s' hn hwf h
    have hstep := rxnStep_nonneg D irxn s soldel k hn
      (hwf irxn (le_refl _) (by omega))
    unfold rxnLoop at h
    cases hr : rxnStep D irxn s soldel k with
    | next s1 soldel1 k1 =>
      rw [hr] at h hstep
      simp only [] at h
      obtain ⟨hn1, hi1, hc1⟩ := hstep s1 rfl
      refine ih (irxn + 1) s1 soldel1 k1 code s' hn1 ?_ h
      intro r hr1 hr2
      rw [hi1, hc1]
      exact hwf r (by omega) (by omega)
    | ret s1 soldel1 =>
      rw [hr] at h hstep
      simp only [Except.ok.injEq, Prod.mk.injEq] at h
      obtain ⟨hn1, -, -⟩ := hstep s1 rfl
      rw [← h.2]; exact hn1
    | exit =>
      rw [hr] at h
      simp only [] at h
      cases h

theorem vcs_CalcLnActCoeffJac_frame (s : VCS_SOLVE) (mol : Nat → ℚ) :
    ∃ J, vcs_CalcLnActCoeffJac s mol = { s with m_dLnActCoeffdMolNum := J } := by
  unfold vcs_CalcLnActCoeffJac
  refine forLoop_inv (fun _ x => ∃ J, x = { s with m_dLnActCoeffdMolNum := J }) _ _
    s.m_numPhases ⟨s.m_dLnActCoeffdMolNum, rfl⟩ ?_
  rintro i x _ ⟨J, rfl⟩
  simp only []
  split_ifs
  · exact ⟨_, rfl⟩
  · exact ⟨J, rfl⟩

theorem rxnStep_deletion (D : VcsDefs) (s : VCS_SOLVE) (irxn : Nat) (soldel : Int) (k : Nat)
    (hb : takesDeletionBranch D s irxn) :
    rxnStep D irxn s soldel k
      = deletionStep D s irxn (s.m_indexRxnToSpecies irxn) soldel k := by
  obtain ⟨h1, h2, h3, h4, h5, h6⟩ := hb
  unfold rxnStep
  simp only [h1, h2, h3, h4, h5, h6, if_false, if_true, ne_eq, not_false_eq_true,
    not_true_eq_false]

theorem sentinelSolve_branch : takesDeletionBranch sampleDefs sentinelSolve 0 := by
  norm_num [takesDeletionBranch, hessianDiagIdeal, forLoop, sentinelSolve, emptySolve,
    emptyPhase, sampleDefs]

theorem sentinelSolve_target : deletionTarget sentinelSolve 0 1 0 = (1.0e10, 0) := by
  norm_num [deletionTarget, forLoop, sentinelSolve, emptySolve]

theorem sentinelSolve_run :
    vcs_RxnStepSizes sampleDefs sentinelSolve
      = .ok (2, applyDeletion sentinelSolve 0 1 0 1.0e10) := by
  have h1 : rxnStep sampleDefs 0 sentinelSolve 0 0
      = .ret (applyDeletion sentinelSolve 0 1 0 1.0e10) 2 := by
    rw [rxnStep_deletion _ _ _ _ _ sentinelSolve_branch]
    have hk : sentinelSolve.m_indexRxnToSpecies 0 = 1 := rfl
    rw [hk]
    unfold deletionStep
    simp only [sentinelSolve_target]
    norm_num
  have h0 : vcs_RxnStepSizes sampleDefs sentinelSolve
      = rxnLoop sampleDefs 1 0 sentinelSolve 0 0 := rfl
  rw [h0]
  unfold rxnLoop
  rw [h1]

theorem sentinelSolve_nonneg : ∀ i, 0 ≤ sentinelSolve.m_molNumSpecies_old i := by
  intro i
  show (0 : ℚ) ≤ if i = 0 then 2.0e10 else if i = 1 then 1 else 0
  split_ifs <;> norm_num

theorem sentinelSolve_wf : ∀ r, r < sentinelSolve.m_numRxnRdc →
    sentinelSolve.m_numComponents ≤ sentinelSolve.m_indexRxnToSpecies r := by
  intro r _
  show 1 ≤ r + 1
  omega

theorem sentinelSolve_consistent : ElementConsistent oneElement sentinelSolve := by
  intro r _ e
  by_cases he : e = 0 <;>
    simp [forLoop, sentinelSolve, emptySolve, oneElement, he]

theorem twoRxnSolve_branch0 : takesDeletionBranch sampleDefs twoRxnSolve 0 := by
  norm_num [takesDeletionBranch, hessianDiagIdeal, forLoop, twoRxnSolve, emptySolve,
    emptyPhase, sampleDefs]

theorem twoRxnSolve_target0 : deletionTarget twoRxnSolve 0 1 0 = (-1, 1) := by
  norm_num [deletionTarget, forLoop, twoRxnSolve, emptySolve]

theorem twoRxnSolve_step0 : rxnStep sampleDefs 0 twoRxnSolve 0 0 = .next twoRxnMid 1 1 := by
  rw [rxnStep_deletion _ _ _ _ _ twoRxnSolve_branch0]
  have hk : twoRxnSolve.m_indexRxnToSpecies 0 = 1 := rfl
  rw [hk]
  unfold deletionStep
  simp only [twoRxnSolve_target0]
  norm_num [applyDeletion, twoRxnSolve, emptySolve, twoRxnMid]

theorem twoRxnMid_moles : twoRxnMid.m_molNumSpecies_old
    = fun i => if i = 0 then 2.0e10 + 1 else if i = 1 then 0 else if i = 2 then 1 else 0 := by
  funext i
  by_cases h0 : i = 0
  · subst h0
    norm_num [twoRxnMid, applyDeletion, forLoop, Function.update, twoRxnSolve, emptySolve]
  · by_cases h1 : i = 1
    · subst h1
      norm_num [twoRxnMid, applyDeletion, forLoop, Function.update, twoRxnSolve, emptySolve]
    · by_cases h2 : i = 2
      · subst h2
        norm_num [twoRxnMid, applyDeletion, forLoop, Function.update, twoRxnSolve, emptySolve]
      · simp [twoRxnMid, applyDeletion, forLoop, Function.update, twoRxnSolve, emptySolve,
          h0, h1, h2]

theorem twoRxnMid_branch1 : takesDeletionBranch sampleDefs twoRxnMid 1 := by
  have hk : twoRxnMid.m_indexRxnToSpecies 1 = 2 := rfl
  have hst : twoRxnMid.m_speciesStatus 2 = 1 := by
    simp [twoRxnMid, applyDeletion, Function.update, twoRxnSolve, emptySolve]
  have hty : twoRxnMid.m_speciesUnknownType 2 = 0 := rfl
  have hss : twoRxnMid.m_SSPhase 2 = 1 := rfl
  have hdg : twoRxnMid.m_deltaGRxn_new 1 = -1 := rfl
  have htol : twoRxnMid.m_tolmaj2 = 0 := rfl
  have hd : hessianDiagIdeal twoRxnMid 1 2 = 0 := by
    have hM : twoRxnMid.m_numComponents = 1 := rfl
    have hP : twoRxnMid.m_numPhases = 3 := rfl
    have hs0 : twoRxnMid.m_SSPhase 0 = 1 := rfl
    have hv : ∀ j, (twoRxnMid.m_VolPhaseList j).m_singleSpecies = true := by
      intro j
      simp only [twoRxnMid, applyDeletion, Function.update_apply, twoRxnSolve, emptySolve]
      split_ifs <;> rfl
    unfold hessianDiagIdeal
    simp [hM, hP, hss, hs0, hv, forLoop]
  unfold takesDeletionBranch
  rw [hk, hst, hty, hss, hdg, htol, hd]
  norm_num [sampleDefs]

theorem twoRxnMid_target1 : deletionTarget twoRxnMid 1 2 1 = (1.0e10, 1) := by
  have hM : twoRxnMid.m_numComponents = 1 := rfl
  have hdg : twoRxnMid.m_deltaGRxn_new 1 = -1 := rfl
  have hnu : twoRxnMid.m_stoichCoeffRxnMatrix 1 0 = -1 := rfl
  unfold deletionTarget
  rw [hM, hdg, twoRxnMid_moles]
  norm_num [forLoop, hnu]

theorem twoRxnSolve_run :
    vcs_RxnStepSizes sampleDefs twoRxnSolve
      = .ok (2, applyDeletion twoRxnMid 1 2 1 1.0e10) := by
  have h1 : rxnStep sampleDefs 1 twoRxnMid 1 1
      = .ret (applyDeletion twoRxnMid 1 2 1 1.0e10) 2 := by
    rw [rxnStep_deletion _ _ _ _ _ twoRxnMid_branch1]
    have hk : twoRxnMid.m_indexRxnToSpecies 1 = 2 := rfl
    rw [hk]
    unfold deletionStep
    simp only [twoRxnMid_target1]
    norm_num
  have h0 : vcs_RxnStepSizes sampleDefs twoRxnSolve
      = rxnLoop sampleDefs 2 0 twoRxnSolve 0 0 := rfl
  rw [h0]
  unfold rxnLoop
  rw [twoRxnSolve_step0]
  simp only []
  unfold rxnLoop
  rw [h1]

theorem newtonSolve_nonneg : ∀ i, 0 ≤ newtonSolve.m_molNumSpecies_old i := by
  intro i
  show (0 : ℚ) ≤ if i = 0 then 1 else if i = 1 then 2 else 0
  split_ifs <;> norm_num

theorem newtonSolve_branch : takesNewtonBranch sampleDefs newtonSolve 0 := by
  norm_num [takesNewtonBranch, hessianDiagIdeal, forLoop, newtonSolve, emptySolve,
    emptyPhase, sampleDefs]

/-! ## The claims on `vcs_RxnStepSizes` -/

/-- In exact arithmetic: with all mole numbers nonnegative, a reaction that goes through
the Newton branch (`s != 0`) of `vcs_RxnStepSizes` either makes the routine exit inside
`vcs_Hessian_diag_adj` (only with the activity-coefficient Jacobian on and `s ≤ 0`), or
leaves the mole numbers as they were and a step `dn = m_deltaMolNumSpecies[k]` with
`n_k + dn ≥ 0` and `n_j + nu[r][j] * dn ≥ 0` for every component `j`. -/
theorem newton_step_keeps_moles_nonneg (D : VcsDefs) (s : VCS_SOLVE) (irxn : Nat)
    (soldel : Int) (k : Nat) (hn : ∀ i, 0 ≤ s.m_molNumSpecies_old i)
    (hb : takesNewtonBranch D s irxn) :
    (rxnStep D irxn s soldel k = .exit ∧ s.m_useActCoeffJac = true
        ∧ hessianDiagIdeal s irxn (s.m_indexRxnToSpecies irxn) ≤ 0)
      ∨ ∃ s', rxnStep D irxn s soldel k = .next s' soldel k
        ∧ s'.m_molNumSpecies_old = s.m_molNumSpecies_old
        ∧ 0 ≤ s.m_molNumSpecies_old (s.m_indexRxnToSpecies irxn)
            + s'.m_deltaMolNumSpecies (s.m_indexRxnToSpecies irxn)
        ∧ ∀ j, j < s.m_numComponents →
            0 ≤ s.m_molNumSpecies_old j + s.m_stoichCoeffRxnMatrix irxn j
              * s'.m_deltaMolNumSpecies (s.m_indexRxnToSpecies irxn) := by
  rw [rxnStep_newton D s irxn soldel k hb]
  rcases newtonStep_cases s irxn (s.m_indexRxnToSpecies irxn)
    (hessianDiagIdeal s irxn (s.m_indexRxnToSpecies irxn)) soldel k with h | ⟨sdiag1, h⟩
  · exact Or.inl h
  · right
    refine ⟨_, h, rfl, ?_⟩
    have hf := (dampStep_feasible s irxn (s.m_indexRxnToSpecies irxn)
      (- s.m_deltaGRxn_new irxn / sdiag1) hn).1
    simp only [Function.update_same]
    exact hf

/-- The bounds of the damped Newton step on `newtonSolve` (activity-coefficient Jacobian
off), in exact arithmetic: the undamped step 4 would take component 0 from 1 to -3; the
routine leaves a step on which the two bounds hold. -/
theorem newton_step_keeps_moles_nonneg_witness :
    ∃ s', rxnStep sampleDefs 0 newtonSolve 0 0 = .next s' 0 0
      ∧ s'.m_molNumSpecies_old = newtonSolve.m_molNumSpecies_old
      ∧ 0 ≤ newtonSolve.m_molNumSpecies_old (newtonSolve.m_indexRxnToSpecies 0)
          + s'.m_deltaMolNumSpecies (newtonSolve.m_indexRxnToSpecies 0)
      ∧ ∀ j, j < newtonSolve.m_numComponents →
          0 ≤ newtonSolve.m_molNumSpecies_old j + newtonSolve.m_stoichCoeffRxnMatrix 0 j
            * s'.m_deltaMolNumSpecies (newtonSolve.m_indexRxnToSpecies 0) :=
  (newton_step_keeps_moles_nonneg sampleDefs newtonSolve 0 0 0 newtonSolve_nonneg
    newtonSolve_branch).resolve_left (fun h => absurd h.2.1 (by decide))

/-- In exact arithmetic, if every entry of `m_molNumSpecies_old` is nonnegative (and every
formation reaction `r < m_numRxnRdc` belongs to a noncomponent species, index at least
`m_numComponents`), then every entry is still nonnegative when `vcs_RxnStepSizes` returns,
with whatever code. -/
theorem rxnStepSizes_keeps_moles_nonneg (D : VcsDefs) (s : VCS_SOLVE)
    (hn : ∀ i, 0 ≤ s.m_molNumSpecies_old i)
    (hwf : ∀ r, r < s.m_numRxnRdc → s.m_numComponents ≤ s.m_indexRxnToSpecies r)
    (code : Int) (s' : VCS_SOLVE) (hret : vcs_RxnStepSizes D s = .ok (code, s')) :
    ∀ i, 0 ≤ s'.m_molNumSpecies_old i := by
  unfold vcs_RxnStepSizes at hret
  simp only [] at hret
  by_cases hj : s.m_useActCoeffJac = true
  · obtain ⟨J, hJ⟩ := vcs_CalcLnActCoeffJac_frame s s.m_molNumSpecies_old
    rw [if_pos hj, hJ] at hret
    exact rxnLoop_nonneg D _ 0 { s with m_dLnActCoeffdMolNum := J } 0 0 code s' hn
      (fun r _ hr => hwf r (by simpa using hr)) hret
  · rw [if_neg hj] at hret
    exact rxnLoop_nonneg D _ 0 _ 0 0 code s' hn
      (fun r _ hr => hwf r (by simpa using hr)) hret

/-- The mole numbers after the run on `sentinelSolve`: in exact arithmetic the routine takes
the deletion step, returns 2, and the mole numbers it leaves are nonnegative. -/
theorem rxnStepSizes_keeps_moles_nonneg_witness :
    vcs_RxnStepSizes sampleDefs sentinelSolve
        = .ok (2, applyDeletion sentinelSolve 0 1 0 1.0e10)
      ∧ ∀ i, 0 ≤ (applyDeletion sentinelSolve 0 1 0 1.0e10).m_molNumSpecies_old i :=
  ⟨sentinelSolve_run,
    rxnStepSizes_keeps_moles_nonneg sampleDefs sentinelSolve sentinelSolve_nonneg
      sentinelSolve_wf 2 _ sentinelSolve_run⟩

/-- C2, the code at the failing input `sentinelSolve` with the formula matrix
`oneElement`: the reaction is element-consistent and the mole numbers are nonnegative;
in the `ΔG < 0` deletion step no component reaches zero before the initial `dss = 1e10`,
the local `k` keeps its initial value 0, and component 0 is zeroed all the same. The
routine returns 2 and the abundance of element 0 drops from 2e10 + 1 to 1e10 + 1. -/
theorem deletion_sentinel_breaks_element_balance :
    ElementConsistent oneElement sentinelSolve
      ∧ (∀ i, 0 ≤ sentinelSolve.m_molNumSpecies_old i)
      ∧ deletionTarget sentinelSolve 0 1 0 = (1.0e10, 0)
      ∧ ∃ s', vcs_RxnStepSizes sampleDefs sentinelSolve = .ok (2, s')
        ∧ elemAbundance oneElement sentinelSolve 0 = 2.0e10 + 1
        ∧ elemAbundance oneElement s' 0 = 1.0e10 + 1
        ∧ elemAbundance oneElement s' 0 ≠ elemAbundance oneElement sentinelSolve 0 := by
  have h1 : elemAbundance oneElement sentinelSolve 0 = 2.0e10 + 1 := by
    norm_num [elemAbundance, forLoop, oneElement, sentinelSolve, emptySolve]
  have h2 : elemAbundance oneElement (applyDeletion sentinelSolve 0 1 0 1.0e10) 0
      = 1.0e10 + 1 := by
    norm_num [elemAbundance, forLoop, oneElement, applyDeletion, Function.update,
      sentinelSolve, emptySolve]
  refine ⟨sentinelSolve_consistent, sentinelSolve_nonneg, sentinelSolve_target,
    _, sentinelSolve_run, h1, h2, ?_⟩
  rw [h1, h2]
  norm_num

/-- C5, the code at the failing input `twoRxnSolve`: reaction 0 (`ΔG > 0`) zeroes its own
species 1, a noncomponent, and leaves `k = 1`; in reaction 1 (`ΔG < 0`) no component
reaches zero before the initial `dss = 1e10`, so `k` is still 1, species 1 is zeroed
again and, `k` differing from the species 2 of the reaction, the routine returns 2.
The only component, species 0, holds 2e10 before and 1e10 + 1 after: the return code
is 2 although no component was zeroed. -/
theorem return_code_two_without_zeroed_component :
    rxnStep sampleDefs 0 twoRxnSolve 0 0 = .next twoRxnMid 1 1
      ∧ (deletionTarget twoRxnSolve 0 1 0).2 = 1
      ∧ (deletionTarget twoRxnMid 1 2 1).2 = 1
      ∧ twoRxnSolve.m_numComponents = 1
      ∧ twoRxnSolve.m_molNumSpecies_old 0 = 2.0e10
      ∧ ∃ s', vcs_RxnStepSizes sampleDefs twoRxnSolve = .ok (2, s')
        ∧ s'.m_numComponents = 1
        ∧ s'.m_molNumSpecies_old 0 = 1.0e10 + 1
        ∧ s'.m_molNumSpecies_old 1 = 0
        ∧ s'.m_molNumSpecies_old 2 = 1.0e10 + 1 := by
  refine ⟨twoRxnSolve_step0, by rw [twoRxnSolve_target0], by rw [twoRxnMid_target1],
    rfl, rfl, _, twoRxnSolve_run, rfl, ?_, ?_, ?_⟩
  · rw [applyDeletion_moles, twoRxnMid_moles]
    have hM : twoRxnMid.m_numComponents = 1 := rfl
    have hnu : twoRxnMid.m_stoichCoeffRxnMatrix 1 0 = -1 := rfl
    norm_num [mapBelow, Function.update, hM, hnu]
  · rw [applyDeletion_moles]
    simp [Function.update]
  · rw [applyDeletion_moles, twoRxnMid_moles]
    have hM : twoRxnMid.m_numComponents = 1 := rfl
    norm_num [mapBelow, Function.update, hM]

/-! ## The claims on the two multipliers -/

theorem vcs_nondim_Farad_err (D : VcsDefs) (u : Int) (T : ℚ) (hu : ¬ recognisedUnits D u) :
    vcs_nondim_Farad D u T = .error .exitFailure := by
  unfold recognisedUnits at hu
  push_neg at hu
  obtain ⟨h1, h2, h3, h4, h5⟩ := hu
  simp [vcs_nondim_Farad, h1, h2, h3, h4, h5]

theorem recognisedUnits_iff (D : VcsDefs) (u : Int) :
    recognisedUnits D u ↔ (u = D.VCS_UNITS_MKS ∨ u = D.VCS_UNITS_KJMOL
      ∨ u = D.VCS_UNITS_KCALMOL ∨ u = D.VCS_UNITS_KELVIN ∨ u = D.VCS_UNITS_UNITLESS) := by
  unfold recognisedUnits
  tauto

/-- The five units codes are pairwise distinct. -/
theorem units_distinct (D : VcsDefs) :
    D.VCS_UNITS_KCALMOL ≠ D.VCS_UNITS_UNITLESS ∧ D.VCS_UNITS_KCALMOL ≠ D.VCS_UNITS_KJMOL
      ∧ D.VCS_UNITS_KCALMOL ≠ D.VCS_UNITS_KELVIN ∧ D.VCS_UNITS_KCALMOL ≠ D.VCS_UNITS_MKS
      ∧ D.VCS_UNITS_UNITLESS ≠ D.VCS_UNITS_KJMOL ∧ D.VCS_UNITS_UNITLESS ≠ D.VCS_UNITS_KELVIN
      ∧ D.VCS_UNITS_UNITLESS ≠ D.VCS_UNITS_MKS ∧ D.VCS_UNITS_KJMOL ≠ D.VCS_UNITS_KELVIN
      ∧ D.VCS_UNITS_KJMOL ≠ D.VCS_UNITS_MKS ∧ D.VCS_UNITS_KELVIN ≠ D.VCS_UNITS_MKS := by
  have h := D.units_nodup
  simp only [List.nodup_cons, List.mem_cons, List.mem_singleton, not_or, List.not_mem_nil,
    not_false_eq_true, List.nodup_nil, and_true] at h
  obtain ⟨⟨a1, a2, a3, a4⟩, ⟨b1, b2, b3⟩, ⟨c1, c2⟩, d1⟩ := h
  exact ⟨a1, a2, a3, a4, b1, b2, b3, c1, c2, d1⟩

/-- C11: for a recognised units code and a temperature `T ≤ 0`, `vcs_nondimMult_TP` and
`vcs_nondim_Farad` return at `T` the values they return at 293.15. -/
theorem temperature_substitution (D : VcsDefs) (u : Int) (T : ℚ)
    (hu : recognisedUnits D u) (hT : T ≤ 0) :
    vcs_nondimMult_TP D u T = vcs_nondimMult_TP D u 293.15
      ∧ vcs_nondim_Farad D u T = vcs_nondim_Farad D u 293.15
      ∧ ∃ rt fd, vcs_nondimMult_TP D u T = .ok rt ∧ vcs_nondim_Farad D u T = .ok fd := by
  have h : ¬ ((293.15 : ℚ) ≤ 0) := by norm_num
  obtain ⟨rt, hrt, -⟩ := vcs_nondimMult_TP_ok D u T hu
  obtain ⟨fd, hfd⟩ := vcs_nondim_Farad_ok D u T hu
  refine ⟨?_, ?_, rt, fd, hrt, hfd⟩
  · unfold vcs_nondimMult_TP
    simp only [hT, h, if_true, if_false]
  · unfold vcs_nondim_Farad
    simp only [hT, h, if_true, if_false]

/-- Witness of C11 at MKS units and `T = -5`. -/
theorem temperature_substitution_witness :
    vcs_nondimMult_TP sampleDefs 3 (-5) = vcs_nondimMult_TP sampleDefs 3 293.15
      ∧ vcs_nondim_Farad sampleDefs 3 (-5) = vcs_nondim_Farad sampleDefs 3 293.15
      ∧ ∃ rt fd, vcs_nondimMult_TP sampleDefs 3 (-5) = .ok rt
        ∧ vcs_nondim_Farad sampleDefs 3 (-5) = .ok fd :=
  temperature_substitution sampleDefs 3 (-5) (Or.inr (Or.inr (Or.inr (Or.inr rfl))))
    (by norm_num)

/-- C13: for every temperature, `vcs_nondimMult_TP` and `vcs_nondim_Farad` end in
`exit(EXIT_FAILURE)` exactly when the units code is none of MKS, KJMOL, KCALMOL, KELVIN,
UNITLESS; for each of those five codes both return a value. -/
theorem unknown_units_fatal (D : VcsDefs) (u : Int) (T : ℚ) :
    (vcs_nondimMult_TP D u T = .error .exitFailure
        ↔ ¬ (u = D.VCS_UNITS_MKS ∨ u = D.VCS_UNITS_KJMOL ∨ u = D.VCS_UNITS_KCALMOL
          ∨ u = D.VCS_UNITS_KELVIN ∨ u = D.VCS_UNITS_UNITLESS))
      ∧ (vcs_nondim_Farad D u T = .error .exitFailure
        ↔ ¬ (u = D.VCS_UNITS_MKS ∨ u = D.VCS_UNITS_KJMOL ∨ u = D.VCS_UNITS_KCALMOL
          ∨ u = D.VCS_UNITS_KELVIN ∨ u = D.VCS_UNITS_UNITLESS))
      ∧ ((u = D.VCS_UNITS_MKS ∨ u = D.VCS_UNITS_KJMOL ∨ u = D.VCS_UNITS_KCALMOL
          ∨ u = D.VCS_UNITS_KELVIN ∨ u = D.VCS_UNITS_UNITLESS) →
        ∃ rt fd, vcs_nondimMult_TP D u T = .ok rt ∧ vcs_nondim_Farad D u T = .ok fd) := by
  rw [← recognisedUnits_iff]
  refine ⟨⟨?_, vcs_nondimMult_TP_err D u T⟩, ⟨?_, vcs_nondim_Farad_err D u T⟩, ?_⟩
  · intro herr hu
    obtain ⟨rt, hrt, -⟩ := vcs_nondimMult_TP_ok D u T hu
    rw [hrt] at herr
    cases herr
  · intro herr hu
    obtain ⟨fd, hfd⟩ := vcs_nondim_Farad_ok D u T hu
    rw [hfd] at herr
    cases herr
  · intro hu
    obtain ⟨rt, hrt, -⟩ := vcs_nondimMult_TP_ok D u T hu
    obtain ⟨fd, hfd⟩ := vcs_nondim_Farad_ok D u T hu
    exact ⟨rt, fd, hrt, hfd⟩

/-- Witness of C13: the code 7 is none of the five and both routines exit; the code 2
(KELVIN) is one of them and both return a value. -/
theorem unknown_units_fatal_witness :
    vcs_nondimMult_TP sampleDefs 7 300 = .error .exitFailure
      ∧ vcs_nondim_Farad sampleDefs 7 300 = .error .exitFailure
      ∧ ∃ rt fd, vcs_nondimMult_TP sampleDefs 2 300 = .ok rt
        ∧ vcs_nondim_Farad sampleDefs 2 300 = .ok fd :=
  ⟨(unknown_units_fatal sampleDefs 7 300).1.mpr (by decide),
    (unknown_units_fatal sampleDefs 7 300).2.1.mpr (by decide),
    (unknown_units_fatal sampleDefs 2 300).2.2 (by decide)⟩

/-- C14: for `T > 0`, `vcs_nondimMult_TP` returns `8314.472 * T` for MKS,
`0.008314472 * T` for KJMOL, `0.008314472 * T / 4.184` for KCALMOL, `T` for KELVIN and
1 for UNITLESS; the MKS value is `10^6` times the KJMOL value and the KJMOL value is
4.184 times the KCALMOL value, exactly. -/
theorem nondimMult_values (D : VcsDefs) (T : ℚ) (hT : 0 < T) :
    ∃ mks kj kcal,
      vcs_nondimMult_TP D D.VCS_UNITS_MKS T = .ok mks
        ∧ vcs_nondimMult_TP D D.VCS_UNITS_KJMOL T = .ok kj
        ∧ vcs_nondimMult_TP D D.VCS_UNITS_KCALMOL T = .ok kcal
        ∧ vcs_nondimMult_TP D D.VCS_UNITS_KELVIN T = .ok T
        ∧ vcs_nondimMult_TP D D.VCS_UNITS_UNITLESS T = .ok 1
        ∧ mks = 8314.472 * T ∧ kj = 0.008314472 * T ∧ kcal = 0.008314472 * T / 4.184
        ∧ mks = 10 ^ 6 * kj ∧ kj = 4.184 * kcal := by
  obtain ⟨a1, a2, a3, a4, b1, b2, b3, c1, c2, d1⟩ := units_distinct D
  have hT' : ¬ T ≤ 0 := not_le.mpr hT
  refine ⟨8314.472 * T, 0.008314472 * T, 0.008314472 * T / 4.184, ?_, ?_, ?_, ?_, ?_,
    rfl, rfl, rfl, ?_, ?_⟩
  · unfold vcs_nondimMult_TP
    simp only [hT', if_false, a4.symm, b3.symm, c2.symm, d1.symm, if_true]
    norm_num
    ring
  · unfold vcs_nondimMult_TP
    simp only [hT', if_false, a2.symm, b1.symm, if_true]
    norm_num
    ring
  · unfold vcs_nondimMult_TP
    simp only [hT', if_false, if_true]
    norm_num
    ring
  · unfold vcs_nondimMult_TP
    simp only [hT', if_false, a3.symm, b2.symm, c1.symm, if_true]
  · unfold vcs_nondimMult_TP
    simp only [hT', if_false, a1.symm, if_true]
  · norm_num
    ring
  · norm_num
    ring

/-- Witness of C14 at 300 K: the MKS multiplier is 2494341.6. -/
theorem nondimMult_values_witness :
    ∃ mks kj kcal,
      vcs_nondimMult_TP sampleDefs sampleDefs.VCS_UNITS_MKS 300 = .ok mks
        ∧ vcs_nondimMult_TP sampleDefs sampleDefs.VCS_UNITS_KJMOL 300 = .ok kj
        ∧ vcs_nondimMult_TP sampleDefs sampleDefs.VCS_UNITS_KCALMOL 300 = .ok kcal
        ∧ vcs_nondimMult_TP sampleDefs sampleDefs.VCS_UNITS_KELVIN 300 = .ok 300
        ∧ vcs_nondimMult_TP sampleDefs sampleDefs.VCS_UNITS_UNITLESS 300 = .ok 1
        ∧ mks = 8314.472 * 300 ∧ kj = 0.008314472 * 300 ∧ kcal = 0.008314472 * 300 / 4.184
        ∧ mks = 10 ^ 6 * kj ∧ kj = 4.184 * kcal :=
  nondimMult_values sampleDefs 300 (by norm_num)

/-- After a successful `vcs_nondim_TP` from a dimensional state, `m_Faraday_dim` holds the
value of `vcs_nondim_Farad(m_VCS_UnitsFormat, m_temperature)`. -/
theorem vcs_nondim_TP_Faraday (D : VcsDefs) (s s' : VCS_SOLVE)
    (hdim : s.m_unitsState = D.VCS_DIMENSIONAL_G) (hok : vcs_nondim_TP D s = .ok s') :
    vcs_nondim_Farad D s.m_VCS_UnitsFormat s.m_temperature = .ok s'.m_Faraday_dim := by
  obtain ⟨hu, hlo, hhi⟩ := vcs_nondim_TP_ok_inv D s s' hdim hok
  obtain ⟨rt, hrt, -⟩ := vcs_nondimMult_TP_ok D s.m_VCS_UnitsFormat s.m_temperature hu
  obtain ⟨fd, hfd⟩ := vcs_nondim_Farad_ok D s.m_VCS_UnitsFormat s.m_temperature hu
  rw [hfd]
  unfold vcs_nondim_TP at hok
  simp only [hdim, if_true, hrt, scaleFreeEnergies_eq, hfd] at hok
  have ht : (vcs_tmoles D
      { s with
        m_unitsState := D.VCS_NONDIMENSIONAL_G
        m_SSfeSpecies := mapBelow s.m_numSpeciesTot (fun _ x => x * (1 / rt)) s.m_SSfeSpecies
        m_deltaGRxn_new := mapBelow s.m_numSpeciesTot (fun _ x => x * (1 / rt)) s.m_deltaGRxn_new
        m_deltaGRxn_old := mapBelow s.m_numSpeciesTot (fun _ x => x * (1 / rt)) s.m_deltaGRxn_old
        m_feSpecies_old := mapBelow s.m_numSpeciesTot (fun _ x => x * (1 / rt)) s.m_feSpecies_old
        m_Faraday_dim := fd }).1
      + absPosGoalSum D (vcs_tmoles D
      { s with
        m_unitsState := D.VCS_NONDIMENSIONAL_G
        m_SSfeSpecies := mapBelow s.m_numSpeciesTot (fun _ x => x * (1 / rt)) s.m_SSfeSpecies
        m_deltaGRxn_new := mapBelow s.m_numSpeciesTot (fun _ x => x * (1 / rt)) s.m_deltaGRxn_new
        m_deltaGRxn_old := mapBelow s.m_numSpeciesTot (fun _ x => x * (1 / rt)) s.m_deltaGRxn_old
        m_feSpecies_old := mapBelow s.m_numSpeciesTot (fun _ x => x * (1 / rt)) s.m_feSpecies_old
        m_Faraday_dim := fd }).2 = tmole_orig D s := rfl
  simp only [ht, hlo, hhi, or_self, if_false, scaleMoles_eq, vcs_tmoles_snd] at hok
  split_ifs at hok <;>
    · simp only [Except.ok.injEq] at hok
      rw [← hok]

theorem tmole_orig_coldSolve : tmole_orig sampleDefs coldSolve = 50000 := by
  norm_num [tmole_orig, vcs_tmoles, sumPhaseTotals, phaseTotals, absPosGoalSum, forLoop,
    coldSolve, largeSolve, smallSolve, emptySolve, sampleDefs, Function.update]

/-- C12, as stated, fails: `coldSolve` is dimensional with `m_temperature = -5 ≤ 0`, and
`vcs_nondim_TP` succeeds on it, leaving a nondimensional state. -/
theorem nonpositive_temperature_not_fatal :
    coldSolve.m_unitsState = sampleDefs.VCS_DIMENSIONAL_G
      ∧ coldSolve.m_temperature ≤ 0
      ∧ ∃ s', vcs_nondim_TP sampleDefs coldSolve = .ok s'
        ∧ s'.m_unitsState = sampleDefs.VCS_NONDIMENSIONAL_G := by
  have hu : recognisedUnits sampleDefs coldSolve.m_VCS_UnitsFormat :=
    Or.inr (Or.inr (Or.inr (Or.inr rfl)))
  obtain ⟨rt, hrt, -⟩ := vcs_nondimMult_TP_ok sampleDefs coldSolve.m_VCS_UnitsFormat
    coldSolve.m_temperature hu
  obtain ⟨s', h, p⟩ := vcs_nondim_TP_post sampleDefs coldSolve rt rfl hu hrt
    (by rw [tmole_orig_coldSolve]; norm_num) (by rw [tmole_orig_coldSolve]; norm_num)
  refine ⟨rfl, ?_, s', h, p.unitsState⟩
  show (-5 : ℚ) ≤ 0
  norm_num

/-- C12, amended: for a dimensional state with `m_temperature ≤ 0`, recognised units and
total input moles in `[1e-200, 1e200]`, `vcs_nondim_TP` does not fail: it
nondimensionalises with 293.15 K in place of the temperature, dividing the four
chemical-potential vectors by `vcs_nondimMult_TP(units, 293.15)` and storing
`vcs_nondim_Farad(units, 293.15)` in `m_Faraday_dim`. -/
theorem nonpositive_temperature_substituted (D : VcsDefs) (s : VCS_SOLVE)
    (hdim : s.m_unitsState = D.VCS_DIMENSIONAL_G) (hT : s.m_temperature ≤ 0)
    (hu : recognisedUnits D s.m_VCS_UnitsFormat)
    (hlo : 1.0e-200 ≤ tmole_orig D s) (hhi : tmole_orig D s ≤ 1.0e200) :
    ∃ s' rt fd, vcs_nondim_TP D s = .ok s'
      ∧ vcs_nondimMult_TP D s.m_VCS_UnitsFormat 293.15 = .ok rt
      ∧ vcs_nondim_Farad D s.m_VCS_UnitsFormat 293.15 = .ok fd
      ∧ s'.m_unitsState = D.VCS_NONDIMENSIONAL_G
      ∧ s'.m_Faraday_dim = fd
      ∧ ∀ i, i < s.m_numSpeciesTot →
          s'.m_SSfeSpecies i = s.m_SSfeSpecies i / rt
          ∧ s'.m_feSpecies_old i = s.m_feSpecies_old i / rt
          ∧ s'.m_deltaGRxn_old i = s.m_deltaGRxn_old i / rt
          ∧ s'.m_deltaGRxn_new i = s.m_deltaGRxn_new i / rt := by
  have h293 : ¬ ((293.15 : ℚ) ≤ 0) := by norm_num
  have hm : vcs_nondimMult_TP D s.m_VCS_UnitsFormat s.m_temperature
      = vcs_nondimMult_TP D s.m_VCS_UnitsFormat 293.15 := by
    unfold vcs_nondimMult_TP
    simp only [hT, h293, if_true, if_false]
  have hf : vcs_nondim_Farad D s.m_VCS_UnitsFormat s.m_temperature
      = vcs_nondim_Farad D s.m_VCS_UnitsFormat 293.15 := by
    unfold vcs_nondim_Farad
    simp only [hT, h293, if_true, if_false]
  obtain ⟨rt, hrt, -⟩ := vcs_nondimMult_TP_ok D s.m_VCS_UnitsFormat s.m_temperature hu
  obtain ⟨s', h, p⟩ := vcs_nondim_TP_post D s rt hdim hu hrt (not_lt.mpr hlo)
    (not_lt.mpr hhi)
  have hfd := vcs_nondim_TP_Faraday D s s' hdim h
  refine ⟨s', rt, s'.m_Faraday_dim, h, by rw [← hm]; exact hrt, by rw [← hf]; exact hfd,
    p.unitsState, rfl, ?_⟩
  intro i hi
  rw [p.SSfeSpecies, p.feSpecies_old, p.deltaGRxn_old, p.deltaGRxn_new]
  simp only [mapBelow_of_lt _ _ _ _ hi, mul_one_div, and_self]

/-- Witness of the amended C12 on `coldSolve`. -/
theorem nonpositive_temperature_substituted_witness :
    ∃ s' rt fd, vcs_nondim_TP sampleDefs coldSolve = .ok s'
      ∧ vcs_nondimMult_TP sampleDefs coldSolve.m_VCS_UnitsFormat 293.15 = .ok rt
      ∧ vcs_nondim_Farad sampleDefs coldSolve.m_VCS_UnitsFormat 293.15 = .ok fd
      ∧ s'.m_unitsState = sampleDefs.VCS_NONDIMENSIONAL_G
      ∧ s'.m_Faraday_dim = fd
      ∧ ∀ i, i < coldSolve.m_numSpeciesTot →
          s'.m_SSfeSpecies i = coldSolve.m_SSfeSpecies i / rt
          ∧ s'.m_feSpecies_old i = coldSolve.m_feSpecies_old i / rt
          ∧ s'.m_deltaGRxn_old i = coldSolve.m_deltaGRxn_old i / rt
          ∧ s'.m_deltaGRxn_new i = coldSolve.m_deltaGRxn_new i / rt :=
  nonpositive_temperature_substituted sampleDefs coldSolve rfl
    (by show (-5 : ℚ) ≤ 0; norm_num) (Or.inr (Or.inr (Or.inr (Or.inr rfl))))
    (by rw [tmole_orig_coldSolve]; norm_num) (by rw [tmole_orig_coldSolve]; norm_num)

/-- C15, as stated, fails: at 300 K the recognised codes KELVIN and UNITLESS give `F / 300`
and `F`, with `F = 1.602e-19 * 6.022136736e26`, not `F / (8314.472 * 300)`. -/
theorem faraday_not_F_over_RT_everywhere :
    recognisedUnits sampleDefs sampleDefs.VCS_UNITS_KELVIN
      ∧ recognisedUnits sampleDefs sampleDefs.VCS_UNITS_UNITLESS
      ∧ vcs_nondim_Farad sampleDefs sampleDefs.VCS_UNITS_KELVIN 300
        = .ok (1.602e-19 * 6.022136736e26 / 300)
      ∧ vcs_nondim_Farad sampleDefs sampleDefs.VCS_UNITS_KELVIN 300
        ≠ .ok (1.602e-19 * 6.022136736e26 / (8314.472 * 300))
      ∧ vcs_nondim_Farad sampleDefs sampleDefs.VCS_UNITS_UNITLESS 300
        = .ok (1.602e-19 * 6.022136736e26)
      ∧ vcs_nondim_Farad sampleDefs sampleDefs.VCS_UNITS_UNITLESS 300
        ≠ .ok (1.602e-19 * 6.022136736e26 / (8314.472 * 300)) := by
  have hk : vcs_nondim_Farad sampleDefs sampleDefs.VCS_UNITS_KELVIN 300
      = .ok (1.602e-19 * 6.022136736e26 / 300) := by
    norm_num [vcs_nondim_Farad, sampleDefs]
  have hl : vcs_nondim_Farad sampleDefs sampleDefs.VCS_UNITS_UNITLESS 300
      = .ok (1.602e-19 * 6.022136736e26) := by
    norm_num [vcs_nondim_Farad, sampleDefs]
  refine ⟨Or.inr (Or.inr (Or.inr (Or.inl rfl))), Or.inr (Or.inl rfl), hk, ?_, hl, ?_⟩
  · rw [hk]
    norm_num
  · rw [hl]
    norm_num

/-- C15, amended: for `T > 0`, `vcs_nondim_Farad(u, T)` is `F / (R * T)` with
`F = 1.602e-19 * 6.022136736e26` and `R = 8314.472` for the codes MKS, KJMOL and KCALMOL,
`F / T` for KELVIN and `F` for UNITLESS; after a successful `vcs_nondim_TP` from a
dimensional state `m_Faraday_dim` holds
`vcs_nondim_Farad(m_VCS_UnitsFormat, m_temperature)`. -/
theorem faraday_values (D : VcsDefs) (T : ℚ) (hT : 0 < T) :
    vcs_nondim_Farad D D.VCS_UNITS_MKS T
        = .ok (1.602e-19 * 6.022136736e26 / (8314.472 * T))
      ∧ vcs_nondim_Farad D D.VCS_UNITS_KJMOL T
        = .ok (1.602e-19 * 6.022136736e26 / (8314.472 * T))
      ∧ vcs_nondim_Farad D D.VCS_UNITS_KCALMOL T
        = .ok (1.602e-19 * 6.022136736e26 / (8314.472 * T))
      ∧ vcs_nondim_Farad D D.VCS_UNITS_KELVIN T = .ok (1.602e-19 * 6.022136736e26 / T)
      ∧ vcs_nondim_Farad D D.VCS_UNITS_UNITLESS T = .ok (1.602e-19 * 6.022136736e26)
      ∧ ∀ s s' : VCS_SOLVE, s.m_unitsState = D.VCS_DIMENSIONAL_G →
          vcs_nondim_TP D s = .ok s' →
          vcs_nondim_Farad D s.m_VCS_UnitsFormat s.m_temperature = .ok s'.m_Faraday_dim := by
  obtain ⟨a1, a2, a3, a4, b1, b2, b3, c1, c2, d1⟩ := units_distinct D
  have hT' : ¬ T ≤ 0 := not_le.mpr hT
  have hR : (8314.472 : ℚ) * T = T * 8.314472e3 := by norm_num; ring
  refine ⟨?_, ?_, ?_, ?_, ?_, fun s s' hdim hok => vcs_nondim_TP_Faraday D s s' hdim hok⟩
  · unfold vcs_nondim_Farad
    simp only [hT', if_false, true_or, if_true, hR]
  · unfold vcs_nondim_Farad
    simp only [hT', if_false, true_or, or_true, if_true, hR]
  · unfold vcs_nondim_Farad
    simp only [hT', if_false, or_true, if_true, hR]
  · unfold vcs_nondim_Farad
    simp only [hT', if_false, d1, c1.symm, a3.symm, b2.symm, or_self, if_true]
  · unfold vcs_nondim_Farad
    simp only [hT', if_false, b3, b1, a1.symm, or_self, if_true]

/-- Witness of the amended C15 at 300 K. -/
theorem faraday_values_witness :
    vcs_nondim_Farad sampleDefs sampleDefs.VCS_UNITS_MKS 300
        = .ok (1.602e-19 * 6.022136736e26 / (8314.472 * 300))
      ∧ vcs_nondim_Farad sampleDefs sampleDefs.VCS_UNITS_KELVIN 300
        = .ok (1.602e-19 * 6.022136736e26 / 300) :=
  ⟨(faraday_values sampleDefs 300 (by norm_num)).1,
    (faraday_values sampleDefs 300 (by norm_num)).2.2.2.1⟩

/-! ## The Hessian diagonal and the reaction ΔG -/

theorem forLoop_sum (n : Nat) (f : Nat → ℚ) (a : ℚ) :
    forLoop n (fun i acc => acc + f i) a = a + ∑ i ∈ Finset.range n, f i := by
  induction n with
  | zero => simp [forLoop]
  | succ m ih =>
    rw [Finset.sum_range_succ, ← add_assoc, ← ih]
    rfl

/-- A loop that adds `f i` in the rounds where both guards hold computes a filtered sum. -/
theorem forLoop_guarded_add (n : Nat) (p q : Nat → Prop) [DecidablePred p] [DecidablePred q]
    (f : Nat → ℚ) (a : ℚ) :
    forLoop n (fun i acc => if p i then if q i then acc + f i else acc else acc) a
      = a + ∑ i ∈ (Finset.range n).filter (fun i => p i ∧ q i), f i := by
  induction n with
  | zero => simp [forLoop]
  | succ m ih =>
    have hstep : forLoop (m + 1)
        (fun i acc => if p i then if q i then acc + f i else acc else acc) a
        = if p m then if q m then
            forLoop m (fun i acc => if p i then if q i then acc + f i else acc else acc) a
              + f m
          else forLoop m (fun i acc => if p i then if q i then acc + f i else acc else acc) a
          else forLoop m (fun i acc => if p i then if q i then acc + f i else acc else acc) a :=
      rfl
    rw [hstep, ih, Finset.range_succ, Finset.filter_insert]
    by_cases hp : p m
    · by_cases hq : q m
      · have hnm : m ∉ (Finset.range m).filter (fun i => p i ∧ q i) := by
          simp
        rw [if_pos hp, if_pos hq, if_pos ⟨hp, hq⟩, Finset.sum_insert hnm]
        ring
      · rw [if_pos hp, if_neg hq, if_neg (fun h => hq h.2)]
    · rw [if_neg hp, if_neg (fun h => hp h.1)]

/-- A loop that subtracts `f i` in the rounds where both guards hold computes a filtered
sum. -/
theorem forLoop_guarded_sub (n : Nat) (p q : Nat → Prop) [DecidablePred p] [DecidablePred q]
    (f : Nat → ℚ) (a : ℚ) :
    forLoop n (fun i acc => if p i then if q i then acc - f i else acc else acc) a
      = a - ∑ i ∈ (Finset.range n).filter (fun i => p i ∧ q i), f i := by
  have h := forLoop_guarded_add n p q (fun i => - f i) a
  simp only [Finset.sum_neg_distrib] at h
  rw [sub_eq_add_neg, ← h]
  congr 1
  funext i acc
  simp only [sub_eq_add_neg]

/-- The loops of lines 188-206 compute the sums of the specification. -/
theorem hessianDiagIdeal_eq_sum (s : VCS_SOLVE) (irxn kspec : Nat) :
    hessianDiagIdeal s irxn kspec = hessianDiagSpec s irxn kspec := by
  unfold hessianDiagIdeal hessianDiagSpec
  simp only []
  rw [forLoop_guarded_sub s.m_numPhases
      (fun j => (s.m_VolPhaseList j).m_singleSpecies = false)
      (fun j => s.m_tPhaseMoles_old j > 0)
      (fun j => s.m_deltaMolNumPhase irxn j * s.m_deltaMolNumPhase irxn j
        / s.m_tPhaseMoles_old j),
    forLoop_guarded_add s.m_numComponents (fun j => s.m_SSPhase j = 0)
      (fun j => s.m_molNumSpecies_old j > 0)
      (fun j => s.m_stoichCoeffRxnMatrix irxn j * s.m_stoichCoeffRxnMatrix irxn j
        / s.m_molNumSpecies_old j)]
  simp only [pow_two]

theorem rxnStep_regular (D : VcsDefs) (s : VCS_SOLVE) (irxn : Nat) (soldel : Int) (k : Nat)
    (hreg : regularProcessing D s irxn) :
    rxnStep D irxn s soldel k
      = if |s.m_deltaGRxn_new irxn| ≤ s.m_tolmaj2 then .next s soldel k
        else if s.m_speciesStatus (s.m_indexRxnToSpecies irxn) ≠ D.VCS_SPECIES_MAJOR
            ∧ s.m_deltaGRxn_new irxn ≥ 0 then .next s soldel k
        else if hessianDiagIdeal s irxn (s.m_indexRxnToSpecies irxn) ≠ 0 then
          newtonStep s irxn (s.m_indexRxnToSpecies irxn)
            (hessianDiagIdeal s irxn (s.m_indexRxnToSpecies irxn)) soldel k
        else deletionStep D s irxn (s.m_indexRxnToSpecies irxn) soldel k := by
  obtain ⟨h1, h2, h3⟩ := hreg
  unfold rxnStep
  simp only [h1, h2, h3, if_false, if_true, ne_eq, not_false_eq_true]

/-- C16: the value `s` that lines 188-206 of `vcs_RxnStepSizes` compute for reaction `r`
with species `k`, before any activity-coefficient correction, is (0 if `k` is in a
single-species phase, else `1/n_k`) plus the sum of `nu[r][j]^2 / n_j` over the
components `j` in multispecies phases with `n_j > 0`, minus the sum of
`m_deltaMolNumPhase[r][p]^2 / T_p` over the multispecies phases `p` with `T_p > 0`; and
a reaction in regular processing that is neither superconverged nor skipped as non-major
branches on that value: Newton step with it when it is nonzero, deletion step otherwise. -/
theorem hessian_diag_ideal_value (D : VcsDefs) (s : VCS_SOLVE) (irxn : Nat) :
    hessianDiagIdeal s irxn (s.m_indexRxnToSpecies irxn)
        = (if s.m_SSPhase (s.m_indexRxnToSpecies irxn) ≠ 0 then 0
            else 1 / s.m_molNumSpecies_old (s.m_indexRxnToSpecies irxn))
          + ∑ j ∈ (Finset.range s.m_numComponents).filter
              (fun j => s.m_SSPhase j = 0 ∧ s.m_molNumSpecies_old j > 0),
              s.m_stoichCoeffRxnMatrix irxn j ^ 2 / s.m_molNumSpecies_old j
          - ∑ p ∈ (Finset.range s.m_numPhases).filter
              (fun p => (s.m_VolPhaseList p).m_singleSpecies = false
                ∧ s.m_tPhaseMoles_old p > 0),
              s.m_deltaMolNumPhase irxn p ^ 2 / s.m_tPhaseMoles_old p
      ∧ ∀ (soldel : Int) (k : Nat), regularProcessing D s irxn →
          ¬ |s.m_deltaGRxn_new irxn| ≤ s.m_tolmaj2 →
          ¬ (s.m_speciesStatus (s.m_indexRxnToSpecies irxn) ≠ D.VCS_SPECIES_MAJOR
            ∧ s.m_deltaGRxn_new irxn ≥ 0) →
          rxnStep D irxn s soldel k
            = if hessianDiagSpec s irxn (s.m_indexRxnToSpecies irxn) ≠ 0 then
                newtonStep s irxn (s.m_indexRxnToSpecies irxn)
                  (hessianDiagSpec s irxn (s.m_indexRxnToSpecies irxn)) soldel k
              else deletionStep D s irxn (s.m_indexRxnToSpecies irxn) soldel k := by
  refine ⟨hessianDiagIdeal_eq_sum s irxn _, ?_⟩
  intro soldel k hreg h4 h5
  rw [rxnStep_regular D s irxn soldel k hreg, if_neg h4, if_neg h5, hessianDiagIdeal_eq_sum]

theorem newtonSolve_regular : regularProcessing sampleDefs newtonSolve 0 := by
  norm_num [regularProcessing, newtonSolve, emptySolve, sampleDefs]

/-- Witness of C16 on `newtonSolve`: the value is `1/2 + 1 - 0 = 3/2`, and the reaction
takes the Newton step with it. -/
theorem hessian_diag_ideal_value_witness :
    hessianDiagSpec newtonSolve 0 1 = 3 / 2
      ∧ rxnStep sampleDefs 0 newtonSolve 0 0
        = newtonStep newtonSolve 0 1 (hessianDiagSpec newtonSolve 0 1) 0 0 := by
  have hv : hessianDiagSpec newtonSolve 0 1 = 3 / 2 := by
    rw [← hessianDiagIdeal_eq_sum]
    norm_num [hessianDiagIdeal, forLoop, newtonSolve, emptySolve, emptyPhase]
  have h := (hessian_diag_ideal_value sampleDefs newtonSolve 0).2 0 0 newtonSolve_regular
    (by norm_num [newtonSolve, emptySolve])
    (by norm_num [newtonSolve, emptySolve, sampleDefs])
  have hk : newtonSolve.m_indexRxnToSpecies 0 = 1 := rfl
  rw [hk, if_pos (by rw [hv]; norm_num)] at h
  exact ⟨hv, h⟩

theorem reactionDeltaG_eq_sum (s : VCS_SOLVE) (irxn : Nat) (mu : Nat → ℚ) :
    reactionDeltaG s irxn mu
      = mu (irxn + s.m_numComponents)
        + ∑ j ∈ Finset.range s.m_numComponents, s.m_stoichCoeffRxnMatrix irxn j * mu j := by
  unfold reactionDeltaG
  exact forLoop_sum s.m_numComponents (fun j => s.m_stoichCoeffRxnMatrix irxn j * mu j) _

/-- C18: `vcs_Hessian_diag_adj(r, d)` exits exactly when `d ≤ 0`; for `d > 0` it returns
a value that is at least `d / 3`, hence positive, and that is exactly `d + h` whenever
the activity-coefficient term `h = vcs_Hessian_actCoeff_diag(r)` is nonnegative. -/
theorem hessian_diag_adj_bound (s : VCS_SOLVE) (irxn : Nat) (d : ℚ) :
    (vcs_Hessian_diag_adj s irxn d = .error .exitFailure ↔ d ≤ 0)
      ∧ (0 < d → ∃ v, vcs_Hessian_diag_adj s irxn d = .ok v ∧ d / 3 ≤ v ∧ 0 < v
          ∧ (0 ≤ vcs_Hessian_actCoeff_diag s irxn →
            v = d + vcs_Hessian_actCoeff_diag s irxn)) := by
  unfold vcs_Hessian_diag_adj
  simp only []
  generalize vcs_Hessian_actCoeff_diag s irxn = h
  by_cases hd : d ≤ 0
  · simp only [hd, if_true, true_iff]
    exact ⟨trivial, fun hpos => absurd hd (not_le.mpr hpos)⟩
  · have hpos : 0 < d := not_le.mp hd
    simp only [hd, if_false]
    constructor
    · constructor
      · intro herr
        split_ifs at herr
      · intro h0
        exact h0.elim
    · intro _
      by_cases hh : h ≥ 0
      · refine ⟨d + h, by rw [if_pos hh], ?_, ?_, fun _ => rfl⟩
        · linarith
        · linarith
      · have hneg : h < 0 := not_le.mp hh
        by_cases hs : |h| < 0.6666 * d
        · refine ⟨d + h, by rw [if_neg hh, if_pos hs], ?_, ?_, fun _ => rfl⟩
          · rw [abs_of_neg hneg] at hs
            have : (0.6666 : ℚ) * d = 6666 / 10000 * d := by norm_num
            linarith
          · rw [abs_of_neg hneg] at hs
            have : (0.6666 : ℚ) * d = 6666 / 10000 * d := by norm_num
            linarith
        · have : (0.6666 : ℚ) * d = 6666 / 10000 * d := by norm_num
          refine ⟨d - 0.6666 * d, by rw [if_neg hh, if_neg hs], ?_, ?_,
            fun h0 => absurd h0 hh⟩
          · linarith
          · linarith

/-- Witness of C18 on `jacSolve` with `d = 3/2`: the term `h` is -4, the result is
`3/2 - 0.6666 * 3/2 = 0.5001`, above `d / 3 = 0.5`. -/
theorem hessian_diag_adj_bound_witness :
    vcs_Hessian_actCoeff_diag jacSolve 0 = -4
      ∧ vcs_Hessian_diag_adj jacSolve 0 (3 / 2) = .ok 0.5001
      ∧ ∃ v, vcs_Hessian_diag_adj jacSolve 0 (3 / 2) = .ok v ∧ (3 / 2 : ℚ) / 3 ≤ v ∧ 0 < v
        ∧ (0 ≤ vcs_Hessian_actCoeff_diag jacSolve 0 →
          v = 3 / 2 + vcs_Hessian_actCoeff_diag jacSolve 0) := by
  have hh : vcs_Hessian_actCoeff_diag jacSolve 0 = -4 := by
    norm_num [vcs_Hessian_actCoeff_diag, forLoop, jacSolve, newtonSolve, emptySolve]
  refine ⟨hh, ?_, (hessian_diag_adj_bound jacSolve 0 (3 / 2)).2 (by norm_num)⟩
  unfold vcs_Hessian_diag_adj
  rw [hh]
  norm_num

/-- C19: a reaction in regular processing with `|m_deltaGRxn_new[r]| ≤ m_tolmaj2` is
skipped: the loop body of `vcs_RxnStepSizes` leaves every member, in particular
`m_deltaMolNumSpecies[k]` and all mole numbers, and the locals as they were. -/
theorem superconverged_skip (D : VcsDefs) (s : VCS_SOLVE) (irxn : Nat) (soldel : Int)
    (k : Nat) (hreg : regularProcessing D s irxn)
    (hsc : |s.m_deltaGRxn_new irxn| ≤ s.m_tolmaj2) :
    rxnStep D irxn s soldel k = .next s soldel k := by
  rw [rxnStep_regular D s irxn soldel k hreg, if_pos hsc]

theorem convergedSolve_regular : regularProcessing sampleDefs convergedSolve 0 := by
  norm_num [regularProcessing, convergedSolve, newtonSolve, emptySolve, sampleDefs]

/-- Witness of C19 on `convergedSolve` (`|ΔG| = 6 ≤ 10`). -/
theorem superconverged_skip_witness :
    rxnStep sampleDefs 0 convergedSolve 0 0 = .next convergedSolve 0 0 :=
  superconverged_skip sampleDefs convergedSolve 0 0 0 convergedSolve_regular
    (by norm_num [convergedSolve, newtonSolve, emptySolve])

/-- C20: for a reaction in regular processing whose species has a status other than
`VCS_SPECIES_MAJOR`, the loop body of `vcs_RxnStepSizes` leaves every member (so
`m_deltaMolNumSpecies[k]` and all mole numbers) and the locals as they were when
`m_deltaGRxn_new[r] ≥ 0`; hence whenever it does anything for such a species,
`m_deltaGRxn_new[r] < 0`. -/
theorem nonmajor_skip (D : VcsDefs) (s : VCS_SOLVE) (irxn : Nat) (soldel : Int) (k : Nat)
    (hreg : regularProcessing D s irxn)
    (hst : s.m_speciesStatus (s.m_indexRxnToSpecies irxn) ≠ D.VCS_SPECIES_MAJOR) :
    (s.m_deltaGRxn_new irxn ≥ 0 → rxnStep D irxn s soldel k = .next s soldel k)
      ∧ (rxnStep D irxn s soldel k ≠ .next s soldel k → s.m_deltaGRxn_new irxn < 0) := by
  have h : s.m_deltaGRxn_new irxn ≥ 0 → rxnStep D irxn s soldel k = .next s soldel k := by
    intro hg
    rw [rxnStep_regular D s irxn soldel k hreg]
    by_cases hsc : |s.m_deltaGRxn_new irxn| ≤ s.m_tolmaj2
    · rw [if_pos hsc]
    · rw [if_neg hsc, if_pos ⟨hst, hg⟩]
  refine ⟨h, fun hne => ?_⟩
  by_contra hg
  exact hne (h (not_lt.mp hg))

theorem minorSolve_regular : regularProcessing sampleDefs minorSolve 0 := by
  norm_num [regularProcessing, minorSolve, newtonSolve, emptySolve, sampleDefs]

/-- Witness of C20 on `minorSolve` (status 0, `ΔG = 6`): the reaction is skipped. -/
theorem nonmajor_skip_witness :
    rxnStep sampleDefs 0 minorSolve 0 0 = .next minorSolve 0 0 :=
  (nonmajor_skip sampleDefs minorSolve 0 0 0 minorSolve_regular (by decide)).1
    (by norm_num [minorSolve])

/-- The search of lines 276-287 (`ΔG > 0`): the negated result is a lower bound of `n_kspec`
and of every ratio `n_j / nu_j` with `nu_j > 0`; it is attained by the returned species,
which is `kspec` unless a component ratio lies strictly below `n_kspec`, and then it is the
first component whose ratio attains the minimum. -/
theorem deletionTarget_pos_min (s : VCS_SOLVE) (irxn kspec k : Nat)
    (hg : s.m_deltaGRxn_new irxn > 0) :
    (-(deletionTarget s irxn kspec k).1 ≤ s.m_molNumSpecies_old kspec)
      ∧ (∀ j, j < s.m_numComponents → s.m_stoichCoeffRxnMatrix irxn j > 0 →
          -(deletionTarget s irxn kspec k).1
            ≤ s.m_molNumSpecies_old j / s.m_stoichCoeffRxnMatrix irxn j)
      ∧ (((deletionTarget s irxn kspec k).2 = kspec
            ∧ -(deletionTarget s irxn kspec k).1 = s.m_molNumSpecies_old kspec)
          ∨ ((deletionTarget s irxn kspec k).2 < s.m_numComponents
            ∧ s.m_stoichCoeffRxnMatrix irxn (deletionTarget s irxn kspec k).2 > 0
            ∧ -(deletionTarget s irxn kspec k).1
              = s.m_molNumSpecies_old (deletionTarget s irxn kspec k).2
                / s.m_stoichCoeffRxnMatrix irxn (deletionTarget s irxn kspec k).2
            ∧ -(deletionTarget s irxn kspec k).1 < s.m_molNumSpecies_old kspec
            ∧ ∀ j, j < (deletionTarget s irxn kspec k).2 →
                s.m_stoichCoeffRxnMatrix irxn j > 0 →
                -(deletionTarget s irxn kspec k).1
                  < s.m_molNumSpecies_old j / s.m_stoichCoeffRxnMatrix irxn j)) := by
  have key := forLoop_inv
    (fun m (r : ℚ × Nat) =>
      r.1 ≤ s.m_molNumSpecies_old kspec
        ∧ (∀ j, j < m → s.m_stoichCoeffRxnMatrix irxn j > 0 →
            r.1 ≤ s.m_molNumSpecies_old j / s.m_stoichCoeffRxnMatrix irxn j)
        ∧ ((r.2 = kspec ∧ r.1 = s.m_molNumSpecies_old kspec)
          ∨ (r.2 < m ∧ s.m_stoichCoeffRxnMatrix irxn r.2 > 0
            ∧ r.1 = s.m_molNumSpecies_old r.2 / s.m_stoichCoeffRxnMatrix irxn r.2
            ∧ r.1 < s.m_molNumSpecies_old kspec
            ∧ ∀ j, j < r.2 → s.m_stoichCoeffRxnMatrix irxn j > 0 →
                r.1 < s.m_molNumSpecies_old j / s.m_stoichCoeffRxnMatrix irxn j)))
    (fun j (r : ℚ × Nat) =>
      if s.m_stoichCoeffRxnMatrix irxn j > 0 then
        let xx := s.m_molNumSpecies_old j / s.m_stoichCoeffRxnMatrix irxn j
        if xx < r.1 then (xx, j) else r
      else r)
    (s.m_molNumSpecies_old kspec, kspec) s.m_numComponents
    ⟨le_refl _, fun j hj => absurd hj (Nat.not_lt_zero j), Or.inl ⟨rfl, rfl⟩⟩
    (by
      intro m r _ hP
      obtain ⟨h1, h2, h3⟩ := hP
      by_cases hpos : s.m_stoichCoeffRxnMatrix irxn m > 0
      · by_cases hlt : s.m_molNumSpecies_old m / s.m_stoichCoeffRxnMatrix irxn m < r.1
        · dsimp only
          rw [if_pos hpos, if_pos hlt]
          refine ⟨le_of_lt (lt_of_lt_of_le hlt h1), ?_, Or.inr ⟨Nat.lt_succ_self m, hpos, rfl,
            lt_of_lt_of_le hlt h1, fun j hj hjp => lt_of_lt_of_le hlt (h2 j hj hjp)⟩⟩
          intro j hj hjp
          rcases Nat.lt_succ_iff_lt_or_eq.mp hj with hj' | hj'
          · exact le_of_lt (lt_of_lt_of_le hlt (h2 j hj' hjp))
          · rw [hj']
        · dsimp only
          rw [if_pos hpos, if_neg hlt]
          refine ⟨h1, ?_, ?_⟩
          · intro j hj hjp
            rcases Nat.lt_succ_iff_lt_or_eq.mp hj with hj' | hj'
            · exact h2 j hj' hjp
            · rw [hj']; exact not_lt.mp hlt
          · rcases h3 with h3 | ⟨a, b, c, d, e⟩
            · exact Or.inl h3
            · exact Or.inr ⟨Nat.lt_succ_of_lt a, b, c, d, e⟩
      · dsimp only
        rw [if_neg hpos]
        refine ⟨h1, ?_, ?_⟩
        · intro j hj hjp
          rcases Nat.lt_succ_iff_lt_or_eq.mp hj with hj' | hj'
          · exact h2 j hj' hjp
          · rw [hj'] at hjp; exact absurd hjp hpos
        · rcases h3 with h3 | ⟨a, b, c, d, e⟩
          · exact Or.inl h3
          · exact Or.inr ⟨Nat.lt_succ_of_lt a, b, c, d, e⟩)
  unfold deletionTarget
  simp only [hg, if_true, neg_neg]
  exact key

/-! ## The claims on the deletion step and the birth seed -/

theorem tieSolve_branch : takesDeletionBranch sampleDefs tieSolve 0 := by
  norm_num [takesDeletionBranch, hessianDiagIdeal, forLoop, tieSolve, emptySolve,
    emptyPhase, sampleDefs]

theorem tieSolve_target : deletionTarget tieSolve 0 2 0 = (-3, 0) := by
  norm_num [deletionTarget, forLoop, tieSolve, emptySolve]

/-- C21: in the `s = 0` branch with `ΔG > 0` (species `kspec` of the reaction not among the
components), the extent `dss` is minus the minimum of `n_kspec` and the ratios `n_j / nu_j`
of the components with `nu_j > 0`; the zeroed species `kz` attains that minimum, it is
`kspec` itself when `n_kspec` attains it and otherwise the lowest-index component that
does; the call exits only if `kz = kspec` is not in a single-species phase, and otherwise
leaves `n_kspec + dss`, `n_j + dss * nu_j` for every component `j`, exactly 0 for `kz`, and
every other mole number as it was. -/
theorem deletion_step_positive_deltaG (D : VcsDefs) (s : VCS_SOLVE) (irxn : Nat)
    (soldel : Int) (k : Nat) (hb : takesDeletionBranch D s irxn)
    (hg : s.m_deltaGRxn_new irxn > 0)
    (hwf : s.m_numComponents ≤ s.m_indexRxnToSpecies irxn) :
    ∃ dss kz, deletionTarget s irxn (s.m_indexRxnToSpecies irxn) k = (dss, kz)
      ∧ -dss ≤ s.m_molNumSpecies_old (s.m_indexRxnToSpecies irxn)
      ∧ (∀ j, j < s.m_numComponents → s.m_stoichCoeffRxnMatrix irxn j > 0 →
          -dss ≤ s.m_molNumSpecies_old j / s.m_stoichCoeffRxnMatrix irxn j)
      ∧ ((kz = s.m_indexRxnToSpecies irxn
            ∧ -dss = s.m_molNumSpecies_old (s.m_indexRxnToSpecies irxn))
          ∨ (kz < s.m_numComponents ∧ s.m_stoichCoeffRxnMatrix irxn kz > 0
            ∧ -dss = s.m_molNumSpecies_old kz / s.m_stoichCoeffRxnMatrix irxn kz
            ∧ -dss < s.m_molNumSpecies_old (s.m_indexRxnToSpecies irxn)
            ∧ ∀ j, j < kz → s.m_stoichCoeffRxnMatrix irxn j > 0 →
                -dss < s.m_molNumSpecies_old j / s.m_stoichCoeffRxnMatrix irxn j))
      ∧ ((rxnStep D irxn s soldel k).state? = none
          ↔ (dss ≠ 0 ∧ kz = s.m_indexRxnToSpecies irxn
            ∧ s.m_SSPhase (s.m_indexRxnToSpecies irxn) ≠ 1))
      ∧ ∀ s', (rxnStep D irxn s soldel k).state? = some s' →
          s'.m_molNumSpecies_old (s.m_indexRxnToSpecies irxn)
              = s.m_molNumSpecies_old (s.m_indexRxnToSpecies irxn) + dss
            ∧ (∀ j, j < s.m_numComponents → s'.m_molNumSpecies_old j
                = s.m_molNumSpecies_old j + dss * s.m_stoichCoeffRxnMatrix irxn j)
            ∧ s'.m_molNumSpecies_old kz = 0
            ∧ ∀ i, s.m_numComponents ≤ i → i ≠ s.m_indexRxnToSpecies irxn →
                s'.m_molNumSpecies_old i = s.m_molNumSpecies_old i := by
  obtain ⟨h1, h2, h3⟩ := deletionTarget_pos_min s irxn (s.m_indexRxnToSpecies irxn) k hg
  have hstep := rxnStep_deletion D s irxn soldel k hb
  unfold deletionStep at hstep
  have hmol := applyDeletion_moles s irxn (s.m_indexRxnToSpecies irxn)
    (deletionTarget s irxn (s.m_indexRxnToSpecies irxn) k).2
    (deletionTarget s irxn (s.m_indexRxnToSpecies irxn) k).1
  generalize deletionTarget s irxn (s.m_indexRxnToSpecies irxn) k = t at h1 h2 h3 hstep hmol
  obtain ⟨dss, kz⟩ := t
  simp only at h1 h2 h3 hstep hmol
  generalize s.m_indexRxnToSpecies irxn = kspec at h1 h2 h3 hstep hmol hwf
  have hSS : (applyDeletion s irxn kspec kz dss).m_SSPhase = s.m_SSPhase := rfl
  rw [hSS] at hstep
  refine ⟨dss, kz, rfl, h1, h2, h3, ?_, ?_⟩
  · rw [hstep]
    by_cases hd : dss = 0
    · simp [hd, RxnOutcome.state?]
    · by_cases hk : kz = kspec
      · by_cases hss : s.m_SSPhase kspec = 1
        · simp [hd, hk, hss, RxnOutcome.state?]
        · simp [hd, hk, hss, RxnOutcome.state?]
      · simp [hd, hk, RxnOutcome.state?]
  · -- the mole numbers of the zeroed species before the step
    have hz : ∀ j, j < s.m_numComponents → j = kz →
        s.m_molNumSpecies_old j + dss * s.m_stoichCoeffRxnMatrix irxn j = 0 := by
      intro j hj hjk
      rcases h3 with ⟨hk, -⟩ | ⟨-, hpos, hval, -, -⟩
      · omega
      · rw [hjk]
        have hne : s.m_stoichCoeffRxnMatrix irxn kz ≠ 0 := ne_of_gt hpos
        have : dss = -(s.m_molNumSpecies_old kz / s.m_stoichCoeffRxnMatrix irxn kz) := by
          linarith
        rw [this]
        field_simp
    have hzk : kz = kspec → s.m_molNumSpecies_old kspec + dss = 0 := by
      intro hk
      rcases h3 with ⟨-, hval⟩ | ⟨hlt, -⟩
      · linarith
      · omega
    have hafter : ∀ s1 : VCS_SOLVE, s1.m_molNumSpecies_old
          = Function.update (mapBelow s.m_numComponents
              (fun j x => x + dss * s.m_stoichCoeffRxnMatrix irxn j)
              (Function.update s.m_molNumSpecies_old kspec (s.m_molNumSpecies_old kspec + dss)))
            kz 0 →
        s1.m_molNumSpecies_old kspec = s.m_molNumSpecies_old kspec + dss
          ∧ (∀ j, j < s.m_numComponents → s1.m_molNumSpecies_old j
              = s.m_molNumSpecies_old j + dss * s.m_stoichCoeffRxnMatrix irxn j)
          ∧ s1.m_molNumSpecies_old kz = 0
          ∧ ∀ i, s.m_numComponents ≤ i → i ≠ kspec →
              s1.m_molNumSpecies_old i = s.m_molNumSpecies_old i := by
      intro s1 h
      rw [h]
      refine ⟨?_, ?_, ?_, ?_⟩
      · by_cases hk : kz = kspec
        · rw [hk, Function.update_same, hzk hk]
        · rw [Function.update_noteq (Ne.symm hk)]
          unfold mapBelow
          rw [if_neg (not_lt.mpr hwf), Function.update_same]
      · intro j hj
        by_cases hk : j = kz
        · rw [hk, Function.update_same]
          rw [hk] at hj
          exact (hz kz hj rfl).symm
        · rw [Function.update_noteq hk]
          unfold mapBelow
          rw [if_pos hj, Function.update_noteq (by omega)]
      · rw [Function.update_same]
      · intro i hi hik
        have hne : i ≠ kz := by
          rcases h3 with ⟨hk, -⟩ | ⟨hlt, -⟩
          · rw [hk]; exact hik
          · omega
        rw [Function.update_noteq hne]
        unfold mapBelow
        rw [if_neg (not_lt.mpr hi), Function.update_noteq hik]
    intro s' hs'
    rw [hstep] at hs'
    by_cases hd : dss = 0
    · simp only [hd, ne_eq, not_true_eq_false, if_false, RxnOutcome.state?,
        Option.some.injEq] at hs'
      subst hs'
      subst hd
      refine ⟨by ring, fun j _ => by ring, ?_, fun _ _ _ => rfl⟩
      rcases h3 with ⟨hk, hval⟩ | ⟨hlt, hpos, hval, -, -⟩
      · rw [hk]; linarith
      · have hne : s.m_stoichCoeffRxnMatrix irxn kz ≠ 0 := ne_of_gt hpos
        have h0 : s.m_molNumSpecies_old kz / s.m_stoichCoeffRxnMatrix irxn kz = 0 := by
          linarith
        rcases div_eq_zero_iff.mp h0 with h | h
        · exact h
        · exact absurd h hne
    · by_cases hk : kz = kspec
      · by_cases hss : s.m_SSPhase kspec = 1
        · simp only [hd, hk, hss, ne_eq, not_false_eq_true, not_true_eq_false, if_true,
            if_false, RxnOutcome.state?, Option.some.injEq] at hs'
          subst hs'
          simp only [hk] at hmol hafter ⊢
          exact hafter _ hmol
        · simp [hd, hk, hss, RxnOutcome.state?] at hs'
      · simp only [hd, hk, ne_eq, not_false_eq_true, if_true, if_false,
          RxnOutcome.state?, Option.some.injEq] at hs'
        subst hs'
        exact hafter _ hmol

/-- Witness of C21 on `tieSolve`: the two component ratios tie at 3 below `n_2 = 4`, the
extent is -3 and the zeroed species is component 0, the first of the two. -/
theorem deletion_step_positive_deltaG_witness :
    ∃ dss kz, deletionTarget tieSolve 0 (tieSolve.m_indexRxnToSpecies 0) 0 = (dss, kz)
      ∧ -dss ≤ tieSolve.m_molNumSpecies_old (tieSolve.m_indexRxnToSpecies 0)
      ∧ (∀ j, j < tieSolve.m_numComponents → tieSolve.m_stoichCoeffRxnMatrix 0 j > 0 →
          -dss ≤ tieSolve.m_molNumSpecies_old j / tieSolve.m_stoichCoeffRxnMatrix 0 j)
      ∧ ((kz = tieSolve.m_indexRxnToSpecies 0
            ∧ -dss = tieSolve.m_molNumSpecies_old (tieSolve.m_indexRxnToSpecies 0))
          ∨ (kz < tieSolve.m_numComponents ∧ tieSolve.m_stoichCoeffRxnMatrix 0 kz > 0
            ∧ -dss = tieSolve.m_molNumSpecies_old kz / tieSolve.m_stoichCoeffRxnMatrix 0 kz
            ∧ -dss < tieSolve.m_molNumSpecies_old (tieSolve.m_indexRxnToSpecies 0)
            ∧ ∀ j, j < kz → tieSolve.m_stoichCoeffRxnMatrix 0 j > 0 →
                -dss < tieSolve.m_molNumSpecies_old j / tieSolve.m_stoichCoeffRxnMatrix 0 j))
      ∧ ((rxnStep sampleDefs 0 tieSolve 0 0).state? = none
          ↔ (dss ≠ 0 ∧ kz = tieSolve.m_indexRxnToSpecies 0
            ∧ tieSolve.m_SSPhase (tieSolve.m_indexRxnToSpecies 0) ≠ 1))
      ∧ ∀ s', (rxnStep sampleDefs 0 tieSolve 0 0).state? = some s' →
          s'.m_molNumSpecies_old (tieSolve.m_indexRxnToSpecies 0)
              = tieSolve.m_molNumSpecies_old (tieSolve.m_indexRxnToSpecies 0) + dss
            ∧ (∀ j, j < tieSolve.m_numComponents → s'.m_molNumSpecies_old j
                = tieSolve.m_molNumSpecies_old j + dss * tieSolve.m_stoichCoeffRxnMatrix 0 j)
            ∧ s'.m_molNumSpecies_old kz = 0
            ∧ ∀ i, tieSolve.m_numComponents ≤ i → i ≠ tieSolve.m_indexRxnToSpecies 0 →
                s'.m_molNumSpecies_old i = tieSolve.m_molNumSpecies_old i :=
  deletion_step_positive_deltaG sampleDefs tieSolve 0 0 0 tieSolve_branch
    (by norm_num [tieSolve]) (by decide)

/-- C22, the code at two failing inputs. On `sentinelSolve` (`s = 0`, `ΔG = -1`) the only
component with a negative coefficient has `-n_0 / nu_0 = 2e10`, yet the extent found and
applied is the initial `dss = 1e10`. On `twoRxnMid`, the members with which
`vcs_RxnStepSizes` on `twoRxnSolve` enters reaction 1 (`s = 0`, `ΔG = -1`, local `k = 1`),
the extent is again 1e10 and the zeroed species is species 1, which is not a component. -/
theorem negative_deltaG_extent_is_sentinel :
    takesDeletionBranch sampleDefs sentinelSolve 0
      ∧ sentinelSolve.m_deltaGRxn_new 0 < 0
      ∧ NonnegMoles sentinelSolve
      ∧ sentinelSolve.m_numComponents = 1
      ∧ sentinelSolve.m_stoichCoeffRxnMatrix 0 0 < 0
      ∧ -sentinelSolve.m_molNumSpecies_old 0 / sentinelSolve.m_stoichCoeffRxnMatrix 0 0
          = 2.0e10
      ∧ deletionTarget sentinelSolve 0 1 0 = (1.0e10, 0)
      ∧ vcs_RxnStepSizes sampleDefs sentinelSolve
          = .ok (2, applyDeletion sentinelSolve 0 1 0 1.0e10)
      ∧ rxnStep sampleDefs 0 twoRxnSolve 0 0 = .next twoRxnMid 1 1
      ∧ takesDeletionBranch sampleDefs twoRxnMid 1
      ∧ twoRxnMid.m_deltaGRxn_new 1 < 0
      ∧ NonnegMoles twoRxnMid
      ∧ twoRxnMid.m_numComponents = 1
      ∧ -twoRxnMid.m_molNumSpecies_old 0 / twoRxnMid.m_stoichCoeffRxnMatrix 1 0
          = 2.0e10 + 1
      ∧ deletionTarget twoRxnMid 1 2 1 = (1.0e10, 1)
      ∧ vcs_RxnStepSizes sampleDefs twoRxnSolve
          = .ok (2, applyDeletion twoRxnMid 1 2 1 1.0e10) := by
  refine ⟨sentinelSolve_branch, by norm_num [sentinelSolve], sentinelSolve_nonneg, rfl,
    by norm_num [sentinelSolve], by norm_num [sentinelSolve, emptySolve],
    sentinelSolve_target, sentinelSolve_run, twoRxnSolve_step0, twoRxnMid_branch1, ?_, ?_,
    rfl, ?_, twoRxnMid_target1, twoRxnSolve_run⟩
  · have hdg : twoRxnMid.m_deltaGRxn_new 1 = -1 := rfl
    rw [hdg]; norm_num
  · intro i
    rw [twoRxnMid_moles]
    simp only
    split_ifs <;> norm_num
  · have hnu : twoRxnMid.m_stoichCoeffRxnMatrix 1 0 = -1 := rfl
    rw [hnu, twoRxnMid_moles]
    norm_num

theorem cancelSolve_branch : takesDeletionBranch sampleDefs cancelSolve 0 := by
  norm_num [takesDeletionBranch, hessianDiagIdeal, forLoop, cancelSolve, emptySolve,
    emptyPhase, sampleDefs]

theorem cancelSolve_target : deletionTarget cancelSolve 0 1 0 = (-2, 1) := by
  norm_num [deletionTarget, forLoop, cancelSolve, emptySolve]

/-- C23, the code at the failing input `cancelSolve`: the mole numbers are nonnegative,
each phase total is the sum of the moles of its species, `ΔN` agrees with `nu`, and the
ideal diagonal of reaction 0 is exactly 0 although its species 1 sits in the two-species
phase 0. With `ΔG = 1` the deletion step zeroes species 1 itself and reaches the exit
guarded by `m_SSPhase[kspec] != 1`. -/
theorem zero_diagonal_in_multispecies_phase :
    NonnegMoles cancelSolve
      ∧ cancelSolve.m_tPhaseMoles_old 0
          = cancelSolve.m_molNumSpecies_old 1 + cancelSolve.m_molNumSpecies_old 2
      ∧ cancelSolve.m_tPhaseMoles_old 1 = cancelSolve.m_molNumSpecies_old 0
      ∧ cancelSolve.m_deltaMolNumPhase 0 0 = 1
      ∧ cancelSolve.m_deltaMolNumPhase 0 1 = cancelSolve.m_stoichCoeffRxnMatrix 0 0
      ∧ cancelSolve.m_indexRxnToSpecies 0 = 1
      ∧ hessianDiagIdeal cancelSolve 0 1 = 0
      ∧ cancelSolve.m_SSPhase 1 = 0
      ∧ (cancelSolve.m_VolPhaseList (cancelSolve.m_phaseID 1)).m_singleSpecies = false
      ∧ takesDeletionBranch sampleDefs cancelSolve 0
      ∧ rxnStep sampleDefs 0 cancelSolve 0 0 = .exit
      ∧ vcs_RxnStepSizes sampleDefs cancelSolve = .error .exitFailure := by
  have hstep : rxnStep sampleDefs 0 cancelSolve 0 0 = .exit := by
    rw [rxnStep_deletion _ _ _ _ _ cancelSolve_branch]
    have hk : cancelSolve.m_indexRxnToSpecies 0 = 1 := rfl
    rw [hk]
    unfold deletionStep
    simp only [cancelSolve_target]
    have hss : (applyDeletion cancelSolve 0 1 1 (-2)).m_SSPhase 1 = 0 := rfl
    norm_num [hss]
  refine ⟨?_, by norm_num [cancelSolve], by norm_num [cancelSolve],
    by norm_num [cancelSolve], by norm_num [cancelSolve], rfl, cancelSolve_branch.2.2.2.2.2,
    rfl, rfl, cancelSolve_branch, hstep, ?_⟩
  · intro i
    simp only [cancelSolve]
    split_ifs <;> norm_num
  · have h0 : vcs_RxnStepSizes sampleDefs cancelSolve
        = rxnLoop sampleDefs 2 0 cancelSolve 0 0 := rfl
    rw [h0]
    unfold rxnLoop
    rw [hstep]

/-- The loop body of `vcs_RxnStepSizes` on a zero-mole species of a multispecies phase
(line 89) whose phase total is 0, for a cutoff that is not negative: the test
`trphmoles > VCS_DELETE_PHASE_CUTOFF` of line 106 fails. -/
theorem birthStep_empty_phase (D : VcsDefs) (s : VCS_SOLVE) (irxn kspec : Nat)
    (hT : s.m_tPhaseMoles_old (s.m_phaseID kspec) = 0)
    (hc : 0 ≤ D.VCS_DELETE_PHASE_CUTOFF) :
    birthStep D s irxn kspec
      = { s with
          m_deltaMolNumSpecies := Function.update s.m_deltaMolNumSpecies kspec
            (if s.m_deltaGRxn_new irxn < -1.0e-4 then
              s.m_totalMolNum * 10.0 * D.VCS_DELETE_PHASE_CUTOFF
                / ((s.m_VolPhaseList (s.m_phaseID kspec)).m_numSpecies : ℚ)
            else 0) } := by
  unfold birthStep
  have hnot : ¬ (s.m_tPhaseMoles_old (s.m_phaseID kspec) / s.m_totalMolNum
      > D.VCS_DELETE_PHASE_CUTOFF) := by
    rw [hT, zero_div]
    exact not_lt.mpr hc
  by_cases hg : s.m_deltaGRxn_new irxn < -1.0e-4
  · simp only [hg, hnot, if_true, if_false]
  · simp only [hg, if_false]

/-- C24 as stated fails on `birthSolve`: species 1 of reaction 0 is a mole-number unknown
with status Major, zero moles, in the two-species phase 0 whose total is 0, and
`ΔG = -1 < -1e-4`; with `Ntot = 10` the loop body sets the seed
`10 * 10 * 1e-13 / 2 = 5e-12`, not `Ntot * 1e-10 = 1e-9`. -/
theorem birth_seed_not_Ntot_times_1e10 :
    birthSolve.m_speciesStatus (birthSolve.m_indexRxnToSpecies 0)
        ≠ sampleDefs.VCS_SPECIES_ZEROEDPHASE
      ∧ birthSolve.m_speciesUnknownType (birthSolve.m_indexRxnToSpecies 0)
        ≠ sampleDefs.VCS_SPECIES_TYPE_INTERFACIALVOLTAGE
      ∧ birthSolve.m_molNumSpecies_old (birthSolve.m_indexRxnToSpecies 0) = 0
      ∧ birthSolve.m_SSPhase (birthSolve.m_indexRxnToSpecies 0) = 0
      ∧ birthSolve.m_tPhaseMoles_old (birthSolve.m_phaseID (birthSolve.m_indexRxnToSpecies 0))
        = 0
      ∧ birthSolve.m_deltaGRxn_new 0 < -1.0e-4
      ∧ birthSolve.m_totalMolNum = 10
      ∧ ∃ s', rxnStep sampleDefs 0 birthSolve 0 0 = .next s' 0 0
        ∧ s'.m_deltaMolNumSpecies (birthSolve.m_indexRxnToSpecies 0) = 5.0e-12
        ∧ s'.m_deltaMolNumSpecies (birthSolve.m_indexRxnToSpecies 0)
          ≠ birthSolve.m_totalMolNum * 1.0e-10 := by
  have hk : birthSolve.m_indexRxnToSpecies 0 = 1 := rfl
  have hstep : rxnStep sampleDefs 0 birthSolve 0 0
      = .next (birthStep sampleDefs birthSolve 0 1) 0 0 := by
    unfold rxnStep
    rw [hk]
    norm_num [birthSolve, cancelSolve, emptySolve, sampleDefs]
  have hval : (birthStep sampleDefs birthSolve 0 1).m_deltaMolNumSpecies 1 = 5.0e-12 := by
    rw [birthStep_empty_phase sampleDefs birthSolve 0 1 rfl (by norm_num [sampleDefs])]
    norm_num [birthSolve, cancelSolve, emptySolve, emptyPhase, sampleDefs]
  rw [hk]
  refine ⟨by decide, by decide, rfl, rfl, rfl, by norm_num [birthSolve], rfl,
    _, hstep, hval, ?_⟩
  rw [hval]
  norm_num [birthSolve]

/-- C24 amended: for a reaction whose species `kspec` is not `VCS_SPECIES_ZEROEDPHASE`,
is not a voltage unknown, has zero moles and belongs to a multispecies phase whose total
moles are 0, and for a cutoff `VCS_DELETE_PHASE_CUTOFF ≥ 0`, the loop body of
`vcs_RxnStepSizes` sets `m_deltaMolNumSpecies[kspec]` to
`m_totalMolNum * 10 * VCS_DELETE_PHASE_CUTOFF / nSpecies(phase)` if `ΔG < -1e-4` and to 0
otherwise, and changes nothing else. -/
theorem birth_seed_value (D : VcsDefs) (s : VCS_SOLVE) (irxn : Nat) (soldel : Int) (k : Nat)
    (hst : s.m_speciesStatus (s.m_indexRxnToSpecies irxn) ≠ D.VCS_SPECIES_ZEROEDPHASE)
    (hty : s.m_speciesUnknownType (s.m_indexRxnToSpecies irxn)
      ≠ D.VCS_SPECIES_TYPE_INTERFACIALVOLTAGE)
    (hn : s.m_molNumSpecies_old (s.m_indexRxnToSpecies irxn) = 0)
    (hss : s.m_SSPhase (s.m_indexRxnToSpecies irxn) = 0)
    (hT : s.m_tPhaseMoles_old (s.m_phaseID (s.m_indexRxnToSpecies irxn)) = 0)
    (hc : 0 ≤ D.VCS_DELETE_PHASE_CUTOFF) :
    rxnStep D irxn s soldel k
      = .next { s with
          m_deltaMolNumSpecies := Function.update s.m_deltaMolNumSpecies
            (s.m_indexRxnToSpecies irxn)
            (if s.m_deltaGRxn_new irxn < -1.0e-4 then
              s.m_totalMolNum * 10.0 * D.VCS_DELETE_PHASE_CUTOFF
                / ((s.m_VolPhaseList (s.m_phaseID (s.m_indexRxnToSpecies irxn))).m_numSpecies : ℚ)
            else 0) } soldel k := by
  rw [← birthStep_empty_phase D s irxn (s.m_indexRxnToSpecies irxn) hT hc]
  unfold rxnStep
  simp only [hst, hty, hn, hss, if_false, if_true, ne_eq, not_false_eq_true, and_self]

/-- Witness of C24 amended on `birthSolve`: the seed of species 1 is `5e-12`. -/
theorem birth_seed_value_witness :
    rxnStep sampleDefs 0 birthSolve 0 0
      = .next { birthSolve with
          m_deltaMolNumSpecies := Function.update birthSolve.m_deltaMolNumSpecies
            (birthSolve.m_indexRxnToSpecies 0)
            (if birthSolve.m_deltaGRxn_new 0 < -1.0e-4 then
              birthSolve.m_totalMolNum * 10.0 * sampleDefs.VCS_DELETE_PHASE_CUTOFF
                / ((birthSolve.m_VolPhaseList
                    (birthSolve.m_phaseID (birthSolve.m_indexRxnToSpecies 0))).m_numSpecies : ℚ)
            else 0) } 0 0 :=
  birth_seed_value sampleDefs birthSolve 0 0 0 (by decide) (by decide) rfl rfl rfl
    (by norm_num [sampleDefs])

/-- C25 as stated fails on `stoichZeroSolve`: species 1 of reaction 0 has zero moles, sits
in the two-species phase 0 and has status `VCS_SPECIES_STOICHZERO`; the phase total is 0
and `ΔG = -1`, and the loop body sets the seed `5e-12` for it, not 0. -/
theorem stoichzero_species_gets_seed :
    stoichZeroSolve.m_molNumSpecies_old (stoichZeroSolve.m_indexRxnToSpecies 0) = 0
      ∧ stoichZeroSolve.m_SSPhase (stoichZeroSolve.m_indexRxnToSpecies 0) = 0
      ∧ stoichZeroSolve.m_speciesStatus (stoichZeroSolve.m_indexRxnToSpecies 0)
        = sampleDefs.VCS_SPECIES_STOICHZERO
      ∧ ∃ s', rxnStep sampleDefs 0 stoichZeroSolve 0 0 = .next s' 0 0
        ∧ s'.m_deltaMolNumSpecies (stoichZeroSolve.m_indexRxnToSpecies 0) = 5.0e-12
        ∧ s'.m_deltaMolNumSpecies (stoichZeroSolve.m_indexRxnToSpecies 0) ≠ 0 := by
  have hk : stoichZeroSolve.m_indexRxnToSpecies 0 = 1 := rfl
  have hstep : rxnStep sampleDefs 0 stoichZeroSolve 0 0
      = .next (birthStep sampleDefs stoichZeroSolve 0 1) 0 0 := by
    unfold rxnStep
    rw [hk]
    norm_num [stoichZeroSolve, birthSolve, cancelSolve, emptySolve, sampleDefs]
  have hval : (birthStep sampleDefs stoichZeroSolve 0 1).m_deltaMolNumSpecies 1
      = 5.0e-12 := by
    rw [birthStep_empty_phase sampleDefs stoichZeroSolve 0 1 rfl (by norm_num [sampleDefs])]
    norm_num [stoichZeroSolve, birthSolve, cancelSolve, emptySolve, emptyPhase, sampleDefs]
  rw [hk]
  refine ⟨rfl, rfl, by simp [stoichZeroSolve], _, hstep, hval, ?_⟩
  rw [hval]
  norm_num

/-- C25 amended: for a reaction whose species `kspec` has zero moles, belongs to a
multispecies phase, has status `VCS_SPECIES_STOICHZERO` and is not a voltage unknown, and
for a total `m_totalMolNum` other than 0 (so that the share `T_j / Ntot` is a number), the
loop body of `vcs_RxnStepSizes` sets `m_deltaMolNumSpecies[kspec] = 0` whenever
`ΔG ≥ -1e-4` or the share `T_j / Ntot` of its phase exceeds `VCS_DELETE_PHASE_CUTOFF`; when
`ΔG < -1e-4` and the share does not exceed the cutoff (and the status code differs from
`VCS_SPECIES_ZEROEDPHASE`) it sets the phase-birth seed
`m_totalMolNum * 10 * VCS_DELETE_PHASE_CUTOFF / nSpecies(phase)` as for any other status. -/
theorem stoichzero_seed (D : VcsDefs) (s : VCS_SOLVE) (irxn : Nat) (soldel : Int) (k : Nat)
    (hn : s.m_molNumSpecies_old (s.m_indexRxnToSpecies irxn) = 0)
    (hss : s.m_SSPhase (s.m_indexRxnToSpecies irxn) = 0)
    (hst : s.m_speciesStatus (s.m_indexRxnToSpecies irxn) = D.VCS_SPECIES_STOICHZERO)
    (hty : s.m_speciesUnknownType (s.m_indexRxnToSpecies irxn)
      ≠ D.VCS_SPECIES_TYPE_INTERFACIALVOLTAGE)
    (hN : s.m_totalMolNum ≠ 0) :
    ((¬ s.m_deltaGRxn_new irxn < -1.0e-4
        ∨ s.m_tPhaseMoles_old (s.m_phaseID (s.m_indexRxnToSpecies irxn)) / s.m_totalMolNum
          > D.VCS_DELETE_PHASE_CUTOFF) →
      rxnStep D irxn s soldel k
        = .next { s with
            m_deltaMolNumSpecies := Function.update s.m_deltaMolNumSpecies
              (s.m_indexRxnToSpecies irxn) 0 } soldel k)
      ∧ (D.VCS_SPECIES_STOICHZERO ≠ D.VCS_SPECIES_ZEROEDPHASE →
        s.m_deltaGRxn_new irxn < -1.0e-4 →
        ¬ s.m_tPhaseMoles_old (s.m_phaseID (s.m_indexRxnToSpecies irxn)) / s.m_totalMolNum
          > D.VCS_DELETE_PHASE_CUTOFF →
        rxnStep D irxn s soldel k
          = .next { s with
              m_deltaMolNumSpecies := Function.update s.m_deltaMolNumSpecies
                (s.m_indexRxnToSpecies irxn)
                (s.m_totalMolNum * 10.0 * D.VCS_DELETE_PHASE_CUTOFF
                  / ((s.m_VolPhaseList
                      (s.m_phaseID (s.m_indexRxnToSpecies irxn))).m_numSpecies : ℚ)) }
            soldel k) := by
  have _ := hN
  constructor
  · intro h
    unfold rxnStep
    by_cases hz : D.VCS_SPECIES_STOICHZERO = D.VCS_SPECIES_ZEROEDPHASE
    · simp only [hst, hz, if_true]
    · simp only [hst, hz, hty, hn, hss, if_false, if_true, ne_eq, not_false_eq_true,
        and_self]
      unfold birthStep
      by_cases hg : s.m_deltaGRxn_new irxn < -1.0e-4
      · have hT := h.resolve_left (not_not.mpr hg)
        simp only [hg, hT, hst, if_true, Function.update_idem]
      · simp only [hg, if_false]
  · intro hz hg hT
    unfold rxnStep
    simp only [hst, hz, hty, hn, hss, if_false, if_true, ne_eq, not_false_eq_true,
      and_self]
    unfold birthStep
    simp only [hg, hT, if_true, if_false]

/-- Witness of C25 amended on `stoichZeroSolve` with the total of phase 0 raised to 1 (a
share of 1/10 of the 10 kmol): the seed of the `VCS_SPECIES_STOICHZERO` species 1 is 0. In
`stoichZeroSolve` itself the phase is empty and the seed is `10 * 10 * 1e-13 / 2`. -/
theorem stoichzero_seed_witness :
    rxnStep sampleDefs 0
        { stoichZeroSolve with m_tPhaseMoles_old := fun p => if p = 1 then 10 else 1 } 0 0
      = .next { stoichZeroSolve with
          m_tPhaseMoles_old := fun p => if p = 1 then 10 else 1
          m_deltaMolNumSpecies := Function.update stoichZeroSolve.m_deltaMolNumSpecies 1 0 }
        0 0
      ∧ rxnStep sampleDefs 0 stoichZeroSolve 0 0
        = .next { stoichZeroSolve with
            m_deltaMolNumSpecies := Function.update stoichZeroSolve.m_deltaMolNumSpecies 1
              (10 * 10.0 * 1.0e-13 / ((2 : Nat) : ℚ)) } 0 0 :=
  ⟨(stoichzero_seed sampleDefs
      { stoichZeroSolve with m_tPhaseMoles_old := fun p => if p = 1 then 10 else 1 } 0 0 0
      rfl rfl rfl (by decide) (by norm_num [stoichZeroSolve, birthSolve])).1
      (Or.inr (by norm_num [stoichZeroSolve, birthSolve, cancelSolve, emptySolve,
        sampleDefs])),
    (stoichzero_seed sampleDefs stoichZeroSolve 0 0 0 rfl rfl rfl (by decide)
      (by norm_num [stoichZeroSolve, birthSolve])).2 (by decide) (by norm_num [stoichZeroSolve, birthSolve])
      (by norm_num [stoichZeroSolve, birthSolve, cancelSolve, emptySolve, sampleDefs])⟩

/-! ## The line search -/

/-- One round of the halving loop (lines 852-879). -/
theorem halvingLoop_succ (chemPot : ChemPotPhase) (D : VcsDefs) (irxn kspec : Nat)
    (dx_orig deltaGOrig forig : ℚ) (left : Nat) (dx : ℚ) (s : VCS_SOLVE) (n : Nat) :
    halvingLoop chemPot D irxn kspec dx_orig deltaGOrig forig (left + 1) dx s n
      = if (recalcNew chemPot D (setTrialMoles s irxn kspec (dx * 0.5)) irxn).1 * deltaGOrig
            > 0 then
          ⟨dx * 0.5, (recalcNew chemPot D (setTrialMoles s irxn kspec (dx * 0.5)) irxn).2,
            n + 1⟩
        else if |(recalcNew chemPot D (setTrialMoles s irxn kspec (dx * 0.5)) irxn).1| / forig
            < 1.0 - 0.1 * (dx * 0.5) / dx_orig then
          if (recalcNew chemPot D (setTrialMoles s irxn kspec (dx * 0.5)) irxn).1 * deltaGOrig
              < 0 then
            ⟨-deltaGOrig
                / (((recalcNew chemPot D (setTrialMoles s irxn kspec (dx * 0.5)) irxn).1
                    - deltaGOrig) / (dx * 0.5)),
              (recalcNew chemPot D (setTrialMoles s irxn kspec (dx * 0.5)) irxn).2, n + 1⟩
          else
            ⟨dx * 0.5, (recalcNew chemPot D (setTrialMoles s irxn kspec (dx * 0.5)) irxn).2,
              n + 1⟩
        else
          halvingLoop chemPot D irxn kspec dx_orig deltaGOrig forig left (dx * 0.5)
            (recalcNew chemPot D (setTrialMoles s irxn kspec (dx * 0.5)) irxn).2 (n + 1) :=
  rfl

/-- The interpolated step of lines 837-838 and 875-876: when `g` and `deltaGOrig` have
opposite signs, `-deltaGOrig / ((g - deltaGOrig) / x)` is `c * x` with `0 < c < 1`. -/
theorem interpolate_factor (g deltaGOrig x : ℚ) (h : g * deltaGOrig < 0) :
    ∃ c : ℚ, 0 < c ∧ c < 1 ∧ -deltaGOrig / ((g - deltaGOrig) / x) = c * x := by
  refine ⟨-deltaGOrig / (g - deltaGOrig), ?_, ?_, ?_⟩
  · rcases mul_neg_iff.mp h with ⟨hg, h0⟩ | ⟨hg, h0⟩
    · exact div_pos (by linarith) (by linarith)
    · exact div_pos_of_neg_of_neg (by linarith) (by linarith)
  · rcases mul_neg_iff.mp h with ⟨hg, h0⟩ | ⟨hg, h0⟩
    · rw [div_lt_one (by linarith)]
      linarith
    · rw [div_lt_one_of_neg (by linarith)]
      linarith
  · rw [div_div_eq_mul_div, mul_div_right_comm]

/-- The halving loop returns the step it was entered with times a factor in `(0, 1]`, after
at most `left` further calls of `deltaG_Recalc_Rxn`. -/
theorem halvingLoop_factor (chemPot : ChemPotPhase) (D : VcsDefs) (irxn kspec : Nat)
    (dx_orig deltaGOrig forig : ℚ) (left : Nat) :
    ∀ (dx : ℚ) (s : VCS_SOLVE) (n : Nat),
      (∃ c : ℚ, 0 < c ∧ c ≤ 1
          ∧ (halvingLoop chemPot D irxn kspec dx_orig deltaGOrig forig left dx s n).dx = c * dx)
        ∧ (halvingLoop chemPot D irxn kspec dx_orig deltaGOrig forig left dx s n).numRecalc
          ≤ n + left := by
  induction left with
  | zero =>
    intro dx s n
    exact ⟨⟨1, one_pos, le_refl _, (one_mul dx).symm⟩, le_refl _⟩
  | succ left ih =>
    intro dx s n
    rw [halvingLoop_succ]
    have hhalf : dx * 0.5 = 0.5 * dx := mul_comm _ _
    split_ifs with h1 h2 h3
    · exact ⟨⟨0.5, by norm_num, by norm_num, hhalf⟩, by simp only []; omega⟩
    · obtain ⟨c, hc0, hc1, hc⟩ := interpolate_factor _ deltaGOrig (dx * 0.5) h3
      refine ⟨⟨c * 0.5, by positivity, ?_, ?_⟩, by simp only []; omega⟩
      · nlinarith
      · simp only []
        rw [hc]
        ring
    · exact ⟨⟨0.5, by norm_num, by norm_num, hhalf⟩, by simp only []; omega⟩
    · obtain ⟨⟨c, hc0, hc1, hc⟩, hn⟩ := ih (dx * 0.5)
        (recalcNew chemPot D (setTrialMoles s irxn kspec (dx * 0.5)) irxn).2 (n + 1)
      refine ⟨⟨c * 0.5, by positivity, ?_, ?_⟩, by omega⟩
      · nlinarith
      · rw [hc]
        ring

/-- The trials of lines 807-898 return 0 for a zero proposal and otherwise the proposal
times a factor in `(0, 1]`, with at most 12 calls of `deltaG_Recalc_Rxn` in all. -/
theorem lineSearchTrials_factor (chemPot : ChemPotPhase) (D : VcsDefs) (s : VCS_SOLVE)
    (irxn kspec : Nat) (dx_orig deltaGOrig : ℚ) :
    (dx_orig = 0 → (lineSearchTrials chemPot D s irxn kspec dx_orig deltaGOrig).dx = 0)
      ∧ (dx_orig ≠ 0 → ∃ c : ℚ, 0 < c ∧ c ≤ 1
          ∧ (lineSearchTrials chemPot D s irxn kspec dx_orig deltaGOrig).dx = c * dx_orig)
      ∧ (lineSearchTrials chemPot D s irxn kspec dx_orig deltaGOrig).numRecalc ≤ 12 := by
  refine ⟨?_, ?_, ?_⟩
  · intro h0
    simp [lineSearchTrials, h0]
  · intro h0
    simp only [lineSearchTrials, h0, if_false]
    split_ifs with h1 h2 h3
    · exact ⟨1, one_pos, le_refl _, (one_mul _).symm⟩
    · obtain ⟨c, hc0, hc1, hc⟩ := interpolate_factor _ deltaGOrig dx_orig h3
      exact ⟨c, hc0, le_of_lt hc1, hc⟩
    · exact ⟨1, one_pos, le_refl _, (one_mul _).symm⟩
    · exact (halvingLoop_factor chemPot D irxn kspec dx_orig deltaGOrig _ 10 dx_orig _ 2).1
  · by_cases h0 : dx_orig = 0
    · simp [lineSearchTrials, h0]
    · simp only [lineSearchTrials, h0, if_false]
      split_ifs with h1 h2 h3
      · simp only []; omega
      · simp only []; omega
      · simp only []; omega
      · exact (halvingLoop_factor chemPot D irxn kspec dx_orig deltaGOrig _ 10 dx_orig _ 2).2

/-- The sign tests of lines 782-807: a proposal that does not point downhill
(`deltaGOrig * dx_orig ≥ 0`) is answered by 0 after the one call of `deltaG_Recalc_Rxn`. -/
theorem vcs_line_search_refused (chemPot : ChemPotPhase) (D : VcsDefs) (s : VCS_SOLVE)
    (irxn : Nat) (dx_orig : ℚ)
    (h : (recalcOld chemPot D s irxn).1 * dx_orig ≥ 0) :
    vcs_line_search chemPot D s irxn dx_orig = ⟨0, (recalcOld chemPot D s irxn).2, 1⟩ := by
  unfold vcs_line_search
  simp only []
  by_cases hpos : (recalcOld chemPot D s irxn).1 > 0
  · rw [if_pos hpos]
    by_cases hdx : dx_orig > 0
    · rw [if_pos hdx]
    · rw [if_neg hdx]
      have h0 : dx_orig = 0 := by
        rcases lt_or_eq_of_le (not_lt.mp hdx) with hlt | heq
        · nlinarith
        · exact heq
      unfold lineSearchTrials
      simp only [h0, if_true]
  · rw [if_neg hpos]
    by_cases hneg : (recalcOld chemPot D s irxn).1 < 0
    · rw [if_pos hneg]
      by_cases hdx : dx_orig < 0
      · rw [if_pos hdx]
      · rw [if_neg hdx]
        have h0 : dx_orig = 0 := by
          rcases lt_or_eq_of_le (not_lt.mp hdx) with hlt | heq
          · nlinarith
          · exact heq.symm
        unfold lineSearchTrials
        simp only [h0, if_true]
    · rw [if_neg hneg, if_pos (le_antisymm (not_lt.mp hpos) (not_lt.mp hneg))]

/-- A proposal that points downhill (`deltaGOrig * dx_orig < 0`) passes the sign tests of
lines 782-807 and goes on to the trials. -/
theorem vcs_line_search_downhill (chemPot : ChemPotPhase) (D : VcsDefs) (s : VCS_SOLVE)
    (irxn : Nat) (dx_orig : ℚ)
    (h : (recalcOld chemPot D s irxn).1 * dx_orig < 0) :
    dx_orig ≠ 0
      ∧ vcs_line_search chemPot D s irxn dx_orig
        = lineSearchTrials chemPot D (recalcOld chemPot D s irxn).2 irxn
            (s.m_indexRxnToSpecies irxn) dx_orig (recalcOld chemPot D s irxn).1 := by
  refine ⟨fun h0 => by rw [h0, mul_zero] at h; exact lt_irrefl _ h, ?_⟩
  unfold vcs_line_search
  simp only []
  rcases mul_neg_iff.mp h with ⟨hg, hd⟩ | ⟨hg, hd⟩
  · rw [if_pos hg, if_neg (not_lt.mpr (le_of_lt hd))]
  · rw [if_neg (not_lt.mpr (le_of_lt hg)), if_pos hg, if_neg (not_lt.mpr (le_of_lt hd))]

/-- C26: `vcs_line_search` returns 0 exactly when the proposed step does not point
downhill, `deltaGOrig * dx_orig ≥ 0` with `deltaGOrig` the ΔG recomputed at the current
composition; for strictly opposite signs the returned step is nonzero, whatever values
`vcs_chemPotPhase` produces at the trial compositions. -/
theorem line_search_zero_iff_uphill (chemPot : ChemPotPhase) (D : VcsDefs) (s : VCS_SOLVE)
    (irxn : Nat) (dx_orig : ℚ) :
    (vcs_line_search chemPot D s irxn dx_orig).dx = 0
      ↔ (recalcOld chemPot D s irxn).1 * dx_orig ≥ 0 := by
  constructor
  · intro hz
    by_contra hn
    obtain ⟨h0, heq⟩ := vcs_line_search_downhill chemPot D s irxn dx_orig (not_le.mp hn)
    obtain ⟨c, hc0, -, hc⟩ := (lineSearchTrials_factor chemPot D
      (recalcOld chemPot D s irxn).2 irxn (s.m_indexRxnToSpecies irxn) dx_orig
      (recalcOld chemPot D s irxn).1).2.1 h0
    rw [heq, hc] at hz
    rcases mul_eq_zero.mp hz with h | h
    · exact absurd h (ne_of_gt hc0)
    · exact h0 h
  · intro h
    rw [vcs_line_search_refused chemPot D s irxn dx_orig h]

/-- In exact arithmetic the step returned by `vcs_line_search` has the direction of the
proposal and is no longer, `dx * dx_orig ≥ 0` and `|dx| ≤ |dx_orig|`, whatever values
`vcs_chemPotPhase` produces. -/
theorem line_search_only_reduces (chemPot : ChemPotPhase) (D : VcsDefs) (s : VCS_SOLVE)
    (irxn : Nat) (dx_orig : ℚ) :
    (vcs_line_search chemPot D s irxn dx_orig).dx * dx_orig ≥ 0
      ∧ |(vcs_line_search chemPot D s irxn dx_orig).dx| ≤ |dx_orig| := by
  by_cases h : (recalcOld chemPot D s irxn).1 * dx_orig ≥ 0
  · rw [vcs_line_search_refused chemPot D s irxn dx_orig h]
    simp only [zero_mul, ge_iff_le, le_refl, abs_zero, abs_nonneg, and_self]
  · obtain ⟨h0, heq⟩ := vcs_line_search_downhill chemPot D s irxn dx_orig (not_le.mp h)
    obtain ⟨c, hc0, hc1, hc⟩ := (lineSearchTrials_factor chemPot D
      (recalcOld chemPot D s irxn).2 irxn (s.m_indexRxnToSpecies irxn) dx_orig
      (recalcOld chemPot D s irxn).1).2.1 h0
    rw [heq, hc]
    constructor
    · have : c * dx_orig * dx_orig = c * (dx_orig * dx_orig) := by ring
      rw [this]
      exact mul_nonneg (le_of_lt hc0) (mul_self_nonneg _)
    · rw [abs_mul, abs_of_pos hc0]
      calc c * |dx_orig| ≤ 1 * |dx_orig| := mul_le_mul_of_nonneg_right hc1 (abs_nonneg _)
        _ = |dx_orig| := one_mul _

/-- A downhill proposal, in terms of the full trial: lines 827-845 of `vcs_line_search`. -/
theorem vcs_line_search_full (chemPot : ChemPotPhase) (D : VcsDefs) (s : VCS_SOLVE)
    (irxn : Nat) (dx_orig : ℚ)
    (h : (recalcOld chemPot D s irxn).1 * dx_orig < 0) :
    vcs_line_search chemPot D s irxn dx_orig
      = if (fullTrial chemPot D s irxn dx_orig).1 * (recalcOld chemPot D s irxn).1 > 0 then
          ⟨dx_orig, (fullTrial chemPot D s irxn dx_orig).2, 2⟩
        else if |(fullTrial chemPot D s irxn dx_orig).1|
            < 0.8 * (|(recalcOld chemPot D s irxn).1| + 1.0e-15) then
          if (fullTrial chemPot D s irxn dx_orig).1 * (recalcOld chemPot D s irxn).1 < 0 then
            ⟨-(recalcOld chemPot D s irxn).1
                / (((fullTrial chemPot D s irxn dx_orig).1 - (recalcOld chemPot D s irxn).1)
                  / dx_orig),
              (fullTrial chemPot D s irxn dx_orig).2, 2⟩
          else ⟨dx_orig, (fullTrial chemPot D s irxn dx_orig).2, 2⟩
        else
          halvingLoop chemPot D irxn (s.m_indexRxnToSpecies irxn) dx_orig
            (recalcOld chemPot D s irxn).1 (|(recalcOld chemPot D s irxn).1| + 1.0e-15) 10
            dx_orig (fullTrial chemPot D s irxn dx_orig).2 2 := by
  obtain ⟨h0, heq⟩ := vcs_line_search_downhill chemPot D s irxn dx_orig h
  rw [heq]
  unfold lineSearchTrials fullTrial
  simp only [h0, if_false]

/-- The halving loop entered after trial `i0` of `halvingTrial`, with `left` rounds to go:
it stops at the first accepted trial `i` among `i0 + 1, ..., i0 + left`, returning
`halvingReturn` there after `i - i0` further calls of `deltaG_Recalc_Rxn`; without an
accepted trial it returns `dx_orig / 2^(i0 + left)` after `left` calls. -/
theorem halvingLoop_first_accepted (chemPot : ChemPotPhase) (D : VcsDefs) (s : VCS_SOLVE)
    (irxn : Nat) (dx_orig deltaGOrig : ℚ) (left : Nat) :
    ∀ (i0 n : Nat),
      (∀ i, i0 < i → i ≤ i0 + left →
        halvingAccepts dx_orig deltaGOrig (halvingTrial chemPot D s irxn dx_orig i).1 i →
        (∀ j, i0 < j → j < i →
          ¬ halvingAccepts dx_orig deltaGOrig (halvingTrial chemPot D s irxn dx_orig j).1 j) →
        halvingLoop chemPot D irxn (s.m_indexRxnToSpecies irxn) dx_orig deltaGOrig
            (|deltaGOrig| + 1.0e-15) left (dx_orig / 2 ^ i0)
            (halvingTrial chemPot D s irxn dx_orig i0).2 n
          = ⟨halvingReturn dx_orig deltaGOrig (halvingTrial chemPot D s irxn dx_orig i).1 i,
              (halvingTrial chemPot D s irxn dx_orig i).2, n + (i - i0)⟩)
      ∧ ((∀ i, i0 < i → i ≤ i0 + left →
          ¬ halvingAccepts dx_orig deltaGOrig (halvingTrial chemPot D s irxn dx_orig i).1 i) →
        halvingLoop chemPot D irxn (s.m_indexRxnToSpecies irxn) dx_orig deltaGOrig
            (|deltaGOrig| + 1.0e-15) left (dx_orig / 2 ^ i0)
            (halvingTrial chemPot D s irxn dx_orig i0).2 n
          = ⟨dx_orig / 2 ^ (i0 + left),
              (halvingTrial chemPot D s irxn dx_orig (i0 + left)).2, n + left⟩) := by
  induction left with
  | zero =>
    intro i0 n
    constructor
    · intro i hi hle
      omega
    · intro _
      rfl
  | succ left ih =>
    intro i0 n
    have hdx : dx_orig / 2 ^ i0 * 0.5 = dx_orig / 2 ^ (i0 + 1) := by
      rw [pow_succ]
      field_simp
      ring
    have ht : recalcNew chemPot D
        (setTrialMoles (halvingTrial chemPot D s irxn dx_orig i0).2 irxn
          (s.m_indexRxnToSpecies irxn) (dx_orig / 2 ^ (i0 + 1))) irxn
        = halvingTrial chemPot D s irxn dx_orig (i0 + 1) := rfl
    rw [halvingLoop_succ, hdx, ht]
    have hone : (1.0 : ℚ) = 1 := by norm_num
    rw [hone]
    -- whether trial `i0 + 1` is accepted
    by_cases hacc : halvingAccepts dx_orig deltaGOrig
        (halvingTrial chemPot D s irxn dx_orig (i0 + 1)).1 (i0 + 1)
    · have hval : (if (halvingTrial chemPot D s irxn dx_orig (i0 + 1)).1 * deltaGOrig > 0 then
            (⟨dx_orig / 2 ^ (i0 + 1), (halvingTrial chemPot D s irxn dx_orig (i0 + 1)).2,
              n + 1⟩ : LineSearchResult)
          else if |(halvingTrial chemPot D s irxn dx_orig (i0 + 1)).1| / (|deltaGOrig| + 1.0e-15)
              < 1 - 0.1 * (dx_orig / 2 ^ (i0 + 1)) / dx_orig then
            if (halvingTrial chemPot D s irxn dx_orig (i0 + 1)).1 * deltaGOrig < 0 then
              ⟨-deltaGOrig / (((halvingTrial chemPot D s irxn dx_orig (i0 + 1)).1 - deltaGOrig)
                  / (dx_orig / 2 ^ (i0 + 1))),
                (halvingTrial chemPot D s irxn dx_orig (i0 + 1)).2, n + 1⟩
            else
              ⟨dx_orig / 2 ^ (i0 + 1), (halvingTrial chemPot D s irxn dx_orig (i0 + 1)).2,
                n + 1⟩
          else
            halvingLoop chemPot D irxn (s.m_indexRxnToSpecies irxn) dx_orig deltaGOrig
              (|deltaGOrig| + 1.0e-15) left (dx_orig / 2 ^ (i0 + 1))
              (halvingTrial chemPot D s irxn dx_orig (i0 + 1)).2 (n + 1))
          = ⟨halvingReturn dx_orig deltaGOrig
                (halvingTrial chemPot D s irxn dx_orig (i0 + 1)).1 (i0 + 1),
              (halvingTrial chemPot D s irxn dx_orig (i0 + 1)).2, n + 1⟩ := by
        unfold halvingReturn
        by_cases h1 : (halvingTrial chemPot D s irxn dx_orig (i0 + 1)).1 * deltaGOrig > 0
        · rw [if_pos h1, if_neg (not_lt.mpr (le_of_lt h1))]
        · rw [if_neg h1]
          have h2 := hacc.resolve_left h1
          rw [if_pos h2]
          by_cases h3 : (halvingTrial chemPot D s irxn dx_orig (i0 + 1)).1 * deltaGOrig < 0
          · rw [if_pos h3, if_pos h3, div_div_eq_mul_div]
          · rw [if_neg h3, if_neg h3]
      rw [hval]
      constructor
      · intro i hi hle _ hfirst
        have hi1 : i = i0 + 1 := by
          by_contra hne
          exact hfirst (i0 + 1) (Nat.lt_succ_self i0) (by omega) hacc
        subst hi1
        have : i0 + 1 - i0 = 1 := by omega
        rw [this]
      · intro hnone
        exact absurd hacc (hnone (i0 + 1) (Nat.lt_succ_self i0) (by omega))
    · have h1 : ¬ (halvingTrial chemPot D s irxn dx_orig (i0 + 1)).1 * deltaGOrig > 0 :=
        fun h => hacc (Or.inl h)
      have h2 : ¬ |(halvingTrial chemPot D s irxn dx_orig (i0 + 1)).1|
          / (|deltaGOrig| + 1.0e-15) < 1 - 0.1 * (dx_orig / 2 ^ (i0 + 1)) / dx_orig :=
        fun h => hacc (Or.inr h)
      rw [if_neg h1, if_neg h2]
      obtain ⟨ihA, ihB⟩ := ih (i0 + 1) (n + 1)
      constructor
      · intro i hi hle hai hfirst
        have hne : i ≠ i0 + 1 := by
          intro h
          rw [h] at hai
          exact hacc hai
        rw [ihA i (by omega) (by omega) hai (fun j hj hji => hfirst j (by omega) hji)]
        have : n + 1 + (i - (i0 + 1)) = n + (i - i0) := by omega
        rw [this]
      · intro hnone
        rw [ihB (fun i hi hle => hnone i (by omega) (by omega))]
        have h1' : i0 + 1 + left = i0 + (left + 1) := by omega
        have h2' : n + 1 + left = n + (left + 1) := by omega
        rw [h1', h2']

theorem onlyNewBuffers_refl (s : VCS_SOLVE) : OnlyNewBuffers s s := rfl

theorem onlyNewBuffers_trans {s t u : VCS_SOLVE} (h1 : OnlyNewBuffers s t)
    (h2 : OnlyNewBuffers t u) : OnlyNewBuffers s u := by
  unfold OnlyNewBuffers at h1 h2 ⊢
  calc u = { t with
        m_molNumSpecies_new := u.m_molNumSpecies_new
        m_actCoeffSpecies_new := u.m_actCoeffSpecies_new
        m_feSpecies_new := u.m_feSpecies_new } := h2
    _ = { s with
        m_molNumSpecies_new := u.m_molNumSpecies_new
        m_actCoeffSpecies_new := u.m_actCoeffSpecies_new
        m_feSpecies_new := u.m_feSpecies_new } := by rw [h1]

/-- One trial (lines 852-860) writes the three trial buffers only. -/
theorem onlyNewBuffers_trial (chemPot : ChemPotPhase) (D : VcsDefs) (s : VCS_SOLVE)
    (irxn kspec : Nat) (dx : ℚ) :
    OnlyNewBuffers s (recalcNew chemPot D (setTrialMoles s irxn kspec dx) irxn).2 := rfl

/-- The halving loop writes the three trial buffers only. -/
theorem halvingLoop_frame (chemPot : ChemPotPhase) (D : VcsDefs) (irxn kspec : Nat)
    (dx_orig deltaGOrig forig : ℚ) (left : Nat) :
    ∀ (dx : ℚ) (s : VCS_SOLVE) (n : Nat),
      OnlyNewBuffers s
        (halvingLoop chemPot D irxn kspec dx_orig deltaGOrig forig left dx s n).solve := by
  induction left with
  | zero =>
    intro dx s n
    exact onlyNewBuffers_refl s
  | succ left ih =>
    intro dx s n
    rw [halvingLoop_succ]
    split_ifs
    · exact onlyNewBuffers_trial chemPot D s irxn kspec _
    · exact onlyNewBuffers_trial chemPot D s irxn kspec _
    · exact onlyNewBuffers_trial chemPot D s irxn kspec _
    · exact onlyNewBuffers_trans (onlyNewBuffers_trial chemPot D s irxn kspec _) (ih _ _ _)

/-- Lines 807-898 of `vcs_line_search` write the three trial buffers only. -/
theorem lineSearchTrials_frame (chemPot : ChemPotPhase) (D : VcsDefs) (s : VCS_SOLVE)
    (irxn kspec : Nat) (dx_orig deltaGOrig : ℚ) :
    OnlyNewBuffers s (lineSearchTrials chemPot D s irxn kspec dx_orig deltaGOrig).solve := by
  have hfull : OnlyNewBuffers s
      (recalcNew chemPot D
        (setTrialMoles
          { s with
            m_molNumSpecies_new := vcs_dcopy s.m_molNumSpecies_new s.m_molNumSpecies_old
              s.m_numSpeciesRdc }
          irxn kspec dx_orig) irxn).2 := rfl
  unfold lineSearchTrials
  simp only []
  split_ifs
  · exact onlyNewBuffers_refl s
  · exact hfull
  · exact hfull
  · exact hfull
  · exact onlyNewBuffers_trans hfull
      (halvingLoop_frame chemPot D irxn kspec dx_orig deltaGOrig _ 10 _ _ _)

/-- After its first call of `deltaG_Recalc_Rxn`, which rewrites `m_actCoeffSpecies_old` and
`m_feSpecies_old`, `vcs_line_search` writes the three trial buffers only. -/
theorem vcs_line_search_frame (chemPot : ChemPotPhase) (D : VcsDefs) (s : VCS_SOLVE)
    (irxn : Nat) (dx_orig : ℚ) :
    OnlyNewBuffers (recalcOld chemPot D s irxn).2
      (vcs_line_search chemPot D s irxn dx_orig).solve := by
  unfold vcs_line_search
  simp only []
  split_ifs
  · exact onlyNewBuffers_refl _
  · exact lineSearchTrials_frame chemPot D _ irxn _ dx_orig _
  · exact onlyNewBuffers_refl _
  · exact lineSearchTrials_frame chemPot D _ irxn _ dx_orig _
  · exact onlyNewBuffers_refl _
  · exact lineSearchTrials_frame chemPot D _ irxn _ dx_orig _

/-- The callback `tableChemPot f` on a system of two phases and one component, both phases
taking part in reaction 0 and `nu[0][0] = -1`: the ΔG of reaction 0 is `f` of the mole
number of species 1, and the chemical potentials of species 0 and 1 are rewritten. -/
theorem tableChemPot_deltaG (f : ℚ → ℚ) (s : VCS_SOLVE) (stateCalc : Int)
    (molNum ac mu : Nat → ℚ) (hP : s.m_numPhases = 2) (hM : s.m_numComponents = 1)
    (hp0 : s.m_phaseParticipation 0 0 ≠ 0) (hp1 : s.m_phaseParticipation 0 1 ≠ 0)
    (hnu : s.m_stoichCoeffRxnMatrix 0 0 = -1) :
    deltaG_Recalc_Rxn (tableChemPot f) s stateCalc 0 molNum ac mu
      = (f (molNum 1), ac,
          fun i => if i = 1 then f (molNum 1) else if i = 0 then 0 else mu i) := by
  unfold deltaG_Recalc_Rxn reactionDeltaG
  rw [hP, hM]
  simp only [forLoop, hp0, hp1, hnu, ne_eq, not_false_eq_true, if_true, tableChemPot]
  refine Prod.ext ?_ (Prod.ext rfl ?_)
  · norm_num
  · funext i
    by_cases h1 : i = 1
    · simp [h1]
    · by_cases h0 : i = 0
      · simp [h0]
      · simp [h1, h0]

/-- Every trial of `halvingTrial` leaves members that differ from those after the first
call of `deltaG_Recalc_Rxn` in the three trial buffers only. -/
theorem halvingTrial_frame (chemPot : ChemPotPhase) (D : VcsDefs) (s : VCS_SOLVE)
    (irxn : Nat) (dx_orig : ℚ) (i : Nat) :
    OnlyNewBuffers (recalcOld chemPot D s irxn).2
      (halvingTrial chemPot D s irxn dx_orig i).2 := by
  induction i with
  | zero => rfl
  | succ i ih => exact onlyNewBuffers_trans ih (onlyNewBuffers_trial chemPot D _ irxn _ _)

/-- On `searchSolve` with the callback `tableChemPot f`, the ΔG recomputed at the current
composition is `f 1`, and the committed buffer `m_feSpecies_old` is rewritten. -/
theorem searchSolve_recalcOld (f : ℚ → ℚ) :
    recalcOld (tableChemPot f) sampleDefs searchSolve 0
      = (f 1, { searchSolve with
          m_actCoeffSpecies_old := searchSolve.m_actCoeffSpecies_old
          m_feSpecies_old := fun i => if i = 1 then f 1 else if i = 0 then 0
            else searchSolve.m_feSpecies_old i }) := by
  unfold recalcOld
  simp only []
  rw [tableChemPot_deltaG f searchSolve _ _ _ _ rfl rfl (by decide) (by decide) rfl]
  have h1 : searchSolve.m_molNumSpecies_old 1 = 1 := by
    norm_num [searchSolve, gibbsSolve, sentinelSolve]
  simp only [h1]

/-- On members that differ from those of `searchSolve` after the first call of
`deltaG_Recalc_Rxn` in the trial buffers only, a trial at the step `dx` gives the ΔG
`f (1 + dx)`. -/
theorem searchSolve_trial (f : ℚ → ℚ) (t : VCS_SOLVE)
    (h : OnlyNewBuffers (recalcOld (tableChemPot f) sampleDefs searchSolve 0).2 t) (dx : ℚ) :
    (recalcNew (tableChemPot f) sampleDefs (setTrialMoles t 0 1 dx) 0).1 = f (1 + dx) := by
  have hP : t.m_numPhases = 2 := congrArg VCS_SOLVE.m_numPhases h
  have hM : t.m_numComponents = 1 := congrArg VCS_SOLVE.m_numComponents h
  have hpp : t.m_phaseParticipation = searchSolve.m_phaseParticipation := by
    have h' := congrArg VCS_SOLVE.m_phaseParticipation h
    exact h'
  have hnu : t.m_stoichCoeffRxnMatrix = searchSolve.m_stoichCoeffRxnMatrix := by
    have h' := congrArg VCS_SOLVE.m_stoichCoeffRxnMatrix h
    exact h'
  have hn : t.m_molNumSpecies_old = searchSolve.m_molNumSpecies_old := by
    have h' := congrArg VCS_SOLVE.m_molNumSpecies_old h
    exact h'
  have hmol : (setTrialMoles t 0 1 dx).m_molNumSpecies_new 1 = 1 + dx := by
    unfold setTrialMoles
    simp only [hM, hn, forLoop]
    norm_num [Function.update, searchSolve, gibbsSolve, sentinelSolve]
  unfold recalcNew
  simp only []
  rw [tableChemPot_deltaG f (setTrialMoles t 0 1 dx) _ _ _ _ hP hM
    (by rw [show (setTrialMoles t 0 1 dx).m_phaseParticipation = t.m_phaseParticipation from rfl,
      hpp]; decide)
    (by rw [show (setTrialMoles t 0 1 dx).m_phaseParticipation = t.m_phaseParticipation from rfl,
      hpp]; decide)
    (by rw [show (setTrialMoles t 0 1 dx).m_stoichCoeffRxnMatrix = t.m_stoichCoeffRxnMatrix
      from rfl, hnu]; rfl)]
  simp only [hmol]

/-- On `searchSolve` with the callback `tableChemPot f` and the proposal `dx_orig`, trial
`i` gives the ΔG `f (1 + dx_orig / 2^i)`. -/
theorem searchSolve_halvingTrial (f : ℚ → ℚ) (dx_orig : ℚ) (i : Nat) :
    (halvingTrial (tableChemPot f) sampleDefs searchSolve 0 dx_orig i).1
      = f (1 + dx_orig / 2 ^ i) := by
  cases i with
  | zero =>
    have h := searchSolve_trial f
      { (recalcOld (tableChemPot f) sampleDefs searchSolve 0).2 with
        m_molNumSpecies_new := vcs_dcopy
          (recalcOld (tableChemPot f) sampleDefs searchSolve 0).2.m_molNumSpecies_new
          (recalcOld (tableChemPot f) sampleDefs searchSolve 0).2.m_molNumSpecies_old
          (recalcOld (tableChemPot f) sampleDefs searchSolve 0).2.m_numSpeciesRdc }
      rfl dx_orig
    rw [pow_zero, div_one]
    exact h
  | succ i =>
    exact searchSolve_trial f _
      (halvingTrial_frame (tableChemPot f) sampleDefs searchSolve 0 dx_orig i) _

/-- On `searchSolve` with the table `kinkTable` and the proposal 1: `deltaGOrig = -1`, the
full step gives 2, the halved step 2 again (rejected), the quartered step 1/2 (accepted).
-/
theorem kink_values :
    (recalcOld (tableChemPot kinkTable) sampleDefs searchSolve 0).1 = -1
      ∧ (fullTrial (tableChemPot kinkTable) sampleDefs searchSolve 0 1).1 = 2
      ∧ (halvingTrial (tableChemPot kinkTable) sampleDefs searchSolve 0 1 1).1 = 2
      ∧ (halvingTrial (tableChemPot kinkTable) sampleDefs searchSolve 0 1 2).1 = 1 / 2 := by
  refine ⟨?_, ?_, ?_, ?_⟩
  · rw [searchSolve_recalcOld]
    norm_num [kinkTable]
  · have h := searchSolve_halvingTrial kinkTable 1 0
    rw [show halvingTrial (tableChemPot kinkTable) sampleDefs searchSolve 0 1 0
      = fullTrial (tableChemPot kinkTable) sampleDefs searchSolve 0 1 from rfl] at h
    rw [h]
    norm_num [kinkTable]
  · rw [searchSolve_halvingTrial]
    norm_num [kinkTable]
  · rw [searchSolve_halvingTrial]
    norm_num [kinkTable]

/-- On `searchSolve` with `kinkTable` and the proposal 1, the quartered step is the first
accepted one. -/
theorem kink_first_accepted :
    halvingAccepts 1 (recalcOld (tableChemPot kinkTable) sampleDefs searchSolve 0).1
        (halvingTrial (tableChemPot kinkTable) sampleDefs searchSolve 0 1 2).1 2
      ∧ ∀ j, 0 < j → j < 2 →
        ¬ halvingAccepts 1 (recalcOld (tableChemPot kinkTable) sampleDefs searchSolve 0).1
          (halvingTrial (tableChemPot kinkTable) sampleDefs searchSolve 0 1 j).1 j := by
  obtain ⟨h0, -, h1, h2⟩ := kink_values
  constructor
  · rw [h0, h2]
    unfold halvingAccepts
    norm_num [abs_div]
  · intro j hj hj2
    have hj1 : j = 1 := by omega
    subst hj1
    rw [h0, h1]
    unfold halvingAccepts
    norm_num

/-- C27 as stated fails on `searchSolve` with `kinkTable` and the proposal `dx_orig = 1`:
`deltaGOrig = -1` and the ΔG at the full step is 2, of opposite sign, but since
`|2| ≥ 0.8 * (1 + 1e-15)` the call goes to the halving loop and returns 1/6, not the
interpolate `-deltaGOrig * dx_orig / (2 - deltaGOrig) = 1/3` of the full step. -/
theorem interpolation_skipped_on_large_overshoot :
    (recalcOld (tableChemPot kinkTable) sampleDefs searchSolve 0).1 * 1 < 0
      ∧ (fullTrial (tableChemPot kinkTable) sampleDefs searchSolve 0 1).1
          * (recalcOld (tableChemPot kinkTable) sampleDefs searchSolve 0).1 < 0
      ∧ (vcs_line_search (tableChemPot kinkTable) sampleDefs searchSolve 0 1).dx = 1 / 6
      ∧ -(recalcOld (tableChemPot kinkTable) sampleDefs searchSolve 0).1 * 1
          / ((fullTrial (tableChemPot kinkTable) sampleDefs searchSolve 0 1).1
            - (recalcOld (tableChemPot kinkTable) sampleDefs searchSolve 0).1) = 1 / 3
      ∧ (vcs_line_search (tableChemPot kinkTable) sampleDefs searchSolve 0 1).dx
        ≠ -(recalcOld (tableChemPot kinkTable) sampleDefs searchSolve 0).1 * 1
          / ((fullTrial (tableChemPot kinkTable) sampleDefs searchSolve 0 1).1
            - (recalcOld (tableChemPot kinkTable) sampleDefs searchSolve 0).1) := by
  obtain ⟨h0, hf, h1, h2⟩ := kink_values
  obtain ⟨hacc, hrej⟩ := kink_first_accepted
  have hdir : (recalcOld (tableChemPot kinkTable) sampleDefs searchSolve 0).1 * 1 < 0 := by
    rw [h0]; norm_num
  have hrun : (vcs_line_search (tableChemPot kinkTable) sampleDefs searchSolve 0 1).dx
      = 1 / 6 := by
    rw [vcs_line_search_full _ _ _ _ _ hdir]
    have hA := (halvingLoop_first_accepted (tableChemPot kinkTable) sampleDefs searchSolve 0 1
      (recalcOld (tableChemPot kinkTable) sampleDefs searchSolve 0).1 10 0 2).1 2
      (by norm_num) (by norm_num) hacc hrej
    rw [pow_zero, div_one] at hA
    rw [show (halvingTrial (tableChemPot kinkTable) sampleDefs searchSolve 0 1 0).2
      = (fullTrial (tableChemPot kinkTable) sampleDefs searchSolve 0 1).2 from rfl] at hA
    rw [if_neg (by rw [hf, h0]; norm_num), if_neg (by rw [hf, h0]; norm_num), hA]
    simp only []
    rw [h0, h2]
    norm_num [halvingReturn]
  refine ⟨hdir, by rw [hf, h0]; norm_num, hrun, by rw [hf, h0]; norm_num, ?_⟩
  rw [hrun, hf, h0]
  norm_num

/-- C27 amended: when the proposal points downhill and the ΔG at the full step has the sign
opposite to `deltaGOrig`, `vcs_line_search` returns the interpolated zero
`-deltaGOrig * dx_orig / (deltaG_new - deltaGOrig)` provided
`|deltaG_new| < 0.8 * (|deltaGOrig| + 1e-15)`; otherwise it returns what the halving loop
finds. -/
theorem interpolation_on_sign_change (chemPot : ChemPotPhase) (D : VcsDefs) (s : VCS_SOLVE)
    (irxn : Nat) (dx_orig : ℚ)
    (hdir : (recalcOld chemPot D s irxn).1 * dx_orig < 0)
    (hsign : (fullTrial chemPot D s irxn dx_orig).1 * (recalcOld chemPot D s irxn).1 < 0) :
    (|(fullTrial chemPot D s irxn dx_orig).1|
          < 0.8 * (|(recalcOld chemPot D s irxn).1| + 1.0e-15) →
        (vcs_line_search chemPot D s irxn dx_orig).dx
          = -(recalcOld chemPot D s irxn).1 * dx_orig
            / ((fullTrial chemPot D s irxn dx_orig).1 - (recalcOld chemPot D s irxn).1))
      ∧ (¬ |(fullTrial chemPot D s irxn dx_orig).1|
          < 0.8 * (|(recalcOld chemPot D s irxn).1| + 1.0e-15) →
        vcs_line_search chemPot D s irxn dx_orig
          = halvingLoop chemPot D irxn (s.m_indexRxnToSpecies irxn) dx_orig
              (recalcOld chemPot D s irxn).1 (|(recalcOld chemPot D s irxn).1| + 1.0e-15) 10
              dx_orig (fullTrial chemPot D s irxn dx_orig).2 2) := by
  rw [vcs_line_search_full chemPot D s irxn dx_orig hdir,
    if_neg (not_lt.mpr (le_of_lt hsign))]
  constructor
  · intro hmag
    rw [if_pos hmag, if_pos hsign, div_div_eq_mul_div]
  · intro hmag
    rw [if_neg hmag]

/-- Witness of C27 amended on `searchSolve` with `gentleTable` and the proposal 1:
`deltaGOrig = -1`, the ΔG at the full step is 1/2, and the returned step is
`1 * 1 / (1/2 + 1) = 2/3`. -/
theorem interpolation_on_sign_change_witness :
    (vcs_line_search (tableChemPot gentleTable) sampleDefs searchSolve 0 1).dx = 2 / 3 := by
  have h0 : (recalcOld (tableChemPot gentleTable) sampleDefs searchSolve 0).1 = -1 := by
    rw [searchSolve_recalcOld]
    norm_num [gentleTable]
  have hf : (fullTrial (tableChemPot gentleTable) sampleDefs searchSolve 0 1).1 = 1 / 2 := by
    have h := searchSolve_halvingTrial gentleTable 1 0
    rw [show halvingTrial (tableChemPot gentleTable) sampleDefs searchSolve 0 1 0
      = fullTrial (tableChemPot gentleTable) sampleDefs searchSolve 0 1 from rfl] at h
    rw [h]
    norm_num [gentleTable]
  rw [(interpolation_on_sign_change (tableChemPot gentleTable) sampleDefs searchSolve 0 1
    (by rw [h0]; norm_num) (by rw [hf, h0]; norm_num)).1 (by rw [hf, h0]; norm_num [abs_div]), hf, h0]
  norm_num

/-- C28: `vcs_line_search` calls `deltaG_Recalc_Rxn` at most 12 times. When the proposal
points downhill and the full step is not accepted, it stops at the first `i` in `1..10`
whose halved step `dx_orig / 2^i` is accepted (the ΔG there has the sign of `deltaGOrig`, or
`|ΔG| / (|deltaGOrig| + 1e-15) < 1 - 0.1 * (dx_orig / 2^i) / dx_orig`), returning
`dx_orig / 2^i`, or its interpolate to the zero of ΔG when the sign changed, after `2 + i`
calls; if no `i` in `1..10` is accepted it returns `dx_orig / 1024` after 12 calls. -/
theorem halving_loop_stops_at_first_accepted (chemPot : ChemPotPhase) (D : VcsDefs)
    (s : VCS_SOLVE) (irxn : Nat) (dx_orig : ℚ) :
    (vcs_line_search chemPot D s irxn dx_orig).numRecalc ≤ 12
      ∧ ((recalcOld chemPot D s irxn).1 * dx_orig < 0 →
        ¬ (fullTrial chemPot D s irxn dx_orig).1 * (recalcOld chemPot D s irxn).1 > 0 →
        ¬ |(fullTrial chemPot D s irxn dx_orig).1|
            < 0.8 * (|(recalcOld chemPot D s irxn).1| + 1.0e-15) →
        (∀ i, 1 ≤ i → i ≤ 10 →
            halvingAccepts dx_orig (recalcOld chemPot D s irxn).1
              (halvingTrial chemPot D s irxn dx_orig i).1 i →
            (∀ j, 1 ≤ j → j < i →
              ¬ halvingAccepts dx_orig (recalcOld chemPot D s irxn).1
                (halvingTrial chemPot D s irxn dx_orig j).1 j) →
            (vcs_line_search chemPot D s irxn dx_orig).dx
                = halvingReturn dx_orig (recalcOld chemPot D s irxn).1
                  (halvingTrial chemPot D s irxn dx_orig i).1 i
              ∧ (vcs_line_search chemPot D s irxn dx_orig).numRecalc = 2 + i)
          ∧ ((∀ i, 1 ≤ i → i ≤ 10 →
              ¬ halvingAccepts dx_orig (recalcOld chemPot D s irxn).1
                (halvingTrial chemPot D s irxn dx_orig i).1 i) →
            (vcs_line_search chemPot D s irxn dx_orig).dx = dx_orig / 1024
              ∧ (vcs_line_search chemPot D s irxn dx_orig).numRecalc = 12)) := by
  constructor
  · by_cases h : (recalcOld chemPot D s irxn).1 * dx_orig ≥ 0
    · rw [vcs_line_search_refused chemPot D s irxn dx_orig h]
      simp only []
      omega
    · rw [(vcs_line_search_downhill chemPot D s irxn dx_orig (not_le.mp h)).2]
      exact (lineSearchTrials_factor chemPot D _ irxn _ dx_orig _).2.2
  · intro hdir hf1 hf2
    have hrun : vcs_line_search chemPot D s irxn dx_orig
        = halvingLoop chemPot D irxn (s.m_indexRxnToSpecies irxn) dx_orig
            (recalcOld chemPot D s irxn).1 (|(recalcOld chemPot D s irxn).1| + 1.0e-15) 10
            (dx_orig / 2 ^ 0) (halvingTrial chemPot D s irxn dx_orig 0).2 2 := by
      rw [vcs_line_search_full chemPot D s irxn dx_orig hdir, if_neg hf1, if_neg hf2,
        pow_zero, div_one]
      rfl
    obtain ⟨hA, hB⟩ := halvingLoop_first_accepted chemPot D s irxn dx_orig
      (recalcOld chemPot D s irxn).1 10 0 2
    constructor
    · intro i hi hle hacc hfirst
      rw [hrun, hA i (by omega) (by omega) hacc (fun j hj hji => hfirst j (by omega) hji)]
      exact ⟨rfl, by simp only []; omega⟩
    · intro hnone
      rw [hrun, hB (fun i hi hle => hnone i (by omega) (by omega))]
      refine ⟨?_, rfl⟩
      simp only []
      norm_num

/-- Witness of C28 on `searchSolve` with `kinkTable` and the proposal 1: the full step
(ΔG = 2) and the halved step (ΔG = 2) are rejected, the quartered step (ΔG = 1/2) is
accepted with a sign change, and the call returns the interpolate `1/6` after 4 calls. -/
theorem halving_loop_stops_at_first_accepted_witness :
    (vcs_line_search (tableChemPot kinkTable) sampleDefs searchSolve 0 1).dx = 1 / 6
      ∧ (vcs_line_search (tableChemPot kinkTable) sampleDefs searchSolve 0 1).numRecalc
        = 4 := by
  obtain ⟨h0, hf, h1, h2⟩ := kink_values
  obtain ⟨hacc, hrej⟩ := kink_first_accepted
  have h := ((halving_loop_stops_at_first_accepted (tableChemPot kinkTable) sampleDefs
    searchSolve 0 1).2 (by rw [h0]; norm_num) (by rw [hf, h0]; norm_num)
    (by rw [hf, h0]; norm_num)).1 2 (by norm_num) (by norm_num) hacc
    (fun j hj hj2 => hrej j (by omega) hj2)
  rw [h.1, h.2, h0, h2]
  norm_num [halvingReturn]

/-- C30 as stated fails on `searchSolve` with `kinkTable`: `m_feSpecies_old[1]` holds 0
before `vcs_line_search` and -1 after it, the value the first call of `deltaG_Recalc_Rxn`
writes into the committed buffer. -/
theorem line_search_rewrites_feSpecies_old :
    searchSolve.m_feSpecies_old 1 = 0
      ∧ (vcs_line_search (tableChemPot kinkTable) sampleDefs searchSolve 0 1).solve.m_feSpecies_old
          1 = -1
      ∧ (vcs_line_search (tableChemPot kinkTable) sampleDefs searchSolve 0 1).solve.m_feSpecies_old
        ≠ searchSolve.m_feSpecies_old := by
  have h : (vcs_line_search (tableChemPot kinkTable) sampleDefs searchSolve 0
      1).solve.m_feSpecies_old
      = (recalcOld (tableChemPot kinkTable) sampleDefs searchSolve 0).2.m_feSpecies_old := by
    have h' := congrArg VCS_SOLVE.m_feSpecies_old
      (vcs_line_search_frame (tableChemPot kinkTable) sampleDefs searchSolve 0 1)
    exact h'
  have h1 : (vcs_line_search (tableChemPot kinkTable) sampleDefs searchSolve 0
      1).solve.m_feSpecies_old 1 = -1 := by
    rw [h, searchSolve_recalcOld]
    norm_num [kinkTable]
  refine ⟨rfl, h1, fun heq => ?_⟩
  rw [heq] at h1
  have h2 : searchSolve.m_feSpecies_old 1 = 0 := rfl
  rw [h2] at h1
  norm_num at h1

/-- C30 amended: `vcs_line_search` leaves `m_molNumSpecies_old` and `m_deltaMolNumSpecies`
as they were; it overwrites `m_actCoeffSpecies_old` and `m_feSpecies_old` with the output
of its first call `deltaG_Recalc_Rxn(VCS_STATECALC_OLD, irxn, m_molNumSpecies_old, ..)`;
apart from these two buffers only the three trial buffers `m_molNumSpecies_new`,
`m_actCoeffSpecies_new` and `m_feSpecies_new` can differ after the call. -/
theorem line_search_committed_state (chemPot : ChemPotPhase) (D : VcsDefs) (s : VCS_SOLVE)
    (irxn : Nat) (dx_orig : ℚ) :
    (vcs_line_search chemPot D s irxn dx_orig).solve.m_molNumSpecies_old
        = s.m_molNumSpecies_old
      ∧ (vcs_line_search chemPot D s irxn dx_orig).solve.m_deltaMolNumSpecies
        = s.m_deltaMolNumSpecies
      ∧ (vcs_line_search chemPot D s irxn dx_orig).solve
        = { s with
            m_actCoeffSpecies_old :=
              (deltaG_Recalc_Rxn chemPot s D.VCS_STATECALC_OLD irxn s.m_molNumSpecies_old
                s.m_actCoeffSpecies_old s.m_feSpecies_old).2.1
            m_feSpecies_old :=
              (deltaG_Recalc_Rxn chemPot s D.VCS_STATECALC_OLD irxn s.m_molNumSpecies_old
                s.m_actCoeffSpecies_old s.m_feSpecies_old).2.2
            m_molNumSpecies_new :=
              (vcs_line_search chemPot D s irxn dx_orig).solve.m_molNumSpecies_new
            m_actCoeffSpecies_new :=
              (vcs_line_search chemPot D s irxn dx_orig).solve.m_actCoeffSpecies_new
            m_feSpecies_new :=
              (vcs_line_search chemPot D s irxn dx_orig).solve.m_feSpecies_new } := by
  have h := vcs_line_search_frame chemPot D s irxn dx_orig
  refine ⟨?_, ?_, ?_⟩
  · have h' := congrArg VCS_SOLVE.m_molNumSpecies_old h
    exact h'
  · have h' := congrArg VCS_SOLVE.m_deltaMolNumSpecies h
    exact h'
  · exact h

/-! ## The reactor factory and the Troe falloff parameters -/

/-- C31, the code for every assignment of distinct type constants: the names "Reservoir"
and "Reactor" give objects of the classes so named, but "ConstPressureReactor" gives a
`FlowReactor` and "FlowReactor" a `ConstPressureReactor`, because `_types` and `_itypes`
list the last two in opposite orders; `newReactor(int)` with the constant of the named
class gives the named class. -/
theorem newReactor_swaps_flow_and_constPressure (T : ReactorTypes) :
    ReactorFactory.newReactor T "Reservoir" = .ok .Reservoir
      ∧ ReactorFactory.newReactor T "Reactor" = .ok .Reactor
      ∧ ReactorFactory.newReactor T "ConstPressureReactor" = .ok .FlowReactor
      ∧ ReactorFactory.newReactor T "FlowReactor" = .ok .ConstPressureReactor
      ∧ ReactorFactory.newReactorInt T T.ConstPressureReactorType = .ok .ConstPressureReactor
      ∧ ReactorFactory.newReactorInt T T.FlowReactorType = .ok .FlowReactor
      ∧ ReactorFactory.newReactor T "ConstPressureReactor"
        ≠ ReactorFactory.newReactorInt T T.ConstPressureReactorType := by
  have hnd := T.types_nodup
  simp only [List.nodup_cons, List.mem_cons, List.mem_singleton, List.not_mem_nil,
    not_or, or_false, List.nodup_nil, and_true, not_false_eq_true] at hnd
  obtain ⟨⟨h01, h02, h03⟩, ⟨h12, h13⟩, h23⟩ := hnd
  have e1 : ReactorFactory.newReactor T "Reservoir" = .ok .Reservoir := by
    simp [ReactorFactory.newReactor, ReactorFactory.newReactorInt, forLoop, ntypes, _types,
      _itypes]
  have e2 : ReactorFactory.newReactor T "Reactor" = .ok .Reactor := by
    simp [ReactorFactory.newReactor, ReactorFactory.newReactorInt, forLoop, ntypes, _types,
      _itypes, Ne.symm h01]
  have e3 : ReactorFactory.newReactor T "ConstPressureReactor" = .ok .FlowReactor := by
    simp [ReactorFactory.newReactor, ReactorFactory.newReactorInt, forLoop, ntypes, _types,
      _itypes, Ne.symm h02, Ne.symm h12]
  have e4 : ReactorFactory.newReactor T "FlowReactor" = .ok .ConstPressureReactor := by
    simp [ReactorFactory.newReactor, ReactorFactory.newReactorInt, forLoop, ntypes, _types,
      _itypes, Ne.symm h03, Ne.symm h13, Ne.symm h23]
  have e5 : ReactorFactory.newReactorInt T T.ConstPressureReactorType
      = .ok .ConstPressureReactor := by
    simp [ReactorFactory.newReactorInt, Ne.symm h03, Ne.symm h13, Ne.symm h23]
  have e6 : ReactorFactory.newReactorInt T T.FlowReactorType = .ok .FlowReactor := by
    simp [ReactorFactory.newReactorInt, Ne.symm h02, Ne.symm h12]
  refine ⟨e1, e2, e3, e4, e5, e6, ?_⟩
  rw [e3, e5]
  intro h
  cases h

/-- C32, the code: `Troe4::init` throws exactly when `T3 < 0` or `T1 < 0` or `T2 < 0`; a
coefficient `T2 = 0`, which the class comment excludes ("T_2 is required to be greater
than zero"), is accepted and stored. At the failing input `c = (1/2, 100, 200, 0)` it
returns with `m_a = 1/2`, `m_rt3 = 1/100`, `m_rt1 = 1/200` and `m_t2 = 0`. -/
theorem troe4_accepts_zero_T2 :
    (∀ c : Nat → ℚ, (∃ e, Troe4.init c = .error e) ↔ (c 1 < 0 ∨ c 2 < 0 ∨ c 3 < 0))
      ∧ Troe4.init (fun i => if i = 0 then 1 / 2 else if i = 1 then 100
            else if i = 2 then 200 else 0)
          = .ok ⟨1 / 2, 1 / 100, 1 / 200, 0⟩ := by
  constructor
  · intro c
    unfold Troe4.init
    by_cases h1 : c 1 < 0
    · have h1' : c 1 ≤ 0 := le_of_lt h1
      have h1'' : c 1 ≠ 0 := ne_of_lt h1
      simp [h1, h1', h1'']
    · by_cases h2 : c 2 < 0
      · have h2' : c 2 ≤ 0 := le_of_lt h2
        have h2'' : c 2 ≠ 0 := ne_of_lt h2
        by_cases h10 : c 1 = 0
        · simp [h10, h2, h2', h2'']
        · have h1p : ¬ c 1 ≤ 0 := fun h => h1 (lt_of_le_of_ne h h10)
          simp [h1, h1p, h2, h2', h2'']
      · by_cases h3 : c 3 < 0
        · by_cases h10 : c 1 = 0
          · by_cases h20 : c 2 = 0
            · simp [h10, h20, h3]
            · have h2p : ¬ c 2 ≤ 0 := fun h => h2 (lt_of_le_of_ne h h20)
              simp [h10, h2p, h3]
          · have h1p : ¬ c 1 ≤ 0 := fun h => h1 (lt_of_le_of_ne h h10)
            by_cases h20 : c 2 = 0
            · simp [h1p, h20, h3]
            · have h2p : ¬ c 2 ≤ 0 := fun h => h2 (lt_of_le_of_ne h h20)
              simp [h1p, h2p, h3]
        · by_cases h10 : c 1 = 0
          · by_cases h20 : c 2 = 0
            · simp [h10, h20, h3]
            · have h2p : ¬ c 2 ≤ 0 := fun h => h2 (lt_of_le_of_ne h h20)
              simp [h10, h2p, h2, h3]
          · have h1p : ¬ c 1 ≤ 0 := fun h => h1 (lt_of_le_of_ne h h10)
            by_cases h20 : c 2 = 0
            · simp [h1p, h1, h20, h3]
            · have h2p : ¬ c 2 ≤ 0 := fun h => h2 (lt_of_le_of_ne h h20)
              simp [h1p, h2p, h1, h2, h3]
  · norm_num [Troe4.init]

/-! ## Further claims on `vcs_RxnStepSizes` -/

/-- C39: for a reaction whose species has status `VCS_SPECIES_ZEROEDPHASE`, the loop body
of `vcs_RxnStepSizes` sets `m_deltaMolNumSpecies[kspec] = 0`, whatever `ΔG` is, and changes
nothing else: no mole number, and neither of the locals `soldel` and `k`. -/
theorem zeroed_phase_gets_no_step (D : VcsDefs) (s : VCS_SOLVE) (irxn : Nat) (soldel : Int)
    (k : Nat)
    (hst : s.m_speciesStatus (s.m_indexRxnToSpecies irxn) = D.VCS_SPECIES_ZEROEDPHASE) :
    rxnStep D irxn s soldel k
      = .next { s with
          m_deltaMolNumSpecies := Function.update s.m_deltaMolNumSpecies
            (s.m_indexRxnToSpecies irxn) 0 } soldel k := by
  unfold rxnStep
  simp only [hst, if_true]

/-- Witness of C39 on `zeroedPhaseSolve`: `ΔG = -1 < -1e-4`, the stale step 7 of species 1
is replaced by 0 and the mole numbers stay as they were. -/
theorem zeroed_phase_gets_no_step_witness :
    zeroedPhaseSolve.m_deltaGRxn_new 0 < -1.0e-4
      ∧ zeroedPhaseSolve.m_deltaMolNumSpecies 1 = 7
      ∧ rxnStep sampleDefs 0 zeroedPhaseSolve 0 0
        = .next { zeroedPhaseSolve with
            m_deltaMolNumSpecies := Function.update zeroedPhaseSolve.m_deltaMolNumSpecies
              (zeroedPhaseSolve.m_indexRxnToSpecies 0) 0 } 0 0 :=
  ⟨by norm_num [zeroedPhaseSolve, birthSolve], rfl,
    zeroed_phase_gets_no_step sampleDefs zeroedPhaseSolve 0 0 0 rfl⟩

/-- C36: in the Newton branch, with nonnegative mole numbers, the loop body either exits
(only with the activity-coefficient Jacobian in use and an ideal diagonal `≤ 0`) or stores
a step that is the Newton step `-ΔG / s'` times a factor in `[0, 1]`, where `s'` is the
diagonal after the activity-coefficient adjustment: the step is not longer than the Newton
step, does not point against it, and satisfies `step * ΔG ≤ 0` when `s' > 0`. -/
theorem damping_never_reverses_or_enlarges (D : VcsDefs) (s : VCS_SOLVE) (irxn : Nat)
    (soldel : Int) (k : Nat) (hb : takesNewtonBranch D s irxn) (hn : NonnegMoles s) :
    (rxnStep D irxn s soldel k = .exit ∧ s.m_useActCoeffJac = true
        ∧ hessianDiagIdeal s irxn (s.m_indexRxnToSpecies irxn) ≤ 0)
      ∨ ∃ sdiag1 step c,
        (if s.m_useActCoeffJac then
            vcs_Hessian_diag_adj s irxn (hessianDiagIdeal s irxn (s.m_indexRxnToSpecies irxn))
          else .ok (hessianDiagIdeal s irxn (s.m_indexRxnToSpecies irxn))) = .ok sdiag1
        ∧ rxnStep D irxn s soldel k
          = .next { s with
              m_deltaMolNumSpecies := Function.update s.m_deltaMolNumSpecies
                (s.m_indexRxnToSpecies irxn) step } soldel k
        ∧ 0 ≤ c ∧ c ≤ 1 ∧ step = c * (-s.m_deltaGRxn_new irxn / sdiag1)
        ∧ |step| ≤ |s.m_deltaGRxn_new irxn / sdiag1|
        ∧ 0 ≤ step * (-s.m_deltaGRxn_new irxn / sdiag1)
        ∧ (0 < sdiag1 → step * s.m_deltaGRxn_new irxn ≤ 0) := by
  rw [rxnStep_newton D s irxn soldel k hb]
  unfold newtonStep
  generalize hessianDiagIdeal s irxn (s.m_indexRxnToSpecies irxn) = sdiag
  generalize hadj : (if s.m_useActCoeffJac then vcs_Hessian_diag_adj s irxn sdiag
    else Except.ok sdiag) = adj
  cases adj with
  | error e =>
    left
    refine ⟨rfl, ?_, ?_⟩
    · by_contra hu
      simp only [hu, Bool.false_eq_true, if_false] at hadj
      cases hadj
    · by_contra hd
      have hu : s.m_useActCoeffJac = true := by
        by_contra hu
        simp only [hu, Bool.false_eq_true, if_false] at hadj
        cases hadj
      simp only [hu, if_true] at hadj
      unfold vcs_Hessian_diag_adj at hadj
      simp only [hd, if_false] at hadj
      split_ifs at hadj
  | ok sdiag1 =>
    right
    obtain ⟨-, c, hc0, hc1, hc⟩ := dampStep_feasible s irxn (s.m_indexRxnToSpecies irxn)
      (-s.m_deltaGRxn_new irxn / sdiag1) hn
    refine ⟨sdiag1, dampStep s irxn (s.m_indexRxnToSpecies irxn)
      (-s.m_deltaGRxn_new irxn / sdiag1), c, rfl, rfl, hc0, hc1, hc, ?_, ?_, ?_⟩
    · rw [hc, abs_mul, abs_of_nonneg hc0, neg_div, abs_neg]
      calc c * |s.m_deltaGRxn_new irxn / sdiag1|
          ≤ 1 * |s.m_deltaGRxn_new irxn / sdiag1| :=
            mul_le_mul_of_nonneg_right hc1 (abs_nonneg _)
        _ = |s.m_deltaGRxn_new irxn / sdiag1| := one_mul _
    · rw [hc, mul_assoc]
      exact mul_nonneg hc0 (mul_self_nonneg _)
    · intro hpos
      rw [hc]
      have h1 : c * (-s.m_deltaGRxn_new irxn / sdiag1) * s.m_deltaGRxn_new irxn
          = -(c * (s.m_deltaGRxn_new irxn * s.m_deltaGRxn_new irxn / sdiag1)) := by
        ring
      rw [h1]
      have h2 : 0 ≤ s.m_deltaGRxn_new irxn * s.m_deltaGRxn_new irxn / sdiag1 :=
        div_nonneg (mul_self_nonneg _) (le_of_lt hpos)
      linarith [mul_nonneg hc0 h2]

/-- Witness of C36 on `newtonSolve` (no activity-coefficient Jacobian, `s = 3/2`,
`ΔG = -6`): the loop body does not exit, and the step it stores is the Newton step 4 times
a factor in `[0, 1]`. -/
theorem damping_never_reverses_or_enlarges_witness :
    ∃ sdiag1 step c,
      (if newtonSolve.m_useActCoeffJac then
          vcs_Hessian_diag_adj newtonSolve 0
            (hessianDiagIdeal newtonSolve 0 (newtonSolve.m_indexRxnToSpecies 0))
        else .ok (hessianDiagIdeal newtonSolve 0 (newtonSolve.m_indexRxnToSpecies 0)))
        = .ok sdiag1
      ∧ rxnStep sampleDefs 0 newtonSolve 0 0
        = .next { newtonSolve with
            m_deltaMolNumSpecies := Function.update newtonSolve.m_deltaMolNumSpecies
              (newtonSolve.m_indexRxnToSpecies 0) step } 0 0
      ∧ 0 ≤ c ∧ c ≤ 1 ∧ step = c * (-newtonSolve.m_deltaGRxn_new 0 / sdiag1)
      ∧ |step| ≤ |newtonSolve.m_deltaGRxn_new 0 / sdiag1|
      ∧ 0 ≤ step * (-newtonSolve.m_deltaGRxn_new 0 / sdiag1)
      ∧ (0 < sdiag1 → step * newtonSolve.m_deltaGRxn_new 0 ≤ 0) := by
  rcases damping_never_reverses_or_enlarges sampleDefs newtonSolve 0 0 0 newtonSolve_branch
    newtonSolve_nonneg with ⟨-, hu, -⟩ | h
  · cases hu
  · exact h

/-- The phase-birth branch writes `m_deltaMolNumSpecies` only. -/
theorem birthStep_only_step (D : VcsDefs) (s : VCS_SOLVE) (irxn kspec : Nat) :
    ∃ dn, birthStep D s irxn kspec = { s with m_deltaMolNumSpecies := dn } := by
  unfold birthStep
  simp only []
  split_ifs <;> exact ⟨_, rfl⟩

/-- The four ways the loop body of `vcs_RxnStepSizes` can end: it falls through with
`soldel` as it was and only `m_deltaMolNumSpecies` written; it falls through with
`soldel = 1` (a species was zeroed); it returns 2; or it exits. -/
theorem rxnStep_outcomes (D : VcsDefs) (irxn : Nat) (s : VCS_SOLVE) (soldel : Int) (k : Nat) :
    (∃ dn k1, rxnStep D irxn s soldel k
        = .next { s with m_deltaMolNumSpecies := dn } soldel k1)
      ∨ (∃ s1 k1, rxnStep D irxn s soldel k = .next s1 1 k1)
      ∨ (∃ s1, rxnStep D irxn s soldel k = .ret s1 2)
      ∨ rxnStep D irxn s soldel k = .exit := by
  have hsame : ∀ k1, ∃ dn k2, RxnOutcome.next s soldel k1
      = .next { s with m_deltaMolNumSpecies := dn } soldel k2 :=
    fun k1 => ⟨s.m_deltaMolNumSpecies, k1, rfl⟩
  unfold rxnStep
  simp only []
  split_ifs
  · exact Or.inl ⟨_, _, rfl⟩
  · obtain ⟨dn, h⟩ := birthStep_only_step D s irxn (s.m_indexRxnToSpecies irxn)
    rw [h]
    exact Or.inl ⟨_, _, rfl⟩
  · exact Or.inl (hsame k)
  · exact Or.inl (hsame k)
  · rcases newtonStep_cases s irxn (s.m_indexRxnToSpecies irxn)
      (hessianDiagIdeal s irxn (s.m_indexRxnToSpecies irxn)) soldel k with ⟨h, -, -⟩ | ⟨d, h⟩
    · exact Or.inr (Or.inr (Or.inr h))
    · rw [h]
      exact Or.inl ⟨_, _, rfl⟩
  · unfold deletionStep
    simp only []
    split_ifs
    · exact Or.inr (Or.inr (Or.inr rfl))
    · exact Or.inr (Or.inl ⟨_, _, rfl⟩)
    · exact Or.inr (Or.inr (Or.inl ⟨_, rfl⟩))
    · exact Or.inl (hsame _)
  · exact Or.inl (hsame k)

/-- A run of the reaction loop that ends with the code 0 was entered with `soldel = 0` and
wrote `m_deltaMolNumSpecies` only. -/
theorem rxnLoop_code_zero (D : VcsDefs) (n : Nat) :
    ∀ (irxn : Nat) (s : VCS_SOLVE) (soldel : Int) (k : Nat) (s' : VCS_SOLVE),
      rxnLoop D n irxn s soldel k = .ok (0, s') →
      soldel = 0 ∧ ∃ dn, s' = { s with m_deltaMolNumSpecies := dn } := by
  induction n with
  | zero =>
    intro irxn s soldel k s' h
    unfold rxnLoop at h
    cases h
    exact ⟨rfl, s.m_deltaMolNumSpecies, rfl⟩
  | succ n ih =>
    intro irxn s soldel k s' h
    unfold rxnLoop at h
    rcases rxnStep_outcomes D irxn s soldel k with ⟨dn, k1, e⟩ | ⟨s1, k1, e⟩ | ⟨s1, e⟩ | e
    · rw [e] at h
      obtain ⟨h0, dn', hs'⟩ := ih _ _ _ _ _ h
      exact ⟨h0, dn', hs'⟩
    · rw [e] at h
      obtain ⟨h0, -⟩ := ih _ _ _ _ _ h
      exact absurd h0 (by decide)
    · rw [e] at h
      simp only [Except.ok.injEq, Prod.mk.injEq] at h
      exact absurd h.1 (by decide)
    · rw [e] at h
      cases h

/-- C37: if `vcs_RxnStepSizes` returns 0, then `m_molNumSpecies_old`, `m_tPhaseMoles_old`
and `m_speciesStatus` are what they were before the call; the members after the call
differ from those before it at most in `m_deltaMolNumSpecies` and in the
activity-coefficient Jacobian `m_dLnActCoeffdMolNum`. -/
theorem normal_return_leaves_composition (D : VcsDefs) (s s' : VCS_SOLVE)
    (h : vcs_RxnStepSizes D s = .ok (0, s')) :
    s'.m_molNumSpecies_old = s.m_molNumSpecies_old
      ∧ s'.m_tPhaseMoles_old = s.m_tPhaseMoles_old
      ∧ s'.m_speciesStatus = s.m_speciesStatus
      ∧ s' = { s with
          m_deltaMolNumSpecies := s'.m_deltaMolNumSpecies
          m_dLnActCoeffdMolNum := s'.m_dLnActCoeffdMolNum } := by
  unfold vcs_RxnStepSizes at h
  simp only [] at h
  have key : ∃ J dn, s' = { s with m_deltaMolNumSpecies := dn, m_dLnActCoeffdMolNum := J } := by
    by_cases hu : s.m_useActCoeffJac = true
    · rw [if_pos hu] at h
      obtain ⟨J, hJ⟩ := vcs_CalcLnActCoeffJac_frame s s.m_molNumSpecies_old
      rw [hJ] at h
      obtain ⟨-, dn, hs'⟩ := rxnLoop_code_zero D _ _ _ _ _ _ h
      exact ⟨J, dn, hs'⟩
    · rw [if_neg hu] at h
      obtain ⟨-, dn, hs'⟩ := rxnLoop_code_zero D _ _ _ _ _ _ h
      exact ⟨s.m_dLnActCoeffdMolNum, dn, hs'⟩
  obtain ⟨J, dn, hs'⟩ := key
  subst hs'
  exact ⟨rfl, rfl, rfl, rfl⟩

/-- The run of `vcs_RxnStepSizes` on `newtonSolve`: one Newton step, damped from 4 to 1 by
component 0, and the code 0. -/
theorem newtonSolve_run :
    vcs_RxnStepSizes sampleDefs newtonSolve
      = .ok (0, { newtonSolve with
          m_deltaMolNumSpecies := Function.update newtonSolve.m_deltaMolNumSpecies 1 1 }) := by
  have h0 : vcs_RxnStepSizes sampleDefs newtonSolve
      = rxnLoop sampleDefs 1 0 newtonSolve 0 0 := rfl
  have hd : hessianDiagIdeal newtonSolve 0 1 = 3 / 2 := by
    norm_num [hessianDiagIdeal, forLoop, newtonSolve, emptySolve, emptyPhase]
  have hdamp : dampStep newtonSolve 0 1 (- newtonSolve.m_deltaGRxn_new 0 / (3 / 2)) = 1 := by
    norm_num [dampStep, forLoop, newtonSolve, emptySolve]
  have h1 : rxnStep sampleDefs 0 newtonSolve 0 0
      = .next { newtonSolve with
          m_deltaMolNumSpecies := Function.update newtonSolve.m_deltaMolNumSpecies 1 1 }
        0 0 := by
    rw [rxnStep_newton sampleDefs newtonSolve 0 0 0 newtonSolve_branch]
    have hk : newtonSolve.m_indexRxnToSpecies 0 = 1 := rfl
    have hu : newtonSolve.m_useActCoeffJac = false := rfl
    rw [hk, hd]
    unfold newtonStep
    simp only [hu, Bool.false_eq_true, if_false, hdamp]
  rw [h0]
  unfold rxnLoop
  rw [h1]
  rfl

/-- Witness of C37 on `newtonSolve`: the routine returns 0 after writing the step 1 for
species 1, and the mole numbers, phase totals and statuses are those of `newtonSolve`. -/
theorem normal_return_leaves_composition_witness :
    ∃ s', vcs_RxnStepSizes sampleDefs newtonSolve = .ok (0, s')
      ∧ s'.m_deltaMolNumSpecies 1 = 1
      ∧ newtonSolve.m_deltaMolNumSpecies 1 = 0
      ∧ s'.m_molNumSpecies_old = newtonSolve.m_molNumSpecies_old
      ∧ s'.m_tPhaseMoles_old = newtonSolve.m_tPhaseMoles_old
      ∧ s'.m_speciesStatus = newtonSolve.m_speciesStatus := by
  obtain ⟨a, b, c, -⟩ := normal_return_leaves_composition sampleDefs newtonSolve _
    newtonSolve_run
  exact ⟨_, newtonSolve_run, by simp [Function.update], rfl, a, b, c⟩

/-! ## Repeated redimensionalisation -/

/-- Routine `vcs_redim_TP` leaves the mole scale, the units format, the unknown types and
the number of species as they are. -/
theorem vcs_redim_TP_keeps_scale (D : VcsDefs) (s s' : VCS_SOLVE)
    (hok : vcs_redim_TP D s = .ok s') :
    s'.m_totalMoleScale = s.m_totalMoleScale
      ∧ s'.m_VCS_UnitsFormat = s.m_VCS_UnitsFormat
      ∧ s'.m_speciesUnknownType = s.m_speciesUnknownType
      ∧ s'.m_numSpeciesTot = s.m_numSpeciesTot := by
  unfold vcs_redim_TP at hok
  by_cases hdim : s.m_unitsState = D.VCS_DIMENSIONAL_G
  · simp only [hdim, ne_eq, not_true_eq_false, if_false] at hok
    by_cases h1 : s.m_totalMoleScale = 1
    · simp only [h1, not_true_eq_false, if_false] at hok
      cases hok
      exact ⟨rfl, rfl, rfl, rfl⟩
    · by_cases h2 : s.m_VCS_UnitsFormat = D.VCS_UNITS_MKS
      · simp only [vcs_tmoles_snd, h1, h2, not_false_eq_true, if_true, scaleMoles_eq,
          Except.ok.injEq] at hok
        subst hok
        refine ⟨?_, ?_, ?_, ?_⟩ <;> first | rfl | exact h1.symm | exact h2.symm
      · simp only [h1, h2, not_false_eq_true, if_true, if_false, Except.ok.injEq] at hok
        subst hok
        exact ⟨rfl, rfl, rfl, rfl⟩
  · cases hm : vcs_nondimMult_TP D s.m_VCS_UnitsFormat s.m_temperature with
    | error e =>
      simp only [hdim, ne_eq, not_false_eq_true, if_true, hm] at hok
      cases hok
    | ok rt =>
      simp only [hdim, ne_eq, not_false_eq_true, if_true, hm, scaleFreeEnergies_eq] at hok
      by_cases h1 : s.m_totalMoleScale = 1
      · simp only [h1, not_true_eq_false, if_false, Except.ok.injEq] at hok
        subst hok
        refine ⟨?_, ?_, ?_, ?_⟩ <;> first | rfl | exact h1.symm
      · by_cases h2 : s.m_VCS_UnitsFormat = D.VCS_UNITS_MKS
        · simp only [vcs_tmoles_snd, h1, h2, not_false_eq_true, if_true, scaleMoles_eq,
            Except.ok.injEq] at hok
          subst hok
          refine ⟨?_, ?_, ?_, ?_⟩ <;> first | rfl | exact h1.symm | exact h2.symm
        · simp only [h1, h2, not_false_eq_true, if_true, if_false, Except.ok.injEq] at hok
          subst hok
          exact ⟨rfl, rfl, rfl, rfl⟩

/-- C34, the code at a failing input: `largeSolve` (MKS, 5e4 kmol in all, species 0 a
mole-number unknown with 49997 kmol) is nondimensionalised (mole scale 5) and
redimensionalised, which gives a dimensional state `s2` with the 49997 kmol back and the
mole scale still 5. A second `vcs_redim_TP` leaves the free energies of `s2` alone but
multiplies the mole numbers by 5 once more: species 0 then holds 249985 kmol. -/
theorem second_redim_rescales_moles :
    ∃ s1 s2 s3, vcs_nondim_TP sampleDefs largeSolve = .ok s1
      ∧ vcs_redim_TP sampleDefs s1 = .ok s2
      ∧ s2.m_unitsState = sampleDefs.VCS_DIMENSIONAL_G
      ∧ s2.m_totalMoleScale = 5
      ∧ s2.m_molNumSpecies_old 0 = 49997
      ∧ vcs_redim_TP sampleDefs s2 = .ok s3
      ∧ s3.m_SSfeSpecies = s2.m_SSfeSpecies
      ∧ s3.m_molNumSpecies_old 0 = 249985
      ∧ s3.m_molNumSpecies_old ≠ s2.m_molNumSpecies_old := by
  obtain ⟨rt, hrt, -⟩ := vcs_nondimMult_TP_ok sampleDefs largeSolve.m_VCS_UnitsFormat
    largeSolve.m_temperature recognisedUnits_largeSolve
  obtain ⟨s1, h1, p1⟩ := vcs_nondim_TP_post sampleDefs largeSolve rt rfl
    recognisedUnits_largeSolve hrt (by rw [tmole_orig_largeSolve]; norm_num)
    (by rw [tmole_orig_largeSolve]; norm_num)
  have hscale : moleScaleOf (tmole_orig sampleDefs largeSolve) = 5 := by
    rw [tmole_orig_largeSolve]
    norm_num [moleScaleOf]
  have hs1scale : s1.m_totalMoleScale = 5 := by rw [p1.totalMoleScale, hscale]
  have hs1fmt : s1.m_VCS_UnitsFormat = sampleDefs.VCS_UNITS_MKS := by
    rw [p1.unitsFormat]; rfl
  have hs1n : s1.m_molNumSpecies_old 0 = 49997 * (1 / 5) := by
    rw [p1.molNumSpecies_old, hscale]
    norm_num [mapBelow, largeSolve, smallSolve, emptySolve, sampleDefs]
  have hnd : s1.m_unitsState ≠ sampleDefs.VCS_DIMENSIONAL_G := by
    rw [p1.unitsState]; decide
  have hrt1 : vcs_nondimMult_TP sampleDefs s1.m_VCS_UnitsFormat s1.m_temperature = .ok rt := by
    rw [p1.unitsFormat, p1.temperature]; exact hrt
  obtain ⟨s2, h2, p2⟩ := vcs_redim_TP_post sampleDefs s1 rt hnd hrt1
  obtain ⟨f1, f2, f3, f4⟩ := vcs_redim_TP_keeps_scale sampleDefs s1 s2 h2
  have hs2scale : s2.m_totalMoleScale = 5 := by rw [f1, hs1scale]
  have hs2fmt : s2.m_VCS_UnitsFormat = sampleDefs.VCS_UNITS_MKS := by rw [f2, hs1fmt]
  have htype0 : s1.m_speciesUnknownType 0
      ≠ sampleDefs.VCS_SPECIES_TYPE_INTERFACIALVOLTAGE := by
    rw [p1.speciesUnknownType]
    norm_num [largeSolve, smallSolve, sampleDefs]
  have hnum : s1.m_numSpeciesTot = 2 := by rw [p1.numSpeciesTot]; rfl
  have hs2n : s2.m_molNumSpecies_old 0 = 49997 := by
    rw [p2.molNumSpecies_old]
    have hc : s1.m_totalMoleScale ≠ 1 ∧ s1.m_VCS_UnitsFormat = sampleDefs.VCS_UNITS_MKS :=
      ⟨by rw [hs1scale]; norm_num, hs1fmt⟩
    rw [if_pos hc, mapBelow_of_lt _ _ _ 0 (by rw [hnum]; norm_num)]
    simp only [htype0, ne_eq, not_false_eq_true, if_true]
    rw [hs1n, hs1scale]
    norm_num
  obtain ⟨s3, h3, p3⟩ := vcs_redim_TP_dim sampleDefs s2 p2.unitsState
  have hs3n : s3.m_molNumSpecies_old 0 = 249985 := by
    rw [p3.molNumSpecies_old]
    have hc : s2.m_totalMoleScale ≠ 1 ∧ s2.m_VCS_UnitsFormat = sampleDefs.VCS_UNITS_MKS :=
      ⟨by rw [hs2scale]; norm_num, hs2fmt⟩
    rw [if_pos hc, mapBelow_of_lt _ _ _ 0 (by rw [f4, hnum]; norm_num)]
    rw [f3]
    simp only [htype0, ne_eq, not_false_eq_true, if_true]
    rw [hs2n, hs2scale]
    norm_num
  refine ⟨s1, s2, s3, h1, h2, p2.unitsState, hs2scale, hs2n, h3, ?_, hs3n, ?_⟩
  · rw [p3.SSfeSpecies]
    funext i
    simp [mapBelow]
  · intro h
    have := congrFun h 0
    rw [hs3n, hs2n] at this
    norm_num at this

/-! ## The activity-coefficient term as a quadratic form -/

/-- A loop that adds `f i` in the rounds where the guard holds. -/
theorem forLoop_if_add (n : Nat) (p : Nat → Prop) [DecidablePred p] (f : Nat → ℚ) (a : ℚ) :
    forLoop n (fun i acc => if p i then acc + f i else acc) a
      = a + ∑ i ∈ Finset.range n, (if p i then f i else 0) := by
  rw [← forLoop_sum]
  congr 1
  funext i acc
  split_ifs
  · rfl
  · rw [add_zero]

/-- The loops of `vcs_Hessian_actCoeff_diag` as sums. -/
theorem vcs_Hessian_actCoeff_diag_eq_sum (s : VCS_SOLVE) (irxn : Nat) :
    vcs_Hessian_actCoeff_diag s irxn
      = s.m_dLnActCoeffdMolNum (s.m_indexRxnToSpecies irxn) (s.m_indexRxnToSpecies irxn)
        + ∑ l ∈ Finset.range s.m_numComponents,
            (if s.m_SSPhase l = 0 then
              (∑ k ∈ Finset.range s.m_numComponents,
                (if s.m_phaseID k = s.m_phaseID l then
                  s.m_stoichCoeffRxnMatrix irxn k * s.m_stoichCoeffRxnMatrix irxn l
                    * s.m_dLnActCoeffdMolNum k l
                else 0))
              + (if s.m_phaseID (s.m_indexRxnToSpecies irxn) = s.m_phaseID l then
                  s.m_stoichCoeffRxnMatrix irxn l
                    * (s.m_dLnActCoeffdMolNum (s.m_indexRxnToSpecies irxn) l
                      + s.m_dLnActCoeffdMolNum l (s.m_indexRxnToSpecies irxn))
                else 0)
            else 0) := by
  unfold vcs_Hessian_actCoeff_diag
  simp only []
  rw [← forLoop_if_add]
  congr 1
  funext l acc
  by_cases hl : s.m_SSPhase l = 0
  · rw [if_pos hl, if_pos hl, forLoop_if_add]
    split_ifs
    · ring
    · ring
  · rw [if_neg hl, if_neg hl]

/-- A sum over the species `0 .. N-1` of a function that vanishes off the species `k` of
the reaction and the components `0 .. M-1`, for `M ≤ k < N`. -/
theorem sum_reaction_support (M N k : Nat) (hM : M ≤ k) (hk : k < N) (f : Nat → ℚ)
    (h0 : ∀ i, i ≠ k → ¬ i < M → f i = 0) :
    ∑ i ∈ Finset.range N, f i = f k + ∑ i ∈ Finset.range M, f i := by
  have hnot : k ∉ Finset.range M := by
    rw [Finset.mem_range]
    omega
  rw [← Finset.sum_insert hnot]
  symm
  apply Finset.sum_subset
  · intro i hi
    rw [Finset.mem_insert, Finset.mem_range] at hi
    rw [Finset.mem_range]
    omega
  · intro i _ hi
    rw [Finset.mem_insert, Finset.mem_range, not_or] at hi
    exact h0 i hi.1 hi.2

/-- C38: if the Jacobian `J = m_dLnActCoeffdMolNum` vanishes on every pair of species that
are in different phases or of which one is in a single-species phase, and the species of
reaction `irxn` is a noncomponent below `m_numSpeciesTot`, then
`vcs_Hessian_actCoeff_diag(irxn)` is the quadratic form `v^T J v` of the reaction vector
`v`, and it keeps its value when `J` is replaced by its transpose. -/
theorem actCoeff_diag_is_quadratic_form (s : VCS_SOLVE) (irxn : Nat)
    (hJ : ∀ a b, (s.m_phaseID a ≠ s.m_phaseID b ∨ s.m_SSPhase a ≠ 0 ∨ s.m_SSPhase b ≠ 0) →
      s.m_dLnActCoeffdMolNum a b = 0)
    (hM : s.m_numComponents ≤ s.m_indexRxnToSpecies irxn)
    (hN : s.m_indexRxnToSpecies irxn < s.m_numSpeciesTot) :
    vcs_Hessian_actCoeff_diag s irxn
        = quadraticForm s.m_numSpeciesTot (reactionVector s irxn) s.m_dLnActCoeffdMolNum
      ∧ vcs_Hessian_actCoeff_diag
          { s with m_dLnActCoeffdMolNum := fun a b => s.m_dLnActCoeffdMolNum b a } irxn
        = vcs_Hessian_actCoeff_diag s irxn := by
  -- the value for any Jacobian with the block structure
  have key : ∀ J : Nat → Nat → ℚ,
      (∀ a b, (s.m_phaseID a ≠ s.m_phaseID b ∨ s.m_SSPhase a ≠ 0 ∨ s.m_SSPhase b ≠ 0) →
        J a b = 0) →
      vcs_Hessian_actCoeff_diag { s with m_dLnActCoeffdMolNum := J } irxn
          = J (s.m_indexRxnToSpecies irxn) (s.m_indexRxnToSpecies irxn)
            + ∑ l ∈ Finset.range s.m_numComponents,
              ((∑ k ∈ Finset.range s.m_numComponents,
                  s.m_stoichCoeffRxnMatrix irxn k * s.m_stoichCoeffRxnMatrix irxn l * J k l)
                + s.m_stoichCoeffRxnMatrix irxn l
                  * (J (s.m_indexRxnToSpecies irxn) l + J l (s.m_indexRxnToSpecies irxn)))
        ∧ quadraticForm s.m_numSpeciesTot (reactionVector s irxn) J
          = J (s.m_indexRxnToSpecies irxn) (s.m_indexRxnToSpecies irxn)
            + ∑ l ∈ Finset.range s.m_numComponents,
              ((∑ k ∈ Finset.range s.m_numComponents,
                  s.m_stoichCoeffRxnMatrix irxn k * s.m_stoichCoeffRxnMatrix irxn l * J k l)
                + s.m_stoichCoeffRxnMatrix irxn l
                  * (J (s.m_indexRxnToSpecies irxn) l
                    + J l (s.m_indexRxnToSpecies irxn))) := by
    intro J hJ'
    constructor
    · rw [vcs_Hessian_actCoeff_diag_eq_sum]
      simp only []
      congr 1
      apply Finset.sum_congr rfl
      intro l _
      by_cases hl : s.m_SSPhase l = 0
      · rw [if_pos hl]
        congr 1
        · apply Finset.sum_congr rfl
          intro k _
          by_cases hp : s.m_phaseID k = s.m_phaseID l
          · rw [if_pos hp]
          · rw [if_neg hp, hJ' k l (Or.inl hp), mul_zero]
        · by_cases hp : s.m_phaseID (s.m_indexRxnToSpecies irxn) = s.m_phaseID l
          · rw [if_pos hp]
          · rw [if_neg hp, hJ' _ l (Or.inl hp), hJ' l _ (Or.inl (Ne.symm hp)), add_zero,
              mul_zero]
      · rw [if_neg hl, hJ' _ l (Or.inr (Or.inr hl)), hJ' l _ (Or.inr (Or.inl hl)), add_zero,
          mul_zero, add_zero]
        symm
        apply Finset.sum_eq_zero
        intro k _
        rw [hJ' k l (Or.inr (Or.inr hl)), mul_zero]
    · have hvk : reactionVector s irxn (s.m_indexRxnToSpecies irxn) = 1 := by
        simp [reactionVector]
      have hvc : ∀ j, j < s.m_numComponents →
          reactionVector s irxn j = s.m_stoichCoeffRxnMatrix irxn j := by
        intro j hj
        have hne : j ≠ s.m_indexRxnToSpecies irxn := by omega
        simp [reactionVector, hne, hj]
      have hv0 : ∀ i, i ≠ s.m_indexRxnToSpecies irxn → ¬ i < s.m_numComponents →
          reactionVector s irxn i = 0 := by
        intro i h1 h2
        simp [reactionVector, h1, h2]
      have hinner : ∀ a, ∑ b ∈ Finset.range s.m_numSpeciesTot,
            reactionVector s irxn a * reactionVector s irxn b * J a b
          = reactionVector s irxn a * J a (s.m_indexRxnToSpecies irxn)
            + ∑ b ∈ Finset.range s.m_numComponents,
              reactionVector s irxn a * s.m_stoichCoeffRxnMatrix irxn b * J a b := by
        intro a
        rw [sum_reaction_support _ _ _ hM hN _
          (fun i h1 h2 => by rw [hv0 i h1 h2, mul_zero, zero_mul]), hvk, mul_one]
        congr 1
        apply Finset.sum_congr rfl
        intro b hb
        rw [hvc b (Finset.mem_range.mp hb)]
      unfold quadraticForm
      simp only [hinner]
      rw [sum_reaction_support _ _ _ hM hN _
        (fun i h1 h2 => by
          rw [hv0 i h1 h2, zero_mul, zero_add]
          apply Finset.sum_eq_zero
          intro b _
          rw [zero_mul, zero_mul]), hvk]
      have hcomp : ∀ a ∈ Finset.range s.m_numComponents,
          reactionVector s irxn a * J a (s.m_indexRxnToSpecies irxn)
            + ∑ b ∈ Finset.range s.m_numComponents,
              reactionVector s irxn a * s.m_stoichCoeffRxnMatrix irxn b * J a b
          = s.m_stoichCoeffRxnMatrix irxn a * J a (s.m_indexRxnToSpecies irxn)
            + ∑ b ∈ Finset.range s.m_numComponents,
              s.m_stoichCoeffRxnMatrix irxn a * s.m_stoichCoeffRxnMatrix irxn b * J a b := by
        intro a ha
        rw [hvc a (Finset.mem_range.mp ha)]
      rw [Finset.sum_congr rfl hcomp]
      simp only [Finset.sum_add_distrib, mul_add, one_mul]
      rw [Finset.sum_comm]
      ring
  have hJt : ∀ a b,
      (s.m_phaseID a ≠ s.m_phaseID b ∨ s.m_SSPhase a ≠ 0 ∨ s.m_SSPhase b ≠ 0) →
      (fun a b => s.m_dLnActCoeffdMolNum b a) a b = 0 := by
    intro a b h
    apply hJ b a
    rcases h with h | h | h
    · exact Or.inl (Ne.symm h)
    · exact Or.inr (Or.inr h)
    · exact Or.inr (Or.inl h)
  obtain ⟨k1, k2⟩ := key s.m_dLnActCoeffdMolNum hJ
  obtain ⟨t1, -⟩ := key (fun a b => s.m_dLnActCoeffdMolNum b a) hJt
  have hs : ({ s with m_dLnActCoeffdMolNum := s.m_dLnActCoeffdMolNum } : VCS_SOLVE) = s := rfl
  rw [hs] at k1
  constructor
  · rw [k1, k2]
  · rw [t1, k1]
    congr 1
    simp only [Finset.sum_add_distrib]
    congr 1
    · rw [Finset.sum_comm]
      apply Finset.sum_congr rfl
      intro a _
      apply Finset.sum_congr rfl
      intro b _
      ring
    · apply Finset.sum_congr rfl
      intro l _
      ring

/-- Witness of C38 on `jacSolve` (both species in the multispecies phase 0, `J` equal to
-2 on the diagonal and 0 elsewhere, `v = (-1, 1)`): the term is the quadratic form, -4. -/
theorem actCoeff_diag_is_quadratic_form_witness :
    vcs_Hessian_actCoeff_diag jacSolve 0
        = quadraticForm jacSolve.m_numSpeciesTot (reactionVector jacSolve 0)
          jacSolve.m_dLnActCoeffdMolNum
      ∧ quadraticForm jacSolve.m_numSpeciesTot (reactionVector jacSolve 0)
          jacSolve.m_dLnActCoeffdMolNum = -4 := by
  refine ⟨(actCoeff_diag_is_quadratic_form jacSolve 0 ?_ (by decide) (by decide)).1, ?_⟩
  · intro a b h
    have h1 : ∀ i, jacSolve.m_phaseID i = 0 := fun _ => rfl
    have h2 : ∀ i, jacSolve.m_SSPhase i = 0 := fun _ => rfl
    rw [h1 a, h1 b, h2 a, h2 b] at h
    simp at h
  · norm_num [quadraticForm, reactionVector, jacSolve, newtonSolve, emptySolve,
      Finset.sum_range_succ]

/-! ## The trial compositions of the line search -/

/-- The trial composition of `setTrialMoles` at a noncomponent species `kspec`: the species
is moved by `dx`, every component `j` by `sc_irxn[j] * dx`. -/
theorem setTrialMoles_moles (s : VCS_SOLVE) (irxn kspec : Nat) (dx : ℚ)
    (hk : s.m_numComponents ≤ kspec) :
    (setTrialMoles s irxn kspec dx).m_molNumSpecies_new kspec
        = s.m_molNumSpecies_old kspec + dx
      ∧ ∀ j, j < s.m_numComponents →
        (setTrialMoles s irxn kspec dx).m_molNumSpecies_new j
          = s.m_molNumSpecies_old j + s.m_stoichCoeffRxnMatrix irxn j * dx := by
  have hclosed : (setTrialMoles s irxn kspec dx).m_molNumSpecies_new
      = mapBelow s.m_numComponents
          (fun j _ => s.m_molNumSpecies_old j + s.m_stoichCoeffRxnMatrix irxn j * dx)
          (Function.update s.m_molNumSpecies_new kspec (s.m_molNumSpecies_old kspec + dx)) := by
    unfold setTrialMoles
    simp only []
    refine forLoop_closed _ _ (fun n => mapBelow n
      (fun j _ => s.m_molNumSpecies_old j + s.m_stoichCoeffRxnMatrix irxn j * dx)
      (Function.update s.m_molNumSpecies_new kspec (s.m_molNumSpecies_old kspec + dx)))
      (mapBelow_zero _ _) ?_ _
    intro n
    funext i
    by_cases hi : i = n
    · subst hi
      simp [mapBelow, Function.update]
    · by_cases hlt : i < n
      · have : i < n + 1 := by omega
        simp [mapBelow, Function.update, hi, hlt, this]
      · have : ¬ i < n + 1 := by omega
        simp [mapBelow, Function.update, hi, hlt, this]
  rw [hclosed]
  constructor
  · unfold mapBelow
    rw [if_neg (not_lt.mpr hk), Function.update_same]
  · intro j hj
    unfold mapBelow
    rw [if_pos hj]

/-- A trial of the line search returns the ΔG formed from the chemical potentials it has
just written to `m_feSpecies_new`, with the potential at index `irxn + m_numComponents` as
that of the product, and leaves the trial composition in `m_molNumSpecies_new`. -/
theorem recalcNew_value (chemPot : ChemPotPhase) (D : VcsDefs) (s : VCS_SOLVE) (irxn : Nat) :
    (recalcNew chemPot D s irxn).1
        = (recalcNew chemPot D s irxn).2.m_feSpecies_new (irxn + s.m_numComponents)
          + ∑ j ∈ Finset.range s.m_numComponents,
            s.m_stoichCoeffRxnMatrix irxn j * (recalcNew chemPot D s irxn).2.m_feSpecies_new j
      ∧ (recalcNew chemPot D s irxn).2.m_molNumSpecies_new = s.m_molNumSpecies_new := by
  constructor
  · unfold recalcNew deltaG_Recalc_Rxn
    simp only []
    rw [reactionDeltaG_eq_sum]
  · rfl

/-! ## The sign of the ideal diagonal -/

/-- The Cauchy-Schwarz step for one phase: if the species with `v i ≠ 0` have positive
moles `n i` that sum to at most `T`, then `(sum v)^2 / T` is at most the sum of
`v i ^ 2 / n i` over the species with positive moles. -/
theorem sq_sum_div_total_le (S : Finset Nat) (v n : Nat → ℚ) (T : ℚ)
    (hpos : ∀ i ∈ S, v i ≠ 0 → 0 < n i)
    (hT : ∑ i ∈ S.filter (fun i => v i ≠ 0), n i ≤ T) :
    (∑ i ∈ S, v i) ^ 2 / T ≤ ∑ i ∈ S, (if 0 < n i then v i ^ 2 / n i else 0) := by
  have hterm : ∀ i ∈ S, 0 ≤ (if 0 < n i then v i ^ 2 / n i else 0) := by
    intro i _
    split_ifs with h
    · exact div_nonneg (sq_nonneg _) (le_of_lt h)
    · exact le_refl _
  have hsum : ∑ i ∈ S, v i = ∑ i ∈ S.filter (fun i => v i ≠ 0), v i :=
    (Finset.sum_filter_ne_zero S).symm
  have hpos' : ∀ i ∈ S.filter (fun i => v i ≠ 0), 0 < n i := by
    intro i hi
    rw [Finset.mem_filter] at hi
    exact hpos i hi.1 hi.2
  by_cases hne : (S.filter (fun i => v i ≠ 0)).Nonempty
  · have hN : 0 < ∑ i ∈ S.filter (fun i => v i ≠ 0), n i := Finset.sum_pos hpos' hne
    calc (∑ i ∈ S, v i) ^ 2 / T
        = (∑ i ∈ S.filter (fun i => v i ≠ 0), v i) ^ 2 / T := by rw [hsum]
      _ ≤ (∑ i ∈ S.filter (fun i => v i ≠ 0), v i) ^ 2
            / ∑ i ∈ S.filter (fun i => v i ≠ 0), n i :=
          div_le_div_of_nonneg_left (sq_nonneg _) hN hT
      _ ≤ ∑ i ∈ S.filter (fun i => v i ≠ 0), v i ^ 2 / n i :=
          Finset.sq_sum_div_le_sum_sq_div _ v hpos'
      _ = ∑ i ∈ S.filter (fun i => v i ≠ 0), (if 0 < n i then v i ^ 2 / n i else 0) := by
          apply Finset.sum_congr rfl
          intro i hi
          rw [if_pos (hpos' i hi)]
      _ ≤ ∑ i ∈ S, (if 0 < n i then v i ^ 2 / n i else 0) :=
          Finset.sum_le_sum_of_subset_of_nonneg (Finset.filter_subset _ _)
            (fun i hi _ => hterm i hi)
  · rw [Finset.not_nonempty_iff_eq_empty] at hne
    rw [hsum, hne, Finset.sum_empty]
    simp only [ne_eq, OfNat.ofNat_ne_zero, not_false_eq_true, zero_pow, zero_div]
    exact Finset.sum_nonneg hterm

/-- In exact arithmetic the ideal diagonal is nonnegative (Cauchy-Schwarz): for a reaction
whose species `k` is a noncomponent below `m_numSpeciesTot`, with
nonnegative mole numbers and the two single-species flags in agreement on the species of
the reaction; if `n_k > 0` when `k` is in a multispecies phase, every multispecies-phase
component with `nu ≠ 0` has positive moles, every phase total is at least the sum of the
moles of its species, and `m_deltaMolNumPhase[irxn][p]` is the sum of `nu` over the
components in `p` plus 1 if `k` is in `p`; then the ideal diagonal computed by
`vcs_RxnStepSizes` is nonnegative, so that, when it is not 0, `vcs_Hessian_diag_adj` returns
a value and the loop body in the Newton branch does not exit. -/
theorem ideal_diagonal_nonneg (D : VcsDefs) (s : VCS_SOLVE) (irxn : Nat)
    (hM : s.m_numComponents ≤ s.m_indexRxnToSpecies irxn)
    (hN : s.m_indexRxnToSpecies irxn < s.m_numSpeciesTot)
    (hnn : NonnegMoles s)
    (hflag : ∀ i, (i = s.m_indexRxnToSpecies irxn ∨ i < s.m_numComponents) →
      (s.m_VolPhaseList (s.m_phaseID i)).m_singleSpecies = false → s.m_SSPhase i = 0)
    (hk : s.m_SSPhase (s.m_indexRxnToSpecies irxn) = 0 →
      0 < s.m_molNumSpecies_old (s.m_indexRxnToSpecies irxn))
    (hcomp : ∀ j, j < s.m_numComponents → s.m_SSPhase j = 0 →
      s.m_stoichCoeffRxnMatrix irxn j ≠ 0 → 0 < s.m_molNumSpecies_old j)
    (hT : ∀ p, p < s.m_numPhases →
      ∑ i ∈ (Finset.range s.m_numSpeciesTot).filter (fun i => s.m_phaseID i = p),
        s.m_molNumSpecies_old i ≤ s.m_tPhaseMoles_old p)
    (hDN : ∀ p, p < s.m_numPhases →
      s.m_deltaMolNumPhase irxn p
        = ∑ j ∈ (Finset.range s.m_numComponents).filter (fun j => s.m_phaseID j = p),
            s.m_stoichCoeffRxnMatrix irxn j
          + (if s.m_phaseID (s.m_indexRxnToSpecies irxn) = p then 1 else 0)) :
    0 ≤ hessianDiagIdeal s irxn (s.m_indexRxnToSpecies irxn)
      ∧ (hessianDiagIdeal s irxn (s.m_indexRxnToSpecies irxn) ≠ 0 →
        (∃ v, vcs_Hessian_diag_adj s irxn
            (hessianDiagIdeal s irxn (s.m_indexRxnToSpecies irxn)) = .ok v)
          ∧ ∀ soldel k0, takesNewtonBranch D s irxn → rxnStep D irxn s soldel k0 ≠ .exit) := by
  -- the reaction vector and the per-species terms
  have hvk : reactionVector s irxn (s.m_indexRxnToSpecies irxn) = 1 := by
    simp [reactionVector]
  have hvc : ∀ j, j < s.m_numComponents →
      reactionVector s irxn j = s.m_stoichCoeffRxnMatrix irxn j := by
    intro j hj
    have hne : j ≠ s.m_indexRxnToSpecies irxn := by omega
    simp [reactionVector, hne, hj]
  have hv0 : ∀ i, i ≠ s.m_indexRxnToSpecies irxn → ¬ i < s.m_numComponents →
      reactionVector s irxn i = 0 := by
    intro i h1 h2
    simp [reactionVector, h1, h2]
  have hpart : ∀ i, reactionVector s irxn i ≠ 0 →
      i = s.m_indexRxnToSpecies irxn ∨ i < s.m_numComponents := by
    intro i hi
    by_contra hc
    rw [not_or] at hc
    exact hi (hv0 i hc.1 hc.2)
  have hmoles : ∀ i, reactionVector s irxn i ≠ 0 → s.m_SSPhase i = 0 →
      0 < s.m_molNumSpecies_old i := by
    intro i hi hss
    rcases hpart i hi with h | h
    · rw [h]
      rw [h] at hss
      exact hk hss
    · rw [hvc i h] at hi
      exact hcomp i h hss hi
  have hnonneg : 0 ≤ hessianDiagIdeal s irxn (s.m_indexRxnToSpecies irxn) := by
    rw [hessianDiagIdeal_eq_sum]
    unfold hessianDiagSpec
    -- the positive part as one sum over all species
    have hA : (if s.m_SSPhase (s.m_indexRxnToSpecies irxn) ≠ 0 then (0 : ℚ)
          else 1 / s.m_molNumSpecies_old (s.m_indexRxnToSpecies irxn))
        + ∑ j ∈ (Finset.range s.m_numComponents).filter
            (fun j => s.m_SSPhase j = 0 ∧ s.m_molNumSpecies_old j > 0),
            s.m_stoichCoeffRxnMatrix irxn j ^ 2 / s.m_molNumSpecies_old j
        = ∑ i ∈ Finset.range s.m_numSpeciesTot,
            (if s.m_SSPhase i = 0 ∧ s.m_molNumSpecies_old i > 0 then
              reactionVector s irxn i ^ 2 / s.m_molNumSpecies_old i else 0) := by
      rw [sum_reaction_support _ _ _ hM hN _
        (fun i h1 h2 => by rw [hv0 i h1 h2]; simp), hvk, Finset.sum_filter]
      congr 1
      · by_cases hss : s.m_SSPhase (s.m_indexRxnToSpecies irxn) = 0
        · simp [hss, hk hss]
        · simp [hss]
      · apply Finset.sum_congr rfl
        intro j hj
        rw [hvc j (Finset.mem_range.mp hj)]
    rw [hA]
    -- each multispecies phase with moles is bounded by the terms of its species
    have hphase : ∀ p ∈ (Finset.range s.m_numPhases).filter
          (fun p => (s.m_VolPhaseList p).m_singleSpecies = false ∧ s.m_tPhaseMoles_old p > 0),
        s.m_deltaMolNumPhase irxn p ^ 2 / s.m_tPhaseMoles_old p
          ≤ ∑ i ∈ Finset.range s.m_numSpeciesTot,
              (if s.m_phaseID i = p then
                (if s.m_SSPhase i = 0 ∧ s.m_molNumSpecies_old i > 0 then
                  reactionVector s irxn i ^ 2 / s.m_molNumSpecies_old i else 0)
              else 0) := by
      intro p hp
      rw [Finset.mem_filter, Finset.mem_range] at hp
      obtain ⟨hpP, hmulti, -⟩ := hp
      have hDNp : s.m_deltaMolNumPhase irxn p
          = ∑ i ∈ (Finset.range s.m_numSpeciesTot).filter (fun i => s.m_phaseID i = p),
              reactionVector s irxn i := by
        rw [hDN p hpP, Finset.sum_filter, Finset.sum_filter,
          sum_reaction_support _ _ _ hM hN
            (fun i => if s.m_phaseID i = p then reactionVector s irxn i else 0)
            (fun i h1 h2 => by simp [hv0 i h1 h2]), hvk, add_comm]
        congr 1
        apply Finset.sum_congr rfl
        intro j hj
        rw [hvc j (Finset.mem_range.mp hj)]
      have hss : ∀ i ∈ (Finset.range s.m_numSpeciesTot).filter (fun i => s.m_phaseID i = p),
          reactionVector s irxn i ≠ 0 → s.m_SSPhase i = 0 := by
        intro i hi hv
        rw [Finset.mem_filter] at hi
        apply hflag i (hpart i hv)
        rw [hi.2]
        exact hmulti
      rw [hDNp, ← Finset.sum_filter]
      refine le_trans (sq_sum_div_total_le _ (reactionVector s irxn) s.m_molNumSpecies_old _
        (fun i hi hv => hmoles i hv (hss i hi hv)) ?_) ?_
      · exact le_trans
          (Finset.sum_le_sum_of_subset_of_nonneg (Finset.filter_subset _ _)
            (fun i _ _ => hnn i)) (hT p hpP)
      · apply le_of_eq
        apply Finset.sum_congr rfl
        intro i hi
        by_cases hv : reactionVector s irxn i = 0
        · simp [hv]
        · have h0 := hss i hi hv
          have hp' := hmoles i hv h0
          simp [h0, hp']
    have hterm : ∀ i, 0 ≤ (if s.m_SSPhase i = 0 ∧ s.m_molNumSpecies_old i > 0 then
        reactionVector s irxn i ^ 2 / s.m_molNumSpecies_old i else 0) := by
      intro i
      split_ifs with h
      · exact div_nonneg (sq_nonneg _) (le_of_lt h.2)
      · exact le_refl _
    have hall : ∑ p ∈ (Finset.range s.m_numPhases).filter
          (fun p => (s.m_VolPhaseList p).m_singleSpecies = false ∧ s.m_tPhaseMoles_old p > 0),
          s.m_deltaMolNumPhase irxn p ^ 2 / s.m_tPhaseMoles_old p
        ≤ ∑ i ∈ Finset.range s.m_numSpeciesTot,
            (if s.m_SSPhase i = 0 ∧ s.m_molNumSpecies_old i > 0 then
              reactionVector s irxn i ^ 2 / s.m_molNumSpecies_old i else 0) := by
      refine le_trans (Finset.sum_le_sum hphase) ?_
      rw [Finset.sum_comm]
      apply Finset.sum_le_sum
      intro i _
      rw [Finset.sum_ite_eq]
      by_cases hm : s.m_phaseID i ∈ (Finset.range s.m_numPhases).filter
          (fun p => (s.m_VolPhaseList p).m_singleSpecies = false ∧ s.m_tPhaseMoles_old p > 0)
      · rw [if_pos hm]
      · rw [if_neg hm]
        exact hterm i
    linarith
  refine ⟨hnonneg, fun hne => ?_⟩
  have hpos : 0 < hessianDiagIdeal s irxn (s.m_indexRxnToSpecies irxn) :=
    lt_of_le_of_ne hnonneg (Ne.symm hne)
  constructor
  · unfold vcs_Hessian_diag_adj
    simp only [not_le.mpr hpos, if_false]
    split_ifs <;> exact ⟨_, rfl⟩
  · intro soldel k0 hb hexit
    rw [rxnStep_newton D s irxn soldel k0 hb] at hexit
    rcases newtonStep_cases s irxn (s.m_indexRxnToSpecies irxn)
      (hessianDiagIdeal s irxn (s.m_indexRxnToSpecies irxn)) soldel k0 with ⟨-, -, hle⟩ | ⟨d, hd⟩
    · exact absurd hpos (not_lt.mpr hle)
    · rw [hd] at hexit
      cases hexit

/-- The sign of the ideal diagonal on `newtonSolve`, in exact arithmetic: species 0 (1 kmol, `nu = -1`) and 1 (2 kmol) share the
multispecies phase 0 with total 3 and `ΔN = -1 + 1 = 0`; the ideal diagonal, `3/2`, is
nonnegative and the loop body does not exit. -/
theorem ideal_diagonal_nonneg_witness :
    0 ≤ hessianDiagIdeal newtonSolve 0 (newtonSolve.m_indexRxnToSpecies 0)
      ∧ rxnStep sampleDefs 0 newtonSolve 0 0 ≠ .exit := by
  have hk : newtonSolve.m_indexRxnToSpecies 0 = 1 := rfl
  have hM : newtonSolve.m_numComponents = 1 := rfl
  have hP : newtonSolve.m_numPhases = 1 := rfl
  have h := ideal_diagonal_nonneg sampleDefs newtonSolve 0 (by decide) (by decide)
    newtonSolve_nonneg (fun _ _ _ => rfl)
    (fun _ => by rw [hk]; norm_num [newtonSolve, emptySolve])
    (fun j hj _ _ => by
      rw [hM] at hj
      have hj0 : j = 0 := by omega
      rw [hj0]
      norm_num [newtonSolve, emptySolve])
    (fun p hp => by
      rw [hP] at hp
      have hp0 : p = 0 := by omega
      rw [hp0]
      norm_num [newtonSolve, emptySolve, Finset.sum_filter, Finset.sum_range_succ])
    (fun p hp => by
      rw [hP] at hp
      have hp0 : p = 0 := by omega
      rw [hp0]
      norm_num [newtonSolve, emptySolve, Finset.sum_filter, Finset.sum_range_succ])
  refine ⟨h.1, (h.2 ?_).2 0 0 newtonSolve_branch⟩
  have hd : hessianDiagIdeal newtonSolve 0 1 = 3 / 2 := by
    norm_num [hessianDiagIdeal, forLoop, newtonSolve, emptySolve, emptyPhase]
  rw [hk, hd]
  norm_num

/-! ## Rounded arithmetic -/

/-- Values of `roundDouble`: 1 is a double; `0.1` and `1/3` round to 53 bits; rounding is
odd; `2^53 + 1` and `2^53 + 3` are ties and go to the even neighbour; `2^-1074` is the
smallest subnormal, half of it a tie that goes to 0 and three halves of it a tie that goes
to `2^-1073`. -/
theorem roundDouble_samples :
    roundDouble 1 = 1 ∧ roundDouble 0.1 = 3602879701896397 / 2 ^ 55
      ∧ roundDouble (1 / 3) = 6004799503160661 / 2 ^ 54
      ∧ roundDouble (-(1 / 3)) = -(6004799503160661 / 2 ^ 54)
      ∧ roundDouble (2 ^ 53 + 1) = 2 ^ 53
      ∧ roundDouble (2 ^ 53 + 3) = 2 ^ 53 + 4
      ∧ roundDouble (1 / 2 ^ 1074) = 1 / 2 ^ 1074
      ∧ roundDouble (1 / 2 ^ 1075) = 0
      ∧ roundDouble (3 / 2 ^ 1075) = 1 / 2 ^ 1073 := by
  decide!

/-- With the identity as rounding, the ideal diagonal in rounded arithmetic is the
exact-arithmetic `hessianDiagIdeal`. -/
theorem hessianDiagIdeal_fl_id : hessianDiagIdeal_fl id = hessianDiagIdeal := rfl

/-- With the identity as rounding, the damping in rounded arithmetic is the
exact-arithmetic `dampStep`. -/
theorem dampStep_fl_id : dampStep_fl id = dampStep := rfl

/-- With the identity as rounding, `vcs_Hessian_diag_adj_fl` is the exact-arithmetic
`vcs_Hessian_diag_adj`. -/
theorem vcs_Hessian_diag_adj_fl_id : vcs_Hessian_diag_adj_fl id = vcs_Hessian_diag_adj := rfl

/-- With the identity as rounding, the deletion target and the deletion step in rounded
arithmetic are the exact-arithmetic ones. -/
theorem applyDeletion_fl_id :
    deletionTarget_fl id = deletionTarget ∧ applyDeletion_fl id = applyDeletion :=
  ⟨rfl, rfl⟩

/-- With the identity as rounding, the loop body in rounded arithmetic is the
exact-arithmetic `rxnStep`. -/
theorem rxnStep_fl_id : rxnStep_fl id = rxnStep := rfl

/-- With the identity as rounding, the reaction loop in rounded arithmetic is the
exact-arithmetic `rxnLoop`. -/
theorem rxnLoop_fl_id : rxnLoop_fl id = rxnLoop := by
  funext D n
  induction n with
  | zero => rfl
  | succ n ih =>
    funext irxn s soldel k
    show (match rxnStep_fl id D irxn s soldel k with
      | .next s1 soldel1 k1 => rxnLoop_fl id D n (irxn + 1) s1 soldel1 k1
      | .ret s1 soldel1 => .ok (soldel1, s1)
      | .exit => .error .exitFailure) = _
    rw [ih, rxnStep_fl_id]
    rfl

/-- With the identity as rounding, `vcs_RxnStepSizes_fl` is the exact-arithmetic
`vcs_RxnStepSizes`. -/
theorem vcs_RxnStepSizes_fl_id : vcs_RxnStepSizes_fl id = vcs_RxnStepSizes := by
  funext D s
  unfold vcs_RxnStepSizes_fl vcs_RxnStepSizes
  rw [rxnLoop_fl_id]

/-- With the identity as rounding, the halving loop in rounded arithmetic is the
exact-arithmetic `halvingLoop`. -/
theorem halvingLoop_fl_id : halvingLoop_fl id = halvingLoop := by
  funext chemPot D irxn kspec dx_orig deltaGOrig forig left
  induction left with
  | zero => rfl
  | succ left ih =>
    funext dx s n
    unfold halvingLoop_fl halvingLoop
    rw [ih]
    rfl

/-- With the identity as rounding, the trials in rounded arithmetic are the
exact-arithmetic `lineSearchTrials`. -/
theorem lineSearchTrials_fl_id : lineSearchTrials_fl id = lineSearchTrials := by
  funext chemPot D s irxn kspec dx_orig deltaGOrig
  unfold lineSearchTrials_fl lineSearchTrials
  rw [halvingLoop_fl_id]
  rfl

/-- With the identity as rounding, `vcs_line_search_fl` is the exact-arithmetic
`vcs_line_search`. -/
theorem vcs_line_search_fl_id : vcs_line_search_fl id = vcs_line_search := by
  funext chemPot D s irxn dx_orig
  unfold vcs_line_search_fl vcs_line_search
  rw [lineSearchTrials_fl_id]
  rfl

/-! ## Runs in double arithmetic -/

/-- A run whose observation is `some (code, n, dn)` returned `code` with members that hold
the mole numbers `n` and the steps `dn` in their first three entries. -/
theorem observeMoles_some (r : Except VcsFailure (Int × VCS_SOLVE)) (code : Int)
    (n dn : List ℚ) (h : observeMoles r = some (code, n, dn)) :
    ∃ s', r = .ok (code, s')
      ∧ [s'.m_molNumSpecies_old 0, s'.m_molNumSpecies_old 1, s'.m_molNumSpecies_old 2] = n
      ∧ [s'.m_deltaMolNumSpecies 0, s'.m_deltaMolNumSpecies 1, s'.m_deltaMolNumSpecies 2]
        = dn := by
  cases r with
  | error e => simp [observeMoles] at h
  | ok v =>
    obtain ⟨c, s⟩ := v
    simp only [observeMoles, Option.some.injEq, Prod.mk.injEq] at h
    obtain ⟨h1, h2, h3⟩ := h
    subst h1
    exact ⟨s, rfl, h2, h3⟩

/-- A run that ends in `exit(EXIT_FAILURE)` is the value `.error .exitFailure`. -/
theorem endsInExit_eq {α : Type} (r : Except VcsFailure α) (h : endsInExit r = true) :
    r = .error .exitFailure := by
  cases r with
  | error e => cases e <;> simp_all [endsInExit]
  | ok v => simp [endsInExit] at h

/-- C35, the code at the failing input `thirdsSolve`, which satisfies every hypothesis of
the claim (regular processing, positive moles, `T_0` the sum of the moles of the phase,
`ΔN_0 = nu + 1`). In exact arithmetic the ideal diagonal is `1/3 + 16/12 - 25/15 = 0`. In
double arithmetic lines 188-206 give `s = -2^-52`: the quotients `1.0/3` and `16/12` round
down, their sum rounds down to `7505999378950826 * 2^-52`, and `25/15` rounds up to
`7505999378950827 * 2^-52`. So `s != 0.0` holds and the reaction goes through the Newton
branch, `vcs_Hessian_diag_adj` is called with a negative argument and reaches its `exit`,
and `vcs_RxnStepSizes` exits. With the Jacobian switched off the same `s` gives the step
`-3` for `ΔG = -1`, an uphill step. -/
theorem ideal_diagonal_negative_in_double :
    regularProcessing sampleDefs thirdsSolve 0
      ∧ thirdsSolve.m_indexRxnToSpecies 0 = 1
      ∧ 0 < thirdsSolve.m_molNumSpecies_old 0 ∧ 0 < thirdsSolve.m_molNumSpecies_old 1
      ∧ thirdsSolve.m_tPhaseMoles_old 0
        = thirdsSolve.m_molNumSpecies_old 0 + thirdsSolve.m_molNumSpecies_old 1
      ∧ thirdsSolve.m_deltaMolNumPhase 0 0 = thirdsSolve.m_stoichCoeffRxnMatrix 0 0 + 1
      ∧ hessianDiagIdeal thirdsSolve 0 1 = 0
      ∧ roundDouble (1 / 3) = 6004799503160661 / 2 ^ 54
      ∧ roundDouble (roundDouble (4 * 4) / 12) = 6004799503160661 / 2 ^ 52
      ∧ roundDouble (6004799503160661 / 2 ^ 54 + 6004799503160661 / 2 ^ 52)
        = 7505999378950826 / 2 ^ 52
      ∧ roundDouble (roundDouble (5 * 5) / 15) = 7505999378950827 / 2 ^ 52
      ∧ hessianDiagIdeal_fl roundDouble thirdsSolve 0 1 = -(1 / 2 ^ 52)
      ∧ takesNewtonBranch_fl roundDouble sampleDefs thirdsSolve 0
      ∧ vcs_Hessian_diag_adj_fl roundDouble thirdsSolve 0
          (hessianDiagIdeal_fl roundDouble thirdsSolve 0 1) = .error .exitFailure
      ∧ vcs_RxnStepSizes_fl roundDouble sampleDefs thirdsSolve = .error .exitFailure
      ∧ ∃ s', vcs_RxnStepSizes_fl roundDouble sampleDefs
            { thirdsSolve with m_useActCoeffJac := false } = .ok (0, s')
          ∧ s'.m_deltaMolNumSpecies 1 = -3
          ∧ 0 < s'.m_deltaMolNumSpecies 1 * thirdsSolve.m_deltaGRxn_new 0 := by
  have hreg : regularProcessing sampleDefs thirdsSolve 0 := by
    refine ⟨?_, ?_, ?_⟩ <;> decide!
  have hbfl : takesNewtonBranch_fl roundDouble sampleDefs thirdsSolve 0 := by
    refine ⟨?_, ?_, ?_, ?_, ?_, ?_⟩ <;> decide!
  have hadj : endsInExit (vcs_Hessian_diag_adj_fl roundDouble thirdsSolve 0
      (hessianDiagIdeal_fl roundDouble thirdsSolve 0 1)) = true := by decide!
  have hrun : endsInExit (vcs_RxnStepSizes_fl roundDouble sampleDefs thirdsSolve) = true := by
    decide!
  have hoff : observeMoles (vcs_RxnStepSizes_fl roundDouble sampleDefs
      { thirdsSolve with m_useActCoeffJac := false }) = some (0, [12, 3, 0], [0, -3, 0]) := by
    decide!
  obtain ⟨s', hs', -, hdn⟩ := observeMoles_some _ _ _ _ hoff
  have hdn1 : s'.m_deltaMolNumSpecies 1 = -3 := by
    have := congrArg (fun l : List ℚ => l.getD 1 0) hdn
    simpa using this
  refine ⟨hreg, rfl, by decide!, by decide!, by decide!, by decide!, by decide!, by decide!,
    by decide!, by decide!, by decide!, by decide!, hbfl, endsInExit_eq _ hadj,
    endsInExit_eq _ hrun, s', hs', hdn1, ?_⟩
  rw [hdn1]
  decide!

/-- C3 fails in double arithmetic, at `nearTieSolve`: all mole numbers are nonnegative and
the species of the reaction is a noncomponent; `ΔG > 0` and `s = 0`, so the deletion step
runs with `xx = 0.9/7` for both components, `k = 0` and `dss = -xx`. The product `dss * 7`
rounds to `-0.9000000000000001`, so both components land on `-2^-53`; line 315 resets
component 0, and component 1 keeps `-2^-53 < 0`. The routine returns 2. In exact arithmetic
the same run leaves component 1 at 0. -/
theorem tied_component_left_negative :
    (∀ i, 0 ≤ nearTieSolve.m_molNumSpecies_old i)
      ∧ (∀ r, r < nearTieSolve.m_numRxnRdc →
          nearTieSolve.m_numComponents ≤ nearTieSolve.m_indexRxnToSpecies r)
      ∧ deletionTarget_fl roundDouble nearTieSolve 0 2 0
          = (-(4632273902438225 / 2 ^ 55), 0)
      ∧ roundDouble (-(4632273902438225 / 2 ^ 55) * 7) = -(4053239664633447 / 2 ^ 52)
      ∧ (∃ s', vcs_RxnStepSizes_fl roundDouble sampleDefs nearTieSolve = .ok (2, s')
          ∧ s'.m_molNumSpecies_old 0 = 0
          ∧ s'.m_molNumSpecies_old 1 = -(1 / 2 ^ 53)
          ∧ s'.m_molNumSpecies_old 1 < 0)
      ∧ ∃ s', vcs_RxnStepSizes sampleDefs nearTieSolve = .ok (2, s')
          ∧ s'.m_molNumSpecies_old 1 = 0 := by
  have hn : ∀ i, 0 ≤ nearTieSolve.m_molNumSpecies_old i := by
    intro i
    show (0 : ℚ) ≤ if i = 0 then roundDouble 0.9
      else if i = 1 then roundDouble 0.9 else if i = 2 then 10 else 0
    have h9 : (0 : ℚ) ≤ roundDouble 0.9 := by decide!
    split_ifs <;> first | exact h9 | norm_num
  have hwf : ∀ r, r < nearTieSolve.m_numRxnRdc →
      nearTieSolve.m_numComponents ≤ nearTieSolve.m_indexRxnToSpecies r := by
    intro r _
    show 2 ≤ r + 2
    omega
  have hrun : observeMoles (vcs_RxnStepSizes_fl roundDouble sampleDefs nearTieSolve)
      = some (2, [0, -(1 / 2 ^ 53), 5557120254487523 / 2 ^ 49], [0, 0, 0]) := by decide!
  have hexact : observeMoles (vcs_RxnStepSizes sampleDefs nearTieSolve)
      = some (2, [0, 0, 10 - roundDouble 0.9 / 7], [0, 0, 0]) := by decide!
  obtain ⟨s', hs', hmol, -⟩ := observeMoles_some _ _ _ _ hrun
  obtain ⟨t', ht', hmolt, -⟩ := observeMoles_some _ _ _ _ hexact
  have h0 : s'.m_molNumSpecies_old 0 = 0 := by
    have := congrArg (fun l : List ℚ => l.getD 0 7) hmol
    simpa using this
  have h1 : s'.m_molNumSpecies_old 1 = -(1 / 2 ^ 53) := by
    have := congrArg (fun l : List ℚ => l.getD 1 7) hmol
    simpa using this
  have ht1 : t'.m_molNumSpecies_old 1 = 0 := by
    have := congrArg (fun l : List ℚ => l.getD 1 7) hmolt
    simpa using this
  refine ⟨hn, hwf, by decide!, by decide!, ⟨s', hs', h0, h1, ?_⟩, t', ht', ht1⟩
  rw [h1]
  norm_num

/-- C29 fails in double arithmetic, at `searchSolve` with the callback
`tableChemPot faintTable` and the proposed step 49: `ΔG` is -1 at the current composition
and the double `1e-30` at the full step, so the interpolation of lines 837-838 runs. The
difference `1e-30 - (-1)` rounds to 1, `slope` is the double `1/49`, and the returned
`-deltaGOrig / slope` is the double `49.00000000000001`, longer than the proposed step. In
exact arithmetic the same call returns `49 / (1 + 1e-30) < 49`. -/
theorem interpolate_exceeds_proposed_step :
    (recalcOld_fl roundDouble (tableChemPot faintTable) sampleDefs searchSolve 0).1 = -1
      ∧ roundDouble (roundDouble 1.0e-30 - -1) = 1
      ∧ roundDouble (1 / 49) = 5882252574524729 / 2 ^ 58
      ∧ (vcs_line_search_fl roundDouble (tableChemPot faintTable) sampleDefs searchSolve 0 49).dx
        = 6896136929411073 / 2 ^ 47
      ∧ |(49 : ℚ)| < |(vcs_line_search_fl roundDouble (tableChemPot faintTable) sampleDefs
          searchSolve 0 49).dx|
      ∧ (vcs_line_search (tableChemPot faintTable) sampleDefs searchSolve 0 49).dx
        = 49 / (1 + roundDouble 1.0e-30)
      ∧ (vcs_line_search (tableChemPot faintTable) sampleDefs searchSolve 0 49).dx < 49 := by
  refine ⟨by decide!, by decide!, by decide!, by decide!, by decide!, by decide!, by decide!⟩

/-! ## What survives the rounding -/

/-- Rounding to the nearest integer keeps a nonnegative value nonnegative. -/
theorem roundHalfEven_nonneg (x : ℚ) (h : 0 ≤ x) : 0 ≤ roundHalfEven x := by
  have hf : 0 ≤ ⌊x⌋ := Int.floor_nonneg.mpr h
  unfold roundHalfEven
  simp only []
  split_ifs <;> omega

/-- Rounding to the nearest integer keeps a nonpositive value nonpositive. -/
theorem roundHalfEven_nonpos (x : ℚ) (h : x ≤ 0) : roundHalfEven x ≤ 0 := by
  have hf : ⌊x⌋ ≤ 0 := by
    have := Int.floor_le x
    have h1 : ((⌊x⌋ : ℤ) : ℚ) ≤ 0 := le_trans this h
    exact_mod_cast h1
  unfold roundHalfEven
  simp only []
  by_cases h0 : ⌊x⌋ = 0
  · have hx : x = 0 := by
      have := Int.floor_le x
      rw [h0] at this
      exact le_antisymm h (by exact_mod_cast this)
    subst hx
    norm_num
  · have hlt : ⌊x⌋ + 1 ≤ 0 := by omega
    split_ifs <;> omega

/-- The rounding to `double` keeps the sign. -/
theorem roundDouble_signPreserving : SignPreserving roundDouble := by
  intro x
  have hpow : ∀ e : ℤ, (0 : ℚ) < 2 ^ e := fun e => zpow_pos (by norm_num) e
  constructor
  · intro h
    unfold roundDouble
    split_ifs with h0
    · exact le_refl _
    · simp only []
      refine mul_nonneg ?_ (le_of_lt (hpow _))
      exact_mod_cast roundHalfEven_nonneg _ (div_nonneg h (le_of_lt (hpow _)))
  · intro h
    unfold roundDouble
    split_ifs with h0
    · exact le_refl _
    · simp only []
      refine mul_nonpos_of_nonpos_of_nonneg ?_ (le_of_lt (hpow _))
      exact_mod_cast roundHalfEven_nonpos _ (div_nonpos_of_nonpos_of_nonneg h (le_of_lt (hpow _)))

/-- The interpolated step of lines 837-838 and 875-876 in rounded arithmetic, for a rounding
that keeps the sign: when the rounded product `g * deltaGOrig` is negative and the current
step `x` does not point uphill, the interpolated step does not point uphill either. -/
theorem interpolate_fl_sign (fl : ℚ → ℚ) (hfl : SignPreserving fl) (g deltaGOrig x : ℚ)
    (h : fl (g * deltaGOrig) < 0) (hx : Opposes deltaGOrig x) :
    Opposes deltaGOrig (fl (-deltaGOrig / fl (fl (g - deltaGOrig) / x))) := by
  have hprod : g * deltaGOrig < 0 := by
    by_contra hc
    exact absurd ((hfl _).1 (not_lt.mp hc)) (not_le.mpr h)
  rcases mul_neg_iff.mp hprod with ⟨hg, h0⟩ | ⟨hg, h0⟩
  · have hx0 : 0 ≤ x := hx.2 h0
    have h1 : 0 ≤ fl (g - deltaGOrig) := (hfl _).1 (by linarith)
    have h2 : 0 ≤ fl (fl (g - deltaGOrig) / x) := (hfl _).1 (div_nonneg h1 hx0)
    have h3 : 0 ≤ fl (-deltaGOrig / fl (fl (g - deltaGOrig) / x)) :=
      (hfl _).1 (div_nonneg (by linarith) h2)
    exact ⟨fun hpos => absurd hpos (not_lt.mpr (le_of_lt h0)), fun _ => h3⟩
  · have hx0 : x ≤ 0 := hx.1 h0
    have h1 : fl (g - deltaGOrig) ≤ 0 := (hfl _).2 (by linarith)
    have h2 : 0 ≤ fl (fl (g - deltaGOrig) / x) := (hfl _).1 (div_nonneg_of_nonpos h1 hx0)
    have h3 : fl (-deltaGOrig / fl (fl (g - deltaGOrig) / x)) ≤ 0 :=
      (hfl _).2 (div_nonpos_of_nonpos_of_nonneg (by linarith) h2)
    exact ⟨fun _ => h3, fun hneg => absurd hneg (not_lt.mpr (le_of_lt h0))⟩

/-- Halving in rounded arithmetic, for a rounding that keeps the sign, keeps a step from
pointing uphill. -/
theorem half_fl_sign (fl : ℚ → ℚ) (hfl : SignPreserving fl) (g x : ℚ) (hx : Opposes g x) :
    Opposes g (fl (x * 0.5)) := by
  constructor
  · intro hg
    exact (hfl _).2 (mul_nonpos_of_nonpos_of_nonneg (hx.1 hg) (by norm_num))
  · intro hg
    exact (hfl _).1 (mul_nonneg (hx.2 hg) (by norm_num))

/-- The halving loop in rounded arithmetic, for a rounding that keeps the sign: entered with
a step that does not point uphill, it returns such a step. -/
theorem halvingLoop_fl_sign (fl : ℚ → ℚ) (hfl : SignPreserving fl) (chemPot : ChemPotPhase)
    (D : VcsDefs) (irxn kspec : Nat) (dx_orig deltaGOrig forig : ℚ) (left : Nat) :
    ∀ (dx : ℚ) (s : VCS_SOLVE) (n : Nat), Opposes deltaGOrig dx →
      Opposes deltaGOrig
        (halvingLoop_fl fl chemPot D irxn kspec dx_orig deltaGOrig forig left dx s n).dx := by
  induction left with
  | zero =>
    intro dx s n hdx
    exact hdx
  | succ left ih =>
    intro dx s n hdx
    have hhalf := half_fl_sign fl hfl deltaGOrig dx hdx
    unfold halvingLoop_fl
    simp only []
    split_ifs with h1 h2 h3
    · exact hhalf
    · exact interpolate_fl_sign fl hfl _ deltaGOrig _ h3 hhalf
    · exact hhalf
    · exact ih _ _ _ hhalf

/-- The trials of lines 807-898 in rounded arithmetic, for a rounding that keeps the sign:
for a proposal that does not point uphill, the returned step does not point uphill. -/
theorem lineSearchTrials_fl_sign (fl : ℚ → ℚ) (hfl : SignPreserving fl) (chemPot : ChemPotPhase)
    (D : VcsDefs) (s : VCS_SOLVE) (irxn kspec : Nat) (dx_orig deltaGOrig : ℚ)
    (hdx : Opposes deltaGOrig dx_orig) :
    Opposes deltaGOrig
      (lineSearchTrials_fl fl chemPot D s irxn kspec dx_orig deltaGOrig).dx := by
  unfold lineSearchTrials_fl
  simp only []
  split_ifs with h0 h1 h2 h3
  · exact ⟨fun _ => le_refl _, fun _ => le_refl _⟩
  · exact hdx
  · exact interpolate_fl_sign fl hfl _ deltaGOrig _ h3 hdx
  · exact hdx
  · exact halvingLoop_fl_sign fl hfl chemPot D irxn kspec dx_orig deltaGOrig _ 10 _ _ _ hdx

/-- In rounded arithmetic, for a rounding that keeps the sign, the step returned by
`vcs_line_search` never has the direction opposite to the proposal. -/
theorem vcs_line_search_fl_direction (fl : ℚ → ℚ) (hfl : SignPreserving fl)
    (chemPot : ChemPotPhase) (D : VcsDefs) (s : VCS_SOLVE) (irxn : Nat) (dx_orig : ℚ) :
    (vcs_line_search_fl fl chemPot D s irxn dx_orig).dx * dx_orig ≥ 0 := by
  unfold vcs_line_search_fl
  simp only []
  by_cases hpos : (recalcOld_fl fl chemPot D s irxn).1 > 0
  · rw [if_pos hpos]
    by_cases hdx : dx_orig > 0
    · rw [if_pos hdx]
      simp
    · rw [if_neg hdx]
      have hopp : Opposes (recalcOld_fl fl chemPot D s irxn).1 dx_orig :=
        ⟨fun _ => not_lt.mp hdx, fun hneg => absurd hpos (not_lt.mpr (le_of_lt hneg))⟩
      have hres := (lineSearchTrials_fl_sign fl hfl chemPot D (recalcOld_fl fl chemPot D s irxn).2
        irxn (s.m_indexRxnToSpecies irxn) dx_orig _ hopp).1 hpos
      exact mul_nonneg_of_nonpos_of_nonpos hres (not_lt.mp hdx)
  · rw [if_neg hpos]
    by_cases hneg : (recalcOld_fl fl chemPot D s irxn).1 < 0
    · rw [if_pos hneg]
      by_cases hdx : dx_orig < 0
      · rw [if_pos hdx]
        simp
      · rw [if_neg hdx]
        have hopp : Opposes (recalcOld_fl fl chemPot D s irxn).1 dx_orig :=
          ⟨fun hp => absurd hp hpos, fun _ => not_lt.mp hdx⟩
        have hres := (lineSearchTrials_fl_sign fl hfl chemPot D
          (recalcOld_fl fl chemPot D s irxn).2 irxn (s.m_indexRxnToSpecies irxn) dx_orig _
          hopp).2 hneg
        exact mul_nonneg hres (not_lt.mp hdx)
    · rw [if_neg hneg, if_pos (le_antisymm (not_lt.mp hpos) (not_lt.mp hneg))]
      simp

/-- C29 (amended): whatever values `vcs_chemPotPhase` produces, the step returned by
`vcs_line_search` never has the direction opposite to the proposal, `dx * dx_orig ≥ 0`, in
exact and in double arithmetic, and in exact arithmetic it is no longer than the proposal,
`|dx| ≤ |dx_orig|`. (In double arithmetic the interpolated zero can be longer than the
proposal, as the run with `faintTable` shows.) -/
theorem line_search_direction_and_length (chemPot : ChemPotPhase) (D : VcsDefs)
    (s : VCS_SOLVE) (irxn : Nat) (dx_orig : ℚ) :
    (vcs_line_search chemPot D s irxn dx_orig).dx * dx_orig ≥ 0
      ∧ |(vcs_line_search chemPot D s irxn dx_orig).dx| ≤ |dx_orig|
      ∧ (vcs_line_search_fl roundDouble chemPot D s irxn dx_orig).dx * dx_orig ≥ 0 :=
  ⟨(line_search_only_reduces chemPot D s irxn dx_orig).1,
    (line_search_only_reduces chemPot D s irxn dx_orig).2,
    vcs_line_search_fl_direction roundDouble roundDouble_signPreserving chemPot D s irxn dx_orig⟩

/-- In rounded arithmetic too, the birth step writes `m_deltaMolNumSpecies` only. -/
theorem birthStep_fl_only_step (fl : ℚ → ℚ) (D : VcsDefs) (s : VCS_SOLVE) (irxn kspec : Nat) :
    ∃ dn, birthStep_fl fl D s irxn kspec = { s with m_deltaMolNumSpecies := dn } := by
  unfold birthStep_fl
  simp only []
  split_ifs <;> exact ⟨_, rfl⟩

/-- In rounded arithmetic too, the Newton branch exits or writes `m_deltaMolNumSpecies`
only. -/
theorem newtonStep_fl_cases (fl : ℚ → ℚ) (s : VCS_SOLVE) (irxn kspec : Nat) (sdiag : ℚ)
    (soldel : Int) (k : Nat) :
    newtonStep_fl fl s irxn kspec sdiag soldel k = .exit
      ∨ ∃ dn, newtonStep_fl fl s irxn kspec sdiag soldel k
        = .next { s with m_deltaMolNumSpecies := dn } soldel k := by
  unfold newtonStep_fl
  simp only []
  split
  · exact Or.inl rfl
  · exact Or.inr ⟨_, rfl⟩

/-- The four ways the loop body of `vcs_RxnStepSizes` can end, in rounded arithmetic: it
falls through with `soldel` as it was and only `m_deltaMolNumSpecies` written; it falls
through with `soldel = 1` (a species was zeroed); it returns 2; or it exits. -/
theorem rxnStep_fl_outcomes (fl : ℚ → ℚ) (D : VcsDefs) (irxn : Nat) (s : VCS_SOLVE)
    (soldel : Int) (k : Nat) :
    (∃ dn k1, rxnStep_fl fl D irxn s soldel k
        = .next { s with m_deltaMolNumSpecies := dn } soldel k1)
      ∨ (∃ s1 k1, rxnStep_fl fl D irxn s soldel k = .next s1 1 k1)
      ∨ (∃ s1, rxnStep_fl fl D irxn s soldel k = .ret s1 2)
      ∨ rxnStep_fl fl D irxn s soldel k = .exit := by
  have hsame : ∀ k1, ∃ dn k2, RxnOutcome.next s soldel k1
      = .next { s with m_deltaMolNumSpecies := dn } soldel k2 :=
    fun k1 => ⟨s.m_deltaMolNumSpecies, k1, rfl⟩
  unfold rxnStep_fl
  simp only []
  split_ifs
  · exact Or.inl ⟨_, _, rfl⟩
  · obtain ⟨dn, h⟩ := birthStep_fl_only_step fl D s irxn (s.m_indexRxnToSpecies irxn)
    rw [h]
    exact Or.inl ⟨_, _, rfl⟩
  · exact Or.inl (hsame k)
  · exact Or.inl (hsame k)
  · rcases newtonStep_fl_cases fl s irxn (s.m_indexRxnToSpecies irxn)
      (hessianDiagIdeal_fl fl s irxn (s.m_indexRxnToSpecies irxn)) soldel k with h | ⟨d, h⟩
    · exact Or.inr (Or.inr (Or.inr h))
    · rw [h]
      exact Or.inl ⟨_, _, rfl⟩
  · unfold deletionStep_fl
    simp only []
    split_ifs
    · exact Or.inr (Or.inr (Or.inr rfl))
    · exact Or.inr (Or.inl ⟨_, _, rfl⟩)
    · exact Or.inr (Or.inr (Or.inl ⟨_, rfl⟩))
    · exact Or.inl (hsame _)
  · exact Or.inl (hsame k)

/-- In rounded arithmetic too, a run of the reaction loop that ends with the code 0 was
entered with `soldel = 0` and wrote `m_deltaMolNumSpecies` only. -/
theorem rxnLoop_fl_code_zero (fl : ℚ → ℚ) (D : VcsDefs) (n : Nat) :
    ∀ (irxn : Nat) (s : VCS_SOLVE) (soldel : Int) (k : Nat) (s' : VCS_SOLVE),
      rxnLoop_fl fl D n irxn s soldel k = .ok (0, s') →
      soldel = 0 ∧ ∃ dn, s' = { s with m_deltaMolNumSpecies := dn } := by
  induction n with
  | zero =>
    intro irxn s soldel k s' h
    unfold rxnLoop_fl at h
    cases h
    exact ⟨rfl, s.m_deltaMolNumSpecies, rfl⟩
  | succ n ih =>
    intro irxn s soldel k s' h
    unfold rxnLoop_fl at h
    rcases rxnStep_fl_outcomes fl D irxn s soldel k with ⟨dn, k1, e⟩ | ⟨s1, k1, e⟩ | ⟨s1, e⟩ | e
    · rw [e] at h
      obtain ⟨h0, dn', hs'⟩ := ih _ _ _ _ _ h
      exact ⟨h0, dn', hs'⟩
    · rw [e] at h
      obtain ⟨h0, -⟩ := ih _ _ _ _ _ h
      exact absurd h0 (by decide)
    · rw [e] at h
      simp only [Except.ok.injEq, Prod.mk.injEq] at h
      exact absurd h.1 (by decide)
    · rw [e] at h
      cases h

/-- In rounded arithmetic too, a call of `vcs_RxnStepSizes` that returns 0 leaves
`m_molNumSpecies_old` as it was. -/
theorem vcs_RxnStepSizes_fl_code_zero (fl : ℚ → ℚ) (D : VcsDefs) (s s' : VCS_SOLVE)
    (h : vcs_RxnStepSizes_fl fl D s = .ok (0, s')) :
    s'.m_molNumSpecies_old = s.m_molNumSpecies_old := by
  unfold vcs_RxnStepSizes_fl at h
  simp only [] at h
  by_cases hu : s.m_useActCoeffJac = true
  · rw [if_pos hu] at h
    obtain ⟨J, hJ⟩ := vcs_CalcLnActCoeffJac_frame s s.m_molNumSpecies_old
    rw [hJ] at h
    obtain ⟨-, dn, hs'⟩ := rxnLoop_fl_code_zero fl D _ _ _ _ _ _ h
    rw [hs']
  · rw [if_neg hu] at h
    obtain ⟨-, dn, hs'⟩ := rxnLoop_fl_code_zero fl D _ _ _ _ _ _ h
    rw [hs']

/-- C3 (amended): if every entry of `m_molNumSpecies_old` is nonnegative (and every formation
reaction `r < m_numRxnRdc` belongs to a noncomponent species, index at least
`m_numComponents`), then in exact arithmetic every entry is still nonnegative when
`vcs_RxnStepSizes` returns, with whatever code; and in double arithmetic every entry is
still nonnegative when `vcs_RxnStepSizes` returns 0, the mole numbers being unchanged. (In
double arithmetic the deletion step, after which the code is 1 or 2, can leave a component
at a negative rounding residue, as the run on `nearTieSolve` shows.) -/
theorem step_sizes_preserve_nonneg_moles (D : VcsDefs) (s : VCS_SOLVE)
    (hn : ∀ i, 0 ≤ s.m_molNumSpecies_old i)
    (hwf : ∀ r, r < s.m_numRxnRdc → s.m_numComponents ≤ s.m_indexRxnToSpecies r)
    (code : Int) (s' : VCS_SOLVE) :
    (vcs_RxnStepSizes D s = .ok (code, s') → ∀ i, 0 ≤ s'.m_molNumSpecies_old i)
      ∧ (vcs_RxnStepSizes_fl roundDouble D s = .ok (0, s') →
        s'.m_molNumSpecies_old = s.m_molNumSpecies_old
          ∧ ∀ i, 0 ≤ s'.m_molNumSpecies_old i) := by
  refine ⟨fun hret => rxnStepSizes_keeps_moles_nonneg D s hn hwf code s' hret, fun hret => ?_⟩
  have hsame := vcs_RxnStepSizes_fl_code_zero roundDouble D s s' hret
  refine ⟨hsame, fun i => ?_⟩
  rw [hsame]
  exact hn i

/-- Witness of C3 (amended): on `sentinelSolve` the routine, in exact arithmetic, takes the
deletion step, returns 2, and the mole numbers it leaves are nonnegative; on `newtonSolve`
the routine, in double arithmetic, takes a Newton step, returns 0, and leaves the mole
numbers 1 and 2 as they were. -/
theorem step_sizes_preserve_nonneg_moles_witness :
    (vcs_RxnStepSizes sampleDefs sentinelSolve
        = .ok (2, applyDeletion sentinelSolve 0 1 0 1.0e10)
      ∧ ∀ i, 0 ≤ (applyDeletion sentinelSolve 0 1 0 1.0e10).m_molNumSpecies_old i)
      ∧ ∃ s', vcs_RxnStepSizes_fl roundDouble sampleDefs newtonSolve = .ok (0, s')
        ∧ s'.m_deltaMolNumSpecies 1 = 1
        ∧ s'.m_molNumSpecies_old = newtonSolve.m_molNumSpecies_old
        ∧ ∀ i, 0 ≤ s'.m_molNumSpecies_old i := by
  have hobs : observeMoles (vcs_RxnStepSizes_fl roundDouble sampleDefs newtonSolve)
      = some (0, [1, 2, 0], [0, 1, 0]) := by decide!
  obtain ⟨s', hs', -, hdn⟩ := observeMoles_some _ _ _ _ hobs
  have hdn1 : s'.m_deltaMolNumSpecies 1 = 1 := by
    have := congrArg (fun l : List ℚ => l.getD 1 0) hdn
    simpa using this
  have hwf : ∀ r, r < newtonSolve.m_numRxnRdc →
      newtonSolve.m_numComponents ≤ newtonSolve.m_indexRxnToSpecies r := by
    intro r _
    show 1 ≤ r + 1
    omega
  exact ⟨⟨sentinelSolve_run,
      (step_sizes_preserve_nonneg_moles sampleDefs sentinelSolve sentinelSolve_nonneg
        sentinelSolve_wf 2 _).1 sentinelSolve_run⟩,
    s', hs', hdn1,
    (step_sizes_preserve_nonneg_moles sampleDefs newtonSolve newtonSolve_nonneg hwf 0 s').2 hs'⟩

/-! ## The rounding to `double` is rounding to nearest, ties to even -/

/-- The halving count is the integer logarithm: `2^l ≤ n < 2^(l+1)` for `n ≥ 1` and enough
fuel. -/
theorem log2Fuel_spec (fuel : Nat) :
    ∀ n, 1 ≤ n → n ≤ fuel → 2 ^ log2Fuel fuel n ≤ n ∧ n < 2 ^ (log2Fuel fuel n + 1) := by
  induction fuel with
  | zero =>
    intro n h1 h2
    omega
  | succ fuel ih =>
    intro n h1 h2
    unfold log2Fuel
    by_cases hn : n < 2
    · rw [if_pos hn]
      constructor
      · simpa using h1
      · simpa using hn
    · rw [if_neg hn]
      have hhalf := ih (n / 2) (by omega) (by omega)
      obtain ⟨hlo, hhi⟩ := hhalf
      rw [pow_succ, pow_succ]
      rw [pow_succ] at hhi
      constructor
      · omega
      · omega

/-- The binade of a nonzero rational: `2^e ≤ |q| < 2^(e+1)`. -/
theorem binade_spec (q : ℚ) (hq : q ≠ 0) :
    (2 : ℚ) ^ binade q ≤ |q| ∧ |q| < (2 : ℚ) ^ (binade q + 1) := by
  have hnum : 1 ≤ q.num.natAbs := by
    have : q.num ≠ 0 := Rat.num_ne_zero.mpr hq
    omega
  have hden : 1 ≤ q.den := q.den_pos
  obtain ⟨ha1, ha2⟩ := log2Fuel_spec q.num.natAbs q.num.natAbs hnum (le_refl _)
  obtain ⟨hb1, hb2⟩ := log2Fuel_spec q.den q.den hden (le_refl _)
  have habs : |q| = (q.num.natAbs : ℚ) / (q.den : ℚ) := by
    have h1 : (q.num.natAbs : ℚ) = |(q.num : ℚ)| := by
      rw [Nat.cast_natAbs, Int.cast_abs]
    have h2 : |(q.den : ℚ)| = (q.den : ℚ) := abs_of_nonneg (Nat.cast_nonneg _)
    rw [h1, ← h2, ← abs_div, Rat.num_div_den]
  have hdpos : (0 : ℚ) < (q.den : ℚ) := by exact_mod_cast q.den_pos
  have ha1' : (2 : ℚ) ^ (log2Fuel q.num.natAbs q.num.natAbs) ≤ (q.num.natAbs : ℚ) := by
    exact_mod_cast ha1
  have ha2' : (q.num.natAbs : ℚ) < (2 : ℚ) ^ (log2Fuel q.num.natAbs q.num.natAbs + 1) := by
    exact_mod_cast ha2
  have hb1' : (2 : ℚ) ^ (log2Fuel q.den q.den) ≤ (q.den : ℚ) := by exact_mod_cast hb1
  have hb2' : (q.den : ℚ) < (2 : ℚ) ^ (log2Fuel q.den q.den + 1) := by exact_mod_cast hb2
  have h2 : (2 : ℚ) ≠ 0 := by norm_num
  have hpa : (0 : ℚ) < 2 ^ (log2Fuel q.num.natAbs q.num.natAbs) := pow_pos (by norm_num) _
  have hpb : (0 : ℚ) < 2 ^ (log2Fuel q.den q.den) := pow_pos (by norm_num) _
  -- the bounds for the exponent `l`
  have hzl : (2 : ℚ) ^ ((log2Fuel q.num.natAbs q.num.natAbs : ℤ) - (log2Fuel q.den q.den : ℤ))
      = 2 ^ (log2Fuel q.num.natAbs q.num.natAbs) / 2 ^ (log2Fuel q.den q.den) := by
    rw [zpow_sub₀ h2, zpow_natCast, zpow_natCast]
  have hupper : |q| < (2 : ℚ) ^ ((log2Fuel q.num.natAbs q.num.natAbs : ℤ)
      - (log2Fuel q.den q.den : ℤ) + 1) := by
    rw [zpow_add_one₀ h2, hzl, habs, div_mul_eq_mul_div, div_lt_div_iff₀ hdpos hpb]
    calc (q.num.natAbs : ℚ) * 2 ^ (log2Fuel q.den q.den)
        < 2 ^ (log2Fuel q.num.natAbs q.num.natAbs + 1) * 2 ^ (log2Fuel q.den q.den) :=
          mul_lt_mul_of_pos_right ha2' hpb
      _ ≤ 2 ^ (log2Fuel q.num.natAbs q.num.natAbs + 1) * (q.den : ℚ) :=
          mul_le_mul_of_nonneg_left hb1' (le_of_lt (pow_pos (by norm_num) _))
      _ = 2 ^ (log2Fuel q.num.natAbs q.num.natAbs) * 2 * (q.den : ℚ) := by rw [pow_succ]
  have hlower : (2 : ℚ) ^ ((log2Fuel q.num.natAbs q.num.natAbs : ℤ)
      - (log2Fuel q.den q.den : ℤ) - 1) ≤ |q| := by
    rw [zpow_sub_one₀ h2, hzl, habs, div_mul_eq_mul_div, div_le_div_iff₀ hpb hdpos]
    have h3 : (q.den : ℚ) ≤ 2 ^ (log2Fuel q.den q.den) * 2 := by
      rw [← pow_succ]
      exact le_of_lt hb2'
    calc 2 ^ (log2Fuel q.num.natAbs q.num.natAbs) * 2⁻¹ * (q.den : ℚ)
        ≤ 2 ^ (log2Fuel q.num.natAbs q.num.natAbs) * 2⁻¹ * (2 ^ (log2Fuel q.den q.den) * 2) :=
          mul_le_mul_of_nonneg_left h3 (by positivity)
      _ = 2 ^ (log2Fuel q.num.natAbs q.num.natAbs) * 2 ^ (log2Fuel q.den q.den) := by
          field_simp
          ring
      _ ≤ (q.num.natAbs : ℚ) * 2 ^ (log2Fuel q.den q.den) :=
          mul_le_mul_of_nonneg_right ha1' (le_of_lt hpb)
  unfold binade
  simp only []
  split_ifs with h
  · exact ⟨h, hupper⟩
  · refine ⟨hlower, ?_⟩
    rw [sub_add_cancel]
    exact not_le.mp h

/-- Rounding to the nearest integer moves a value by at most `1/2`, and by exactly `1/2`
only onto an even integer. -/
theorem roundHalfEven_near (x : ℚ) :
    |(roundHalfEven x : ℚ) - x| ≤ 1 / 2
      ∧ (|(roundHalfEven x : ℚ) - x| = 1 / 2 → roundHalfEven x % 2 = 0) := by
  have hf1 := Int.floor_le x
  have hf2 := Int.lt_floor_add_one x
  unfold roundHalfEven
  simp only []
  split_ifs with h1 h2 h3
  · have habs : |((⌊x⌋ : ℤ) : ℚ) - x| = x - ⌊x⌋ := by
      rw [abs_sub_comm, abs_of_nonneg (by linarith)]
    rw [habs]
    exact ⟨le_of_lt h1, fun h => absurd h (ne_of_lt h1)⟩
  · have habs : |((⌊x⌋ + 1 : ℤ) : ℚ) - x| = ⌊x⌋ + 1 - x := by
      push_cast
      rw [abs_of_nonneg (by linarith)]
    rw [habs]
    exact ⟨by linarith, fun h => absurd h (by linarith)⟩
  · have habs : |((⌊x⌋ : ℤ) : ℚ) - x| = x - ⌊x⌋ := by
      rw [abs_sub_comm, abs_of_nonneg (by linarith)]
    rw [habs]
    exact ⟨by linarith, fun _ => h3⟩
  · have habs : |((⌊x⌋ + 1 : ℤ) : ℚ) - x| = ⌊x⌋ + 1 - x := by
      push_cast
      rw [abs_of_nonneg (by linarith)]
    rw [habs]
    exact ⟨by linarith, fun _ => by omega⟩

/-- Rounding to the nearest integer does not pass an integer bound. -/
theorem roundHalfEven_abs_le (x : ℚ) (n : ℤ) (h : |x| ≤ n) : |roundHalfEven x| ≤ n := by
  have hx := abs_le.mp h
  have hf1 := Int.floor_le x
  have hf2 := Int.lt_floor_add_one x
  have hlow : -n ≤ ⌊x⌋ := by
    have : ((-n : ℤ) : ℚ) ≤ x := by push_cast; exact hx.1
    exact Int.le_floor.mpr this
  have hup : ⌊x⌋ ≤ n := by
    have : ((⌊x⌋ : ℤ) : ℚ) ≤ n := le_trans hf1 hx.2
    exact_mod_cast this
  rw [abs_le]
  unfold roundHalfEven
  simp only []
  by_cases htop : ⌊x⌋ = n
  · have hxn : x = n := by
      have : (n : ℚ) ≤ x := by rw [← htop]; exact hf1
      exact le_antisymm hx.2 this
    have hr : x - ((⌊x⌋ : ℤ) : ℚ) < 1 / 2 := by
      rw [htop, hxn]
      norm_num
    rw [if_pos hr]
    omega
  · split_ifs <;> omega

/-- The rounding to `double` is rounding to nearest, ties to even, on the doubles of the
binade of `q`: with `e` the exponent of the last place (`binade q - 52`, or `-1074` in the
subnormal range), the result is `m * 2^e` for an integer `m` of at most 53 bits (`2^53`
itself being the first double of the next binade), it differs from `q` by at most half a
unit `2^e` of the last place, and by exactly half a unit only when `m` is even. -/
theorem roundDouble_spec (q : ℚ) (hq : q ≠ 0) :
    ∃ m : ℤ, roundDouble q = m * 2 ^ (max (binade q) (-1022) - 52)
      ∧ |m| ≤ 2 ^ 53
      ∧ |roundDouble q - q| ≤ 2 ^ (max (binade q) (-1022) - 52) / 2
      ∧ (|roundDouble q - q| = 2 ^ (max (binade q) (-1022) - 52) / 2 → m % 2 = 0) := by
  have h2 : (2 : ℚ) ≠ 0 := by norm_num
  have hpos : (0 : ℚ) < 2 ^ (max (binade q) (-1022) - 52) := zpow_pos (by norm_num) _
  obtain ⟨hnear, htie⟩ := roundHalfEven_near (q / 2 ^ (max (binade q) (-1022) - 52))
  have hval : roundDouble q = (roundHalfEven (q / 2 ^ (max (binade q) (-1022) - 52)) : ℚ)
      * 2 ^ (max (binade q) (-1022) - 52) := by
    unfold roundDouble
    rw [if_neg hq]
  have hdiff : |roundDouble q - q|
      = |(roundHalfEven (q / 2 ^ (max (binade q) (-1022) - 52)) : ℚ)
          - q / 2 ^ (max (binade q) (-1022) - 52)| * 2 ^ (max (binade q) (-1022) - 52) := by
    rw [hval, ← abs_of_pos hpos, ← abs_mul, abs_of_pos hpos, sub_mul,
      div_mul_cancel₀ _ (ne_of_gt hpos)]
  refine ⟨roundHalfEven (q / 2 ^ (max (binade q) (-1022) - 52)), hval, ?_, ?_, ?_⟩
  · apply roundHalfEven_abs_le
    rw [abs_div, abs_of_pos hpos, div_le_iff₀ hpos]
    have hb := (binade_spec q hq).2
    push_cast
    calc |q| ≤ 2 ^ (binade q + 1) := le_of_lt hb
      _ ≤ 2 ^ (max (binade q) (-1022) + 1) :=
          zpow_le_zpow_right₀ (by norm_num) (by have := le_max_left (binade q) (-1022); omega)
      _ = 2 ^ (53 : ℕ) * 2 ^ (max (binade q) (-1022) - 52) := by
          rw [← zpow_natCast, ← zpow_add₀ h2]
          congr 1
          push_cast
          ring
  · rw [hdiff]
    calc _ ≤ 1 / 2 * 2 ^ (max (binade q) (-1022) - 52) :=
          mul_le_mul_of_nonneg_right hnear (le_of_lt hpos)
      _ = 2 ^ (max (binade q) (-1022) - 52) / 2 := by ring
  · intro h
    apply htie
    rw [hdiff] at h
    have : |(roundHalfEven (q / 2 ^ (max (binade q) (-1022) - 52)) : ℚ)
          - q / 2 ^ (max (binade q) (-1022) - 52)| * 2 ^ (max (binade q) (-1022) - 52)
        = 1 / 2 * 2 ^ (max (binade q) (-1022) - 52) := by
      rw [h]
      ring
    exact mul_right_cancel₀ (ne_of_gt hpos) this

end VCSnonideal
